import Mathlib

/-!
# ZKTeco protocol client: framing, checksum, session handshake, time decoding

A shallow embedding of `examples/cpp/zkteco_device.cpp`.  Byte buffers
(`std::vector<uint8_t>`) are lists of naturals below 256, `uint16_t` and
`uint32_t` values are naturals reduced modulo `2^16` and `2^32` where the C++
arithmetic can wrap, and `int` results are integers.
-/

namespace ZKTeco

/-! ## Data model -/

/-- Every element of a buffer is a byte. -/
def IsBytes (bs : List Nat) : Prop := ∀ b ∈ bs, b < 256

instance (bs : List Nat) : Decidable (IsBytes bs) := by
  unfold IsBytes; infer_instance

/-- Little-endian value of a two byte field. -/
def le16 (lo hi : Nat) : Nat := lo + 256 * hi

/-- Little-endian value of a four byte field. -/
def le32 (b0 b1 b2 b3 : Nat) : Nat := b0 + 256 * b1 + 65536 * b2 + 16777216 * b3

/-- Modelled from the spec: the header `objects/zkteco_const.h` is not part of
the sources; the first TCP envelope magic is `MAGIC1(16 LE)=0x5050`. -/
def MACHINE_PREPARE_DATA_1 : Nat := 0x5050

/-- Modelled from the spec: the header `objects/zkteco_const.h` is not part of
the sources; the second TCP envelope magic is `MAGIC2(16 LE)=0x8274`. -/
def MACHINE_PREPARE_DATA_2 : Nat := 0x8274

/-! ## Framer -/

/-- The `for (size_t i = 0; i < len; i += 2)` loop of `CreateChecksum`; the
accumulator is the `uint32_t checksum`.  The first argument bounds the number
of iterations. -/
def checksumLoop (packet : List Nat) (len : Nat) : Nat → Nat → Nat → Nat
  | 0, _, checksum => checksum
  | fuel + 1, i, checksum =>
    if i < len then
      let c1 :=
        if i + 1 < len then
          (checksum + ((packet.getD (i + 1) 0 <<< 8) ||| packet.getD i 0)) % 2 ^ 32
        else
          (checksum + packet.getD i 0) % 2 ^ 32
      let c2 := if c1 > 65535 then c1 - 65535 else c1
      checksumLoop packet len fuel (i + 2) c2
    else checksum

/-- `ZKTecoDevice::CreateChecksum`. -/
def CreateChecksum (packet : List Nat) : Nat :=
  let checksum := checksumLoop packet packet.length packet.length 0 0
  ((2 ^ 32 - 1 - checksum) &&& 0xFFFF) % 2 ^ 16

/-- `ZKTecoDevice::CreateHeader`: the eight byte header with a zero checksum
placeholder, the payload appended, then the checksum written to bytes 2-3. -/
def CreateHeader (command : Nat) (commandString : List Nat) (sessionId replyId : Nat) :
    List Nat :=
  let header : List Nat :=
    [command &&& 0xFF, (command >>> 8) &&& 0xFF, 0, 0,
     sessionId &&& 0xFF, (sessionId >>> 8) &&& 0xFF,
     replyId &&& 0xFF, (replyId >>> 8) &&& 0xFF] ++ commandString
  let checksum := CreateChecksum header
  (header.set 2 (checksum &&& 0xFF)).set 3 ((checksum >>> 8) &&& 0xFF)

/-- `ZKTecoDevice::CreateTcpTop`: the `uint32_t length` is the packet size
reduced modulo `2^32`. -/
def CreateTcpTop (packet : List Nat) : List Nat :=
  let length := packet.length % 2 ^ 32
  [MACHINE_PREPARE_DATA_1 &&& 0xFF, (MACHINE_PREPARE_DATA_1 >>> 8) &&& 0xFF,
   MACHINE_PREPARE_DATA_2 &&& 0xFF, (MACHINE_PREPARE_DATA_2 >>> 8) &&& 0xFF,
   length &&& 0xFF, (length >>> 8) &&& 0xFF, (length >>> 16) &&& 0xFF,
   (length >>> 24) &&& 0xFF] ++ packet

/-- The conversion `static_cast<int>(uint32_t)`: values from `2^31` on wrap to
negative integers. -/
def toInt32 (n : Nat) : Int :=
  if n % 2 ^ 32 < 2 ^ 31 then ((n % 2 ^ 32 : Nat) : Int) else ((n % 2 ^ 32 : Nat) : Int) - 2 ^ 32

/-- `ZKTecoDevice::TestTcpTop`. -/
def TestTcpTop (data : List Nat) : Int :=
  if data.length ≤ 8 then 0
  else
    let header1 := (data.getD 0 0 ||| (data.getD 1 0 <<< 8)) % 2 ^ 16
    let header2 := (data.getD 2 0 ||| (data.getD 3 0 <<< 8)) % 2 ^ 16
    let length :=
      (data.getD 4 0 ||| (data.getD 5 0 <<< 8) ||| (data.getD 6 0 <<< 16) |||
        (data.getD 7 0 <<< 24)) % 2 ^ 32
    if header1 = MACHINE_PREPARE_DATA_1 ∧ header2 = MACHINE_PREPARE_DATA_2 then
      toInt32 length
    else 0

/-! ## Auth key derivation -/

/-- The conversion `static_cast<uint32_t>(int)`. -/
def toUInt32 (n : Int) : Nat := (n % 2 ^ 32).toNat

/-- The `for (int i = 0; i < 32; i++)` loop of `MakeCommKey`, which shifts the
bits of `key` into the `uint32_t k` from the least significant one on.  The
first argument is the number of iterations left. -/
def commKeyLoop (key : Nat) : Nat → Nat → Nat → Nat
  | 0, _, k => k
  | n + 1, i, k =>
    if key &&& (1 <<< i) ≠ 0 then
      commKeyLoop key n (i + 1) (((k <<< 1) ||| 1) % 2 ^ 32)
    else
      commKeyLoop key n (i + 1) ((k <<< 1) % 2 ^ 32)

/-- `ZKTecoDevice::MakeCommKey` (the `verbose_` output aside). -/
def MakeCommKey (password sessionId ticks : Int) : List Nat :=
  let key := toUInt32 password
  let session := toUInt32 sessionId
  let k := commKeyLoop key 32 0 0
  let k := (k + session) % 2 ^ 32
  -- Convert to bytes and XOR with 'ZKSO'
  let result : List Nat :=
    [(k &&& 0xFF) ^^^ 0x5A, ((k >>> 8) &&& 0xFF) ^^^ 0x4B,
     ((k >>> 16) &&& 0xFF) ^^^ 0x53, ((k >>> 24) &&& 0xFF) ^^^ 0x4F]
  let b := toUInt32 ticks &&& 0xFF
  -- std::swap(result[0], result[2]); std::swap(result[1], result[3]);
  let result := (result.set 0 (result.getD 2 0)).set 2 (result.getD 0 0)
  let result := (result.set 1 (result.getD 3 0)).set 3 (result.getD 1 0)
  let result := result.set 0 (result.getD 0 0 ^^^ b)
  let result := result.set 1 (result.getD 1 0 ^^^ b)
  let result := result.set 2 b
  let result := result.set 3 (result.getD 3 0 ^^^ b)
  result

/-! ## Time decoding -/

/-- The text `oss << n` writes for a non-negative `int` with no field width. -/
def putInt (n : Nat) : List Char := Nat.toDigits 10 n

/-- The text `oss << std::setfill('0') << std::setw(2) << n` writes for a
non-negative `int`: padded on the left with zeros to two characters. -/
def putIntW2 (n : Nat) : List Char :=
  let s := Nat.toDigits 10 n
  List.replicate (2 - s.length) '0' ++ s

/-- `ZKTecoDevice::DecodeTime` (the `verbose_` output aside).  All fields are
non-negative, so the comparisons with lower bounds are on naturals. -/
def DecodeTime (timeBytes : List Nat) : String :=
  if timeBytes.length < 4 then ""
  else
    let t := (timeBytes.getD 0 0 ||| (timeBytes.getD 1 0 <<< 8) |||
      (timeBytes.getD 2 0 <<< 16) ||| (timeBytes.getD 3 0 <<< 24)) % 2 ^ 32
    let second := t % 60
    let t := t / 60
    let minute := t % 60
    let t := t / 60
    let hour := t % 24
    let t := t / 24
    let day := (t % 31) + 1
    let t := t / 31
    let month := (t % 12) + 1
    let t := t / 12
    let year := t + 2000
    if year < 2000 ∨ year > 2100 ∨ month < 1 ∨ month > 12 ∨ day < 1 ∨ day > 31 ∨
        hour > 23 ∨ minute > 59 ∨ second > 59 then ""
    else
      String.mk (putInt year ++ ['-'] ++ putIntW2 month ++ ['-'] ++ putIntW2 day ++ ['T'] ++
        putIntW2 hour ++ [':'] ++ putIntW2 minute ++ [':'] ++ putIntW2 second)

/-! ## Session state and transport -/

/-- The command and reply codes of `objects/zkteco_const.h`.  That header is not
part of the sources and the spec gives no numeric values for them, so they are
parameters of the model. -/
structure Constants where
  CMD_CONNECT : Nat
  CMD_AUTH : Nat
  CMD_ACK_OK : Nat
  CMD_ACK_UNAUTH : Nat
  CMD_PREPARE_DATA : Nat
  CMD_DATA : Nat
  CMD_FREE_DATA : Nat
  CMD_PREPARE_BUFFER : Nat
  CMD_READ_BUFFER : Nat
  USER_DEFAULT : Nat
  USER_ADMIN : Nat
  CMD_ACK_DATA : Nat
  CMD_OPTIONS_RRQ : Nat
  CMD_OPTIONS_WRQ : Nat
  CMD_REG_EVENT : Nat
  CMD_ENABLEDEVICE : Nat
  CMD_DISABLEDEVICE : Nat
  CMD_RESTART : Nat
  CMD_UNLOCK : Nat
  CMD_TESTVOICE : Nat
  CMD_DOORSTATE_RRQ : Nat
  CMD_SET_TIME : Nat
  CMD_USER_WRQ : Nat
  CMD_DELETE_USER : Nat
  CMD_DELETE_USERTEMP : Nat
  _CMD_DEL_USER_TEMP : Nat
  CMD_GET_FREE_SIZES : Nat
  CMD_USERTEMP_RRQ : Nat
  FCT_USER : Nat
  CMD_ATTLOG_RRQ : Nat
  CMD_DB_RRQ : Nat
  FCT_FINGERTMP : Nat
  CMD_EXIT : Nat
deriving DecidableEq, Repr

/-- The member `socket_`: `INVALID_SOCKET`, a TCP stream socket or a UDP
datagram socket. -/
inductive Socket where
  | invalid
  | stream
  | datagram
deriving DecidableEq, Repr

/-- The members of `ZKTecoDevice` the protocol engine reads and writes. -/
structure Device where
  password : Int
  forceUdp : Bool
  verbose : Bool
  socket : Socket
  isConnected : Bool
  sessionId : Nat
  replyId : Nat
  lastResponse : Nat
  lastData : List Nat
  tcpLength : Int
deriving DecidableEq, Repr

/-- The environment the Winsock calls act on: whether `socket()` and `connect()`
succeed, the outcome of each successive send (success once the list is
exhausted), the outcome of each successive receive (`none` is `SOCKET_ERROR`,
as is an exhausted list: the receive timeout), and the log of the buffers
handed to the network. -/
structure Net where
  tcpSocketOk : Bool
  tcpConnectOk : Bool
  udpSocketOk : Bool
  sendOk : List Bool
  incoming : List (Option (List Nat))
  sent : List (List Nat)
deriving DecidableEq, Repr

/-- The calls `send` and `sendto`: `SOCKET_ERROR` (false) on an invalid socket
or when the environment says so, otherwise the buffer is logged. -/
def Net.send (net : Net) (sock : Socket) (bytes : List Nat) : Bool × Net :=
  match sock with
  | .invalid => (false, net)
  | _ =>
    match net.sendOk with
    | [] => (true, { net with sent := net.sent ++ [bytes] })
    | true :: rest => (true, { net with sendOk := rest, sent := net.sent ++ [bytes] })
    | false :: rest => (false, { net with sendOk := rest })

/-- The calls `recv` and `recvfrom` into a buffer of `n` bytes.  A stream
delivers at most `n` bytes and keeps the rest for the next call; a datagram
longer than the buffer is an error (`WSAEMSGSIZE`). -/
def Net.recv (net : Net) (sock : Socket) (n : Nat) : Option (List Nat) × Net :=
  match sock with
  | .invalid => (none, net)
  | .stream =>
    match net.incoming with
    | [] => (none, net)
    | none :: rest => (none, { net with incoming := rest })
    | some bs :: rest =>
      if bs.length ≤ n then (some bs, { net with incoming := rest })
      else (some (bs.take n), { net with incoming := some (bs.drop n) :: rest })
  | .datagram =>
    match net.incoming with
    | [] => (none, net)
    | none :: rest => (none, { net with incoming := rest })
    | some bs :: rest =>
      if bs.length ≤ n then (some bs, { net with incoming := rest })
      else (none, { net with incoming := rest })

/-- `ZKTecoDevice::CloseSocket`. -/
def CloseSocket (d : Device) : Device := { d with socket := .invalid }

/-- `ZKTecoDevice::CreateSocket`: TCP first unless `forceUdp_`, UDP when the
TCP connect fails. -/
def CreateSocket (d : Device) (net : Net) : Bool × Device :=
  let tryUdp (d : Device) : Bool × Device :=
    if !net.udpSocketOk then (false, { d with socket := .invalid })
    else (true, { d with socket := .datagram })
  if !d.forceUdp then
    if !net.tcpSocketOk then (false, { d with socket := .invalid })
    else
      let d := { d with socket := .stream }
      if net.tcpConnectOk then (true, d)
      else tryUdp (CloseSocket d)
  else tryUdp d

/-- One step of the reply id: `replyId_++` on a `uint16_t`, then the reset to 0
when the result is at least 65535. -/
def nextReplyId (replyId : Nat) : Nat :=
  let r := (replyId + 1) % 2 ^ 16
  if r ≥ 65535 then 0 else r

/-- What a `SendCommand` call leaves behind: `outcome` is `none` when the call
threw "Device not connected" and the returned boolean otherwise; `packet` is
the frame the call built with `CreateHeader` (`none` when it threw before
building one); `response` is the caller's vector behind the `response` pointer
(`none` for `nullptr`). -/
structure SendResult where
  outcome : Option Bool
  packet : Option (List Nat)
  response : Option (List Nat)
  dev : Device
  net : Net
deriving DecidableEq, Repr

/-- The tail of `SendCommand` that records the last response. -/
def storeLastResponse (d : Device) (response : Option (List Nat)) : Device :=
  match response with
  | some r =>
    if r.length ≥ 2 then
      let d := { d with
        lastResponse := (r.getD 0 0 ||| (r.getD 1 0 <<< 8)) % 2 ^ 16,
        lastData := if r.length > 8 then r.drop 8 else [] }
      if !d.forceUdp ∧ d.socket ≠ .invalid then { d with tcpLength := TestTcpTop r }
      else d
    else { d with lastResponse := 0, lastData := [], tcpLength := 0 }
  | none => { d with lastResponse := 0, lastData := [], tcpLength := 0 }

/-- `ZKTecoDevice::SendCommand` (the `verbose_` output aside).  `command` is the
`uint16_t` parameter, `responseSize` the size of the receive buffer. -/
def SendCommand (K : Constants) (d : Device) (net : Net) (command : Nat)
    (commandString : List Nat) (responseSize : Nat) (response : Option (List Nat)) :
    SendResult :=
  let command := command % 2 ^ 16
  if !d.isConnected ∧ command ≠ K.CMD_CONNECT ∧ command ≠ K.CMD_AUTH then
    ⟨none, none, response, d, net⟩
  else
    let d := { d with replyId := nextReplyId d.replyId }
    let packet := CreateHeader command commandString d.sessionId d.replyId
    let isTcp := d.socket ≠ .invalid
    if isTcp ∧ !d.forceUdp then
      let tcpPacket := CreateTcpTop packet
      let (sent, net) := net.send d.socket tcpPacket
      if !sent then ⟨some false, some packet, response, d, net⟩
      else
        let (received, net) := net.recv d.socket (responseSize + 8)
        match received with
        | none => ⟨some false, some packet, response, d, net⟩
        | some buffer =>
          if buffer.length ≥ 16 then
            let header1 := (buffer.getD 0 0 ||| (buffer.getD 1 0 <<< 8)) % 2 ^ 16
            let header2 := (buffer.getD 2 0 ||| (buffer.getD 3 0 <<< 8)) % 2 ^ 16
            if header1 = MACHINE_PREPARE_DATA_1 ∧ header2 = MACHINE_PREPARE_DATA_2 then
              let response := response.map (fun _ => buffer.drop 8)
              ⟨some true, some packet, response, storeLastResponse d response, net⟩
            else ⟨some false, some packet, response, d, net⟩
          else ⟨some false, some packet, response, d, net⟩
    else
      let (sent, net) := net.send d.socket packet
      if !sent then ⟨some false, some packet, response, d, net⟩
      else
        let (received, net) := net.recv d.socket responseSize
        match received with
        | none => ⟨some false, some packet, response, d, net⟩
        | some buffer =>
          let response := response.map (fun _ => buffer)
          ⟨some true, some packet, response, storeLastResponse d response, net⟩

/-- What a `Connect` call leaves behind. -/
structure ConnectResult where
  ok : Bool
  dev : Device
  net : Net
deriving DecidableEq, Repr

/-- `ZKTecoDevice::Connect` (the `verbose_` output aside).  An exception from
`SendCommand` is caught: the socket is closed and the result is false. -/
def Connect (K : Constants) (d : Device) (net : Net) : ConnectResult :=
  let (created, d) := CreateSocket d net
  if !created then ⟨false, d, net⟩
  else
    let d := { d with sessionId := 0, replyId := 65534 }
    let r1 := SendCommand K d net K.CMD_CONNECT [] 1024 (some [])
    match r1.outcome with
    | none => ⟨false, CloseSocket r1.dev, r1.net⟩
    | some false => ⟨false, CloseSocket r1.dev, r1.net⟩
    | some true =>
      let response := r1.response.getD []
      if response.length ≥ 8 then
        let d := { r1.dev with
          sessionId := ((response.getD 5 0 <<< 8) ||| response.getD 4 0) % 2 ^ 16 }
        let responseCode := ((response.getD 1 0 <<< 8) ||| response.getD 0 0) % 2 ^ 16
        if responseCode = K.CMD_ACK_UNAUTH then
          let commKey := MakeCommKey d.password d.sessionId 50
          let r2 := SendCommand K d r1.net K.CMD_AUTH commKey 1024 (some response)
          match r2.outcome with
          | none => ⟨false, CloseSocket r2.dev, r2.net⟩
          | some false => ⟨false, CloseSocket r2.dev, r2.net⟩
          | some true =>
            let response := r2.response.getD []
            if response.length ≥ 2 then
              let authResponseCode :=
                ((response.getD 1 0 <<< 8) ||| response.getD 0 0) % 2 ^ 16
              if authResponseCode ≠ K.CMD_ACK_OK then ⟨false, CloseSocket r2.dev, r2.net⟩
              else ⟨true, { r2.dev with isConnected := true }, r2.net⟩
            else ⟨false, CloseSocket r2.dev, r2.net⟩
        else if responseCode = K.CMD_ACK_OK then
          ⟨true, { d with isConnected := true }, r1.net⟩
        else ⟨false, CloseSocket d, r1.net⟩
      else ⟨false, CloseSocket r1.dev, r1.net⟩

/-! ## Reference definitions -/

/-- The 16-bit little-endian words of a buffer, left to right; a trailing odd
byte is a word whose high byte is zero. -/
def leWords : List Nat → List Nat
  | [] => []
  | [a] => [a]
  | a :: b :: rest => (a + 256 * b) :: leWords rest

/-- One addition of the reference checksum: add the word, then subtract 0xFFFF
when the running sum exceeds 0xFFFF. -/
def addWord (sum w : Nat) : Nat :=
  if sum + w > 0xFFFF then sum + w - 0xFFFF else sum + w

/-- The reference checksum of the spec: fold the words, then the bitwise
complement masked to 16 bits. -/
def checksumSpec (bs : List Nat) : Nat :=
  (((leWords bs).foldl addWord 0) ^^^ 0xFFFF) &&& 0xFFFF

/-- The contribution of the bits `i, i+1, ..., i+n-1` of `x` to a reversal:
bit `i + j` gets the weight `2^(n-1-j)`. -/
def reverseBitsFrom (x i n : Nat) : Nat :=
  ((List.range n).map (fun j => if x.testBit (i + j) then 2 ^ (n - 1 - j) else 0)).sum

/-- Bit reversal of a 32-bit value: bit `i` of the input is bit `31 - i` of the
result. -/
def reverseBits32 (x : Nat) : Nat :=
  ((List.range 32).map (fun i => if x.testBit i then 2 ^ (31 - i) else 0)).sum

/-- The auth key as the spec derives it: `k` is the bit reversal of the low 32
bits of the password plus the session id, modulo `2^32`; `x0..x3` are its
little-endian bytes XORed with the ASCII bytes of "ZKSO"; `t` is the low byte
of ticks; the key is `[x2 ^ t, x3 ^ t, t, x1 ^ t]`, in which `x0` (the byte the
swap moves to position 2, where ticks overwrites it) does not occur. -/
def commKeySpec (password sessionId ticks : Int) : List Nat :=
  let k := (((reverseBits32 (password % 2 ^ 32).toNat : Nat) : Int) + sessionId) % 2 ^ 32
  let k := k.toNat
  let x1 := (k / 256 % 256) ^^^ 'K'.toNat
  let x2 := (k / 65536 % 256) ^^^ 'S'.toNat
  let x3 := (k / 16777216 % 256) ^^^ 'O'.toNat
  let t := (ticks % 256).toNat
  [x2 ^^^ t, x3 ^^^ t, t, x1 ^^^ t]

/-- A number below 100 as two decimal digits, zero-padded. -/
def twoDigits (n : Nat) : List Char := [Nat.digitChar (n / 10), Nat.digitChar (n % 10)]

/-- A number below 10000 as four decimal digits. -/
def fourDigits (n : Nat) : List Char :=
  [Nat.digitChar (n / 1000), Nat.digitChar (n / 100 % 10), Nat.digitChar (n / 10 % 10),
   Nat.digitChar (n % 10)]

/-- The timestamp `YYYY-MM-DDTHH:MM:SS` the spec assigns to the encoded time
`t`: second = t%60, minute = (t/60)%60, hour = (t/3600)%24,
day = ((t/86400)%31)+1, month = ((t/(86400*31))%12)+1,
year = t/(86400*31*12) + 2000. -/
def timestampSpec (t : Nat) : String :=
  String.mk (fourDigits (t / (86400 * 31 * 12) + 2000) ++ ['-'] ++
    twoDigits ((t / (86400 * 31)) % 12 + 1) ++ ['-'] ++
    twoDigits ((t / 86400) % 31 + 1) ++ ['T'] ++
    twoDigits ((t / 3600) % 24) ++ [':'] ++
    twoDigits ((t / 60) % 60) ++ [':'] ++
    twoDigits (t % 60))

/-- A command frame as it travels on a session with an open socket: inside the
TCP envelope unless `forceUdp_` is set, which is the test `SendCommand` makes. -/
def onWire (forceUdp : Bool) (frame : List Nat) : List Nat :=
  if forceUdp then frame else CreateTcpTop frame

/-- The response code of a reply: the little-endian value of its bytes 0-1. -/
def replyCode (reply : List Nat) : Nat := le16 (reply.getD 0 0) (reply.getD 1 0)

/-! ## Timestamp text -/

/-- The timestamp text `YYYY-MM-DDTHH:MM:SS` of a wall-clock tuple. -/
def formatTimestamp (year month day hour minute second : Nat) : String :=
  String.mk (fourDigits year ++ ['-'] ++ twoDigits month ++ ['-'] ++ twoDigits day ++ ['T'] ++
    twoDigits hour ++ [':'] ++ twoDigits minute ++ [':'] ++ twoDigits second)

/-! ## Entity codecs -/

/-- The text `std::to_string` gives for an unsigned value: its ASCII decimal
digits. -/
def std_to_string (n : Nat) : List Nat := (Nat.toDigits 10 n).map Char.toNat

/-- The text `std::to_string` gives for an `int`. -/
def std_to_string_int (n : Int) : List Nat :=
  if n < 0 then 0x2D :: std_to_string n.natAbs else std_to_string n.toNat

/-- Modelled from the spec: the class `ZKTecoUser` of `objects/zkteco_user.h` is
not part of the sources.  By section 3 a user is the record of uid, privilege,
password, name, card, group id and user id; the constructor
`ZKTecoUser(uid, name, privilege, password, groupId, userId, card)` stores the
seven values and the getters return them.  Strings are byte lists. -/
structure ZKTecoUser where
  uid : Int
  name : List Nat
  privilege : Int
  password : List Nat
  groupId : List Nat
  userId : List Nat
  card : Int
deriving DecidableEq, Repr

/-- The members of `ZKTecoDevice` that hold the device capacity and the user
management state. -/
structure Members where
  users : Int
  fingers : Int
  records : Int
  usersCapacity : Int
  fingersCapacity : Int
  recordsCapacity : Int
  nextUid : Int
  nextUserId : List Nat
  userPacketSize : Int
deriving DecidableEq, Repr

/-- The values the constructor gives the members of `Members`. -/
def Members.construct : Members where
  users := 0
  fingers := 0
  records := 0
  usersCapacity := 0
  fingersCapacity := 0
  recordsCapacity := 0
  nextUid := 1
  nextUserId := std_to_string 1
  userPacketSize := 0

/-- The loop `for (i = start; i < start + count; i++) if (data[i] != 0) s += data[i];`
that extracts a password: NUL bytes are skipped. -/
def readNonZero (data : List Nat) : Nat → Nat → List Nat → List Nat
  | 0, _, s => s
  | count + 1, i, s =>
    if data.getD i 0 ≠ 0 then readNonZero data count (i + 1) (s ++ [data.getD i 0])
    else readNonZero data count (i + 1) s

/-- The loop `for (i = start; i < start + count; i++) if (data[i] != 0) s += data[i]; else break;`
that extracts a NUL-terminated field. -/
def readCString (data : List Nat) : Nat → Nat → List Nat → List Nat
  | 0, _, s => s
  | count + 1, i, s =>
    if data.getD i 0 ≠ 0 then readCString data count (i + 1) (s ++ [data.getD i 0])
    else s

/-- Membership in the set `" \t\n\r\f\v"` of `find_last_not_of`. -/
def isTrimChar (c : Nat) : Bool := c = 0x20 ∨ c = 0x09 ∨ c = 0x0A ∨ c = 0x0D ∨ c = 0x0C ∨ c = 0x0B

/-- The statement `name.erase(name.find_last_not_of(" \t\n\r\f\v") + 1)`: the trailing
run of these characters is removed (all of the string when it has no other
character). -/
def trimTrailing (name : List Nat) : List Nat := (name.reverse.dropWhile isTrimChar).reverse

/-- The body of the 28-byte loop of `GetUsers` up to the construction of the
user, on a buffer of at least 28 bytes. -/
def decodeUser28 (userData : List Nat) : ZKTecoUser :=
  let uid : Nat := (userData.getD 0 0 ||| (userData.getD 1 0 <<< 8)) % 2 ^ 16
  let privilege : Nat := userData.getD 2 0
  let password := readNonZero userData 5 3 []
  let name := readCString userData 8 8 []
  let card : Nat := (userData.getD 16 0 ||| (userData.getD 17 0 <<< 8) |||
    (userData.getD 18 0 <<< 16) ||| (userData.getD 19 0 <<< 24)) % 2 ^ 32
  let groupIdByte := userData.getD 21 0
  let groupId := std_to_string groupIdByte
  let userIdInt : Nat := (userData.getD 24 0 ||| (userData.getD 25 0 <<< 8) |||
    (userData.getD 26 0 <<< 16) ||| (userData.getD 27 0 <<< 24)) % 2 ^ 32
  let userId := std_to_string userIdInt
  let name := trimTrailing name
  let name := if name.isEmpty then [0x4E, 0x4E, 0x2D] ++ userId else name
  ⟨uid, name, privilege, password, groupId, userId, card⟩

/-- The body of the 72-byte loop of `GetUsers` up to the construction of the
user, on a buffer of at least 72 bytes. -/
def decodeUser72 (userData : List Nat) : ZKTecoUser :=
  let uid : Nat := (userData.getD 0 0 ||| (userData.getD 1 0 <<< 8)) % 2 ^ 16
  let privilege : Nat := userData.getD 2 0
  let password := readNonZero userData 8 3 []
  let name := readCString userData 24 11 []
  let card : Nat := (userData.getD 35 0 ||| (userData.getD 36 0 <<< 8) |||
    (userData.getD 37 0 <<< 16) ||| (userData.getD 38 0 <<< 24)) % 2 ^ 32
  let groupIdByte := userData.getD 39 0
  let groupId := std_to_string groupIdByte
  let userId := readCString userData 24 48 []
  let name := trimTrailing name
  let name := if name.isEmpty then [0x4E, 0x4E, 0x2D] ++ userId else name
  ⟨uid, name, privilege, password, groupId, userId, card⟩

/-- The loops `while (userData.size() >= P)` of `GetUsers`, `P` being 28 with
`decodeUser28` and 72 with `decodeUser72`: a record is decoded (after the
padding `resize`, which the loop condition never lets happen), `maxUid` is
raised to its uid, the user is appended and `P` bytes are erased.  The first
argument bounds the number of iterations. -/
def GetUsers_loop (P : Nat) (decode : List Nat → ZKTecoUser) :
    Nat → List Nat → List ZKTecoUser → Int → List ZKTecoUser × Int
  | 0, _, users, maxUid => (users, maxUid)
  | fuel + 1, userData, users, maxUid =>
    if userData.length ≥ P then
      let userData := if userData.length < P then
        userData ++ List.replicate (P - userData.length) 0 else userData
      let user := decode userData
      let maxUid := if user.uid > maxUid then user.uid else maxUid
      GetUsers_loop P decode fuel (userData.drop P) (users ++ [user]) maxUid
    else (users, maxUid)

/-- How a modelled run ends: it returns a value, or it reaches a statement
whose behaviour C++ leaves undefined (an invalid iterator range, a read past
the end of a vector, a division by zero, an `int` overflow), or the bound on the number of loop
iterations is exhausted. -/
inductive Outcome (α : Type) where
  | returned : α → Outcome α
  | undefinedBehaviour : Outcome α
  | outOfFuel : Outcome α
deriving DecidableEq, Repr

/-! ### Time encoding (`SetTime`) -/

/-- A value an `int` can hold. -/
def fitsInt (x : Int) : Bool := -2 ^ 31 ≤ x ∧ x < 2 ^ 31

/-- The `encodedTime` that `ZKTecoDevice::SetTime` computes from the fields of
`localtime`: the `int` expression of the source, evaluated step by step in the
order C++ gives it, then converted to `uint32_t`.  `%` on `int` truncates
toward zero.  An `int` operation whose result does not fit an `int` is
undefined. -/
def SetTime_encodedTime (year month day hour minute second : Int) : Outcome Nat :=
  let a1 := Int.tmod year 100
  let a2 := a1 * 12
  let a3 := a2 * 31
  let b1 := month - 1
  let b2 := b1 * 31
  let a4 := a3 + b2
  let a5 := a4 + day
  let a6 := a5 - 1
  let a7 := a6 * (24 * 60 * 60)
  let e1 := hour * 60
  let e2 := e1 + minute
  let e3 := e2 * 60
  let a8 := a7 + e3
  let a9 := a8 + second
  if fitsInt a2 ∧ fitsInt a3 ∧ fitsInt b1 ∧ fitsInt b2 ∧ fitsInt a4 ∧ fitsInt a5 ∧ fitsInt a6 ∧
      fitsInt a7 ∧ fitsInt e1 ∧ fitsInt e2 ∧ fitsInt e3 ∧ fitsInt a8 ∧ fitsInt a9 then
    .returned (toUInt32 a9)
  else .undefinedBehaviour

/-- The CMD_SET_TIME payload `ZKTecoDevice::SetTime` builds from `encodedTime`:
its four little-endian bytes. -/
def SetTime_commandString (encodedTime : Nat) : List Nat :=
  [encodedTime &&& 0xFF, (encodedTime >>> 8) &&& 0xFF, (encodedTime >>> 16) &&& 0xFF,
   (encodedTime >>> 24) &&& 0xFF]

/-! ### Reading users (`GetUsers`) -/

/-- The closing `while (true)` loop of `GetUsers`: while some user has the
candidate `nextUserId_`, `maxUid` is incremented and the candidate becomes its
decimal text.  The first argument bounds the number of iterations; `none` is
returned when it is exhausted. -/
def GetUsers_nextLoop (users : List ZKTecoUser) : Nat → Int → List Nat → Option (List Nat)
  | 0, _, _ => none
  | fuel + 1, maxUid, nextUserId =>
    if users.any (fun user => user.userId = nextUserId) then
      GetUsers_nextLoop users fuel (maxUid + 1) (std_to_string_int (maxUid + 1))
    else some nextUserId

/-- `ZKTecoDevice::GetUsers` after `ReadSizes()` (the output aside): `m` holds
the members as `ReadSizes` left them and `readWithBuffer` is the pair that the
call of `ReadWithBuffer` returns when the function gets that far.  The result
is the returned list and the new members.  Reading `userdata[0..3]` of a vector
shorter than four bytes is undefined. -/
def GetUsers_body (m : Members) (readWithBuffer : List Nat × Int) :
    Outcome (List ZKTecoUser × Members) :=
  if m.users = 0 then
    .returned ([], { m with nextUid := 0, nextUserId := std_to_string 0 })
  else
    let userdata := readWithBuffer.1
    let size := readWithBuffer.2
    if size ≤ 4 then .returned ([], m)
    else if userdata.length < 4 then .undefinedBehaviour
    else
      let totalSize := (userdata.getD 0 0 ||| (userdata.getD 1 0 <<< 8) |||
        (userdata.getD 2 0 <<< 16) ||| (userdata.getD 3 0 <<< 24)) % 2 ^ 32
      let userPacketSize := toInt32 (totalSize / toUInt32 m.users)
      let userData := userdata.drop 4
      let (users, maxUid) :=
        if userPacketSize = 28 then GetUsers_loop 28 decodeUser28 userData.length userData [] 0
        else GetUsers_loop 72 decodeUser72 userData.length userData [] 0
      let maxUid := maxUid + 1
      match GetUsers_nextLoop users (users.length + 1) maxUid (std_to_string_int maxUid) with
      | none => .outOfFuel
      | some nextUserId =>
        .returned (users, { m with userPacketSize := userPacketSize, nextUid := maxUid,
                                   nextUserId := nextUserId })

/-! ### Writing a user (`SetUser`) -/

/-- The test `isspace` of the C locale. -/
def isSpaceChar (c : Nat) : Bool := c = 0x20 ∨ (0x09 ≤ c ∧ c ≤ 0x0D)

/-- The test `isdigit`. -/
def isDigitChar (c : Nat) : Bool := 0x30 ≤ c ∧ c ≤ 0x39

/-- The value of a run of ASCII decimal digits. -/
def digitsValue (ds : List Nat) : Nat := ds.foldl (fun a c => 10 * a + (c - 0x30)) 0

/-- The function `std::stoi`: leading white space is skipped, then an optional
sign and the longest run of decimal digits are read; `none` stands for the
exception thrown when there is no digit or the value does not fit an `int`. -/
def std_stoi (s : List Nat) : Option Int :=
  let s := s.dropWhile isSpaceChar
  let negative := s.head? = some 0x2D
  let s := if s.head? = some 0x2D ∨ s.head? = some 0x2B then s.tail else s
  let ds := s.takeWhile isDigitChar
  if ds.isEmpty then none
  else
    let v : Int := if negative then -(digitsValue ds : Int) else (digitsValue ds : Int)
    if v < -(2 ^ 31) ∨ v ≥ 2 ^ 31 then none else some v

/-- The byte `(x >> (8 * k)) & 0xFF` of an `int`. -/
def intByte (x : Int) (k : Nat) : Nat := ((x / 2 ^ (8 * k)) % 256).toNat

/-- The statement `bytes.resize(n, 0)`: truncation or padding with zeros to `n`
bytes. -/
def resizeBytes (n : Nat) (bytes : List Nat) : List Nat :=
  bytes.take n ++ List.replicate (n - bytes.length) 0

/-- The CMD_USER_WRQ payload `ZKTecoDevice::SetUser` builds from its arguments
and the members `nextUid_`, `nextUserId_` and `userPacketSize_`; `none` when
`std::stoi` throws (the 28-byte branch then returns false, the other branch
lets the exception escape). -/
def SetUser_commandString (K : Constants) (m : Members) (uid : Int) (name : List Nat)
    (privilege password : Int) (groupId userId : List Nat) (card : Int) :
    Option (List Nat) :=
  let finalUid := uid
  let finalUserId := userId
  let finalGroupId := groupId
  let finalUserId :=
    if finalUid = 0 ∧ finalUserId.isEmpty then m.nextUserId else finalUserId
  let finalUid := if finalUid = 0 then m.nextUid else finalUid
  let finalUserId := if finalUserId.isEmpty then std_to_string_int finalUid else finalUserId
  let privilege :=
    if privilege ≠ K.USER_DEFAULT ∧ privilege ≠ K.USER_ADMIN then (K.USER_DEFAULT : Int)
    else privilege
  if m.userPacketSize = 28 then
    let finalGroupId := if finalGroupId.isEmpty then [0x30] else finalGroupId
    let commandString :=
      [intByte finalUid 0, intByte finalUid 1, intByte privilege 0] ++
      resizeBytes 5 (std_to_string_int password) ++
      resizeBytes 8 name ++
      [intByte card 0, intByte card 1, intByte card 2, intByte card 3]
    match std_stoi finalGroupId with
    | none => none
    | some groupIdInt =>
      let commandString := commandString ++
        [intByte groupIdInt 0, intByte groupIdInt 1, intByte groupIdInt 2,
         intByte groupIdInt 3] ++ [0]
      match std_stoi finalUserId with
      | none => none
      | some userIdInt =>
        some (commandString ++ [intByte userIdInt 0, intByte userIdInt 1] ++ [0])
  else
    let nameBytes := resizeBytes 24 name
    let cardBytes := [intByte card 0, intByte card 1, intByte card 2, intByte card 3]
    let commandString :=
      [intByte finalUid 0, intByte finalUid 1, intByte privilege 0] ++
      resizeBytes 8 (std_to_string_int password) ++ nameBytes ++ cardBytes
    match (if finalGroupId.isEmpty then some 0 else std_stoi finalGroupId) with
    | none => none
    | some groupIdInt =>
      let groupIdStr := if finalGroupId.isEmpty then [0x30] else finalGroupId
      some (commandString ++ [intByte groupIdInt 0] ++ resizeBytes 7 groupIdStr ++ [0] ++
        resizeBytes 24 finalUserId)

/-! ### Attendance rows (`GetAttendance`) -/

/-- Modelled from the spec: the class `ZKTecoAttendance` of
`objects/zkteco_attendance.h` is not part of the sources.  By section 3 an
attendance row is the record of user id, timestamp, status code, punch code and
uid, which the constructor
`ZKTecoAttendance(userId, timestamp, status, punch, uid)` stores. -/
structure ZKTecoAttendance where
  userId : List Nat
  timestamp : String
  status : Int
  punch : Int
  uid : Int
deriving DecidableEq, Repr

/-- The body of the 8-byte loop of `GetAttendance`: the row of the record at
the front of `data`.  The user id is the decimal text of the uid unless a user
of the list has that uid. -/
def decodeAttendance8 (users : List ZKTecoUser) (data : List Nat) : ZKTecoAttendance :=
  let uid : Nat := (data.getD 0 0 ||| (data.getD 1 0 <<< 8)) % 2 ^ 16
  let status : Nat := data.getD 2 0
  let timestampBytes := (data.drop 3).take 4
  let timestamp := DecodeTime timestampBytes
  let punch : Nat := data.getD 7 0
  let userId :=
    match users.find? (fun user => user.uid = (uid : Int)) with
    | some user => user.userId
    | none => std_to_string uid
  ⟨userId, timestamp, status, punch, uid⟩

/-- The body of the 16-byte loop of `GetAttendance`: the uid is the 32-bit user
id converted to `int` unless a user of the list has the user id's decimal
text. -/
def decodeAttendance16 (users : List ZKTecoUser) (data : List Nat) : ZKTecoAttendance :=
  let userIdInt : Nat := (data.getD 0 0 ||| (data.getD 1 0 <<< 8) ||| (data.getD 2 0 <<< 16) |||
    (data.getD 3 0 <<< 24)) % 2 ^ 32
  let userId := std_to_string userIdInt
  let timestampBytes := (data.drop 4).take 4
  let timestamp := DecodeTime timestampBytes
  let status : Nat := data.getD 8 0
  let punch : Nat := data.getD 9 0
  let uid : Int :=
    match users.find? (fun user => user.userId = userId) with
    | some user => user.uid
    | none => toInt32 userIdInt
  ⟨userId, timestamp, status, punch, uid⟩

/-- The body of the loop of `GetAttendance` for the other record sizes, which
reads a 40-byte record and does not consult the user list. -/
def decodeAttendance40 (data : List Nat) : ZKTecoAttendance :=
  let uid : Nat := (data.getD 0 0 ||| (data.getD 1 0 <<< 8)) % 2 ^ 16
  let userId := readCString data 24 2 []
  let status : Nat := data.getD 26 0
  let timestampBytes := (data.drop 27).take 4
  let timestamp := DecodeTime timestampBytes
  let punch : Nat := data.getD 31 0
  ⟨userId, timestamp, status, punch, uid⟩

/-- The loops `while (data.size() >= P)` of `GetAttendance` that decode a row and
erase `step` bytes: `P = step = 8`, `P = step = 16`, and `P = 40` with
`step = recordSize` for the other record sizes.  Erasing a range that is
negative or longer than the data is undefined.  The first argument bounds the
number of iterations. -/
def GetAttendance_loop (P : Nat) (step : Int) (decode : List Nat → ZKTecoAttendance) :
    Nat → List Nat → List ZKTecoAttendance → Outcome (List ZKTecoAttendance)
  | 0, data, attendances =>
    if data.length ≥ P then .outOfFuel else .returned attendances
  | fuel + 1, data, attendances =>
    if data.length ≥ P then
      let attendance := decode data
      if step < 0 ∨ step > data.length then .undefinedBehaviour
      else GetAttendance_loop P step decode fuel (data.drop step.toNat)
        (attendances ++ [attendance])
    else .returned attendances

/-- `ZKTecoDevice::GetAttendance` from the call of `ReadWithBuffer` on (the
output aside): `records` is the member `records_` at that point, `users` the
list `GetUsers` returned and `readWithBuffer` the pair `ReadWithBuffer`
returned.  Reading `attendanceData[0..3]` of a shorter vector and dividing by a
zero record count are undefined. -/
def GetAttendance_decode (records : Int) (users : List ZKTecoUser)
    (readWithBuffer : List Nat × Int) : Outcome (List ZKTecoAttendance) :=
  let attendanceData := readWithBuffer.1
  let size := readWithBuffer.2
  if size < 4 then .returned []
  else if attendanceData.length < 4 then .undefinedBehaviour
  else
    let totalSize := (attendanceData.getD 0 0 ||| (attendanceData.getD 1 0 <<< 8) |||
      (attendanceData.getD 2 0 <<< 16) ||| (attendanceData.getD 3 0 <<< 24)) % 2 ^ 32
    if toUInt32 records = 0 then .undefinedBehaviour
    else
      let recordSize := toInt32 (totalSize / toUInt32 records)
      let data := attendanceData.drop 4
      if recordSize = 8 then
        GetAttendance_loop 8 8 (decodeAttendance8 users) data.length data []
      else if recordSize = 16 then
        GetAttendance_loop 16 16 (decodeAttendance16 users) data.length data []
      else
        GetAttendance_loop 40 recordSize decodeAttendance40 data.length data []

/-! ### Fingerprint templates (`GetTemplates`) -/

/-- Modelled from the spec: the class `ZKTecoFinger` of
`objects/zkteco_finger.h` is not part of the sources.  By section 3 a template
is the record of uid, finger index, validity flag and template blob, which the
constructor `ZKTecoFinger(uid, fid, valid, templateBytes)` stores. -/
structure ZKTecoFinger where
  uid : Int
  fid : Int
  valid : Int
  template : List Nat
deriving DecidableEq, Repr

/-- The loop `while (totalSize > 0)` of `GetTemplates`.  The range
`data.begin() + 6 .. data.begin() + templateSize` is invalid, and its use
undefined, when `templateSize` is below 6.  `totalSize` is a `uint32_t`.  The
first argument bounds the number of iterations. -/
def GetTemplates_loop :
    Nat → Nat → List Nat → List ZKTecoFinger → Outcome (List ZKTecoFinger)
  | 0, totalSize, _, templates =>
    if totalSize > 0 then .outOfFuel else .returned templates
  | fuel + 1, totalSize, data, templates =>
    if totalSize > 0 then
      if data.length < 6 then .returned templates
      else
        let templateSize : Nat := (data.getD 0 0 ||| (data.getD 1 0 <<< 8)) % 2 ^ 16
        let uid : Nat := (data.getD 2 0 ||| (data.getD 3 0 <<< 8)) % 2 ^ 16
        let fid : Nat := data.getD 4 0
        let valid : Nat := data.getD 5 0
        if data.length < templateSize then .returned templates
        else if templateSize < 6 then .undefinedBehaviour
        else
          let templateBytes := (data.take templateSize).drop 6
          let finger : ZKTecoFinger := ⟨uid, fid, valid, templateBytes⟩
          GetTemplates_loop fuel ((totalSize + 2 ^ 32 - templateSize) % 2 ^ 32)
            (data.drop templateSize) (templates ++ [finger])
    else .returned templates

/-- `ZKTecoDevice::GetTemplates` from the call of `ReadWithBuffer` on (the output
aside): `readWithBuffer` is the pair `ReadWithBuffer` returned.  Reading
`templateData[0..3]` of a shorter vector is undefined. -/
def GetTemplates_decode (readWithBuffer : List Nat × Int) : Outcome (List ZKTecoFinger) :=
  let templateData := readWithBuffer.1
  let size := readWithBuffer.2
  if size < 4 then .returned []
  else if templateData.length < 4 then .undefinedBehaviour
  else
    let totalSize := (templateData.getD 0 0 ||| (templateData.getD 1 0 <<< 8) |||
      (templateData.getD 2 0 <<< 16) ||| (templateData.getD 3 0 <<< 24)) % 2 ^ 32
    let data := templateData.drop 4
    GetTemplates_loop (data.length + 1) totalSize data []

/-- `ZKTecoDevice::GetTemplates` after `ReadSizes()` (the output aside): no
template is returned, and nothing is read, when the device reports no
fingerprint. -/
def GetTemplates_body (m : Members) (readWithBuffer : List Nat × Int) :
    Outcome (List ZKTecoFinger) :=
  if m.fingers = 0 then .returned [] else GetTemplates_decode readWithBuffer

/-- A template record as section 4.5 of the specification describes it:
`size(16) uid(16) fid(8) valid(8) blob[size-6]`. -/
structure TemplateRecord where
  uid : Nat
  fid : Nat
  valid : Nat
  blob : List Nat
deriving DecidableEq, Repr

/-- The declared size of a template record: the blob and the 6-byte header. -/
def TemplateRecord.size (r : TemplateRecord) : Nat := 6 + r.blob.length

/-- The bytes of a template record, its 16-bit fields little-endian. -/
def TemplateRecord.bytes (r : TemplateRecord) : List Nat :=
  [r.size % 256, r.size / 256 % 256, r.uid % 256, r.uid / 256 % 256, r.fid, r.valid] ++ r.blob

/-- The finger that the specification reads from a template record. -/
def TemplateRecord.finger (r : TemplateRecord) : ZKTecoFinger :=
  ⟨r.uid, r.fid, r.valid, r.blob⟩

/-- The concatenated bytes of a list of template records. -/
def templateRecords : List TemplateRecord → List Nat
  | [] => []
  | r :: rs => r.bytes ++ templateRecords rs

/-- The sum of the declared sizes of a list of template records. -/
def templateTotal : List TemplateRecord → Nat
  | [] => 0
  | r :: rs => r.size + templateTotal rs

/-- A template dataset as section 4.5 describes it: the 32-bit little-endian
total size followed by the records. -/
def templateDataset (rs : List TemplateRecord) : List Nat :=
  [templateTotal rs % 256, templateTotal rs / 256 % 256, templateTotal rs / 65536 % 256,
   templateTotal rs / 16777216 % 256] ++ templateRecords rs

/-- The field widths of a template record: a 16-bit size and uid, 8-bit finger
index and validity flag, and a blob of bytes. -/
def TemplateRecord.WellFormed (r : TemplateRecord) : Prop :=
  r.size < 65536 ∧ r.uid < 65536 ∧ r.fid < 256 ∧ r.valid < 256 ∧ IsBytes r.blob

/-- The user that the table of section 4.5 of the specification reads from a
28-byte record `r`: uid at 0 (2 bytes), privilege at 2, password at 3 (5
bytes, its non-NUL bytes), name at 8 (8 bytes, up to the first NUL, trailing
white space trimmed, `NN-<user id>` when empty), card at 16 (4 bytes), group id
at 21 and the integer user id at 24 (4 bytes), both as decimal text. -/
def userSpec28 (r : List Nat) : ZKTecoUser :=
  let userId := std_to_string (le32 (r.getD 24 0) (r.getD 25 0) (r.getD 26 0) (r.getD 27 0))
  let name := trimTrailing (((r.drop 8).take 8).takeWhile (fun c => c ≠ 0))
  ⟨(le16 (r.getD 0 0) (r.getD 1 0) : Nat),
   if name.isEmpty then [0x4E, 0x4E, 0x2D] ++ userId else name,
   (r.getD 2 0 : Nat),
   ((r.drop 3).take 5).filter (fun c => c ≠ 0),
   std_to_string (r.getD 21 0),
   userId,
   (le32 (r.getD 16 0) (r.getD 17 0) (r.getD 18 0) (r.getD 19 0) : Nat)⟩

/-- The user that the table of section 4.5 of the specification reads from a
72-byte record `r`: uid at 0 (2 bytes), privilege at 2, password at 3 (8
bytes, its non-NUL bytes), name at 11 (24 bytes, up to the first NUL, trailing
white space trimmed, `NN-<user id>` when empty), card at 35 (4 bytes), group id
at 39 as decimal text and the user id string at 48 (24 bytes, up to the first
NUL). -/
def userSpec72 (r : List Nat) : ZKTecoUser :=
  let userId := ((r.drop 48).take 24).takeWhile (fun c => c ≠ 0)
  let name := trimTrailing (((r.drop 11).take 24).takeWhile (fun c => c ≠ 0))
  ⟨(le16 (r.getD 0 0) (r.getD 1 0) : Nat),
   if name.isEmpty then [0x4E, 0x4E, 0x2D] ++ userId else name,
   (r.getD 2 0 : Nat),
   ((r.drop 3).take 8).filter (fun c => c ≠ 0),
   std_to_string (r.getD 39 0),
   userId,
   (le32 (r.getD 35 0) (r.getD 36 0) (r.getD 37 0) (r.getD 38 0) : Nat)⟩

/-- The records of a user dataset, as the specification cuts them: the
consecutive `P`-byte slices that follow the 4-byte size prefix. -/
def userRecords (P : Nat) (userdata : List Nat) : List (List Nat) :=
  (List.range ((userdata.length - 4) / P)).map (fun i => (userdata.drop (4 + i * P)).take P)

/-- The greatest uid of a list of users, 0 for the empty list. -/
def maxUidOf (users : List ZKTecoUser) : Int := users.foldl (fun a user => max a user.uid) 0

/-- The update of `nextUid_` and `nextUserId_` at the end of a successful
`ZKTecoDevice::SetUser(uid, ..., userId, ...)`. -/
def SetUser_members (m : Members) (uid : Int) (userId : List Nat) : Members :=
  let finalUid := uid
  let finalUserId := userId
  let finalUserId :=
    if finalUid = 0 ∧ finalUserId.isEmpty then m.nextUserId else finalUserId
  let finalUid := if finalUid = 0 then m.nextUid else finalUid
  let finalUserId := if finalUserId.isEmpty then std_to_string_int finalUid else finalUserId
  let nextUid := if m.nextUid = finalUid then m.nextUid + 1 else m.nextUid
  let nextUserId := if m.nextUserId = finalUserId then std_to_string_int nextUid else m.nextUserId
  { m with nextUid := nextUid, nextUserId := nextUserId }

/-- The update of `nextUid_` at the end of a successful
`ZKTecoDevice::DeleteUser(uid, userId)` called with a non-zero `uid`. -/
def DeleteUser_members (m : Members) (uid : Int) : Members :=
  if uid = m.nextUid - 1 then { m with nextUid := uid } else m

/-! ### Bulk reads (`ReadWithBuffer`, `ReadChunk`, `ReceiveChunk`) -/

/-- The loop `while (size > 0)` of `ZKTecoDevice::ReceiveRawData`: a receive
error or an empty receive ends it.  Every other iteration lowers `size` by at
least one, so `size` iterations are enough: the first argument bounds the
number of iterations. -/
def ReceiveRawData_loop (sock : Socket) : Nat → Net → Int → List Nat → List Nat × Net
  | 0, net, _, data => (data, net)
  | fuel + 1, net, size, data =>
    if size > 0 then
      match net.recv sock size.toNat with
      | (none, net) => (data, net)
      | (some buffer, net) =>
        if buffer.length = 0 then (data, net)
        else ReceiveRawData_loop sock fuel net (size - buffer.length) (data ++ buffer)
    else (data, net)

/-- `ZKTecoDevice::ReceiveRawData`. -/
def ReceiveRawData (d : Device) (net : Net) (size : Int) : List Nat × Net :=
  ReceiveRawData_loop d.socket size.toNat net size []

/-- `ZKTecoDevice::ReceiveTcpData`.  The result is the pair of the data and the
broken header, with the network left behind.  The first argument bounds the
depth of the recursion.  The comparisons of `dataRecv.size()` with an `int` are
unsigned; building a vector from a range whose end precedes its start is
undefined.  The sums and differences of `int` values are taken in the integers:
the sizes at hand stay far from the ends of the `int` range. -/
def ReceiveTcpData (K : Constants) (d : Device) :
    Nat → Net → List Nat → Int → Outcome ((List Nat × List Nat) × Net)
  | 0, _, _, _ => .outOfFuel
  | fuel + 1, net, dataRecv, size =>
    let tcpLength := TestTcpTop dataRecv
    if tcpLength ≤ 0 then .returned (([], []), net)
    else if tcpLength - 8 < size then
      match ReceiveTcpData K d fuel net dataRecv (tcpLength - 8) with
      | .returned ((resp1, bh), net) =>
        let size := size - resp1.length
        let more := ReceiveRawData d net (size + 16)
        match ReceiveTcpData K d fuel more.2 (bh ++ more.1) size with
        | .returned ((resp2, bh2), net) => .returned ((resp1 ++ resp2, bh2), net)
        | .undefinedBehaviour => .undefinedBehaviour
        | .outOfFuel => .outOfFuel
      | .undefinedBehaviour => .undefinedBehaviour
      | .outOfFuel => .outOfFuel
    else
      let received : Int := dataRecv.length
      if dataRecv.length < 16 then .returned (([], []), net)
      else
        let response := (dataRecv.getD 8 0 ||| (dataRecv.getD 9 0 <<< 8)) % 2 ^ 16
        if received ≥ size + 32 then
          if response = K.CMD_DATA then
            if size + 16 < 0 then .returned (([], []), net)
            else if received ≥ size + 16 then
              if size < 0 then .undefinedBehaviour
              else
                .returned (((dataRecv.take (size + 16).toNat).drop 16,
                  dataRecv.drop (size + 16).toNat), net)
            else .returned (([], []), net)
          else .returned (([], []), net)
        else
          let availableData := received - 16
          let dataToExtract := min availableData size
          if availableData > 0 ∧ dataToExtract < 0 then .undefinedBehaviour
          else
            let data :=
              if availableData > 0 then (dataRecv.take (16 + dataToExtract).toNat).drop 16
              else []
            let size := if availableData > 0 then size - dataToExtract else size
            let brokenStart := received + size
            let brokenHeader :=
              if size < 0 ∧ 0 ≤ brokenStart ∧ brokenStart < received
              then dataRecv.drop brokenStart.toNat else []
            if size > 0 then
              let more := ReceiveRawData d net size
              .returned ((data ++ more.1, brokenHeader), more.2)
            else .returned ((data, brokenHeader), net)

/-- `ZKTecoDevice::GetDataSize`. -/
def GetDataSize (K : Constants) (d : Device) : Int :=
  if d.lastResponse = K.CMD_PREPARE_DATA then
    if d.lastData.length ≥ 4 then
      toInt32 ((d.lastData.getD 0 0 ||| (d.lastData.getD 1 0 <<< 8) |||
        (d.lastData.getD 2 0 <<< 16) ||| (d.lastData.getD 3 0 <<< 24)) % 2 ^ 32)
    else 0
  else 0

/-- The loop `while (true)` of the UDP branch of `ReceiveChunk`.  The first
argument bounds the number of iterations. -/
def ReceiveChunk_udpLoop (K : Constants) (d : Device) :
    Nat → Net → List Nat → Outcome (List Nat × Net)
  | 0, _, _ => .outOfFuel
  | fuel + 1, net, data =>
    let dataRecv := ReceiveRawData d net (1024 + 8)
    if dataRecv.1.length < 8 then .returned (data, dataRecv.2)
    else
      let response := (dataRecv.1.getD 0 0 ||| (dataRecv.1.getD 1 0 <<< 8)) % 2 ^ 16
      if response = K.CMD_DATA then
        ReceiveChunk_udpLoop K d fuel dataRecv.2 (data ++ dataRecv.1.drop 8)
      else .returned (data, dataRecv.2)

/-- `ZKTecoDevice::ReceiveChunk` (the `verbose_` output aside): the returned
vector and the network left behind; the members are only read.  `fuel` bounds
the recursion of `ReceiveTcpData` and the UDP loop.  The range
`lastData_.begin() + 8 .. lastData_.end()` is invalid, and its use undefined,
when `lastData_` has fewer than 8 bytes. -/
def ReceiveChunk (K : Constants) (fuel : Nat) (d : Device) (net : Net) :
    Outcome (List Nat × Net) :=
  if d.lastResponse = K.CMD_DATA then
    if !d.forceUdp ∧ d.socket ≠ .invalid then
      if (d.lastData.length : Int) < d.tcpLength - 8 then
        let need := (d.tcpLength - 8) - d.lastData.length
        let moreData := ReceiveRawData d net need
        .returned (d.lastData ++ moreData.1, moreData.2)
      else .returned (d.lastData, net)
    else .returned (d.lastData, net)
  else if d.lastResponse = K.CMD_PREPARE_DATA then
    let size := GetDataSize K d
    if !d.forceUdp ∧ d.socket ≠ .invalid then
      if d.lastData.length < 8 then .undefinedBehaviour
      else
        let dataRecv : List Nat × Net :=
          if (d.lastData.length : Int) ≥ 8 + size then (d.lastData.drop 8, net)
          else
            let additionalData := ReceiveRawData d net (size + 32)
            (d.lastData.drop 8 ++ additionalData.1, additionalData.2)
        match ReceiveTcpData K d fuel dataRecv.2 dataRecv.1 size with
        | .returned ((resp, brokenHeader), net) =>
          let ackDataRecv : List Nat × Net :=
            if brokenHeader.length < 16 then
              let additionalData := ReceiveRawData d net 16
              (brokenHeader ++ additionalData.1, additionalData.2)
            else (brokenHeader, net)
          let ackDataRecv : List Nat × Net :=
            if ackDataRecv.1.length < 16 then
              let additionalData := ReceiveRawData d ackDataRecv.2 (16 - ackDataRecv.1.length)
              (ackDataRecv.1 ++ additionalData.1, additionalData.2)
            else ackDataRecv
          if TestTcpTop ackDataRecv.1 = 0 then .returned ([], ackDataRecv.2)
          else if ackDataRecv.1.length ≥ 16 then
            let response := (ackDataRecv.1.getD 8 0 ||| (ackDataRecv.1.getD 9 0 <<< 8)) % 2 ^ 16
            if response = K.CMD_ACK_OK then .returned (resp, ackDataRecv.2)
            else .returned ([], ackDataRecv.2)
          else .returned (resp, ackDataRecv.2)
        | .undefinedBehaviour => .undefinedBehaviour
        | .outOfFuel => .outOfFuel
    else ReceiveChunk_udpLoop K d fuel net []
  else .returned ([], net)

/-- What a bulk-read function leaves behind.  `outcome` holds `none` when the
function threw; `requests` lists the command and payload of every `SendCommand`
call that built a frame, in order; `retries` counts the attempts of `ReadChunk`
that did not deliver data. -/
structure BulkRun (α : Type) where
  outcome : Outcome (Option α)
  dev : Device
  net : Net
  requests : List (Nat × List Nat)
  retries : Nat

/-- The payload `pack('<ii', start, size)` of a CMD_READ_BUFFER request. -/
def ReadChunk_commandString (start size : Nat) : List Nat :=
  [start % 2 ^ 32 % 256, start % 2 ^ 32 / 256 % 256, start % 2 ^ 32 / 65536 % 256,
   start % 2 ^ 32 / 16777216 % 256,
   size % 2 ^ 32 % 256, size % 2 ^ 32 / 256 % 256, size % 2 ^ 32 / 65536 % 256,
   size % 2 ^ 32 / 16777216 % 256]

/-- The request a `SendCommand` call adds to the log: none when the call threw
before building a frame. -/
def logRequest (r : SendResult) (command : Nat) (commandString : List Nat) :
    List (Nat × List Nat) :=
  match r.packet with
  | some _ => [(command, commandString)]
  | none => []

/-- The loop `for (retries = 0; retries < 3; retries++)` of
`ZKTecoDevice::ReadChunk(start, size)` for non-negative arguments, the first
argument being the number of attempts left.  An attempt whose `SendCommand`
fails or throws, or whose `ReceiveChunk` returns an empty vector, is followed
by the next one; after the last one the function throws. -/
def ReadChunk_attempts (K : Constants) (fuel : Nat) (start size : Nat) :
    Nat → Device → Net → List (Nat × List Nat) → Nat → BulkRun (List Nat)
  | 0, d, net, requests, retries => ⟨.returned none, d, net, requests, retries⟩
  | n + 1, d, net, requests, retries =>
    let commandString := ReadChunk_commandString start size
    let responseSize := if !d.forceUdp ∧ d.socket ≠ .invalid then size + 32 else 1024 + 8
    let r := SendCommand K d net K.CMD_READ_BUFFER commandString responseSize (some [])
    let requests := requests ++ logRequest r K.CMD_READ_BUFFER commandString
    if r.outcome = some true then
      match ReceiveChunk K fuel r.dev r.net with
      | .returned (data, net) =>
        if !data.isEmpty then ⟨.returned (some data), r.dev, net, requests, retries⟩
        else ReadChunk_attempts K fuel start size n r.dev net requests (retries + 1)
      | .undefinedBehaviour => ⟨.undefinedBehaviour, r.dev, r.net, requests, retries⟩
      | .outOfFuel => ⟨.outOfFuel, r.dev, r.net, requests, retries⟩
    else ReadChunk_attempts K fuel start size n r.dev r.net requests (retries + 1)

/-- `ZKTecoDevice::ReadChunk(start, size)` for non-negative arguments. -/
def ReadChunk (K : Constants) (fuel : Nat) (d : Device) (net : Net) (start size : Nat)
    (requests : List (Nat × List Nat)) (retries : Nat) : BulkRun (List Nat) :=
  ReadChunk_attempts K fuel start size 3 d net requests retries

/-- The loop `for (wlk = 0; wlk < packets; wlk++)` of `ReadWithBuffer`, the
first argument being the number of iterations left; the outcome holds the data
and `start`.  The addition `start += MAX_CHUNK` is undefined when it overflows
an `int`. -/
def ReadWithBuffer_loop (K : Constants) (fuel : Nat) (MAX_CHUNK : Nat) :
    Nat → Device → Net → List Nat → Nat → List (Nat × List Nat) → Nat →
      BulkRun (List Nat × Nat)
  | 0, d, net, data, start, requests, retries =>
    ⟨.returned (some (data, start)), d, net, requests, retries⟩
  | n + 1, d, net, data, start, requests, retries =>
    let c := ReadChunk K fuel d net start MAX_CHUNK requests retries
    match c.outcome with
    | .returned (some chunkData) =>
      if start + MAX_CHUNK ≥ 2 ^ 31 then ⟨.undefinedBehaviour, c.dev, c.net, c.requests, c.retries⟩
      else
        ReadWithBuffer_loop K fuel MAX_CHUNK n c.dev c.net (data ++ chunkData)
          (start + MAX_CHUNK) c.requests c.retries
    | .returned none => ⟨.returned none, c.dev, c.net, c.requests, c.retries⟩
    | .undefinedBehaviour => ⟨.undefinedBehaviour, c.dev, c.net, c.requests, c.retries⟩
    | .outOfFuel => ⟨.outOfFuel, c.dev, c.net, c.requests, c.retries⟩

/-- The payload `pack('<bhii', 1, command, fct, ext)` of a CMD_PREPARE_BUFFER
request; `command` is a `uint8_t`. -/
def ReadWithBuffer_commandString (command : Nat) (fct ext : Int) : List Nat :=
  [1, command % 256 % 256, command % 256 / 256 % 256,
   intByte fct 0, intByte fct 1, intByte fct 2, intByte fct 3,
   intByte ext 0, intByte ext 1, intByte ext 2, intByte ext 3]

/-- `ZKTecoDevice::FreeData`: the result of the `SendCommand` call is ignored and
its exception swallowed. -/
def FreeData (K : Constants) (d : Device) (net : Net) : SendResult :=
  SendCommand K d net K.CMD_FREE_DATA [] 1024 (some [])

/-- `ZKTecoDevice::ReadWithBuffer(command, fct, ext)` (the `verbose_` output
aside): the outcome holds the returned pair of the data and the byte count.
`fuel` is handed to `ReceiveChunk`. -/
def ReadWithBuffer (K : Constants) (fuel : Nat) (d : Device) (net : Net) (command : Nat)
    (fct ext : Int) : BulkRun (List Nat × Int) :=
  let MAX_CHUNK : Nat := if !d.forceUdp ∧ d.socket ≠ .invalid then 0xFFC0 else 16 * 1024
  let commandString := ReadWithBuffer_commandString command fct ext
  let r := SendCommand K d net K.CMD_PREPARE_BUFFER commandString 1024 (some [])
  let requests := logRequest r K.CMD_PREPARE_BUFFER commandString
  if r.outcome ≠ some true then ⟨.returned none, r.dev, r.net, requests, 0⟩
  else
    let d := r.dev
    let net := r.net
    if d.lastResponse = K.CMD_DATA then
      if !d.forceUdp ∧ d.socket ≠ .invalid then
        if (d.lastData.length : Int) < d.tcpLength - 8 then
          let need := (d.tcpLength - 8) - d.lastData.length
          let moreData := ReceiveRawData d net need
          ⟨.returned (some (d.lastData ++ moreData.1, ((d.lastData ++ moreData.1).length : Int))),
            d, moreData.2, requests, 0⟩
        else ⟨.returned (some (d.lastData, (d.lastData.length : Int))), d, net, requests, 0⟩
      else ⟨.returned (some (d.lastData, (d.lastData.length : Int))), d, net, requests, 0⟩
    else if d.lastData.length < 5 then ⟨.returned none, d, net, requests, 0⟩
    else
      let size : Nat := (d.lastData.getD 1 0 ||| (d.lastData.getD 2 0 <<< 8) |||
        (d.lastData.getD 3 0 <<< 16) ||| (d.lastData.getD 4 0 <<< 24)) % 2 ^ 32
      let remain : Int := toInt32 (size % MAX_CHUNK)
      let packets : Int := toInt32 ((size + 2 ^ 32 - toUInt32 remain) % 2 ^ 32 / MAX_CHUNK)
      let l := ReadWithBuffer_loop K fuel MAX_CHUNK packets.toNat d net [] 0 requests 0
      match l.outcome with
      | .returned (some (data, start)) =>
        if remain > 0 then
          let c := ReadChunk K fuel l.dev l.net start remain.toNat l.requests l.retries
          match c.outcome with
          | .returned (some chunkData) =>
            if (start : Int) + remain ≥ 2 ^ 31 then
              ⟨.undefinedBehaviour, c.dev, c.net, c.requests, c.retries⟩
            else
              let f := FreeData K c.dev c.net
              ⟨.returned (some (data ++ chunkData, (start : Int) + remain)), f.dev, f.net,
                c.requests ++ logRequest f K.CMD_FREE_DATA [], c.retries⟩
          | .returned none => ⟨.returned none, c.dev, c.net, c.requests, c.retries⟩
          | .undefinedBehaviour => ⟨.undefinedBehaviour, c.dev, c.net, c.requests, c.retries⟩
          | .outOfFuel => ⟨.outOfFuel, c.dev, c.net, c.requests, c.retries⟩
        else
          let f := FreeData K l.dev l.net
          ⟨.returned (some (data, (start : Int))), f.dev, f.net,
            l.requests ++ logRequest f K.CMD_FREE_DATA [], l.retries⟩
      | .returned none => ⟨.returned none, l.dev, l.net, l.requests, l.retries⟩
      | .undefinedBehaviour => ⟨.undefinedBehaviour, l.dev, l.net, l.requests, l.retries⟩
      | .outOfFuel => ⟨.outOfFuel, l.dev, l.net, l.requests, l.retries⟩

/-- The chunk plan of section 4.4 of the specification: `total / MAX_CHUNK`
full chunks and one remainder when it is not zero, each starting where the
previous one ends. -/
def chunkPlan (total MAX_CHUNK : Nat) : List (Nat × Nat) :=
  (List.range (total / MAX_CHUNK)).map (fun i => (i * MAX_CHUNK, MAX_CHUNK)) ++
    (if total % MAX_CHUNK ≠ 0 then [(total / MAX_CHUNK * MAX_CHUNK, total % MAX_CHUNK)] else [])

/-- A list of `(start, size)` pairs is contiguous from `s`: the first starts at
`s` and each next one where the previous one ends. -/
def contiguousFrom : Nat → List (Nat × Nat) → Prop
  | _, [] => True
  | s, p :: rest => p.1 = s ∧ contiguousFrom (s + p.2) rest

/-- The network delivers exactly `bytes` from now on, cut in some way into
non-empty reads. -/
def Net.Delivers (net : Net) (bytes : List Nat) : Prop :=
  ∃ segs : List (List Nat), (∀ s ∈ segs, s ≠ []) ∧ net.incoming = segs.map some ∧
    segs.flatten = bytes

/-! ## Device options (`CMD_OPTIONS_RRQ`) -/

/-- The ASCII bytes of a string literal of the source. -/
def ascii (s : String) : List Nat := s.toList.map Char.toNat

/-- The call `s.find(c)` of `std::string`: the index of the first occurrence of
the character, `none` for `std::string::npos`. -/
def std_find (c : Nat) (s : List Nat) : Option Nat :=
  if s.indexOf c < s.length then some (s.indexOf c) else none

/-- What a getter that returns a `std::string` leaves behind: `outcome` is the
returned text, `none` when an exception left the function. -/
structure TextRun where
  outcome : Option (List Nat)
  dev : Device
  net : Net
deriving DecidableEq, Repr

/-- The statements of `GetSerialNumber`, `GetPlatform`, `GetDeviceName` and
`GetMacAddress` after a successful `SendCommand`, `none` standing for the
function falling through to its final `return ""`.  The text after the first
`=` of the payload is cut by `serial.erase(serial.find(0))`, and `erase`
throws `std::out_of_range` for the position `npos`: the inner `none`. -/
def optionValue_erase (response : List Nat) : Option (Option (List Nat)) :=
  if response.length > 8 then
    let data := response.drop 8
    match std_find 0x3D data with
    | some pos =>
      let serial := data.drop (pos + 1)
      match std_find 0 serial with
      | some nullPos => some (some (serial.take nullPos))
      | none => some none
    | none => none
  else none

/-- The statements of `GetFaceVersion` and `GetFpVersion` after a successful
`SendCommand`, `none` standing for the function falling through to its final
`return "0"`: the `erase` is guarded by `nullPos != npos`. -/
def optionValue_guarded (response : List Nat) : Option (List Nat) :=
  if response.length > 8 then
    let data := response.drop 8
    match std_find 0x3D data with
    | some pos =>
      let faceVersionStr := data.drop (pos + 1)
      match std_find 0 faceVersionStr with
      | some nullPos => some (faceVersionStr.take nullPos)
      | none => some faceVersionStr
    | none => none
  else none

/-- The common body of `GetSerialNumber`, `GetPlatform`, `GetDeviceName` and
`GetMacAddress`, which differ in the query string only. -/
def getOption_erase (K : Constants) (d : Device) (net : Net) (query : String) : TextRun :=
  if !d.isConnected then ⟨some [], d, net⟩
  else
    let cmdString := ascii query ++ [0]
    let r := SendCommand K d net K.CMD_OPTIONS_RRQ cmdString 1024 (some [])
    match r.outcome with
    | none => ⟨none, r.dev, r.net⟩
    | some false => ⟨some [], r.dev, r.net⟩
    | some true =>
      match optionValue_erase (r.response.getD []) with
      | some (some serial) => ⟨some serial, r.dev, r.net⟩
      | some none => ⟨none, r.dev, r.net⟩
      | none => ⟨some [], r.dev, r.net⟩

/-- The common body of `GetFaceVersion` and `GetFpVersion`, which differ in the
query string only. -/
def getOption_guarded (K : Constants) (d : Device) (net : Net) (query : String) : TextRun :=
  if !d.isConnected then ⟨some [], d, net⟩
  else
    let cmdString := ascii query ++ [0]
    let r := SendCommand K d net K.CMD_OPTIONS_RRQ cmdString 1024 (some [])
    match r.outcome with
    | none => ⟨none, r.dev, r.net⟩
    | some false => ⟨some (ascii "0"), r.dev, r.net⟩
    | some true =>
      match optionValue_guarded (r.response.getD []) with
      | some faceVersionStr => ⟨some faceVersionStr, r.dev, r.net⟩
      | none => ⟨some (ascii "0"), r.dev, r.net⟩

/-- `ZKTecoDevice::GetSerialNumber`. -/
def GetSerialNumber (K : Constants) (d : Device) (net : Net) : TextRun :=
  getOption_erase K d net "~SerialNumber"

/-- `ZKTecoDevice::GetPlatform`. -/
def GetPlatform (K : Constants) (d : Device) (net : Net) : TextRun :=
  getOption_erase K d net "~Platform"

/-- `ZKTecoDevice::GetDeviceName`. -/
def GetDeviceName (K : Constants) (d : Device) (net : Net) : TextRun :=
  getOption_erase K d net "~DeviceName"

/-- `ZKTecoDevice::GetMacAddress`. -/
def GetMacAddress (K : Constants) (d : Device) (net : Net) : TextRun :=
  getOption_erase K d net "MAC"

/-- `ZKTecoDevice::GetFaceVersion`. -/
def GetFaceVersion (K : Constants) (d : Device) (net : Net) : TextRun :=
  getOption_guarded K d net "ZKFaceVersion"

/-- `ZKTecoDevice::GetFpVersion`. -/
def GetFpVersion (K : Constants) (d : Device) (net : Net) : TextRun :=
  getOption_guarded K d net "~ZKFPVersion"

/-! ## Live capture -/

/-- Modelled from the spec: the class `ZKTecoAttendance` of
`objects/zkteco_attendance.h` is not part of the sources.  Its default
constructor gives the empty attendance of section 4.7, the value a pull returns
when there is no event: no user id, no timestamp, zero codes. -/
def emptyAttendance : ZKTecoAttendance := ⟨[], "", 0, 0, 0⟩

/-- The members of `ZKTecoDevice` that live capture reads and writes. -/
structure LiveCapture where
  liveCaptureActive : Bool
  liveCaptureUsers : List ZKTecoUser
  liveEventBuffer : List Nat
  eventQueue : List ZKTecoAttendance
deriving DecidableEq, Repr

/-- The text `%04d` of `snprintf` for a non-negative `int`: padded on the left
with zeros to four characters. -/
def putIntW4 (n : Nat) : List Char :=
  let s := Nat.toDigits 10 n
  List.replicate (4 - s.length) '0' ++ s

/-- The user id, status, punch and timehex that `ParseLiveEventData` reads
from an event of at least 10 bytes, by its length; an empty timehex for a
length that has no parsing rule. -/
def ParseLiveEventData_fields (eventData : List Nat) : List Nat × Nat × Nat × List Nat :=
  if eventData.length = 10 then
    let userIdInt := (eventData.getD 0 0 ||| (eventData.getD 1 0 <<< 8)) % 2 ^ 16
    (std_to_string userIdInt, eventData.getD 2 0, eventData.getD 3 0,
      (eventData.drop 4).take 6)
  else if eventData.length = 12 then
    let userIdInt := (eventData.getD 0 0 ||| (eventData.getD 1 0 <<< 8) |||
      (eventData.getD 2 0 <<< 16) ||| (eventData.getD 3 0 <<< 24)) % 2 ^ 32
    (std_to_string userIdInt, eventData.getD 4 0, eventData.getD 5 0,
      (eventData.drop 6).take 6)
  else if eventData.length = 14 then
    let userIdInt := (eventData.getD 0 0 ||| (eventData.getD 1 0 <<< 8)) % 2 ^ 16
    (std_to_string userIdInt, eventData.getD 2 0, eventData.getD 3 0,
      (eventData.drop 4).take 6)
  else if eventData.length = 32 then
    (readCString eventData 24 0 [], eventData.getD 24 0, eventData.getD 25 0,
      (eventData.drop 26).take 6)
  else if eventData.length = 36 then
    (readCString eventData 24 0 [], eventData.getD 24 0, eventData.getD 25 0,
      (eventData.drop 26).take 6)
  else if eventData.length = 37 then
    (readCString eventData 24 0 [], eventData.getD 24 0, eventData.getD 25 0,
      (eventData.drop 26).take 6)
  else if eventData.length ≥ 52 then
    (readCString eventData 24 0 [], eventData.getD 24 0, eventData.getD 25 0,
      (eventData.drop 26).take 6)
  else ([], 0, 0, [])

/-- `ZKTecoDevice::ParseLiveEventData` (the `verbose_` output aside), reading
the member `liveCaptureUsers_`.  The exception of `std::stoi` is caught. -/
def ParseLiveEventData (liveCaptureUsers : List ZKTecoUser) (data : List Nat) :
    ZKTecoAttendance :=
  if data.length < 10 then emptyAttendance
  else
    let fields := ParseLiveEventData_fields data
    let userId := fields.1
    let status := fields.2.1
    let punch := fields.2.2.1
    let timeHex := fields.2.2.2
    if timeHex.length < 6 then emptyAttendance
    else
      let year := timeHex.getD 0 0
      let month := timeHex.getD 1 0
      let day := timeHex.getD 2 0
      let hour := timeHex.getD 3 0
      let minute := timeHex.getD 4 0
      let second := timeHex.getD 5 0
      let fullYear := 2000 + year
      let timestamp :=
        if month ≥ 1 ∧ month ≤ 12 ∧ day ≥ 1 ∧ day ≤ 31 ∧ hour < 24 ∧ minute < 60 ∧
            second < 60 then
          String.mk (putIntW4 fullYear ++ ['-'] ++ putIntW2 month ++ ['-'] ++ putIntW2 day ++
            ['T'] ++ putIntW2 hour ++ [':'] ++ putIntW2 minute ++ [':'] ++ putIntW2 second)
        else "2000-01-01T00:00:00"
      let uid : Int :=
        match liveCaptureUsers.find? (fun (user : ZKTecoUser) => user.userId = userId) with
        | some user => user.uid
        | none => 0
      let uid : Int :=
        if uid = 0 then
          match std_stoi userId with
          | some v => v
          | none => 0
        else uid
      ⟨userId, timestamp, status, punch, uid⟩

/-- The event size the loop body of `ProcessEventBuffer` picks for a buffer of
`n` bytes, `none` for its `break`. -/
def ProcessEventBuffer_eventSize (n : Nat) : Option Nat :=
  if n = 10 then some 10
  else if n = 12 then some 12
  else if n = 14 then some 14
  else if n = 32 then some 32
  else if n = 36 then some 36
  else if n = 37 then some 37
  else if n ≥ 52 then some 52
  else
    if n ≥ 52 then some 52
    else if n ≥ 37 then some 37
    else if n ≥ 36 then some 36
    else if n ≥ 32 then some 32
    else if n ≥ 14 then some 14
    else if n ≥ 12 then some 12
    else if n ≥ 10 then some 10
    else none

/-- The loop `while (liveEventBuffer_.size() >= 10)` of `ProcessEventBuffer`,
the first argument bounding the number of iterations. -/
def ProcessEventBuffer_loop : Nat → LiveCapture → LiveCapture
  | 0, s => s
  | fuel + 1, s =>
    if s.liveEventBuffer.length ≥ 10 then
      match ProcessEventBuffer_eventSize s.liveEventBuffer.length with
      | none => s
      | some eventSize =>
        let eventData := s.liveEventBuffer.take eventSize
        let attendance := ParseLiveEventData s.liveCaptureUsers eventData
        let eventQueue :=
          if !attendance.userId.isEmpty then s.eventQueue ++ [attendance] else s.eventQueue
        ProcessEventBuffer_loop fuel
          { s with eventQueue := eventQueue,
                   liveEventBuffer := s.liveEventBuffer.drop eventSize }
    else s

/-- `ZKTecoDevice::ProcessEventBuffer` (the `verbose_` output aside).  Every
iteration removes at least 10 bytes, so as many iterations as the buffer has
bytes let the loop reach its exit. -/
def ProcessEventBuffer (s : LiveCapture) : LiveCapture :=
  ProcessEventBuffer_loop s.liveEventBuffer.length s

/-- `ZKTecoDevice::SendAckOnly` (the `verbose_` output aside): the result of
`send` is not looked at. -/
def SendAckOnly (K : Constants) (d : Device) (net : Net) (receivedHeader : List Nat) : Net :=
  let ackSessionId :=
    if receivedHeader.length ≥ 8 then
      (receivedHeader.getD 4 0 ||| (receivedHeader.getD 5 0 <<< 8)) % 2 ^ 16
    else d.sessionId
  let ackReplyId :=
    if receivedHeader.length ≥ 8 then
      (receivedHeader.getD 6 0 ||| (receivedHeader.getD 7 0 <<< 8)) % 2 ^ 16
    else 65534
  let packet := CreateHeader K.CMD_ACK_OK [] ackSessionId ackReplyId
  if !d.forceUdp then (net.send d.socket (CreateTcpTop packet)).2
  else (net.send d.socket packet).2

/-- What a `GetNextLiveEvent` call leaves behind. -/
structure LiveRun where
  event : ZKTecoAttendance
  live : LiveCapture
  net : Net
deriving DecidableEq, Repr

/-- `ZKTecoDevice::GetNextLiveEvent` (the `verbose_` output aside).  A receive
that fails, would block or reads nothing gives the empty attendance. -/
def GetNextLiveEvent (K : Constants) (d : Device) (s : LiveCapture) (net : Net) : LiveRun :=
  if !s.liveCaptureActive ∨ !d.isConnected then ⟨emptyAttendance, s, net⟩
  else
    match s.eventQueue with
    | event :: rest => ⟨event, { s with eventQueue := rest }, net⟩
    | [] =>
      let (received, net) := net.recv d.socket 1032
      match received with
      | none => ⟨emptyAttendance, s, net⟩
      | some buffer =>
        if buffer.length ≤ 0 then ⟨emptyAttendance, s, net⟩
        else if (if !d.forceUdp then buffer.length < 16 else buffer.length < 8) then
          ⟨emptyAttendance, s, net⟩
        else
          let header := if !d.forceUdp then (buffer.drop 8).take 8 else buffer.take 8
          let data := if !d.forceUdp then buffer.drop 16 else buffer.drop 8
          let net := SendAckOnly K d net header
          let command := (header.getD 0 0 ||| (header.getD 1 0 <<< 8)) % 2 ^ 16
          if command ≠ K.CMD_REG_EVENT then ⟨emptyAttendance, s, net⟩
          else if data.isEmpty then ⟨emptyAttendance, s, net⟩
          else
            let s := ProcessEventBuffer { s with liveEventBuffer := s.liveEventBuffer ++ data }
            match s.eventQueue with
            | event :: rest => ⟨event, { s with eventQueue := rest }, net⟩
            | [] => ⟨emptyAttendance, s, net⟩

/-- The loop `while (flushCount < 10)` of `FlushExistingEvents`, the first
argument being `10 - flushCount`.  The `verbose_` branch and the other one
each hold their own copy of the acknowledgement. -/
def FlushExistingEvents_loop (K : Constants) (d : Device) : Nat → Net → Net
  | 0, net => net
  | n + 1, net =>
    let (received, net) := net.recv d.socket 1032
    match received with
    | none => net
    | some buffer =>
      if buffer.length ≤ 0 then net
      else
        let net :=
          if d.verbose then
            if buffer.length ≥ 16 ∧ !d.forceUdp then
              SendAckOnly K d net ((buffer.drop 8).take 8)
            else if buffer.length ≥ 8 ∧ d.forceUdp then SendAckOnly K d net (buffer.take 8)
            else SendAckOnly K d net []
          else
            if buffer.length ≥ 16 ∧ !d.forceUdp then
              SendAckOnly K d net ((buffer.drop 8).take 8)
            else if buffer.length ≥ 8 ∧ d.forceUdp then SendAckOnly K d net (buffer.take 8)
            else SendAckOnly K d net []
        FlushExistingEvents_loop K d n net

/-- `ZKTecoDevice::FlushExistingEvents` (the socket options and the `verbose_`
output aside). -/
def FlushExistingEvents (K : Constants) (d : Device) (net : Net) : Net :=
  FlushExistingEvents_loop K d 10 net

/-! ### Reference definitions for live events -/

/-- The offsets of the table of section 4.7 for an event of `n` bytes: where
the status, the punch and the timehex start. -/
def eventOffsets (n : Nat) : Nat × Nat × Nat :=
  if n = 10 ∨ n = 14 then (2, 3, 4) else if n = 12 then (4, 5, 6) else (24, 25, 26)

/-- The user id of the table of section 4.7: the decimal text of the 16-bit
(10 and 14 bytes) or 32-bit (12 bytes) number at offset 0, or the bytes 0..23
up to the first NUL. -/
def eventUserId (data : List Nat) : List Nat :=
  if data.length = 10 ∨ data.length = 14 then
    std_to_string (le16 (data.getD 0 0) (data.getD 1 0))
  else if data.length = 12 then
    std_to_string (le32 (data.getD 0 0) (data.getD 1 0) (data.getD 2 0) (data.getD 3 0))
  else (data.take 24).takeWhile (fun c => c ≠ 0)

/-- The timestamp section 4.7 assigns to a timehex. -/
def timehexTimestamp (year month day hour minute second : Nat) : String :=
  if 1 ≤ month ∧ month ≤ 12 ∧ 1 ≤ day ∧ day ≤ 31 ∧ hour < 24 ∧ minute < 60 ∧ second < 60 then
    formatTimestamp (2000 + year) month day hour minute second
  else "2000-01-01T00:00:00"

/-- The lengths of the table of section 4.7. -/
def IsEventLength (n : Nat) : Prop :=
  n = 10 ∨ n = 12 ∨ n = 14 ∨ n = 32 ∨ n = 36 ∨ n = 37 ∨ 52 ≤ n

instance (n : Nat) : Decidable (IsEventLength n) := by unfold IsEventLength; infer_instance

/-! ## Device control -/

/-- What a device-control operation leaves behind: `outcome` is the returned
boolean, `none` when an exception left the operation; `last` is the result of
the `SendCommand` call whose reply the operation checks, `none` when the
operation ended before it made that call. -/
structure ControlRun where
  outcome : Option Bool
  last : Option SendResult
  dev : Device
  net : Net
deriving DecidableEq, Repr

/-- The statements every device-control operation repeats after its
`SendCommand` call: false when the call failed or the response is empty, false
when a response of at least 2 bytes carries a code other than CMD_ACK_OK,
CMD_ACK_DATA and 2007, true otherwise. -/
def checkReply (K : Constants) (r : SendResult) : ControlRun :=
  match r.outcome with
  | none => ⟨none, some r, r.dev, r.net⟩
  | some false => ⟨some false, some r, r.dev, r.net⟩
  | some true =>
    let response := r.response.getD []
    if response.isEmpty then ⟨some false, some r, r.dev, r.net⟩
    else if response.length ≥ 2 then
      let responseCode := ((response.getD 1 0 <<< 8) ||| response.getD 0 0) % 2 ^ 16
      if responseCode ≠ K.CMD_ACK_OK ∧ responseCode ≠ K.CMD_ACK_DATA ∧ responseCode ≠ 2007 then
        ⟨some false, some r, r.dev, r.net⟩
      else ⟨some true, some r, r.dev, r.net⟩
    else ⟨some true, some r, r.dev, r.net⟩

/-- `ZKTecoDevice::EnableDevice` (the `verbose_` output aside). -/
def EnableDevice (K : Constants) (d : Device) (net : Net) : ControlRun :=
  checkReply K (SendCommand K d net K.CMD_ENABLEDEVICE [] 8 (some []))

/-- `ZKTecoDevice::DisableDevice` (the `verbose_` output aside). -/
def DisableDevice (K : Constants) (d : Device) (net : Net) : ControlRun :=
  checkReply K (SendCommand K d net K.CMD_DISABLEDEVICE [] 8 (some []))

/-- `ZKTecoDevice::Restart` (the `verbose_` output aside). -/
def Restart (K : Constants) (d : Device) (net : Net) : ControlRun :=
  checkReply K (SendCommand K d net K.CMD_RESTART [] 8 (some []))

/-- `ZKTecoDevice::GetLockState` (the `verbose_` output aside). -/
def GetLockState (K : Constants) (d : Device) (net : Net) : ControlRun :=
  checkReply K (SendCommand K d net K.CMD_DOORSTATE_RRQ [] 8 (some []))

/-- `ZKTecoDevice::Unlock(time)` (the `verbose_` output aside), for a `time`
whose tenfold fits an `int`. -/
def Unlock (K : Constants) (d : Device) (net : Net) (time : Int) : ControlRun :=
  let timeValue := time * 10
  let commandString :=
    [intByte timeValue 0, intByte timeValue 1, intByte timeValue 2, intByte timeValue 3]
  checkReply K (SendCommand K d net K.CMD_UNLOCK commandString 8 (some []))

/-- `ZKTecoDevice::TestVoice(index)` (the `verbose_` output aside). -/
def TestVoice (K : Constants) (d : Device) (net : Net) (index : Int) : ControlRun :=
  let commandString := [intByte index 0, intByte index 1, intByte index 2, intByte index 3]
  checkReply K (SendCommand K d net K.CMD_TESTVOICE commandString 8 (some []))

/-- `ZKTecoDevice::SetTime` (the `verbose_` output aside) from the point where
`encodedTime` has been computed: the payload is packed, the command sent and
the reply checked. -/
def SetTime_send (K : Constants) (d : Device) (net : Net) (encodedTime : Nat) : ControlRun :=
  checkReply K (SendCommand K d net K.CMD_SET_TIME (SetTime_commandString encodedTime) 8
    (some []))

/-- `ZKTecoDevice::SetTime` (the `verbose_` output aside) from the point where
`localtime` has given the calendar fields of the timestamp: nothing is sent
when the computation of `encodedTime` is undefined. -/
def SetTime (K : Constants) (d : Device) (net : Net)
    (year month day hour minute second : Int) : Outcome ControlRun :=
  match SetTime_encodedTime year month day hour minute second with
  | .returned encodedTime => .returned (SetTime_send K d net encodedTime)
  | .undefinedBehaviour => .undefinedBehaviour
  | .outOfFuel => .outOfFuel

/-- The CMD_OPTIONS_WRQ payload `ZKTecoDevice::SetDeviceName` builds: the text
`~DeviceName=` and the name, then one NUL. -/
def SetDeviceName_commandString (deviceName : List Nat) : List Nat :=
  (ascii "~DeviceName=" ++ deviceName) ++ [0]

/-- `ZKTecoDevice::SetDeviceName` (the `verbose_` output aside). -/
def SetDeviceName (K : Constants) (d : Device) (net : Net) (deviceName : List Nat) :
    ControlRun :=
  checkReply K (SendCommand K d net K.CMD_OPTIONS_WRQ
    (SetDeviceName_commandString deviceName) 8 (some []))

/-- The lookup `DeleteUser` and `DeleteUserTemplate` make when `uid == 0`: the
uid of the first user with the given user id, `none` when there is none (the
operation then returns false). -/
def resolveUid (users : List ZKTecoUser) (uid : Int) (userId : List Nat) : Option Int :=
  if uid = 0 then
    match users.filter (fun (user : ZKTecoUser) => user.userId = userId) with
    | [] => none
    | user :: _ => some user.uid
  else some uid

/-- `ZKTecoDevice::DeleteUser(uid, userId)` (the `verbose_` output aside).
`users` is what the call `GetUsers()` of the `uid == 0` path returns, the
session and the members being those after that call. -/
def DeleteUser (K : Constants) (d : Device) (net : Net) (m : Members)
    (users : List ZKTecoUser) (uid : Int) (userId : List Nat) : ControlRun × Members :=
  match resolveUid users uid userId with
  | none => (⟨some false, none, d, net⟩, m)
  | some uid =>
    let commandString := [intByte uid 0, intByte uid 1]
    let run := checkReply K (SendCommand K d net K.CMD_DELETE_USER commandString 8 (some []))
    (run, if run.outcome = some true then DeleteUser_members m uid else m)

/-- `ZKTecoDevice::DeleteUserTemplate(uid, tempId, userId)` (the `verbose_`
output aside).  `users` is what the call `GetUsers()` of the `uid == 0` path
returns, the session being the one after that call. -/
def DeleteUserTemplate (K : Constants) (d : Device) (net : Net) (users : List ZKTecoUser)
    (uid tempId : Int) (userId : List Nat) : ControlRun :=
  if !d.forceUdp ∧ d.socket ≠ .invalid ∧ !userId.isEmpty then
    let commandString := resizeBytes 24 userId ++ [intByte tempId 0]
    checkReply K (SendCommand K d net K._CMD_DEL_USER_TEMP commandString 8 (some []))
  else
    match resolveUid users uid userId with
    | none => ⟨some false, none, d, net⟩
    | some uid =>
      let commandString := [intByte uid 0, intByte uid 1, intByte tempId 0]
      checkReply K (SendCommand K d net K.CMD_DELETE_USERTEMP commandString 8 (some []))

/-- `ZKTecoDevice::SetUser` (the `verbose_` output aside): CMD_ENABLEDEVICE is
sent first and its result ignored; an exception of `std::stoi` makes the
28-byte branch return false and leaves the other branch. -/
def SetUser (K : Constants) (d : Device) (net : Net) (m : Members) (uid : Int)
    (name : List Nat) (privilege password : Int) (groupId userId : List Nat) (card : Int) :
    ControlRun × Members :=
  let enable := SendCommand K d net K.CMD_ENABLEDEVICE [] 8 (some [])
  match enable.outcome with
  | none => (⟨none, none, enable.dev, enable.net⟩, m)
  | some _ =>
    match SetUser_commandString K m uid name privilege password groupId userId card with
    | none =>
      if m.userPacketSize = 28 then (⟨some false, none, enable.dev, enable.net⟩, m)
      else (⟨none, none, enable.dev, enable.net⟩, m)
    | some commandString =>
      let run := checkReply K
        (SendCommand K enable.dev enable.net K.CMD_USER_WRQ commandString 1024 (some []))
      (run, if run.outcome = some true then SetUser_members m uid userId else m)

/-- The device-control operations with their arguments; `setTime` carries the
`encodedTime` that `SetTime` has computed. -/
inductive ControlOp where
  | enableDevice
  | disableDevice
  | restart
  | unlock (time : Int)
  | testVoice (index : Int)
  | getLockState
  | setTime (encodedTime : Nat)
  | setDeviceName (deviceName : List Nat)
  | deleteUser (users : List ZKTecoUser) (uid : Int) (userId : List Nat)
  | deleteUserTemplate (users : List ZKTecoUser) (uid tempId : Int) (userId : List Nat)
  | setUser (uid : Int) (name : List Nat) (privilege password : Int)
      (groupId userId : List Nat) (card : Int)

/-- The run of a device-control operation on a session. -/
def ControlOp.run (K : Constants) (d : Device) (net : Net) (m : Members) :
    ControlOp → ControlRun
  | .enableDevice => EnableDevice K d net
  | .disableDevice => DisableDevice K d net
  | .restart => Restart K d net
  | .unlock time => Unlock K d net time
  | .testVoice index => TestVoice K d net index
  | .getLockState => GetLockState K d net
  | .setTime encodedTime => SetTime_send K d net encodedTime
  | .setDeviceName deviceName => SetDeviceName K d net deviceName
  | .deleteUser users uid userId => (DeleteUser K d net m users uid userId).1
  | .deleteUserTemplate users uid tempId userId =>
    DeleteUserTemplate K d net users uid tempId userId
  | .setUser uid name privilege password groupId userId card =>
    (SetUser K d net m uid name privilege password groupId userId card).1

/-! ### Reference definition for the retries of a chunk -/

/-- What one attempt at a chunk leaves behind. -/
structure ChunkAttempt where
  result : Outcome (Option (List Nat))
  dev : Device
  net : Net
  requests : List (Nat × List Nat)

/-- One attempt at the chunk `(start, size)` in the words of section 4.4: the
CMD_READ_BUFFER request is sent and the chunk is received.  The attempt
succeeds, with the data, when the request succeeded and the chunk received is
not empty; otherwise it fails (`none`). -/
def chunkAttempt (K : Constants) (fuel : Nat) (start size : Nat) (d : Device) (net : Net) :
    ChunkAttempt :=
  let responseSize := if !d.forceUdp ∧ d.socket ≠ .invalid then size + 32 else 1024 + 8
  let r := SendCommand K d net K.CMD_READ_BUFFER (ReadChunk_commandString start size)
    responseSize (some [])
  let requests := logRequest r K.CMD_READ_BUFFER (ReadChunk_commandString start size)
  if r.outcome = some true then
    match ReceiveChunk K fuel r.dev r.net with
    | .returned (data, net) =>
      if data ≠ [] then ⟨.returned (some data), r.dev, net, requests⟩
      else ⟨.returned none, r.dev, net, requests⟩
    | .undefinedBehaviour => ⟨.undefinedBehaviour, r.dev, r.net, requests⟩
    | .outOfFuel => ⟨.outOfFuel, r.dev, r.net, requests⟩
  else ⟨.returned none, r.dev, r.net, requests⟩

/-! ## Device sizes and complete bulk reads (`ReadSizes`, `GetUsers`, `GetAttendance`) -/

/-- The struct `ZKTecoDevice::MemoryInfo`, reduced to the fields `ReadSizes`
reads; its constructor sets the counts to 0 and `success` to false. -/
structure MemoryInfo where
  usedUsers : Int
  totalUsers : Int
  usedFingers : Int
  totalFingers : Int
  usedRecords : Int
  totalRecords : Int
  success : Bool
deriving DecidableEq, Repr

/-- The value the constructor `MemoryInfo()` builds. -/
def MemoryInfo.construct : MemoryInfo := ⟨0, 0, 0, 0, 0, 0, false⟩

/-- The lambda `readLittleEndianInt32` of `GetMemoryInfo` applied to
`data + 4 * i`. -/
def readLittleEndianInt32 (data : List Nat) (i : Nat) : Int :=
  toInt32 ((data.getD (4 * i) 0 ||| (data.getD (4 * i + 1) 0 <<< 8) |||
    (data.getD (4 * i + 2) 0 <<< 16) ||| (data.getD (4 * i + 3) 0 <<< 24)) % 2 ^ 32)

/-- `ZKTecoDevice::GetMemoryInfo` (the debug text and the face counts aside):
the struct returned, with the session and the network left behind.  An
exception of `SendCommand` is caught and leaves `success` false. -/
def GetMemoryInfo (K : Constants) (d : Device) (net : Net) : MemoryInfo × Device × Net :=
  if !d.isConnected then (MemoryInfo.construct, d, net)
  else
    let r := SendCommand K d net K.CMD_GET_FREE_SIZES [] 1024 (some [])
    if r.outcome ≠ some true then (MemoryInfo.construct, r.dev, r.net)
    else
      let response := r.response.getD []
      if response.length < 8 then (MemoryInfo.construct, r.dev, r.net)
      else
        let responseCode := (response.getD 0 0 ||| (response.getD 1 0 <<< 8)) % 2 ^ 16
        if responseCode ≠ K.CMD_ACK_OK ∧ responseCode ≠ K.CMD_ACK_DATA ∧
            responseCode ≠ K.CMD_PREPARE_DATA then (MemoryInfo.construct, r.dev, r.net)
        else
          let data := response.drop 8
          if data.length < 80 then (MemoryInfo.construct, r.dev, r.net)
          else
            ({ usedUsers := readLittleEndianInt32 data 4,
               usedFingers := readLittleEndianInt32 data 6,
               usedRecords := readLittleEndianInt32 data 8,
               totalFingers := readLittleEndianInt32 data 14,
               totalUsers := readLittleEndianInt32 data 15,
               totalRecords := readLittleEndianInt32 data 16,
               success := true }, r.dev, r.net)

/-- `ZKTecoDevice::ReadSizes`: the members are overwritten when, and only when,
`GetMemoryInfo` succeeded. -/
def ReadSizes (K : Constants) (d : Device) (net : Net) (m : Members) :
    Members × Device × Net :=
  let r := GetMemoryInfo K d net
  let memInfo := r.1
  if memInfo.success then
    ({ m with users := memInfo.usedUsers, fingers := memInfo.usedFingers,
              records := memInfo.usedRecords, usersCapacity := memInfo.totalUsers,
              fingersCapacity := memInfo.totalFingers,
              recordsCapacity := memInfo.totalRecords }, r.2.1, r.2.2)
  else (m, r.2.1, r.2.2)

/-- What a bulk getter leaves behind: `outcome` holds `none` when the function
threw, and the members, the session and the network follow. -/
structure DataRun (α : Type) where
  outcome : Outcome (Option α)
  members : Members
  dev : Device
  net : Net

/-- `ZKTecoDevice::GetUsers` (the output aside): `ReadSizes`, then, unless the
device reports no user, `ReadWithBuffer(CMD_USERTEMP_RRQ, FCT_USER)` and the
decoding of `GetUsers_body`.  An exception of `ReadWithBuffer` leaves the
function. -/
def GetUsers (K : Constants) (fuel : Nat) (d : Device) (net : Net) (m : Members) :
    DataRun (List ZKTecoUser) :=
  let s := ReadSizes K d net m
  let m := s.1
  if m.users = 0 then
    ⟨.returned (some []), { m with nextUid := 0, nextUserId := std_to_string 0 }, s.2.1, s.2.2⟩
  else
    let b := ReadWithBuffer K fuel s.2.1 s.2.2 K.CMD_USERTEMP_RRQ K.FCT_USER 0
    match b.outcome with
    | .returned (some readWithBuffer) =>
      match GetUsers_body m readWithBuffer with
      | .returned (users, m) => ⟨.returned (some users), m, b.dev, b.net⟩
      | .undefinedBehaviour => ⟨.undefinedBehaviour, m, b.dev, b.net⟩
      | .outOfFuel => ⟨.outOfFuel, m, b.dev, b.net⟩
    | .returned none => ⟨.returned none, m, b.dev, b.net⟩
    | .undefinedBehaviour => ⟨.undefinedBehaviour, m, b.dev, b.net⟩
    | .outOfFuel => ⟨.outOfFuel, m, b.dev, b.net⟩

/-- `ZKTecoDevice::GetAttendance` (the output aside): `ReadSizes` and the test
of `records_`, then `GetUsers`, which calls `ReadSizes` again, then
`ReadWithBuffer(CMD_ATTLOG_RRQ)` and the decoding of `GetAttendance_decode`
with the value `records_` has at that point. -/
def GetAttendance (K : Constants) (fuel : Nat) (d : Device) (net : Net) (m : Members) :
    DataRun (List ZKTecoAttendance) :=
  let s := ReadSizes K d net m
  if s.1.records = 0 then ⟨.returned (some []), s.1, s.2.1, s.2.2⟩
  else
    let u := GetUsers K fuel s.2.1 s.2.2 s.1
    match u.outcome with
    | .returned (some users) =>
      let b := ReadWithBuffer K fuel u.dev u.net K.CMD_ATTLOG_RRQ 0 0
      match b.outcome with
      | .returned (some readWithBuffer) =>
        match GetAttendance_decode u.members.records users readWithBuffer with
        | .returned attendances => ⟨.returned (some attendances), u.members, b.dev, b.net⟩
        | .undefinedBehaviour => ⟨.undefinedBehaviour, u.members, b.dev, b.net⟩
        | .outOfFuel => ⟨.outOfFuel, u.members, b.dev, b.net⟩
      | .returned none => ⟨.returned none, u.members, b.dev, b.net⟩
      | .undefinedBehaviour => ⟨.undefinedBehaviour, u.members, b.dev, b.net⟩
      | .outOfFuel => ⟨.outOfFuel, u.members, b.dev, b.net⟩
    | .returned none => ⟨.returned none, u.members, u.dev, u.net⟩
    | .undefinedBehaviour => ⟨.undefinedBehaviour, u.members, u.dev, u.net⟩
    | .outOfFuel => ⟨.outOfFuel, u.members, u.dev, u.net⟩

/-- `ZKTecoDevice::GetTemplates` (the output aside): `ReadSizes`, then, unless
the device reports no fingerprint, `ReadWithBuffer(CMD_DB_RRQ, FCT_FINGERTMP)`
and the decoding of `GetTemplates_decode`. -/
def GetTemplates (K : Constants) (fuel : Nat) (d : Device) (net : Net) (m : Members) :
    DataRun (List ZKTecoFinger) :=
  let s := ReadSizes K d net m
  if s.1.fingers = 0 then ⟨.returned (some []), s.1, s.2.1, s.2.2⟩
  else
    let b := ReadWithBuffer K fuel s.2.1 s.2.2 K.CMD_DB_RRQ K.FCT_FINGERTMP 0
    match b.outcome with
    | .returned (some readWithBuffer) =>
      match GetTemplates_decode readWithBuffer with
      | .returned templates => ⟨.returned (some templates), s.1, b.dev, b.net⟩
      | .undefinedBehaviour => ⟨.undefinedBehaviour, s.1, b.dev, b.net⟩
      | .outOfFuel => ⟨.outOfFuel, s.1, b.dev, b.net⟩
    | .returned none => ⟨.returned none, s.1, b.dev, b.net⟩
    | .undefinedBehaviour => ⟨.undefinedBehaviour, s.1, b.dev, b.net⟩
    | .outOfFuel => ⟨.outOfFuel, s.1, b.dev, b.net⟩

/-! ## Leaving a session (`Disconnect`) -/

/-- `ZKTecoDevice::Disconnect` (the output aside): nothing happens on a session
that is not connected; otherwise CMD_EXIT is sent without looking at the
result, the socket is closed and the flag cleared, also when `SendCommand`
threw, in which case the result is false. -/
def Disconnect (K : Constants) (d : Device) (net : Net) : ConnectResult :=
  if !d.isConnected then ⟨true, d, net⟩
  else
    let r := SendCommand K d net K.CMD_EXIT [] 8 none
    match r.outcome with
    | none => ⟨false, { CloseSocket r.dev with isConnected := false }, r.net⟩
    | some _ => ⟨true, { CloseSocket r.dev with isConnected := false }, r.net⟩

/-! ## Sample session

Concrete values on which the theorems below are instantiated. -/

/-- The state the constructor `ZKTecoDevice::ZKTecoDevice` leaves: no socket,
not connected, session id 0, reply id 65534. -/
def construct (password : Int) (forceUdp verbose : Bool) : Device where
  password := password
  forceUdp := forceUdp
  verbose := verbose
  socket := .invalid
  isConnected := false
  sessionId := 0
  replyId := 65534
  lastResponse := 0
  lastData := []
  tcpLength := 0

/-- Sample values for the codes of `objects/zkteco_const.h`. -/
def sampleConstants : Constants where
  CMD_CONNECT := 1000
  CMD_AUTH := 1102
  CMD_ACK_OK := 2000
  CMD_ACK_UNAUTH := 2005
  CMD_PREPARE_DATA := 1500
  CMD_DATA := 1501
  CMD_FREE_DATA := 1502
  CMD_PREPARE_BUFFER := 1503
  CMD_READ_BUFFER := 1504
  USER_DEFAULT := 0
  USER_ADMIN := 14
  CMD_ACK_DATA := 2002
  CMD_OPTIONS_RRQ := 11
  CMD_OPTIONS_WRQ := 12
  CMD_REG_EVENT := 500
  CMD_ENABLEDEVICE := 1002
  CMD_DISABLEDEVICE := 1003
  CMD_RESTART := 1004
  CMD_UNLOCK := 31
  CMD_TESTVOICE := 1017
  CMD_DOORSTATE_RRQ := 75
  CMD_SET_TIME := 202
  CMD_USER_WRQ := 8
  CMD_DELETE_USER := 18
  CMD_DELETE_USERTEMP := 19
  _CMD_DEL_USER_TEMP := 134
  CMD_GET_FREE_SIZES := 50
  CMD_USERTEMP_RRQ := 9
  FCT_USER := 5
  CMD_ATTLOG_RRQ := 13
  CMD_DB_RRQ := 7
  FCT_FINGERTMP := 2
  CMD_EXIT := 1001

/-- An environment in which every socket call succeeds and the given receive
outcomes are pending. -/
def sampleNet (incoming : List (Option (List Nat))) : Net where
  tcpSocketOk := true
  tcpConnectOk := true
  udpSocketOk := true
  sendOk := []
  incoming := incoming
  sent := []

/-- A sample reply to CMD_CONNECT: code 2005, session id 0x1234. -/
def sampleUnauthReply : List Nat := [0xD5, 0x07, 0xF5, 0xE5, 0x34, 0x12, 0x00, 0x00]

/-- A sample reply to CMD_AUTH: code 2000, session id 0x1234, reply id 1. -/
def sampleAckReply : List Nat := [0xD0, 0x07, 0xF9, 0xE5, 0x34, 0x12, 0x01, 0x00]

/-- A sample user dataset: the size prefix 56, two 28-byte records (uid 1 "Al"
with user id 7, uid 2 with a blank name and user id 8) and one stray byte. -/
def sampleUsers28 : List Nat :=
  [56, 0, 0, 0] ++
    ([1, 0, 14, 0x31, 0, 0x32, 0, 0, 0x41, 0x6C, 0, 0x42, 0, 0, 0, 0,
      4, 3, 2, 1, 0, 9, 0, 0, 7, 0, 0, 0] ++
     [2, 0, 0, 0, 0, 0, 0, 0, 0x20, 0, 0, 0, 0, 0, 0, 0,
      0, 0, 0, 0, 0, 1, 0, 0, 8, 0, 0, 0]) ++ [0xEE]

/-- A frame as the device sends it on TCP: the envelope around the 8-byte
header (the response code and the six bytes `rest` of checksum, session id and
reply id) and the payload. -/
def deviceFrame (code : Nat) (rest payload : List Nat) : List Nat :=
  CreateTcpTop ([code % 256, code / 256 % 256] ++ rest ++ payload)

/-- The byte stream of one chunk on TCP, as section 4.4 of the specification
describes it: a CMD_PREPARE_DATA frame whose 8-byte payload starts with the
32-bit size of the data, a CMD_DATA frame carrying the data, and a CMD_ACK_OK
frame.  `r1`, `r2` and `r3` are the header bytes after the code and `extra`
the second half of the first payload. -/
def chunkStream (K : Constants) (r1 r2 r3 extra data : List Nat) : List Nat :=
  deviceFrame K.CMD_PREPARE_DATA r1
    ([data.length % 256, data.length / 256 % 256, data.length / 65536 % 256,
      data.length / 16777216 % 256] ++ extra) ++
  deviceFrame K.CMD_DATA r2 data ++
  deviceFrame K.CMD_ACK_OK r3 []

/-- A device connected over TCP: session id 0x1234, reply id 1. -/
def sampleConnected : Device :=
  { construct 0 false false with socket := .stream, isConnected := true,
                                  sessionId := 0x1234, replyId := 1 }

/-- A sample bulk read of 5 bytes: the reply to CMD_PREPARE_BUFFER declares the
size 5, the chunk follows in one segment, and CMD_FREE_DATA is acknowledged. -/
def sampleBulkNet : Net :=
  sampleNet
    [some (deviceFrame 2000 [0, 0, 0x34, 0x12, 2, 0] [0, 5, 0, 0, 0]),
     some (chunkStream sampleConstants [0, 0, 0x34, 0x12, 3, 0] [0, 0, 0x34, 0x12, 3, 0]
       [0, 0, 0x34, 0x12, 3, 0] [0, 0, 0, 0] [0xA1, 0xA2, 0xA3, 0xA4, 0xA5]),
     some (deviceFrame 2000 [0, 0, 0x34, 0x12, 4, 0] [])]

/-- The stream of a sample chunk of 5 bytes: 24, 21 and 16 bytes for the
PREPARE_DATA, DATA and ACK_OK frames. -/
def sampleChunkStream : List Nat :=
  chunkStream sampleConstants [0, 0, 0x34, 0x12, 3, 0] [0, 0, 0x34, 0x12, 3, 0]
    [0, 0, 0x34, 0x12, 3, 0] [0, 0, 0, 0] [0xA1, 0xA2, 0xA3, 0xA4, 0xA5]

/-- The sample chunk arriving in the given segments. -/
def sampleSplitNet (segs : List (List Nat)) : Net := sampleNet (segs.map some)

/-- A sample reply to CMD_OPTIONS_RRQ on TCP whose payload is the given text:
code 2000, session id 0x1234, reply id 2. -/
def sampleOptionNet (payload : List Nat) : Net :=
  sampleNet [some (deviceFrame 2000 [0, 0, 0x34, 0x12, 2, 0] payload)]

/-- A live capture that is active, with no users, nothing buffered and nothing
queued. -/
def sampleLive : LiveCapture := ⟨true, [], [], []⟩

/-- A sample 10-byte event: user id 5, status 1, punch 0,
2023-07-04T09:15:18. -/
def sampleEventA : List Nat := [5, 0, 1, 0, 23, 7, 4, 9, 15, 18]

/-- A second sample 10-byte event: user id 6, status 1, punch 1,
2023-07-04T09:15:19. -/
def sampleEventB : List Nat := [6, 0, 1, 1, 23, 7, 4, 9, 15, 19]

/-- One TCP read that delivers a CMD_REG_EVENT frame (code 500) whose payload
is the two sample 10-byte events, one after the other; nothing follows. -/
def sampleLiveNet : Net :=
  sampleNet [some (deviceFrame 500 [0, 0, 0x34, 0x12, 0, 0] (sampleEventA ++ sampleEventB))]

/-- A device connected over UDP: `forceUdp_` set, session id 0x1234, reply
id 1. -/
def sampleConnectedUdp : Device :=
  { construct 0 true false with socket := .datagram, isConnected := true,
                                 sessionId := 0x1234, replyId := 1 }

/-- A sample acknowledgement on TCP: code 2000, session id 0x1234, reply id 2,
no payload. -/
def sampleAckNet : Net := sampleNet [some (deviceFrame 2000 [0, 0, 0x34, 0x12, 2, 0] [])]

/-- A UDP session that has just received the CMD_PREPARE_DATA reply (code
1500) announcing 4 bytes. -/
def samplePreparedUdp : Device :=
  { sampleConnectedUdp with lastResponse := 1500, lastData := [4, 0, 0, 0] }

/-- A CMD_DATA datagram (code 1501) of 12 bytes: the 8-byte header and the
payload A1 A2 A3 A4. -/
def sampleDataDatagram : List Nat := [0xDD, 0x05, 0, 0, 0x34, 0x12, 3, 0, 0xA1, 0xA2, 0xA3, 0xA4]

/-- A CMD_ACK_OK datagram (code 2000) of 8 bytes. -/
def sampleAckDatagram : List Nat := [0xD0, 0x07, 0, 0, 0x34, 0x12, 3, 0]

/-- An environment in which the TCP connect is refused and the UDP socket is
created; the device answers with the bare 8-byte CMD_ACK_OK frame in one
datagram. -/
def sampleFallbackNet : Net :=
  { sampleNet [some sampleAckReply] with tcpConnectOk := false }

/-- A TCP session whose last read delivered the CMD_PREPARE_DATA reply (code
1500) announcing 5 bytes, the complete CMD_DATA frame (code 1501) carrying
them, and the given bytes after that frame. -/
def samplePreparedTcp (trailing : List Nat) : Device :=
  { sampleConnected with
    lastResponse := 1500,
    lastData := [5, 0, 0, 0, 0, 0, 0, 0] ++
      (deviceFrame 1501 [0, 0, 0x34, 0x12, 3, 0] [0xA1, 0xA2, 0xA3, 0xA4, 0xA5] ++ trailing) }

/-- A sample CMD_ACK_OK frame on TCP (code 2000), 16 bytes. -/
def sampleAckFrame : List Nat := deviceFrame 2000 [0, 0, 0x34, 0x12, 3, 0] []

/-- The states of a session reachable from a freshly constructed object through
calls of `Connect` and `Disconnect`, whatever the network does. -/
inductive Reachable (K : Constants) : Device → Prop
  | fresh (password : Int) (forceUdp verbose : Bool) :
      Reachable K (construct password forceUdp verbose)
  | connect (d : Device) (net : Net) : Reachable K d → Reachable K (Connect K d net).dev
  | disconnect (d : Device) (net : Net) : Reachable K d → Reachable K (Disconnect K d net).dev

/-- A sample reply to CMD_GET_FREE_SIZES on TCP: code 2000 and 20 fields of 32
bits, of which field 4 is the number of users and field 8 the number of
attendance records. -/
def sampleSizesReply (users records : Nat) : List Nat :=
  deviceFrame 2000 [0, 0, 0x34, 0x12, 2, 0]
    (List.replicate 16 0 ++ [users, 0, 0, 0] ++ List.replicate 12 0 ++ [records, 0, 0, 0] ++
      List.replicate 44 0)

/-- A device that reports one attendance record and no user when `GetAttendance`
reads the sizes, no record any more when `GetUsers` reads them again, and then
answers CMD_PREPARE_BUFFER with a CMD_DATA frame (code 1501) of the four bytes
0 0 0 0, an attendance dataset of total size 0. -/
def sampleAttendanceNet : Net :=
  sampleNet
    [some (sampleSizesReply 0 1), some (sampleSizesReply 0 0),
     some (deviceFrame 1501 [0, 0, 0x34, 0x12, 4, 0] [0, 0, 0, 0])]

/-- A device that answers CMD_PREPARE_BUFFER with a CMD_ACK_OK frame declaring
10 bytes, the chunk request with a CMD_DATA frame (code 1501) that carries only
the 2 bytes A1 A2, and CMD_FREE_DATA with an acknowledgement. -/
def sampleShortChunkNet : Net :=
  sampleNet
    [some (deviceFrame 2000 [0, 0, 0x34, 0x12, 2, 0] [0, 10, 0, 0, 0]),
     some (deviceFrame 1501 [0, 0, 0x34, 0x12, 3, 0] [0xA1, 0xA2]),
     some (deviceFrame 2000 [0, 0, 0x34, 0x12, 4, 0] [])]

/-! # Theorems -/

/-! ## Bit-level helper lemmas -/

theorem shl_or_eq_add {a k : Nat} (b : Nat) (h : a < 2 ^ k) :
    (b <<< k) ||| a = a + 2 ^ k * b := by
  rw [Nat.shiftLeft_eq, Nat.mul_comm b, ← Nat.mul_add_lt_is_or h b, Nat.add_comm]

theorem or_shl_eq_add {a k : Nat} (b : Nat) (h : a < 2 ^ k) :
    a ||| (b <<< k) = a + 2 ^ k * b := by
  rw [Nat.or_comm, shl_or_eq_add b h]

theorem xor_mask16 {x : Nat} (h : x ≤ 65535) : (x ^^^ 0xFFFF) &&& 0xFFFF = 65535 - x := by
  apply Nat.eq_of_testBit_eq
  intro i
  have h1 : (65535 : Nat) = 2 ^ 16 - 1 := by norm_num
  have h2 : 65535 - x = 2 ^ 16 - (x + 1) := by omega
  have hx : x < 2 ^ 16 := by omega
  rw [h2, Nat.testBit_two_pow_sub_succ hx, Nat.testBit_and, Nat.testBit_xor, h1,
    Nat.testBit_two_pow_sub_one]
  by_cases hi : i < 16 <;> simp [hi]

theorem not32_mask16 {x : Nat} (h : x ≤ 65535) :
    ((2 ^ 32 - 1 - x) &&& 0xFFFF) % 2 ^ 16 = 65535 - x := by
  have h1 : (0xFFFF : Nat) = 2 ^ 16 - 1 := by norm_num
  rw [h1, Nat.and_pow_two_sub_one_eq_mod]
  omega

theorem addWord_le {s w : Nat} (hs : s ≤ 65535) (hw : w ≤ 65535) : addWord s w ≤ 65535 := by
  unfold addWord
  split <;> omega

theorem foldl_addWord_le (ws : List Nat) (hws : ∀ w ∈ ws, w ≤ 65535) :
    ∀ s, s ≤ 65535 → ws.foldl addWord s ≤ 65535 := by
  induction ws with
  | nil => intro s hs; simpa using hs
  | cons w ws ih =>
    intro s hs
    simp only [List.foldl_cons]
    exact ih (fun x hx => hws x (List.mem_cons_of_mem _ hx)) _
      (addWord_le hs (hws w (List.mem_cons_self _ _)))

theorem leWords_le : ∀ (bs : List Nat), IsBytes bs → ∀ w ∈ leWords bs, w ≤ 65535
  | [], _ => by simp [leWords]
  | [a], h => by
    intro w hw
    simp only [leWords, List.mem_singleton] at hw
    have := h a (by simp)
    omega
  | a :: b :: rest, h => by
    intro w hw
    simp only [leWords, List.mem_cons] at hw
    rcases hw with hw | hw
    · have ha := h a (by simp)
      have hb := h b (by simp)
      omega
    · exact leWords_le rest (fun x hx => h x (by simp [hx])) w hw

theorem drop_cons_getD {l : List Nat} : ∀ {i : Nat} {a : Nat} {tl : List Nat},
    l.drop i = a :: tl → l.getD i 0 = a ∧ l.drop (i + 1) = tl := by
  induction l with
  | nil => intro i a tl h; simp at h
  | cons x xs ih =>
    intro i a tl h
    cases i with
    | zero =>
      simp only [List.drop_zero, List.cons.injEq] at h
      simp [h.1, h.2]
    | succ j =>
      simp only [List.drop_succ_cons] at h
      have := ih h
      simpa using this

theorem checksumLoop_eq_foldl (packet : List Nat) (hp : IsBytes packet) :
    ∀ (fuel i c : Nat) (rest : List Nat), packet.drop i = rest → rest.length ≤ fuel →
      c ≤ 65535 →
      checksumLoop packet packet.length fuel i c = (leWords rest).foldl addWord c := by
  intro fuel
  induction fuel with
  | zero =>
    intro i c rest _ hlen _
    have : rest = [] := List.length_eq_zero.mp (Nat.le_zero.mp hlen)
    subst this
    simp [checksumLoop, leWords]
  | succ fuel ih =>
    intro i c rest hdrop hlen hc
    have hl : rest.length = packet.length - i := by rw [← hdrop, List.length_drop]
    match rest, hdrop, hlen, hl with
    | [], _, _, hl =>
      have : ¬ i < packet.length := by simp at hl; omega
      simp [checksumLoop, leWords, this]
    | [a], hdrop, _, hl =>
      have h1 : i < packet.length := by simp at hl; omega
      have h2 : ¬ i + 1 < packet.length := by simp at hl; omega
      obtain ⟨ha, hd⟩ := drop_cons_getD hdrop
      have hd2 : packet.drop (i + 2) = [] := by
        have : packet.drop (i + 2) = (packet.drop (i + 1)).drop 1 := by
          rw [List.drop_drop]
        rw [this, hd]; rfl
      have ha' : a < 256 := by
        apply hp; rw [← ha]
        have := List.getD_eq_getElem packet 0 h1
        rw [this]; exact List.getElem_mem _
      have hmod : (c + a) % 2 ^ 32 = c + a := Nat.mod_eq_of_lt (by omega)
      have hstep : (if (c + a) > 65535 then c + a - 65535 else c + a) = addWord c a := rfl
      simp only [checksumLoop, h1, h2, if_true, if_false, ha, hmod, hstep, leWords,
        List.foldl_cons, List.foldl_nil]
      rw [ih (i + 2) (addWord c a) [] hd2 (by simp) (addWord_le hc (by omega))]
      simp [leWords]
    | a :: b :: tl, hdrop, hlen, hl =>
      have h1 : i < packet.length := by simp at hl; omega
      have h2 : i + 1 < packet.length := by simp at hl; omega
      obtain ⟨ha, hd⟩ := drop_cons_getD hdrop
      obtain ⟨hb, hd2⟩ := drop_cons_getD hd
      have ha' : a < 256 := by
        apply hp; rw [← ha, List.getD_eq_getElem packet 0 h1]; exact List.getElem_mem _
      have hb' : b < 256 := by
        apply hp; rw [← hb, List.getD_eq_getElem packet 0 h2]; exact List.getElem_mem _
      have hor : (b <<< 8) ||| a = a + 256 * b := by
        have := shl_or_eq_add (k := 8) b (by simpa using ha')
        simpa using this
      have hmod : (c + (a + 256 * b)) % 2 ^ 32 = c + (a + 256 * b) :=
        Nat.mod_eq_of_lt (by omega)
      have hstep : (if (c + (a + 256 * b)) > 65535 then c + (a + 256 * b) - 65535
          else c + (a + 256 * b)) = addWord c (a + 256 * b) := rfl
      simp only [checksumLoop, h1, h2, if_true, ha, hb, hor, hmod, hstep, leWords,
        List.foldl_cons]
      exact ih (i + 2) _ tl hd2 (by simp at hlen; omega) (addWord_le hc (by omega))

/-- C2: for every byte sequence `CreateChecksum` equals the reference checksum:
fold the 16-bit little-endian words left to right (a trailing odd byte is a
word with high byte zero), after each addition subtracting 0xFFFF when the
running sum exceeds 0xFFFF, then take the bitwise complement masked to 16
bits. -/
theorem CreateChecksum_eq_checksumSpec (packet : List Nat) (hp : IsBytes packet) :
    CreateChecksum packet = checksumSpec packet := by
  unfold CreateChecksum checksumSpec
  have h := checksumLoop_eq_foldl packet hp packet.length 0 0 packet (by simp) (le_refl _)
    (by norm_num)
  have hle := foldl_addWord_le (leWords packet) (leWords_le packet hp) 0 (by norm_num)
  simp only [h]
  rw [not32_mask16 hle, xor_mask16 hle]

theorem and_255 (x : Nat) : x &&& 0xFF = x % 256 := by
  have h : (0xFF : Nat) = 2 ^ 8 - 1 := by norm_num
  rw [h, Nat.and_pow_two_sub_one_eq_mod]

theorem shr_8 (x : Nat) : x >>> 8 = x / 256 := by
  rw [Nat.shiftRight_eq_div_pow]

theorem CreateChecksum_lt (packet : List Nat) : CreateChecksum packet < 65536 := by
  unfold CreateChecksum
  exact Nat.mod_lt _ (by norm_num)

theorem isBytes_cons {a : Nat} {l : List Nat} (ha : a < 256) (hl : IsBytes l) :
    IsBytes (a :: l) := by
  intro b hb
  rcases List.mem_cons.mp hb with h | h
  · omega
  · exact hl b h

/-- C1: for 16-bit command, session id and reply id and a payload of bytes, the
frame `CreateHeader` returns has length 8 + len(payload), carries the command,
session id and reply id little-endian in bytes 0-1, 4-5 and 6-7, carries the
payload unchanged from offset 8 on, consists of bytes, and its bytes 2-3 are
the little-endian value `CreateChecksum` returns for the same frame with bytes
2-3 set to zero. -/
theorem CreateHeader_layout (command sessionId replyId : Nat) (payload : List Nat)
    (hc : command < 65536) (hs : sessionId < 65536) (hr : replyId < 65536)
    (hp : IsBytes payload) :
    (CreateHeader command payload sessionId replyId).length = 8 + payload.length ∧
    le16 ((CreateHeader command payload sessionId replyId).getD 0 0)
      ((CreateHeader command payload sessionId replyId).getD 1 0) = command ∧
    le16 ((CreateHeader command payload sessionId replyId).getD 4 0)
      ((CreateHeader command payload sessionId replyId).getD 5 0) = sessionId ∧
    le16 ((CreateHeader command payload sessionId replyId).getD 6 0)
      ((CreateHeader command payload sessionId replyId).getD 7 0) = replyId ∧
    (CreateHeader command payload sessionId replyId).drop 8 = payload ∧
    IsBytes (CreateHeader command payload sessionId replyId) ∧
    le16 ((CreateHeader command payload sessionId replyId).getD 2 0)
      ((CreateHeader command payload sessionId replyId).getD 3 0) =
      CreateChecksum
        (((CreateHeader command payload sessionId replyId).set 2 0).set 3 0) := by
  have hk := CreateChecksum_lt
    ([command &&& 0xFF, (command >>> 8) &&& 0xFF, 0, 0, sessionId &&& 0xFF,
      (sessionId >>> 8) &&& 0xFF, replyId &&& 0xFF, (replyId >>> 8) &&& 0xFF] ++ payload)
  simp only [CreateHeader, List.cons_append, List.nil_append, List.set_cons_succ,
    List.set_cons_zero, List.length_cons, List.getD_cons_succ, List.getD_cons_zero,
    List.drop_succ_cons, List.drop_zero, le16, and_255, shr_8] at hk ⊢
  refine ⟨by omega, by omega, by omega, by omega, trivial, ?_, by omega⟩
  repeat first
    | exact hp
    | apply isBytes_cons (Nat.mod_lt _ (by norm_num))

/-- Witness of `CreateHeader_layout` on the connect frame with a one byte
payload. -/
theorem CreateHeader_layout_witness :
    (CreateHeader 1000 [7] 0 65534).length = 8 + [7].length ∧
    le16 ((CreateHeader 1000 [7] 0 65534).getD 0 0)
      ((CreateHeader 1000 [7] 0 65534).getD 1 0) = 1000 ∧
    le16 ((CreateHeader 1000 [7] 0 65534).getD 4 0)
      ((CreateHeader 1000 [7] 0 65534).getD 5 0) = 0 ∧
    le16 ((CreateHeader 1000 [7] 0 65534).getD 6 0)
      ((CreateHeader 1000 [7] 0 65534).getD 7 0) = 65534 ∧
    (CreateHeader 1000 [7] 0 65534).drop 8 = [7] ∧
    IsBytes (CreateHeader 1000 [7] 0 65534) ∧
    le16 ((CreateHeader 1000 [7] 0 65534).getD 2 0)
      ((CreateHeader 1000 [7] 0 65534).getD 3 0) =
      CreateChecksum (((CreateHeader 1000 [7] 0 65534).set 2 0).set 3 0) :=
  CreateHeader_layout 1000 0 65534 [7] (by decide) (by decide) (by decide) (by decide)

/-- C3 (as stated, refuted): on the frame 01 00 00 00 00 00 FE FF the checksum
`CreateChecksum` returns is not 0xFFFE, and `CreateHeader 1 [] 0 0xFFFE` is not
01 00 FE FF 00 00 FE FF. -/
theorem checksum_example_refuted :
    ¬ (CreateChecksum [0x01, 0x00, 0x00, 0x00, 0x00, 0x00, 0xFE, 0xFF] = 0xFFFE) ∧
    ¬ (CreateHeader 1 [] 0 0xFFFE = [0x01, 0x00, 0xFE, 0xFF, 0x00, 0x00, 0xFE, 0xFF]) := by
  constructor <;> decide

/-- C3 (amended): for the frame with command 1, session id 0, reply id 0xFFFE
and empty payload the words sum to 0xFFFF, so `CreateChecksum` returns 0 and
`CreateHeader` returns exactly the bytes 01 00 00 00 00 00 FE FF. -/
theorem checksum_example :
    CreateChecksum [0x01, 0x00, 0x00, 0x00, 0x00, 0x00, 0xFE, 0xFF] = 0 ∧
    CreateHeader 1 [] 0 0xFFFE = [0x01, 0x00, 0x00, 0x00, 0x00, 0x00, 0xFE, 0xFF] := by
  constructor <;> decide

/-! ## Reply id -/

theorem storeLastResponse_replyId (d : Device) (response : Option (List Nat)) :
    (storeLastResponse d response).replyId = d.replyId := by
  cases response with
  | none => rfl
  | some r =>
    simp only [storeLastResponse]
    split_ifs <;> rfl

/-- A call that throws at the connected guard builds no frame and leaves the
reply id alone; every other call builds its frame with the stepped reply id,
which it also stores. -/
theorem SendCommand_packet (K : Constants) (d : Device) (net : Net) (command : Nat)
    (commandString : List Nat) (responseSize : Nat) (response : Option (List Nat)) :
    ((SendCommand K d net command commandString responseSize response).packet = none ∧
      (SendCommand K d net command commandString responseSize response).dev.replyId
        = d.replyId) ∨
    ((SendCommand K d net command commandString responseSize response).packet =
        some (CreateHeader (command % 2 ^ 16) commandString d.sessionId
          (nextReplyId d.replyId)) ∧
      (SendCommand K d net command commandString responseSize response).dev.replyId
        = nextReplyId d.replyId) := by
  unfold SendCommand
  simp only []
  split
  · left; exact ⟨rfl, rfl⟩
  · right
    split
    · split
      · exact ⟨rfl, rfl⟩
      · split
        · exact ⟨rfl, rfl⟩
        · split
          · split
            · exact ⟨rfl, by simp [storeLastResponse_replyId]⟩
            · exact ⟨rfl, rfl⟩
          · exact ⟨rfl, rfl⟩
    · split
      · exact ⟨rfl, rfl⟩
      · split
        · exact ⟨rfl, rfl⟩
        · exact ⟨rfl, by simp [storeLastResponse_replyId]⟩

/-- Witness of `CreateChecksum_eq_checksumSpec` on a frame of odd length. -/
theorem CreateChecksum_eq_checksumSpec_witness :
    IsBytes [0xE8, 0x03, 0x00, 0x00, 0x34, 0x12, 0xFF, 0xFF, 0x80] ∧
    CreateChecksum [0xE8, 0x03, 0x00, 0x00, 0x34, 0x12, 0xFF, 0xFF, 0x80] =
      checksumSpec [0xE8, 0x03, 0x00, 0x00, 0x34, 0x12, 0xFF, 0xFF, 0x80] :=
  ⟨by decide, CreateChecksum_eq_checksumSpec _ (by decide)⟩

/-! ## Auth key -/

theorem and_two_pow_ne_zero (x i : Nat) : x &&& (1 <<< i) ≠ 0 ↔ x.testBit i = true := by
  rw [Nat.one_shiftLeft]
  constructor
  · intro h
    obtain ⟨j, hj⟩ := Nat.ne_zero_implies_bit_true h
    rw [Nat.testBit_and, Nat.testBit_two_pow] at hj
    simp only [Bool.and_eq_true, decide_eq_true_eq] at hj
    rw [hj.2]; exact hj.1
  · intro h h0
    have : (x &&& 2 ^ i).testBit i = true := by
      rw [Nat.testBit_and, h, Nat.testBit_two_pow_self]; rfl
    rw [h0] at this
    simp at this

theorem reverseBitsFrom_succ (x i n : Nat) :
    reverseBitsFrom x i (n + 1) =
      (if x.testBit i then 2 ^ n else 0) + reverseBitsFrom x (i + 1) n := by
  unfold reverseBitsFrom
  rw [List.range_succ_eq_map, List.map_cons, List.sum_cons, List.map_map]
  congr 1
  congr 1
  apply List.map_congr_left
  intro j _
  simp only [Function.comp, Nat.succ_eq_add_one]
  have h1 : i + (j + 1) = i + 1 + j := by omega
  have h2 : n + 1 - 1 - (j + 1) = n - 1 - j := by omega
  rw [h1, h2]

theorem commKeyLoop_eq (key : Nat) :
    ∀ (n i k : Nat), i + n ≤ 32 → k < 2 ^ i →
      commKeyLoop key n i k = k * 2 ^ n + reverseBitsFrom key i n := by
  intro n
  induction n with
  | zero =>
    intro i k _ _
    simp [commKeyLoop, reverseBitsFrom]
  | succ n ih =>
    intro i k hin hk
    have hpow : 2 ^ (i + 1) ≤ 2 ^ 32 := Nat.pow_le_pow_right (by norm_num) (by omega)
    have h2k : 2 * k + 1 < 2 ^ (i + 1) := by rw [pow_succ]; omega
    have hshl : k <<< 1 = 2 * k := by rw [Nat.shiftLeft_eq]; omega
    have hor : (k <<< 1) ||| 1 = 2 * k + 1 := by
      rw [hshl]
      have := Nat.mul_add_lt_is_or (i := 1) (b := 1) (by norm_num) k
      simpa using this.symm
    rw [commKeyLoop, reverseBitsFrom_succ]
    by_cases hb : key.testBit i = true
    · have hc : key &&& (1 <<< i) ≠ 0 := (and_two_pow_ne_zero key i).mpr hb
      rw [if_pos hc, hor, Nat.mod_eq_of_lt (by omega), ih (i + 1) _ (by omega) h2k, if_pos hb]
      ring
    · have hc : ¬ key &&& (1 <<< i) ≠ 0 := fun h => hb ((and_two_pow_ne_zero key i).mp h)
      rw [if_neg hc, hshl, Nat.mod_eq_of_lt (by omega), ih (i + 1) _ (by omega) (by omega),
        if_neg hb]
      ring

theorem commKeyLoop_reverse (key : Nat) : commKeyLoop key 32 0 0 = reverseBits32 key := by
  rw [commKeyLoop_eq key 32 0 0 (by norm_num) (by norm_num)]
  simp [reverseBitsFrom, reverseBits32]

theorem shr_16 (x : Nat) : x >>> 16 = x / 65536 := by
  rw [Nat.shiftRight_eq_div_pow]

theorem shr_24 (x : Nat) : x >>> 24 = x / 16777216 := by
  rw [Nat.shiftRight_eq_div_pow]

/-- C5: for every password, session id and ticks value `MakeCommKey` returns
the four bytes `[x2 ^ t, x3 ^ t, t, x1 ^ t]` of the spec's derivation, where `k`
is the bit reversal of the low 32 bits of the password plus the session id
modulo `2^32`, `x0..x3` are the little-endian bytes of `k` XORed with 'Z', 'K',
'S', 'O', and `t` is the low byte of ticks. -/
theorem MakeCommKey_eq_commKeySpec (password sessionId ticks : Int) :
    MakeCommKey password sessionId ticks = commKeySpec password sessionId ticks := by
  have hk : (commKeyLoop (toUInt32 password) 32 0 0 + toUInt32 sessionId) % 2 ^ 32 =
      ((((reverseBits32 (password % 2 ^ 32).toNat : Nat) : Int) + sessionId) % 2 ^ 32).toNat := by
    rw [commKeyLoop_reverse]
    unfold toUInt32
    omega
  have ht : toUInt32 ticks &&& 0xFF = (ticks % 256).toNat := by
    rw [and_255]
    unfold toUInt32
    omega
  simp only [MakeCommKey, commKeySpec, hk, ht, and_255, shr_8, shr_16, shr_24,
    List.set_cons_succ, List.set_cons_zero, List.getD_cons_succ, List.getD_cons_zero]
  rfl

/-- C6 (as stated, refuted): for password 123, session id 0x1234 and ticks 50
`MakeCommKey` does not return 21 95 32 6B. -/
theorem commKey_example_refuted :
    ¬ (MakeCommKey 123 0x1234 50 = [0x21, 0x95, 0x32, 0x6B]) := by
  decide

/-- C6 (amended): the bit reversal of 123 is 0xDE000000, so for password 123,
session id 0x1234 and ticks 50 `MakeCommKey` returns exactly 61 A3 32 6B. -/
theorem commKey_example :
    commKeyLoop 123 32 0 0 = 0xDE000000 ∧
    MakeCommKey 123 0x1234 50 = [0x61, 0xA3, 0x32, 0x6B] := by
  constructor <;> decide

/-! ## TCP envelope -/

theorem or_shl_le32 {b0 b1 b2 b3 : Nat} (h0 : b0 < 256) (h1 : b1 < 256) (h2 : b2 < 256) :
    b0 ||| (b1 <<< 8) ||| (b2 <<< 16) ||| (b3 <<< 24) = le32 b0 b1 b2 b3 := by
  have e1 : b0 ||| (b1 <<< 8) = b0 + 256 * b1 := by
    have := or_shl_eq_add (k := 8) b1 (show b0 < 2 ^ 8 by omega)
    simpa using this
  have e2 : (b0 + 256 * b1) ||| (b2 <<< 16) = b0 + 256 * b1 + 65536 * b2 := by
    have := or_shl_eq_add (k := 16) b2 (show b0 + 256 * b1 < 2 ^ 16 by omega)
    simpa using this
  have e3 : (b0 + 256 * b1 + 65536 * b2) ||| (b3 <<< 24) =
      b0 + 256 * b1 + 65536 * b2 + 16777216 * b3 := by
    have := or_shl_eq_add (k := 24) b3 (show b0 + 256 * b1 + 65536 * b2 < 2 ^ 24 by omega)
    simpa using this
  rw [e1, e2, e3, le32]

theorem or_shl_le16 {b0 : Nat} (b1 : Nat) (h0 : b0 < 256) :
    b0 ||| (b1 <<< 8) = le16 b0 b1 := by
  have := or_shl_eq_add (k := 8) b1 (show b0 < 2 ^ 8 by omega)
  simpa [le16] using this

theorem toInt32_of_lt {n : Nat} (h : n < 2 ^ 31) : toInt32 n = (n : Int) := by
  unfold toInt32
  have : n % 2 ^ 32 = n := Nat.mod_eq_of_lt (by omega)
  rw [this, if_pos h]

theorem TestTcpTop_cons (a0 a1 a2 a3 a4 a5 a6 a7 x : Nat) (p : List Nat) :
    TestTcpTop (a0 :: a1 :: a2 :: a3 :: a4 :: a5 :: a6 :: a7 :: x :: p) =
      if (a0 ||| (a1 <<< 8)) % 2 ^ 16 = MACHINE_PREPARE_DATA_1 ∧
          (a2 ||| (a3 <<< 8)) % 2 ^ 16 = MACHINE_PREPARE_DATA_2 then
        toInt32 ((a4 ||| (a5 <<< 8) ||| (a6 <<< 16) ||| (a7 <<< 24)) % 2 ^ 32)
      else 0 := by
  have hlong : ¬ (a0 :: a1 :: a2 :: a3 :: a4 :: a5 :: a6 :: a7 :: x :: p).length ≤ 8 := by
    simp only [List.length_cons]; omega
  unfold TestTcpTop
  rw [if_neg hlong]
  rfl

theorem TestTcpTop_short (data : List Nat) (h : data.length ≤ 8) : TestTcpTop data = 0 := by
  unfold TestTcpTop
  rw [if_pos h]

theorem le32_bytes_of (n : Nat) (hn : n < 2 ^ 32) :
    le32 (n % 256) (n / 256 % 256) (n / 65536 % 256) (n / 16777216 % 256) = n := by
  unfold le32; omega

theorem TestTcpTop_envelope (n : Nat) (hn : n < 2 ^ 31) (x : Nat) (p : List Nat) :
    TestTcpTop ([MACHINE_PREPARE_DATA_1 % 256, MACHINE_PREPARE_DATA_1 / 256,
       MACHINE_PREPARE_DATA_2 % 256, MACHINE_PREPARE_DATA_2 / 256,
       n % 256, n / 256 % 256, n / 65536 % 256, n / 16777216 % 256] ++ x :: p) = (n : Int) := by
  have h1 : (MACHINE_PREPARE_DATA_1 % 256 ||| (MACHINE_PREPARE_DATA_1 / 256) <<< 8) % 2 ^ 16
      = MACHINE_PREPARE_DATA_1 := by decide
  have h2 : (MACHINE_PREPARE_DATA_2 % 256 ||| (MACHINE_PREPARE_DATA_2 / 256) <<< 8) % 2 ^ 16
      = MACHINE_PREPARE_DATA_2 := by decide
  rw [List.cons_append, List.cons_append, List.cons_append, List.cons_append, List.cons_append,
    List.cons_append, List.cons_append, List.cons_append, List.nil_append, TestTcpTop_cons,
    h1, h2, if_pos ⟨rfl, rfl⟩,
    or_shl_le32 (Nat.mod_lt _ (by norm_num)) (Nat.mod_lt _ (by norm_num))
      (Nat.mod_lt _ (by norm_num)),
    le32_bytes_of n (by omega), Nat.mod_eq_of_lt (by omega : n < 2 ^ 32)]
  exact toInt32_of_lt hn

/-- C7: for every frame `p` of fewer than `2^31` bytes, `CreateTcpTop p` is the
two magics (16-bit little-endian each), then `len(p)` as 32-bit little-endian,
then `p` unchanged, and `TestTcpTop (CreateTcpTop p)` is `len(p)`; for the empty
frame too, where both sides are 0. -/
theorem TestTcpTop_CreateTcpTop (p : List Nat) (hlen : p.length < 2 ^ 31) :
    CreateTcpTop p =
      [MACHINE_PREPARE_DATA_1 % 256, MACHINE_PREPARE_DATA_1 / 256,
       MACHINE_PREPARE_DATA_2 % 256, MACHINE_PREPARE_DATA_2 / 256,
       p.length % 256, p.length / 256 % 256, p.length / 65536 % 256,
       p.length / 16777216 % 256] ++ p ∧
    le32 (p.length % 256) (p.length / 256 % 256) (p.length / 65536 % 256)
      (p.length / 16777216 % 256) = p.length ∧
    TestTcpTop (CreateTcpTop p) = (p.length : Int) ∧
    TestTcpTop (CreateTcpTop []) = 0 := by
  have hmod : p.length % 2 ^ 32 = p.length := Nat.mod_eq_of_lt (by omega)
  have hshape : CreateTcpTop p =
      [MACHINE_PREPARE_DATA_1 % 256, MACHINE_PREPARE_DATA_1 / 256,
       MACHINE_PREPARE_DATA_2 % 256, MACHINE_PREPARE_DATA_2 / 256,
       p.length % 256, p.length / 256 % 256, p.length / 65536 % 256,
       p.length / 16777216 % 256] ++ p := by
    simp only [CreateTcpTop, hmod, and_255, shr_8, shr_16, shr_24, MACHINE_PREPARE_DATA_1,
      MACHINE_PREPARE_DATA_2]
  refine ⟨hshape, le32_bytes_of _ (by omega), ?_, by decide⟩
  cases hp : p with
  | nil => decide
  | cons x q =>
    have h := TestTcpTop_envelope p.length hlen x q
    rw [← hp] at h ⊢
    rw [hshape]
    exact h

/-- Witness of `TestTcpTop_CreateTcpTop` on an eight byte command frame. -/
theorem TestTcpTop_CreateTcpTop_witness :
    [0xE8, 0x03, 0x17, 0xFC, 0x00, 0x00, 0x00, 0x00].length < 2 ^ 31 ∧
    CreateTcpTop [0xE8, 0x03, 0x17, 0xFC, 0x00, 0x00, 0x00, 0x00] =
      [0x50, 0x50, 0x74, 0x82, 0x08, 0x00, 0x00, 0x00,
       0xE8, 0x03, 0x17, 0xFC, 0x00, 0x00, 0x00, 0x00] ∧
    TestTcpTop (CreateTcpTop [0xE8, 0x03, 0x17, 0xFC, 0x00, 0x00, 0x00, 0x00]) = 8 :=
  ⟨by decide,
    (TestTcpTop_CreateTcpTop [0xE8, 0x03, 0x17, 0xFC, 0x00, 0x00, 0x00, 0x00] (by decide)).1,
    (TestTcpTop_CreateTcpTop [0xE8, 0x03, 0x17, 0xFC, 0x00, 0x00, 0x00, 0x00] (by decide)).2.2.1⟩

/-- C8 (as stated, refuted): on a nine byte sequence with matching magics whose
length field is 00 00 00 80, `TestTcpTop` does not return the declared length
2147483648 but -2147483648. -/
theorem TestTcpTop_declared_length_refuted :
    ¬ (TestTcpTop [0x50, 0x50, 0x74, 0x82, 0x00, 0x00, 0x00, 0x80, 0x00] =
        ((le32 0x00 0x00 0x00 0x80 : Nat) : Int)) ∧
    le32 0x00 0x00 0x00 0x80 = 2147483648 ∧
    TestTcpTop [0x50, 0x50, 0x74, 0x82, 0x00, 0x00, 0x00, 0x80, 0x00] = -2147483648 := by
  refine ⟨?_, ?_, ?_⟩ <;> decide

/-- C8 (amended): `TestTcpTop` returns 0 for every byte sequence whose first two
little-endian 16-bit words are not the two magics and for every sequence of 8
bytes or fewer; when the magics match on a sequence longer than 8 bytes it
returns the declared 32-bit length field converted to `int` (the declared value
itself when that is below `2^31`, the declared value minus `2^32` otherwise),
whatever number of bytes is actually present. -/
theorem TestTcpTop_result (data : List Nat) (hb : IsBytes data) :
    (¬ (le16 (data.getD 0 0) (data.getD 1 0) = MACHINE_PREPARE_DATA_1 ∧
        le16 (data.getD 2 0) (data.getD 3 0) = MACHINE_PREPARE_DATA_2) →
      TestTcpTop data = 0) ∧
    (data.length ≤ 8 → TestTcpTop data = 0) ∧
    (8 < data.length →
      le16 (data.getD 0 0) (data.getD 1 0) = MACHINE_PREPARE_DATA_1 →
      le16 (data.getD 2 0) (data.getD 3 0) = MACHINE_PREPARE_DATA_2 →
      TestTcpTop data =
        toInt32 (le32 (data.getD 4 0) (data.getD 5 0) (data.getD 6 0) (data.getD 7 0)) ∧
      (le32 (data.getD 4 0) (data.getD 5 0) (data.getD 6 0) (data.getD 7 0) < 2 ^ 31 →
        TestTcpTop data =
          ((le32 (data.getD 4 0) (data.getD 5 0) (data.getD 6 0) (data.getD 7 0) : Nat) : Int)) ∧
      (2 ^ 31 ≤ le32 (data.getD 4 0) (data.getD 5 0) (data.getD 6 0) (data.getD 7 0) →
        TestTcpTop data =
          ((le32 (data.getD 4 0) (data.getD 5 0) (data.getD 6 0) (data.getD 7 0) : Nat) : Int)
            - 2 ^ 32)) := by
  have hget : ∀ i, data.getD i 0 < 256 := by
    intro i
    by_cases hi : i < data.length
    · rw [List.getD_eq_getElem data 0 hi]; exact hb _ (List.getElem_mem _)
    · rw [List.getD_eq_default data 0 (by omega)]; norm_num
  have h01 : (data.getD 0 0 ||| (data.getD 1 0 <<< 8)) % 2 ^ 16 =
      le16 (data.getD 0 0) (data.getD 1 0) := by
    rw [or_shl_le16 _ (hget 0)]
    have := hget 0; have := hget 1
    unfold le16; omega
  have h23 : (data.getD 2 0 ||| (data.getD 3 0 <<< 8)) % 2 ^ 16 =
      le16 (data.getD 2 0) (data.getD 3 0) := by
    rw [or_shl_le16 _ (hget 2)]
    have := hget 2; have := hget 3
    unfold le16; omega
  have h47 : (data.getD 4 0 ||| (data.getD 5 0 <<< 8) ||| (data.getD 6 0 <<< 16) |||
      (data.getD 7 0 <<< 24)) % 2 ^ 32 =
      le32 (data.getD 4 0) (data.getD 5 0) (data.getD 6 0) (data.getD 7 0) := by
    rw [or_shl_le32 (hget 4) (hget 5) (hget 6)]
    have := hget 4; have := hget 5; have := hget 6; have := hget 7
    unfold le32; omega
  have hlt : le32 (data.getD 4 0) (data.getD 5 0) (data.getD 6 0) (data.getD 7 0) < 2 ^ 32 := by
    have := hget 4; have := hget 5; have := hget 6; have := hget 7
    unfold le32; omega
  have hval : ∀ (h8 : 8 < data.length)
      (hm : le16 (data.getD 0 0) (data.getD 1 0) = MACHINE_PREPARE_DATA_1 ∧
        le16 (data.getD 2 0) (data.getD 3 0) = MACHINE_PREPARE_DATA_2),
      TestTcpTop data =
        toInt32 (le32 (data.getD 4 0) (data.getD 5 0) (data.getD 6 0) (data.getD 7 0)) := by
    intro h8 hm
    unfold TestTcpTop
    rw [if_neg (by omega)]
    simp only [h01, h23, h47]
    rw [if_pos hm]
  refine ⟨?_, TestTcpTop_short data, ?_⟩
  · intro hm
    unfold TestTcpTop
    split
    · rfl
    · simp only [h01, h23, h47]
      rw [if_neg hm]
  · intro h8 hm1 hm2
    refine ⟨hval h8 ⟨hm1, hm2⟩, ?_, ?_⟩
    · intro hsmall
      rw [hval h8 ⟨hm1, hm2⟩, toInt32_of_lt hsmall]
    · intro hbig
      rw [hval h8 ⟨hm1, hm2⟩]
      unfold toInt32
      rw [Nat.mod_eq_of_lt hlt, if_neg (by omega)]

/-- Witness of `TestTcpTop_result`: an envelope declaring 0x12 bytes in front of
a single byte. -/
theorem TestTcpTop_result_witness :
    IsBytes [0x50, 0x50, 0x74, 0x82, 0x12, 0x00, 0x00, 0x00, 0xAA] ∧
    TestTcpTop [0x50, 0x50, 0x74, 0x82, 0x12, 0x00, 0x00, 0x00, 0xAA] =
      toInt32 (le32 0x12 0x00 0x00 0x00) ∧
    TestTcpTop [0x50, 0x50, 0x74, 0x82, 0x12, 0x00, 0x00, 0x00, 0xAA] = 18 :=
  ⟨by decide,
    ((TestTcpTop_result [0x50, 0x50, 0x74, 0x82, 0x12, 0x00, 0x00, 0x00, 0xAA]
      (by decide)).2.2 (by decide) (by decide) (by decide)).1,
    ((TestTcpTop_result [0x50, 0x50, 0x74, 0x82, 0x12, 0x00, 0x00, 0x00, 0xAA]
      (by decide)).2.2 (by decide) (by decide) (by decide)).2.1 (by decide)⟩

/-! ## Time decoding -/

theorem putIntW2_eq_twoDigits : ∀ n : Nat, n < 100 → putIntW2 n = twoDigits n := by
  decide

theorem putInt_eq_fourDigits : ∀ y : Nat, y < 101 → putInt (y + 2000) = fourDigits (y + 2000) := by
  decide

theorem DecodeTime_four (b0 b1 b2 b3 : Nat) (h0 : b0 < 256) (h1 : b1 < 256) (h2 : b2 < 256)
    (h3 : b3 < 256) :
    DecodeTime [b0, b1, b2, b3] =
      if le32 b0 b1 b2 b3 / 60 / 60 / 24 / 31 / 12 + 2000 > 2100 then ""
      else timestampSpec (le32 b0 b1 b2 b3) := by
  have ht : (b0 ||| (b1 <<< 8) ||| (b2 <<< 16) ||| (b3 <<< 24)) % 2 ^ 32 = le32 b0 b1 b2 b3 := by
    rw [or_shl_le32 h0 h1 h2]
    unfold le32; omega
  have hlen : ¬ [b0, b1, b2, b3].length < 4 := by simp
  simp only [DecodeTime, if_neg hlen, List.getD_cons_succ, List.getD_cons_zero, ht]
  generalize le32 b0 b1 b2 b3 = t
  by_cases hy : t / 60 / 60 / 24 / 31 / 12 + 2000 > 2100
  · rw [if_pos (Or.inr (Or.inl hy)), if_pos hy]
  · rw [if_neg hy, if_neg (by omega)]
    have e1 : t / 60 / 60 / 24 / 31 / 12 + 2000 = t / (86400 * 31 * 12) + 2000 := by omega
    have e2 : t / 60 / 60 / 24 / 31 % 12 + 1 = t / (86400 * 31) % 12 + 1 := by omega
    have e3 : t / 60 / 60 / 24 % 31 + 1 = t / 86400 % 31 + 1 := by omega
    have e4 : t / 60 / 60 % 24 = t / 3600 % 24 := by omega
    have e0 : putInt (t / 60 / 60 / 24 / 31 / 12 + 2000) =
        fourDigits (t / (86400 * 31 * 12) + 2000) := by
      rw [putInt_eq_fourDigits _ (by omega), e1]
    rw [e0, e2, e3, e4, putIntW2_eq_twoDigits _ (by omega), putIntW2_eq_twoDigits _ (by omega),
      putIntW2_eq_twoDigits _ (by omega), putIntW2_eq_twoDigits _ (by omega),
      putIntW2_eq_twoDigits _ (by omega)]
    rfl

/-- C10 (as stated, refuted): the four bytes FF FF FF FF have the little-endian
value 4294967295, whose timestamp by the field formulas is 2133-08-18T06:28:15,
and `DecodeTime` returns the empty string for them. -/
theorem DecodeTime_all_inputs_refuted :
    ¬ (DecodeTime [0xFF, 0xFF, 0xFF, 0xFF] = timestampSpec (le32 0xFF 0xFF 0xFF 0xFF)) ∧
    timestampSpec (le32 0xFF 0xFF 0xFF 0xFF) = "2133-08-18T06:28:15" ∧
    DecodeTime [0xFF, 0xFF, 0xFF, 0xFF] = "" := by
  refine ⟨?_, ?_, ?_⟩ <;> decide

/-- C10 (amended): for every 4-byte input whose little-endian value `t` is below
3246220800 (the decoded year is at most 2100) `DecodeTime` returns the timestamp
YYYY-MM-DDTHH:MM:SS with second = t%60, minute = (t/60)%60, hour = (t/3600)%24,
day = ((t/86400)%31)+1, month = ((t/(86400*31))%12)+1 and
year = t/(86400*31*12) + 2000; for every other 4-byte input it returns the
empty string. -/
theorem DecodeTime_timestamp (b0 b1 b2 b3 : Nat) (h0 : b0 < 256) (h1 : b1 < 256)
    (h2 : b2 < 256) (h3 : b3 < 256) :
    (le32 b0 b1 b2 b3 < 3246220800 →
      DecodeTime [b0, b1, b2, b3] = timestampSpec (le32 b0 b1 b2 b3)) ∧
    (3246220800 ≤ le32 b0 b1 b2 b3 → DecodeTime [b0, b1, b2, b3] = "") := by
  rw [DecodeTime_four b0 b1 b2 b3 h0 h1 h2 h3]
  constructor
  · intro h
    rw [if_neg (by omega)]
  · intro h
    rw [if_pos (by omega)]

/-- Witness of `DecodeTime_timestamp` on the bytes 6E 27 2D 0F. -/
theorem DecodeTime_timestamp_witness :
    (0x6E < 256 ∧ 0x27 < 256 ∧ 0x2D < 256 ∧ 0x0F < 256) ∧
    le32 0x6E 0x27 0x2D 0x0F < 3246220800 ∧
    DecodeTime [0x6E, 0x27, 0x2D, 0x0F] = timestampSpec (le32 0x6E 0x27 0x2D 0x0F) ∧
    timestampSpec (le32 0x6E 0x27 0x2D 0x0F) = "2007-12-02T23:04:14" :=
  ⟨by decide, by decide,
    (DecodeTime_timestamp 0x6E 0x27 0x2D 0x0F (by decide) (by decide) (by decide)
      (by decide)).1 (by decide),
    by decide⟩

/-! ## Handshake -/

theorem Net.send_ok (net : Net) (sock : Socket) (bytes : List Nat) (hsock : sock ≠ .invalid)
    (hsend : ∀ b ∈ net.sendOk, b = true) :
    net.send sock bytes =
      (true, { net with sendOk := net.sendOk.tail, sent := net.sent ++ [bytes] }) := by
  unfold Net.send
  cases sock with
  | invalid => exact absurd rfl hsock
  | stream =>
    cases hs : net.sendOk with
    | nil => simp
    | cons b rest =>
      have : b = true := hsend b (by rw [hs]; exact List.mem_cons_self _ _)
      subst this
      simp
  | datagram =>
    cases hs : net.sendOk with
    | nil => simp
    | cons b rest =>
      have : b = true := hsend b (by rw [hs]; exact List.mem_cons_self _ _)
      subst this
      simp

theorem Net.recv_ok (a b c : Bool) (so : List Bool) (sent : List (List Nat)) (sock : Socket)
    (n : Nat) (bs : List Nat) (tail : List (Option (List Nat))) (hsock : sock ≠ .invalid)
    (hlen : bs.length ≤ n) :
    Net.recv ⟨a, b, c, so, some bs :: tail, sent⟩ sock n = (some bs, ⟨a, b, c, so, tail, sent⟩) := by
  unfold Net.recv
  cases sock with
  | invalid => exact absurd rfl hsock
  | stream => simp [hlen]
  | datagram => simp [hlen]

theorem CreateTcpTop_eq (p : List Nat) :
    CreateTcpTop p =
      0x50 :: 0x50 :: 0x74 :: 0x82 :: (p.length % 2 ^ 32 % 256) ::
        (p.length % 2 ^ 32 / 256 % 256) :: (p.length % 2 ^ 32 / 65536 % 256) ::
        (p.length % 2 ^ 32 / 16777216 % 256) :: p := by
  have h1 : MACHINE_PREPARE_DATA_1 &&& 0xFF = 0x50 := by decide
  have h2 : MACHINE_PREPARE_DATA_1 / 256 % 256 = 0x50 := by decide
  have h3 : MACHINE_PREPARE_DATA_2 &&& 0xFF = 0x74 := by decide
  have h4 : MACHINE_PREPARE_DATA_2 / 256 % 256 = 0x82 := by decide
  simp only [CreateTcpTop, h1, h3, and_255, shr_8, h2, h4, shr_8, shr_16, shr_24, List.cons_append,
    List.nil_append]

theorem CreateTcpTop_length (p : List Nat) : (CreateTcpTop p).length = p.length + 8 := by
  rw [CreateTcpTop_eq]
  simp only [List.length_cons]

theorem CreateTcpTop_drop (p : List Nat) : (CreateTcpTop p).drop 8 = p := by
  rw [CreateTcpTop_eq]
  simp only [List.drop_succ_cons, List.drop_zero]

theorem CreateTcpTop_head (p : List Nat) :
    (CreateTcpTop p).getD 0 0 = 0x50 ∧ (CreateTcpTop p).getD 1 0 = 0x50 ∧
    (CreateTcpTop p).getD 2 0 = 0x74 ∧ (CreateTcpTop p).getD 3 0 = 0x82 := by
  rw [CreateTcpTop_eq]
  simp only [List.getD_cons_succ, List.getD_cons_zero, and_self]

theorem CreateTcpTop_magic (p : List Nat) :
    ((CreateTcpTop p).getD 0 0 ||| ((CreateTcpTop p).getD 1 0 <<< 8)) % 2 ^ 16 =
        MACHINE_PREPARE_DATA_1 ∧
    ((CreateTcpTop p).getD 2 0 ||| ((CreateTcpTop p).getD 3 0 <<< 8)) % 2 ^ 16 =
        MACHINE_PREPARE_DATA_2 := by
  obtain ⟨h0, h1, h2, h3⟩ := CreateTcpTop_head p
  rw [h0, h1, h2, h3]
  constructor <;> decide

/-- A `SendCommand` call that passes the guard on an open socket whose sends
succeed, with a reply of 8 to 1024 bytes pending. -/
theorem SendCommand_reply (K : Constants) (d : Device) (net : Net) (command : Nat)
    (commandString reply resp : List Nat) (tail : List (Option (List Nat)))
    (hguard : d.isConnected = true ∨ command % 2 ^ 16 = K.CMD_CONNECT ∨
      command % 2 ^ 16 = K.CMD_AUTH)
    (hsock : d.socket ≠ .invalid)
    (hsend : ∀ b ∈ net.sendOk, b = true)
    (hin : net.incoming = some (onWire d.forceUdp reply) :: tail)
    (hlo : 8 ≤ reply.length) (hhi : reply.length ≤ 1024) :
    SendCommand K d net command commandString 1024 (some resp) =
      { outcome := some true
        packet := some (CreateHeader (command % 2 ^ 16) commandString d.sessionId
          (nextReplyId d.replyId))
        response := some reply
        dev := storeLastResponse { d with replyId := nextReplyId d.replyId } (some reply)
        net := { net with
          sendOk := net.sendOk.tail
          incoming := tail
          sent := net.sent ++ [onWire d.forceUdp
            (CreateHeader (command % 2 ^ 16) commandString d.sessionId
              (nextReplyId d.replyId))] } } := by
  have hg : ¬ ((!d.isConnected) = true ∧ command % 2 ^ 16 ≠ K.CMD_CONNECT ∧
      command % 2 ^ 16 ≠ K.CMD_AUTH) := by
    rintro ⟨h1, h2, h3⟩
    rcases hguard with h | h | h
    · simp [h] at h1
    · exact h2 h
    · exact h3 h
  unfold SendCommand
  simp only [if_neg hg]
  cases hf : d.forceUdp with
  | true =>
    rw [hf] at hin
    simp only [onWire, if_true] at hin ⊢
    have hc : ¬ (d.socket ≠ Socket.invalid ∧ (!true) = true) := by simp
    rw [if_neg hc, Net.send_ok net d.socket _ hsock hsend]
    simp only [Bool.not_true, Bool.false_eq_true, if_false, hin]
    rw [Net.recv_ok _ _ _ _ _ d.socket 1024 reply tail hsock hhi]
    rfl
  | false =>
    rw [hf] at hin
    simp only [onWire, Bool.false_eq_true, if_false] at hin ⊢
    have hc : d.socket ≠ Socket.invalid ∧ (!false) = true := ⟨hsock, rfl⟩
    rw [if_pos hc, Net.send_ok net d.socket _ hsock hsend]
    simp only [Bool.not_true, Bool.false_eq_true, if_false, hin]
    rw [Net.recv_ok _ _ _ _ _ d.socket (1024 + 8) (CreateTcpTop reply) tail hsock
      (by rw [CreateTcpTop_length]; omega)]
    have h16 : (CreateTcpTop reply).length ≥ 16 := by rw [CreateTcpTop_length]; omega
    simp only [h16, if_true, (CreateTcpTop_magic reply).1, (CreateTcpTop_magic reply).2,
      and_self, CreateTcpTop_drop, Option.map_some']

theorem storeLastResponse_fields (d : Device) (response : Option (List Nat)) :
    (storeLastResponse d response).password = d.password ∧
    (storeLastResponse d response).forceUdp = d.forceUdp ∧
    (storeLastResponse d response).socket = d.socket ∧
    (storeLastResponse d response).isConnected = d.isConnected ∧
    (storeLastResponse d response).sessionId = d.sessionId := by
  cases response with
  | none => exact ⟨rfl, rfl, rfl, rfl, rfl⟩
  | some r =>
    simp only [storeLastResponse]
    split_ifs <;> exact ⟨rfl, rfl, rfl, rfl, rfl⟩

theorem CreateSocket_fields (d : Device) (net : Net) (h : (CreateSocket d net).1 = true) :
    (CreateSocket d net).2.socket ≠ .invalid ∧
    (CreateSocket d net).2.password = d.password ∧
    (CreateSocket d net).2.forceUdp = d.forceUdp ∧
    (CreateSocket d net).2.isConnected = d.isConnected := by
  unfold CreateSocket at h ⊢
  simp only [] at h ⊢
  split_ifs at h ⊢ <;> first
    | (simp at h; done)
    | (refine ⟨?_, rfl, rfl, rfl⟩; simp [CloseSocket])

theorem shl_or_le16 {lo : Nat} (hi : Nat) (h : lo < 256) : (hi <<< 8) ||| lo = le16 lo hi := by
  rw [Nat.or_comm]; exact or_shl_le16 hi h

theorem getD_lt_of_isBytes {l : List Nat} (h : IsBytes l) (i : Nat) : l.getD i 0 < 256 := by
  by_cases hi : i < l.length
  · rw [List.getD_eq_getElem l 0 hi]; exact h _ (List.getElem_mem _)
  · rw [List.getD_eq_default l 0 (by omega)]; norm_num

theorem code_eq_replyCode {r : List Nat} (h : IsBytes r) :
    ((r.getD 1 0 <<< 8) ||| r.getD 0 0) % 2 ^ 16 = replyCode r := by
  rw [shl_or_le16 _ (getD_lt_of_isBytes h 0)]
  have := getD_lt_of_isBytes h 0
  have := getD_lt_of_isBytes h 1
  unfold replyCode le16
  omega

theorem sid_eq_le16 {r : List Nat} (h : IsBytes r) :
    ((r.getD 5 0 <<< 8) ||| r.getD 4 0) % 2 ^ 16 = le16 (r.getD 4 0) (r.getD 5 0) := by
  rw [shl_or_le16 _ (getD_lt_of_isBytes h 4)]
  have := getD_lt_of_isBytes h 4
  have := getD_lt_of_isBytes h 5
  unfold le16
  omega

theorem Connect_cases (K : Constants) (d : Device) (net : Net) (r1 r2 : List Nat)
    (tail rest : List (Option (List Nat)))
    (hK1 : K.CMD_CONNECT < 65536) (hK2 : K.CMD_AUTH < 65536)
    (hsock : (CreateSocket d net).1 = true)
    (hsend : ∀ b ∈ net.sendOk, b = true)
    (hin1 : net.incoming = some (onWire d.forceUdp r1) :: tail)
    (hin2 : replyCode r1 = K.CMD_ACK_UNAUTH → tail = some (onWire d.forceUdp r2) :: rest)
    (hb1 : IsBytes r1) (hb2 : IsBytes r2)
    (h1 : 8 ≤ r1.length) (h1' : r1.length ≤ 1024)
    (h2 : 8 ≤ r2.length) (h2' : r2.length ≤ 1024) :
    (Connect K d net).dev.sessionId = le16 (r1.getD 4 0) (r1.getD 5 0) ∧
    ((replyCode r1 = K.CMD_ACK_UNAUTH ∧
        (Connect K d net).net.sent = net.sent ++
          [onWire d.forceUdp (CreateHeader K.CMD_CONNECT [] 0 0),
           onWire d.forceUdp (CreateHeader K.CMD_AUTH
             (MakeCommKey d.password (le16 (r1.getD 4 0) (r1.getD 5 0) : Nat) 50)
             (le16 (r1.getD 4 0) (r1.getD 5 0)) 1)] ∧
        ((replyCode r2 = K.CMD_ACK_OK ∧ (Connect K d net).ok = true ∧
            (Connect K d net).dev.isConnected = true) ∨
         (replyCode r2 ≠ K.CMD_ACK_OK ∧ (Connect K d net).ok = false ∧
            (Connect K d net).dev.isConnected = d.isConnected))) ∨
     (replyCode r1 ≠ K.CMD_ACK_UNAUTH ∧
        (Connect K d net).net.sent = net.sent ++
          [onWire d.forceUdp (CreateHeader K.CMD_CONNECT [] 0 0)] ∧
        ((replyCode r1 = K.CMD_ACK_OK ∧ (Connect K d net).ok = true ∧
            (Connect K d net).dev.isConnected = true) ∨
         (replyCode r1 ≠ K.CMD_ACK_OK ∧ (Connect K d net).ok = false ∧
            (Connect K d net).dev.isConnected = d.isConnected)))) := by
  obtain ⟨hs1, hs2, hs3, hs4⟩ := CreateSocket_fields d net hsock
  unfold Connect
  rcases hcs : CreateSocket d net with ⟨created, d0⟩
  rw [hcs] at hsock hs1 hs2 hs3 hs4
  simp only at hsock hs1 hs2 hs3 hs4
  subst hsock
  have hsend1 := SendCommand_reply K { d0 with sessionId := 0, replyId := 65534 } net
    K.CMD_CONNECT [] r1 [] tail (Or.inr (Or.inl (Nat.mod_eq_of_lt hK1))) hs1 hsend
    (by rw [← hs3] at hin1; exact hin1) h1 h1'
  simp only [Bool.not_true, Bool.false_eq_true, if_false, hsend1, Option.getD_some,
    ge_iff_le, h1, if_true, code_eq_replyCode hb1, sid_eq_le16 hb1]
  have hfields := storeLastResponse_fields
    { d0 with sessionId := 0, replyId := nextReplyId 65534 } (some r1)
  have hreply := storeLastResponse_replyId
    { d0 with sessionId := 0, replyId := nextReplyId 65534 } (some r1)
  generalize storeLastResponse { d0 with sessionId := 0, replyId := nextReplyId 65534 }
    (some r1) = D1 at hfields hreply ⊢
  obtain ⟨hp1, hf1, hso1, hc1, _⟩ := hfields
  simp only at hp1 hf1 hso1 hc1 hreply
  have hn0 : nextReplyId 65534 = 0 := by decide
  have hn1 : nextReplyId 0 = 1 := by decide
  have hm1 : K.CMD_CONNECT % 2 ^ 16 = K.CMD_CONNECT := Nat.mod_eq_of_lt hK1
  have hm2 : K.CMD_AUTH % 2 ^ 16 = K.CMD_AUTH := Nat.mod_eq_of_lt hK2
  by_cases hu : replyCode r1 = K.CMD_ACK_UNAUTH
  · simp only [hu, if_true]
    have hsend2 := fun (net1 : Net) hs hi =>
      SendCommand_reply K { D1 with sessionId := le16 (r1.getD 4 0) (r1.getD 5 0) } net1
        K.CMD_AUTH (MakeCommKey D1.password (le16 (r1.getD 4 0) (r1.getD 5 0) : Nat) 50) r2 r1
        rest (Or.inr (Or.inr hm2)) (by rw [← hso1] at hs1; exact hs1) hs hi h2 h2'
    rw [hsend2]
    · have hfields := storeLastResponse_fields
        { D1 with sessionId := le16 (r1.getD 4 0) (r1.getD 5 0),
                  replyId := nextReplyId D1.replyId } (some r2)
      generalize storeLastResponse
        { D1 with sessionId := le16 (r1.getD 4 0) (r1.getD 5 0),
                  replyId := nextReplyId D1.replyId } (some r2) = D2 at hfields ⊢
      obtain ⟨_, _, _, hc2, hsid2⟩ := hfields
      simp only at hc2 hsid2
      have hlen2 : 2 ≤ r2.length := by omega
      simp only [Option.getD_some, ge_iff_le, hlen2, if_true, code_eq_replyCode hb2, ne_eq,
        ite_not]
      by_cases hok : replyCode r2 = K.CMD_ACK_OK
      · simp only [hok, if_true, CloseSocket]
        refine ⟨hsid2, Or.inl ⟨trivial, ?_, Or.inl ⟨trivial, trivial, trivial⟩⟩⟩
        simp only [hreply, hn0, hn1, hm1, hm2, hf1, hs3, hp1, hs2, List.append_assoc,
          List.singleton_append]
      · simp only [hok, if_false, CloseSocket]
        refine ⟨hsid2, Or.inl ⟨trivial, ?_, Or.inr ⟨fun h => h, trivial, by rw [hc2, hc1, hs4]⟩⟩⟩
        simp only [hreply, hn0, hn1, hm1, hm2, hf1, hs3, hp1, hs2, List.append_assoc,
          List.singleton_append]
    · intro b hb
      exact hsend b (List.mem_of_mem_tail hb)
    · show tail = some (onWire D1.forceUdp r2) :: rest
      rw [hf1, hs3]
      exact hin2 hu
  · simp only [hu, if_false]
    by_cases hok : replyCode r1 = K.CMD_ACK_OK
    · simp only [hok, if_true]
      refine ⟨trivial, Or.inr ⟨fun h => hu (hok.trans h), ?_, Or.inl ⟨trivial, trivial, trivial⟩⟩⟩
      simp only [hn0, hm1, hs3]
    · simp only [hok, if_false, CloseSocket]
      refine ⟨trivial, Or.inr ⟨hu, ?_, Or.inr ⟨hok, trivial, by rw [hc1, hs4]⟩⟩⟩
      simp only [hn0, hm1, hs3]

/-- C9: on a session whose socket could be created and whose sends succeed, with
a reply `r1` of 8 to 1024 bytes to CMD_CONNECT pending and, when `r1` has code
CMD_ACK_UNAUTH, a reply `r2` of 8 to 1024 bytes to CMD_AUTH after it, `Connect`
returns true and sets the connected flag if and only if `r1` has code
CMD_ACK_OK, or `r1` has code CMD_ACK_UNAUTH and `r2` has code CMD_ACK_OK (a
failing call leaves the flag as it was); when `r1` has code CMD_ACK_OK the only
frame sent is CMD_CONNECT, whatever the password; the first frame sent is always
CMD_CONNECT with session id 0; after CMD_ACK_UNAUTH the second frame is CMD_AUTH
with the key made from the password and the new session id; and the stored
session id is the little-endian value of bytes 4-5 of `r1`.  The codes are
16-bit values with CMD_ACK_OK different from CMD_ACK_UNAUTH. -/
theorem Connect_handshake (K : Constants) (d : Device) (net : Net) (r1 r2 : List Nat)
    (tail rest : List (Option (List Nat)))
    (hK1 : K.CMD_CONNECT < 65536) (hK2 : K.CMD_AUTH < 65536)
    (hK3 : K.CMD_ACK_OK ≠ K.CMD_ACK_UNAUTH)
    (hsock : (CreateSocket d net).1 = true)
    (hsend : ∀ b ∈ net.sendOk, b = true)
    (hin1 : net.incoming = some (onWire d.forceUdp r1) :: tail)
    (hin2 : replyCode r1 = K.CMD_ACK_UNAUTH → tail = some (onWire d.forceUdp r2) :: rest)
    (hb1 : IsBytes r1) (hb2 : IsBytes r2)
    (h1 : 8 ≤ r1.length) (h1' : r1.length ≤ 1024)
    (h2 : 8 ≤ r2.length) (h2' : r2.length ≤ 1024) :
    (((Connect K d net).ok = true ∧ (Connect K d net).dev.isConnected = true) ↔
      (replyCode r1 = K.CMD_ACK_OK ∨
        (replyCode r1 = K.CMD_ACK_UNAUTH ∧ replyCode r2 = K.CMD_ACK_OK))) ∧
    ((Connect K d net).ok = true ↔
      (replyCode r1 = K.CMD_ACK_OK ∨
        (replyCode r1 = K.CMD_ACK_UNAUTH ∧ replyCode r2 = K.CMD_ACK_OK))) ∧
    ((Connect K d net).ok = false → (Connect K d net).dev.isConnected = d.isConnected) ∧
    (replyCode r1 = K.CMD_ACK_OK →
      (Connect K d net).net.sent =
        net.sent ++ [onWire d.forceUdp (CreateHeader K.CMD_CONNECT [] 0 0)]) ∧
    (replyCode r1 = K.CMD_ACK_UNAUTH →
      (Connect K d net).net.sent = net.sent ++
        [onWire d.forceUdp (CreateHeader K.CMD_CONNECT [] 0 0),
         onWire d.forceUdp (CreateHeader K.CMD_AUTH
           (MakeCommKey d.password (le16 (r1.getD 4 0) (r1.getD 5 0) : Nat) 50)
           (le16 (r1.getD 4 0) (r1.getD 5 0)) 1)]) ∧
    (∃ more, (Connect K d net).net.sent =
      net.sent ++ onWire d.forceUdp (CreateHeader K.CMD_CONNECT [] 0 0) :: more) ∧
    (Connect K d net).dev.sessionId = le16 (r1.getD 4 0) (r1.getD 5 0) := by
  obtain ⟨hsid, hcase⟩ := Connect_cases K d net r1 r2 tail rest hK1 hK2 hsock hsend hin1 hin2
    hb1 hb2 h1 h1' h2 h2'
  rcases hcase with ⟨hu, hsent, ⟨hok, hret, hflag⟩ | ⟨hok, hret, hflag⟩⟩ |
    ⟨hu, hsent, ⟨hok, hret, hflag⟩ | ⟨hok, hret, hflag⟩⟩
  · have hne : replyCode r1 ≠ K.CMD_ACK_OK := fun h => hK3 (h.symm.trans hu)
    refine ⟨⟨fun _ => Or.inr ⟨hu, hok⟩, fun _ => ⟨hret, hflag⟩⟩,
      ⟨fun _ => Or.inr ⟨hu, hok⟩, fun _ => hret⟩, ?_, fun h => absurd h hne, fun _ => hsent,
      ⟨_, hsent⟩, hsid⟩
    intro h; rw [hret] at h; exact absurd h (by decide)
  · have hne : replyCode r1 ≠ K.CMD_ACK_OK := fun h => hK3 (h.symm.trans hu)
    have hcond : ¬ (replyCode r1 = K.CMD_ACK_OK ∨
        (replyCode r1 = K.CMD_ACK_UNAUTH ∧ replyCode r2 = K.CMD_ACK_OK)) := by
      rintro (h | ⟨_, h⟩)
      · exact hne h
      · exact hok h
    have hnt : ¬ (Connect K d net).ok = true := by rw [hret]; decide
    refine ⟨⟨fun h => absurd h.1 hnt, fun h => absurd h hcond⟩,
      ⟨fun h => absurd h hnt, fun h => absurd h hcond⟩, fun _ => hflag,
      fun h => absurd h hne, fun _ => hsent, ⟨_, hsent⟩, hsid⟩
  · refine ⟨⟨fun _ => Or.inl hok, fun _ => ⟨hret, hflag⟩⟩,
      ⟨fun _ => Or.inl hok, fun _ => hret⟩, ?_, fun _ => hsent, fun h => absurd h hu,
      ⟨_, hsent⟩, hsid⟩
    intro h; rw [hret] at h; exact absurd h (by decide)
  · have hcond : ¬ (replyCode r1 = K.CMD_ACK_OK ∨
        (replyCode r1 = K.CMD_ACK_UNAUTH ∧ replyCode r2 = K.CMD_ACK_OK)) := by
      rintro (h | ⟨h, _⟩)
      · exact hok h
      · exact hu h
    have hnt : ¬ (Connect K d net).ok = true := by rw [hret]; decide
    refine ⟨⟨fun h => absurd h.1 hnt, fun h => absurd h hcond⟩,
      ⟨fun h => absurd h hnt, fun h => absurd h hcond⟩, fun _ => hflag,
      fun _ => hsent, fun h => absurd h hu, ⟨_, hsent⟩, hsid⟩

/-- Witness of `Connect_handshake`: a TCP session with password 123 whose
device answers CMD_CONNECT with CMD_ACK_UNAUTH and session id 0x1234, then
CMD_AUTH with CMD_ACK_OK. -/
theorem Connect_handshake_witness :
    (Connect sampleConstants (construct 123 false false)
      (sampleNet [some (onWire false sampleUnauthReply),
        some (onWire false sampleAckReply)])).ok = true ∧
    (Connect sampleConstants (construct 123 false false)
      (sampleNet [some (onWire false sampleUnauthReply),
        some (onWire false sampleAckReply)])).dev.sessionId = 0x1234 ∧
    (Connect sampleConstants (construct 123 false false)
      (sampleNet [some (onWire false sampleUnauthReply),
        some (onWire false sampleAckReply)])).net.sent =
      [CreateTcpTop (CreateHeader 1000 [] 0 0),
       CreateTcpTop (CreateHeader 1102 [0x61, 0xA3, 0x32, 0x6B] 0x1234 1)] :=
  have h := Connect_handshake sampleConstants (construct 123 false false)
    (sampleNet [some (onWire false sampleUnauthReply), some (onWire false sampleAckReply)])
    sampleUnauthReply sampleAckReply [some (onWire false sampleAckReply)] []
    (by decide) (by decide) (by decide) (by decide) (by decide) rfl (fun _ => rfl)
    (by decide) (by decide) (by decide) (by decide) (by decide) (by decide)
  ⟨h.2.1.mpr (Or.inr ⟨by decide, by decide⟩), h.2.2.2.2.2.2, h.2.2.2.2.1 (by decide)⟩

/-! ## Time encoding -/

/-- The value of the `int` expression of `SetTime` for a wall-clock tuple of the
years 2000 to 2099: it is computed without leaving the `int` range exactly when
it is below `2^31`. -/
theorem SetTime_encodedTime_eq (year month day hour minute second : Nat)
    (hy : 2000 ≤ year) (hy' : year ≤ 2099) (hm : 1 ≤ month) (hm' : month ≤ 12)
    (hd : 1 ≤ day) (hd' : day ≤ 31) (hh : hour < 24) (hmi : minute < 60) (hs : second < 60) :
    SetTime_encodedTime year month day hour minute second =
      if ((year - 2000) * 372 + (month - 1) * 31 + (day - 1)) * 86400 +
          (hour * 60 + minute) * 60 + second < 2 ^ 31
      then .returned (((year - 2000) * 372 + (month - 1) * 31 + (day - 1)) * 86400 +
          (hour * 60 + minute) * 60 + second)
      else .undefinedBehaviour := by
  unfold SetTime_encodedTime
  dsimp only
  rw [Int.tmod_eq_emod (by omega) (by norm_num)]
  have h100 : (year : Int) % 100 = (year : Int) - 2000 := by omega
  rw [h100]
  simp only [fitsInt, decide_eq_true_eq]
  by_cases hfit : ((year - 2000) * 372 + (month - 1) * 31 + (day - 1)) * 86400 +
      (hour * 60 + minute) * 60 + second < 2 ^ 31
  · rw [if_pos hfit, if_pos (by omega)]
    congr 1
    unfold toUInt32
    omega
  · rw [if_neg hfit, if_neg (by omega)]

theorem SetTime_commandString_eq (encodedTime : Nat) :
    SetTime_commandString encodedTime =
      [encodedTime % 256, encodedTime / 256 % 256, encodedTime / 65536 % 256,
       encodedTime / 16777216 % 256] := by
  simp only [SetTime_commandString, and_255, shr_8, shr_16, shr_24]

/-- C11 (as stated, refuted): the wall-clock tuple 2100-01-01 00:00:00 satisfies
the bounds of the claim, `SetTime` encodes it as 0 (the year enters modulo
100), that is as the bytes 00 00 00 00, and `DecodeTime` reads these as
2000-01-01T00:00:00. -/
theorem SetTime_DecodeTime_roundtrip_refuted :
    SetTime_encodedTime 2100 1 1 0 0 0 = .returned 0 ∧
    SetTime_commandString 0 = [0x00, 0x00, 0x00, 0x00] ∧
    DecodeTime (SetTime_commandString 0) = "2000-01-01T00:00:00" ∧
    ¬ (DecodeTime (SetTime_commandString 0) = formatTimestamp 2100 1 1 0 0 0) := by
  refine ⟨?_, ?_, ?_, ?_⟩ <;> decide

/-- C11 (amended): for every wall-clock tuple with 2000 <= year <= 2099,
1 <= month <= 12, 1 <= day <= 31, hour < 24, minute < 60 and second < 60 whose
encoded value fits an `int` (the tuples up to 2066-10-25 03:14:07), `SetTime`
computes that value, and decoding with `DecodeTime` the four little-endian
bytes `SetTime` builds from it yields the timestamp of the same year, month,
day, hour, minute and second. -/
theorem SetTime_DecodeTime_roundtrip (year month day hour minute second : Nat)
    (hy : 2000 ≤ year) (hy' : year ≤ 2099) (hm : 1 ≤ month) (hm' : month ≤ 12)
    (hd : 1 ≤ day) (hd' : day ≤ 31) (hh : hour < 24) (hmi : minute < 60) (hs : second < 60)
    (hfit : ((year - 2000) * 372 + (month - 1) * 31 + (day - 1)) * 86400 +
      (hour * 60 + minute) * 60 + second < 2 ^ 31) :
    SetTime_encodedTime year month day hour minute second =
      .returned (((year - 2000) * 372 + (month - 1) * 31 + (day - 1)) * 86400 +
        (hour * 60 + minute) * 60 + second) ∧
    DecodeTime (SetTime_commandString
      (((year - 2000) * 372 + (month - 1) * 31 + (day - 1)) * 86400 +
        (hour * 60 + minute) * 60 + second)) =
      formatTimestamp year month day hour minute second := by
  have ht := SetTime_encodedTime_eq year month day hour minute second hy hy' hm hm' hd hd' hh
    hmi hs
  rw [if_pos hfit] at ht
  refine ⟨ht, ?_⟩
  rw [SetTime_commandString_eq]
  generalize htv : ((year - 2000) * 372 + (month - 1) * 31 + (day - 1)) * 86400 +
      (hour * 60 + minute) * 60 + second = t at hfit
  have hlt : t < 2 ^ 32 := by omega
  rw [DecodeTime_four _ _ _ _ (Nat.mod_lt _ (by norm_num)) (Nat.mod_lt _ (by norm_num))
    (Nat.mod_lt _ (by norm_num)) (Nat.mod_lt _ (by norm_num)), le32_bytes_of t hlt,
    if_neg (by omega)]
  have e1 : t / (86400 * 31 * 12) + 2000 = year := by omega
  have e2 : t / (86400 * 31) % 12 + 1 = month := by omega
  have e3 : t / 86400 % 31 + 1 = day := by omega
  have e4 : t / 3600 % 24 = hour := by omega
  have e5 : t / 60 % 60 = minute := by omega
  have e6 : t % 60 = second := by omega
  unfold timestampSpec formatTimestamp
  rw [e1, e2, e3, e4, e5, e6]

/-- Witness of `SetTime_DecodeTime_roundtrip` on 2066-10-25 03:14:07, the last
tuple whose encoded value, 2147483647, fits an `int`. -/
theorem SetTime_DecodeTime_roundtrip_witness :
    (SetTime_encodedTime 2066 10 25 3 14 7 =
      .returned (((2066 - 2000) * 372 + (10 - 1) * 31 + (25 - 1)) * 86400 +
        (3 * 60 + 14) * 60 + 7) ∧
     DecodeTime (SetTime_commandString
      (((2066 - 2000) * 372 + (10 - 1) * 31 + (25 - 1)) * 86400 + (3 * 60 + 14) * 60 + 7)) =
      formatTimestamp 2066 10 25 3 14 7) ∧
    ((2066 - 2000) * 372 + (10 - 1) * 31 + (25 - 1)) * 86400 + (3 * 60 + 14) * 60 + 7 =
      2147483647 ∧
    formatTimestamp 2066 10 25 3 14 7 = "2066-10-25T03:14:07" :=
  ⟨SetTime_DecodeTime_roundtrip 2066 10 25 3 14 7 (by decide) (by decide) (by decide)
    (by decide) (by decide) (by decide) (by decide) (by decide) (by decide) (by decide),
   by decide, by decide⟩

/-! ## Attendance rows -/

/-- C18 (as stated, refuted): in the record 05 00 01 60 6E 27 2D 0F the
timestamp field is the four bytes 60 6E 27 2D after the status byte, and the
row `GetAttendance` decodes does not carry the timestamp 2023-07-04T09:15:18. -/
theorem attendance8_example_refuted :
    ¬ ((decodeAttendance8 [] [0x05, 0x00, 0x01, 0x60, 0x6E, 0x27, 0x2D, 0x0F]).timestamp =
        "2023-07-04T09:15:18") ∧
    ¬ (GetAttendance_decode 1 []
        ([0x08, 0x00, 0x00, 0x00, 0x05, 0x00, 0x01, 0x60, 0x6E, 0x27, 0x2D, 0x0F], 12) =
      .returned [⟨std_to_string 5, "2023-07-04T09:15:18", 1, 15, 5⟩]) := by
  constructor <;> decide

/-- C18 (amended): the 8-byte attendance record 05 00 01 60 6E 27 2D 0F is
decoded by `GetAttendance` as uid = 5, status = 1, punch = 15 and timestamp =
2023-07-27T01:01:20, the decoding of its bytes 3..6 (60 6E 27 2D); with no
user of uid 5 in the list the user id is "5". -/
theorem attendance8_example :
    GetAttendance_decode 1 []
        ([0x08, 0x00, 0x00, 0x00, 0x05, 0x00, 0x01, 0x60, 0x6E, 0x27, 0x2D, 0x0F], 12) =
      .returned [⟨std_to_string 5, "2023-07-27T01:01:20", 1, 15, 5⟩] ∧
    DecodeTime [0x60, 0x6E, 0x27, 0x2D] = "2023-07-27T01:01:20" ∧
    (∀ users : List ZKTecoUser,
      (decodeAttendance8 users [0x05, 0x00, 0x01, 0x60, 0x6E, 0x27, 0x2D, 0x0F]).uid = 5 ∧
      (decodeAttendance8 users [0x05, 0x00, 0x01, 0x60, 0x6E, 0x27, 0x2D, 0x0F]).status = 1 ∧
      (decodeAttendance8 users [0x05, 0x00, 0x01, 0x60, 0x6E, 0x27, 0x2D, 0x0F]).timestamp =
        "2023-07-27T01:01:20" ∧
      (decodeAttendance8 users [0x05, 0x00, 0x01, 0x60, 0x6E, 0x27, 0x2D, 0x0F]).punch = 15) := by
  refine ⟨by decide, by decide, ?_⟩
  intro users
  refine ⟨?_, ?_, ?_, ?_⟩ <;> simp only [decodeAttendance8] <;> decide

theorem range_succ_map_eq {α : Type} (f : Nat → α) (n : Nat) :
    (List.range (n + 1)).map f = f 0 :: (List.range n).map (fun i => f (i + 1)) := by
  rw [List.range_succ_eq_map, List.map_cons, List.map_map]
  rfl

/-- The 8- and 16-byte loops of `GetAttendance` decode the records at offsets
0, P, 2P, ... and never exhaust the iteration bound. -/
theorem GetAttendance_loop_eq (P : Nat) (hP : 0 < P) (decode : List Nat → ZKTecoAttendance) :
    ∀ (fuel : Nat) (data : List Nat) (attendances : List ZKTecoAttendance),
      data.length / P ≤ fuel →
      GetAttendance_loop P P decode fuel data attendances =
        .returned (attendances ++
          (List.range (data.length / P)).map (fun i => decode (data.drop (i * P)))) := by
  intro fuel
  induction fuel with
  | zero =>
    intro data attendances h
    have h0 : data.length / P = 0 := Nat.le_zero.mp h
    have hlt : ¬ data.length ≥ P := by
      intro hge
      have := Nat.div_pos hge hP
      omega
    simp [GetAttendance_loop, hlt, h0]
  | succ fuel ih =>
    intro data attendances h
    by_cases hge : data.length ≥ P
    · have hstep : ¬ ((P : Int) < 0 ∨ (P : Int) > data.length) := by omega
      have hdiv : data.length / P = (data.length - P) / P + 1 := by
        rw [← Nat.sub_add_cancel hge, Nat.add_div_right _ hP]
        simp
      have hlen : (data.drop P).length = data.length - P := List.length_drop _ _
      simp only [GetAttendance_loop, hge, if_true, hstep, if_false, Int.toNat_ofNat]
      rw [ih (data.drop P) _ (by rw [hlen]; omega), hlen, hdiv, range_succ_map_eq,
        List.append_assoc]
      simp only [List.singleton_append, Nat.zero_mul, List.drop_zero, List.drop_drop]
      congr 3
      apply List.map_congr_left
      intro i _
      congr 1
      ring_nf
    · have h0 : data.length / P = 0 := Nat.div_eq_of_lt (by omega)
      simp [GetAttendance_loop, hge, h0]

theorem drop_take_succ (data : List Nat) (i count : Nat) (h : i < data.length) :
    (data.drop i).take (count + 1) = data.getD i 0 :: (data.drop (i + 1)).take count := by
  rw [List.getD_eq_getElem data 0 h, List.drop_eq_getElem_cons h, List.take_succ_cons]

theorem readCString_eq (data : List Nat) :
    ∀ (count i : Nat) (s : List Nat),
      readCString data count i s = s ++ ((data.drop i).take count).takeWhile (fun c => c ≠ 0) := by
  intro count
  induction count with
  | zero => intro i s; simp [readCString]
  | succ count ih =>
    intro i s
    rw [readCString]
    by_cases hi : i < data.length
    · rw [drop_take_succ data i count hi, ih]
      generalize data.getD i 0 = a
      by_cases hz : a = 0
      · subst hz; simp
      · simp [hz]
    · have h0 : data.getD i 0 = 0 := List.getD_eq_default data 0 (by omega)
      have hd : data.drop i = [] := List.drop_eq_nil_of_le (by omega)
      rw [h0, hd]
      simp

theorem readNonZero_eq (data : List Nat) :
    ∀ (count i : Nat) (s : List Nat),
      readNonZero data count i s = s ++ ((data.drop i).take count).filter (fun c => c ≠ 0) := by
  intro count
  induction count with
  | zero => intro i s; simp [readNonZero]
  | succ count ih =>
    intro i s
    rw [readNonZero]
    by_cases hi : i < data.length
    · rw [drop_take_succ data i count hi, ih, ih]
      generalize data.getD i 0 = a
      by_cases hz : a = 0
      · subst hz; simp
      · simp [hz]
    · have h0 : data.getD i 0 = 0 := List.getD_eq_default data 0 (by omega)
      have hd : data.drop i = [] := List.drop_eq_nil_of_le (by omega)
      have hd' : data.drop (i + 1) = [] := List.drop_eq_nil_of_le (by omega)
      rw [h0]
      simp [ih, hd, hd']

theorem or16_eq_le16 {data : List Nat} (hb : IsBytes data) (i j : Nat) :
    (data.getD i 0 ||| (data.getD j 0 <<< 8)) % 2 ^ 16 = le16 (data.getD i 0) (data.getD j 0) := by
  rw [or_shl_le16 _ (getD_lt_of_isBytes hb i)]
  have := getD_lt_of_isBytes hb i
  have := getD_lt_of_isBytes hb j
  unfold le16
  omega

theorem or32_eq_le32 {data : List Nat} (hb : IsBytes data) (i j k l : Nat) :
    (data.getD i 0 ||| (data.getD j 0 <<< 8) ||| (data.getD k 0 <<< 16) |||
      (data.getD l 0 <<< 24)) % 2 ^ 32 =
      le32 (data.getD i 0) (data.getD j 0) (data.getD k 0) (data.getD l 0) := by
  rw [or_shl_le32 (getD_lt_of_isBytes hb i) (getD_lt_of_isBytes hb j)
    (getD_lt_of_isBytes hb k)]
  have := getD_lt_of_isBytes hb i
  have := getD_lt_of_isBytes hb j
  have := getD_lt_of_isBytes hb k
  have := getD_lt_of_isBytes hb l
  unfold le32
  omega

/-- C19 (as stated, refuted): a 40-byte record with uid 3 and user id "99",
decoded against an empty user list, gives a row whose uid is 3, not the integer
value 99 of its user id; and an 8-byte record with uid 5, decoded against a list
whose only user has uid 7 and user id "5", gives a row with user id "5" whose
uid is 5, not the uid 7 of the user with that user id. -/
theorem attendance_uid_linking_refuted :
    (decodeAttendance40 ([0x03, 0x00, 0x39, 0x39] ++ List.replicate 36 0)).userId =
      std_to_string 99 ∧
    (decodeAttendance40 ([0x03, 0x00, 0x39, 0x39] ++ List.replicate 36 0)).uid = 3 ∧
    GetAttendance_decode 1 []
      ([0x28, 0x00, 0x00, 0x00, 0x03, 0x00, 0x39, 0x39] ++ List.replicate 36 0, 44) =
      .returned [⟨std_to_string 99, "2000-01-01T00:00:00", 0, 0, 3⟩] ∧
    (decodeAttendance8 [⟨7, [0x41], 0, [], [0x31], std_to_string 5, 0⟩]
      [0x05, 0x00, 0x01, 0x60, 0x6E, 0x27, 0x2D, 0x0F]).userId = std_to_string 5 ∧
    (decodeAttendance8 [⟨7, [0x41], 0, [], [0x31], std_to_string 5, 0⟩]
      [0x05, 0x00, 0x01, 0x60, 0x6E, 0x27, 0x2D, 0x0F]).uid = 5 := by
  refine ⟨?_, ?_, ?_, ?_, ?_⟩ <;> decide

/-- C19 (amended): in the 16-byte layout the row's user id is the decimal text
of the 32-bit field at bytes 0-3, and its uid is the uid of the first user of
the list with that user id and, when there is none, that 32-bit value converted
to `int` (the value itself below `2^31`).  In the 8-byte layout the uid is the
record's 16-bit field at bytes 0-1, and the user id is that of the first user of
the list with this uid and, when there is none, the decimal text of the uid.  In
the 40-byte layout the uid is the record's 16-bit field at bytes 0-1 and the user
id is the text at bytes 2-25 up to the first NUL; the user list is not
consulted.  The 8- and 16-byte loops decode the records at offsets 0, P, 2P,
... of the data. -/
theorem attendance_uid_linking (users : List ZKTecoUser) (data : List Nat)
    (hb : IsBytes data) :
    ((decodeAttendance16 users data).userId =
        std_to_string (le32 (data.getD 0 0) (data.getD 1 0) (data.getD 2 0) (data.getD 3 0)) ∧
      (decodeAttendance16 users data).uid =
        ((users.find? (fun user => user.userId = (decodeAttendance16 users data).userId)).map
          ZKTecoUser.uid).getD
          (toInt32 (le32 (data.getD 0 0) (data.getD 1 0) (data.getD 2 0) (data.getD 3 0))) ∧
      (le32 (data.getD 0 0) (data.getD 1 0) (data.getD 2 0) (data.getD 3 0) < 2 ^ 31 →
        toInt32 (le32 (data.getD 0 0) (data.getD 1 0) (data.getD 2 0) (data.getD 3 0)) =
          ((le32 (data.getD 0 0) (data.getD 1 0) (data.getD 2 0) (data.getD 3 0) : Nat) : Int))) ∧
    ((decodeAttendance8 users data).uid = (le16 (data.getD 0 0) (data.getD 1 0) : Nat) ∧
      (decodeAttendance8 users data).userId =
        ((users.find? (fun user => user.uid = ((le16 (data.getD 0 0) (data.getD 1 0) : Nat) : Int))).map
          ZKTecoUser.userId).getD (std_to_string (le16 (data.getD 0 0) (data.getD 1 0)))) ∧
    ((decodeAttendance40 data).uid = (le16 (data.getD 0 0) (data.getD 1 0) : Nat) ∧
      (decodeAttendance40 data).userId =
        ((data.drop 2).take 24).takeWhile (fun c => c ≠ 0)) ∧
    GetAttendance_loop 8 8 (decodeAttendance8 users) data.length data [] =
      .returned ((List.range (data.length / 8)).map
        (fun i => decodeAttendance8 users (data.drop (i * 8)))) ∧
    GetAttendance_loop 16 16 (decodeAttendance16 users) data.length data [] =
      .returned ((List.range (data.length / 16)).map
        (fun i => decodeAttendance16 users (data.drop (i * 16)))) := by
  refine ⟨⟨?_, ?_, fun h => toInt32_of_lt h⟩, ⟨?_, ?_⟩, ⟨?_, ?_⟩, ?_, ?_⟩
  · simp only [decodeAttendance16, or32_eq_le32 hb]
  · simp only [decodeAttendance16, or32_eq_le32 hb]
    cases users.find? (fun user => user.userId =
      std_to_string (le32 (data.getD 0 0) (data.getD 1 0) (data.getD 2 0) (data.getD 3 0))) <;> rfl
  · simp only [decodeAttendance8, or16_eq_le16 hb]
  · simp only [decodeAttendance8, or16_eq_le16 hb]
    cases users.find? (fun user => user.uid =
      ((le16 (data.getD 0 0) (data.getD 1 0) : Nat) : Int)) <;> rfl
  · simp only [decodeAttendance40, or16_eq_le16 hb]
  · simp only [decodeAttendance40, readCString_eq, List.nil_append]
  · have := GetAttendance_loop_eq 8 (by norm_num) (decodeAttendance8 users) data.length data []
      (Nat.div_le_self _ _)
    simpa using this
  · have := GetAttendance_loop_eq 16 (by norm_num) (decodeAttendance16 users) data.length data []
      (Nat.div_le_self _ _)
    simpa using this

/-- Witness of `attendance_uid_linking`: a 16-byte record with user id 9 and a
list whose second user has user id "9". -/
theorem attendance_uid_linking_witness :
    IsBytes [0x09, 0x00, 0x00, 0x00, 0x60, 0x6E, 0x27, 0x2D, 0x01, 0x0F, 0, 0, 0, 0, 0, 0] ∧
    (decodeAttendance16
      [⟨1, [0x41], 0, [], [0x31], std_to_string 4, 0⟩,
       ⟨2, [0x42], 0, [], [0x31], std_to_string 9, 0⟩]
      [0x09, 0x00, 0x00, 0x00, 0x60, 0x6E, 0x27, 0x2D, 0x01, 0x0F, 0, 0, 0, 0, 0, 0]).uid = 2 :=
  ⟨by decide,
    ((attendance_uid_linking
      [⟨1, [0x41], 0, [], [0x31], std_to_string 4, 0⟩,
       ⟨2, [0x42], 0, [], [0x31], std_to_string 9, 0⟩]
      [0x09, 0x00, 0x00, 0x00, 0x60, 0x6E, 0x27, 0x2D, 0x01, 0x0F, 0, 0, 0, 0, 0, 0]
      (by decide)).1.2.1).trans (by decide)⟩

/-! ## Decimal text -/

theorem digitChar_toNat : ∀ d : Nat, d < 10 → (Nat.digitChar d).toNat = 0x30 + d := by
  decide

theorem digitsValue_foldl (l : List Nat) :
    ∀ a : Nat, l.foldl (fun a c => 10 * a + (c - 0x30)) a =
      a * 10 ^ l.length + l.foldl (fun a c => 10 * a + (c - 0x30)) 0 := by
  induction l with
  | nil => intro a; simp
  | cons c l ih =>
    intro a
    simp only [List.foldl_cons, List.length_cons]
    rw [ih (10 * a + (c - 0x30)), ih (10 * 0 + (c - 0x30))]
    ring

theorem digitsValue_cons (c : Nat) (l : List Nat) :
    digitsValue (c :: l) = (c - 0x30) * 10 ^ l.length + digitsValue l := by
  unfold digitsValue
  rw [List.foldl_cons, digitsValue_foldl l (10 * 0 + (c - 0x30))]
  ring

theorem toDigitsCore_spec :
    ∀ (fuel n : Nat) (ds : List Char), n < fuel →
      (∀ c ∈ ds, isDigitChar c.toNat = true) →
      (∀ c ∈ Nat.toDigitsCore 10 fuel n ds, isDigitChar c.toNat = true) ∧
      digitsValue ((Nat.toDigitsCore 10 fuel n ds).map Char.toNat) =
        n * 10 ^ ds.length + digitsValue (ds.map Char.toNat) ∧
      Nat.toDigitsCore 10 fuel n ds ≠ [] := by
  intro fuel
  induction fuel with
  | zero => intro n ds h; omega
  | succ fuel ih =>
    intro n ds hn hds
    have hd : (Nat.digitChar (n % 10)).toNat = 0x30 + n % 10 :=
      digitChar_toNat _ (Nat.mod_lt _ (by norm_num))
    have hdig : isDigitChar (Nat.digitChar (n % 10)).toNat = true := by
      rw [hd]
      have : n % 10 < 10 := Nat.mod_lt _ (by norm_num)
      simp only [isDigitChar, decide_eq_true_eq, Bool.decide_and, Bool.and_eq_true]
      omega
    have hds' : ∀ c ∈ Nat.digitChar (n % 10) :: ds, isDigitChar c.toNat = true := by
      intro c hc
      rcases List.mem_cons.mp hc with h | h
      · rw [h]; exact hdig
      · exact hds c h
    have hval : digitsValue ((Nat.digitChar (n % 10) :: ds).map Char.toNat) =
        (n % 10) * 10 ^ ds.length + digitsValue (ds.map Char.toNat) := by
      rw [List.map_cons, digitsValue_cons, hd, List.length_map, Nat.add_sub_cancel_left]
    simp only [Nat.toDigitsCore]
    by_cases h0 : n / 10 = 0
    · simp only [h0, if_true]
      refine ⟨hds', ?_, by simp⟩
      rw [hval]
      have : n % 10 = n := by omega
      rw [this]
    · simp only [h0, if_false]
      obtain ⟨h1, h2, h3⟩ := ih (n / 10) (Nat.digitChar (n % 10) :: ds) (by omega) hds'
      refine ⟨h1, ?_, h3⟩
      rw [h2, hval, List.length_cons, pow_succ]
      have hdm := Nat.div_add_mod n 10
      generalize n / 10 = q at hdm ⊢
      generalize n % 10 = r at hdm ⊢
      rw [← hdm]
      ring

theorem std_to_string_digits (n : Nat) : ∀ c ∈ std_to_string n, isDigitChar c = true := by
  intro c hc
  unfold std_to_string at hc
  obtain ⟨ch, hch, rfl⟩ := List.mem_map.mp hc
  exact (toDigitsCore_spec (n + 1) n [] (by omega) (by simp)).1 ch hch

theorem digitsValue_std_to_string (n : Nat) : digitsValue (std_to_string n) = n := by
  have := (toDigitsCore_spec (n + 1) n [] (by omega) (by simp)).2.1
  simpa [std_to_string, Nat.toDigits, digitsValue] using this

theorem std_to_string_ne_nil (n : Nat) : std_to_string n ≠ [] := by
  have := (toDigitsCore_spec (n + 1) n [] (by omega) (by simp)).2.2
  simpa [std_to_string, Nat.toDigits] using this

theorem std_to_string_injective {a b : Nat} (h : std_to_string a = std_to_string b) : a = b := by
  rw [← digitsValue_std_to_string a, ← digitsValue_std_to_string b, h]

theorem le16_bytes_or (n : Nat) (hn : n < 65536) :
    (n % 256 ||| (n / 256 % 256) <<< 8) % 2 ^ 16 = n := by
  rw [or_shl_le16 _ (Nat.mod_lt _ (by norm_num))]
  unfold le16
  omega

theorem le32_bytes_or (n : Nat) (hn : n < 2 ^ 32) :
    (n % 256 ||| (n / 256 % 256) <<< 8 ||| (n / 65536 % 256) <<< 16 |||
      (n / 16777216 % 256) <<< 24) % 2 ^ 32 = n := by
  rw [or_shl_le32 (Nat.mod_lt _ (by norm_num)) (Nat.mod_lt _ (by norm_num))
    (Nat.mod_lt _ (by norm_num))]
  unfold le32
  omega

theorem take_drop_header (a b c d e f : Nat) (blob tail : List Nat) :
    ((a :: b :: c :: d :: e :: f :: (blob ++ tail)).take (6 + blob.length)).drop 6 = blob := by
  rw [Nat.add_comm]
  simp only [List.take_succ_cons, List.drop_succ_cons, List.drop_zero, List.take_left]

theorem drop_header (a b c d e f : Nat) (blob tail : List Nat) :
    (a :: b :: c :: d :: e :: f :: (blob ++ tail)).drop (6 + blob.length) = tail := by
  rw [Nat.add_comm]
  simp only [List.drop_succ_cons, List.drop_left]

theorem templateRecords_length (rs : List TemplateRecord) :
    rs.length ≤ (templateRecords rs).length := by
  induction rs with
  | nil => simp [templateRecords]
  | cons r rs ih =>
    simp only [templateRecords, TemplateRecord.bytes, List.length_append, List.length_cons,
      List.length_nil]
    omega

theorem GetTemplates_loop_records :
    ∀ (rs : List TemplateRecord) (fuel : Nat) (templates : List ZKTecoFinger),
      (∀ r ∈ rs, r.WellFormed) → templateTotal rs < 2 ^ 32 → rs.length ≤ fuel →
      GetTemplates_loop fuel (templateTotal rs) (templateRecords rs) templates =
        .returned (templates ++ rs.map TemplateRecord.finger) := by
  intro rs
  induction rs with
  | nil =>
    intro fuel templates _ _ _
    cases fuel <;> simp [GetTemplates_loop, templateTotal]
  | cons r rs ih =>
    intro fuel templates hwf htot hfuel
    obtain ⟨hsz, huid, hfid, hvalid, hblob⟩ := hwf r (List.mem_cons_self _ _)
    have hwf' : ∀ r ∈ rs, r.WellFormed := fun x hx => hwf x (List.mem_cons_of_mem _ hx)
    cases fuel with
    | zero => simp at hfuel
    | succ fuel =>
      have hsize : r.size = 6 + r.blob.length := rfl
      simp only [templateTotal] at htot ⊢
      have hpos : r.size + templateTotal rs > 0 := by omega
      have hdata : templateRecords (r :: rs) =
          (r.size % 256) :: (r.size / 256 % 256) :: (r.uid % 256) :: (r.uid / 256 % 256) ::
            r.fid :: r.valid :: (r.blob ++ templateRecords rs) := by
        simp [templateRecords, TemplateRecord.bytes]
      have hlen : (templateRecords (r :: rs)).length = r.size + (templateRecords rs).length := by
        rw [hdata]; simp [hsize]; omega
      have htake : ((templateRecords (r :: rs)).take r.size).drop 6 = r.blob := by
        rw [hdata, hsize]
        exact take_drop_header _ _ _ _ _ _ _ _
      have hdrop : (templateRecords (r :: rs)).drop r.size = templateRecords rs := by
        rw [hdata, hsize]
        exact drop_header _ _ _ _ _ _ _ _
      have hg0 : (templateRecords (r :: rs)).getD 0 0 = r.size % 256 := by rw [hdata]; rfl
      have hg1 : (templateRecords (r :: rs)).getD 1 0 = r.size / 256 % 256 := by rw [hdata]; rfl
      have hg2 : (templateRecords (r :: rs)).getD 2 0 = r.uid % 256 := by rw [hdata]; rfl
      have hg3 : (templateRecords (r :: rs)).getD 3 0 = r.uid / 256 % 256 := by rw [hdata]; rfl
      have hg4 : (templateRecords (r :: rs)).getD 4 0 = r.fid := by rw [hdata]; rfl
      have hg5 : (templateRecords (r :: rs)).getD 5 0 = r.valid := by rw [hdata]; rfl
      have hrest : (r.size + templateTotal rs + 2 ^ 32 - r.size) % 2 ^ 32 = templateTotal rs := by
        omega
      rw [GetTemplates_loop, if_pos hpos, if_neg (by omega)]
      simp only [hg0, hg1, hg2, hg3, hg4, hg5, le16_bytes_or _ hsz, le16_bytes_or _ huid]
      rw [if_neg (by omega), if_neg (by omega), htake, hdrop, hrest,
        ih fuel _ hwf' (by omega) (by simpa using hfuel)]
      simp [TemplateRecord.finger]

/-- C20: for every list of template records whose fields fit their widths (a
16-bit size of 6 plus the blob length, a 16-bit uid, 8-bit finger index and
validity flag) and whose sizes sum to a total below 2^32, `GetTemplates`, on a
device that reports fingerprints and given the dataset of the 32-bit total and
the records, returns exactly one finger per record, in order, with the
record's uid, finger index, validity flag and blob. -/
theorem GetTemplates_dataset (m : Members) (rs : List TemplateRecord) (size : Int)
    (hm : m.fingers ≠ 0) (hwf : ∀ r ∈ rs, r.WellFormed) (htot : templateTotal rs < 2 ^ 32)
    (hsize : 4 ≤ size) :
    GetTemplates_body m (templateDataset rs, size) =
      .returned (rs.map TemplateRecord.finger) ∧
    ∀ r ∈ rs, r.finger.template.length = r.size - 6 ∧
      r.finger.template = (r.bytes.take r.size).drop 6 := by
  constructor
  · have hds : templateDataset rs =
        (templateTotal rs % 256) :: (templateTotal rs / 256 % 256) ::
          (templateTotal rs / 65536 % 256) :: (templateTotal rs / 16777216 % 256) ::
            templateRecords rs := rfl
    have hg0 : (templateDataset rs).getD 0 0 = templateTotal rs % 256 := rfl
    have hg1 : (templateDataset rs).getD 1 0 = templateTotal rs / 256 % 256 := rfl
    have hg2 : (templateDataset rs).getD 2 0 = templateTotal rs / 65536 % 256 := rfl
    have hg3 : (templateDataset rs).getD 3 0 = templateTotal rs / 16777216 % 256 := rfl
    have hdrop : (templateDataset rs).drop 4 = templateRecords rs := rfl
    have hlen : ¬ (templateDataset rs).length < 4 := by rw [hds]; simp
    unfold GetTemplates_body
    rw [if_neg hm]
    unfold GetTemplates_decode
    simp only [hg0, hg1, hg2, hg3, hdrop]
    rw [if_neg (by omega), if_neg hlen, le32_bytes_or _ htot,
      GetTemplates_loop_records rs _ [] hwf htot (by have := templateRecords_length rs; omega)]
    simp
  · intro r _
    refine ⟨by simp [TemplateRecord.finger, TemplateRecord.size], ?_⟩
    have h := take_drop_header (r.size % 256) (r.size / 256 % 256) (r.uid % 256)
      (r.uid / 256 % 256) r.fid r.valid r.blob []
    rw [List.append_nil] at h
    exact h.symm

/-- Witness of `GetTemplates_dataset`: two records, the second with an empty
blob. -/
theorem GetTemplates_dataset_witness :
    GetTemplates_body { Members.construct with fingers := 2 }
        (templateDataset [⟨1, 0, 1, [0xAA, 0xBB]⟩, ⟨2, 3, 1, []⟩], 18) =
      .returned [⟨1, 0, 1, [0xAA, 0xBB]⟩, ⟨2, 3, 1, []⟩] :=
  (GetTemplates_dataset { Members.construct with fingers := 2 }
    [⟨1, 0, 1, [0xAA, 0xBB]⟩, ⟨2, 3, 1, []⟩] 18 (by decide)
    (by
      intro r hr
      simp only [List.mem_cons, List.mem_singleton, List.not_mem_nil, or_false] at hr
      rcases hr with h | h <;> subst h <;>
        exact ⟨by decide, by decide, by decide, by decide, by decide⟩)
    (by decide) (by decide)).1

/-- C17 (code bug): with the packet size 28, `SetUser` for uid 1, name "Bob",
privilege 0, password 123, group id "1", user id "5" and card 0 builds a
28-byte payload that holds the group id as four bytes at offsets 20..23 and the
user id as two bytes at offsets 25..26; the 28-byte branch of `GetUsers`, which
reads the group id at offset 21 and the user id as the 32-bit word at offsets
24..27, decodes it with group id "0" and user id "1280". -/
theorem SetUser28_decode_mismatch :
    SetUser_commandString sampleConstants { Members.construct with userPacketSize := 28 }
        1 [0x42, 0x6F, 0x62] 0 123 [0x31] [0x35] 0 =
      some [1, 0, 0, 0x31, 0x32, 0x33, 0, 0, 0x42, 0x6F, 0x62, 0, 0, 0, 0, 0,
            0, 0, 0, 0, 1, 0, 0, 0, 0, 5, 0, 0] ∧
    decodeUser28 [1, 0, 0, 0x31, 0x32, 0x33, 0, 0, 0x42, 0x6F, 0x62, 0, 0, 0, 0, 0,
                  0, 0, 0, 0, 1, 0, 0, 0, 0, 5, 0, 0] =
      ⟨1, [0x42, 0x6F, 0x62], 0, [0x31, 0x32, 0x33], std_to_string 0, std_to_string 1280, 0⟩ ∧
    std_to_string 0 ≠ [0x31] ∧ std_to_string 1280 ≠ [0x35] ∧
    GetUsers_body { Members.construct with users := 1 }
        ([28, 0, 0, 0, 1, 0, 0, 0x31, 0x32, 0x33, 0, 0, 0x42, 0x6F, 0x62, 0, 0, 0, 0, 0,
          0, 0, 0, 0, 1, 0, 0, 0, 0, 5, 0, 0], 32) =
      .returned
        ([⟨1, [0x42, 0x6F, 0x62], 0, [0x31, 0x32, 0x33], std_to_string 0, std_to_string 1280, 0⟩],
         { Members.construct with users := 1, userPacketSize := 28, nextUid := 2,
                                  nextUserId := std_to_string 2 }) := by
  refine ⟨?_, ?_, ?_, ?_, ?_⟩ <;> decide

theorem getD_append_mid (pre post : List Nat) (x k : Nat) (hk : pre.length = k) :
    (pre ++ x :: post).getD k 0 = x := by
  subst hk
  rw [List.getD_eq_getElem?_getD, List.getElem?_append_right (Nat.le_refl _)]
  simp

theorem slice_append (pre seg post : List Nat) (k n : Nat) (hk : pre.length = k)
    (hn : seg.length = n) : ((pre ++ (seg ++ post)).drop k).take n = seg := by
  subst hk; subst hn
  rw [List.drop_left, List.take_left]

theorem resizeBytes_length (n : Nat) (l : List Nat) : (resizeBytes n l).length = n := by
  simp only [resizeBytes, List.length_append, List.length_take, List.length_replicate]
  omega

theorem resizeBytes_of_le (n : Nat) (l : List Nat) (h : l.length ≤ n) :
    resizeBytes n l = l ++ List.replicate (n - l.length) 0 := by
  rw [resizeBytes, List.take_of_length_le h]

theorem resizeBytes_take (n : Nat) (l : List Nat) :
    resizeBytes n l = l.take n ++ List.replicate (n - (l.take n).length) 0 := by
  rw [resizeBytes, List.length_take]
  congr 2
  omega

theorem filter_pad (l : List Nat) (k : Nat) (h : ∀ c ∈ l, c ≠ 0) :
    (l ++ List.replicate k 0).filter (fun c => c ≠ 0) = l := by
  rw [List.filter_append]
  have h1 : l.filter (fun c => c ≠ 0) = l := by
    rw [List.filter_eq_self]
    intro c hc
    simpa using h c hc
  have h2 : (List.replicate k 0).filter (fun c => c ≠ 0) = [] := by
    rw [List.filter_eq_nil_iff]
    intro c hc
    have := List.eq_of_mem_replicate hc
    simp [this]
  rw [h1, h2, List.append_nil]

theorem takeWhile_pad (l : List Nat) (k : Nat) (h : ∀ c ∈ l, c ≠ 0) :
    (l ++ List.replicate k 0).takeWhile (fun c => c ≠ 0) = l := by
  induction l with
  | nil =>
    cases k with
    | zero => rfl
    | succ k => simp [List.replicate_succ]
  | cons a l ih =>
    have ha : a ≠ 0 := h a (List.mem_cons_self _ _)
    have hl : ∀ c ∈ l, c ≠ 0 := fun c hc => h c (List.mem_cons_of_mem _ hc)
    have hi := ih hl
    rw [List.cons_append, List.takeWhile_cons, hi]
    simp [ha]

/-- The 72-byte branch of `GetUsers` on a record given by its fields. -/
theorem decodeUser72_fields (u0 u1 pr c0 c1 c2 c3 g : Nat) (P N GS U : List Nat)
    (hP : P.length = 8) (hN : N.length = 24) (hGS : GS.length = 7) (hU : U.length = 24) :
    decodeUser72 ([u0, u1, pr] ++ P ++ N ++ [c0, c1, c2, c3] ++ [g] ++ GS ++ [0] ++ U) =
      ⟨((u0 ||| (u1 <<< 8)) % 2 ^ 16 : Nat),
       if (trimTrailing (N.takeWhile (fun c => c ≠ 0))).isEmpty then
         [0x4E, 0x4E, 0x2D] ++ U.takeWhile (fun c => c ≠ 0)
       else trimTrailing (N.takeWhile (fun c => c ≠ 0)),
       (pr : Nat), P.filter (fun c => c ≠ 0), std_to_string g,
       U.takeWhile (fun c => c ≠ 0),
       ((c0 ||| (c1 <<< 8) ||| (c2 <<< 16) ||| (c3 <<< 24)) % 2 ^ 32 : Nat)⟩ := by
  generalize hd : [u0, u1, pr] ++ P ++ N ++ [c0, c1, c2, c3] ++ [g] ++ GS ++ [0] ++ U = d
  have g0 : d.getD 0 0 = u0 := by rw [← hd]; rfl
  have g1 : d.getD 1 0 = u1 := by rw [← hd]; rfl
  have g2 : d.getD 2 0 = pr := by rw [← hd]; rfl
  have sP : (d.drop 3).take 8 = P := by
    rw [← hd]
    have : [u0, u1, pr] ++ P ++ N ++ [c0, c1, c2, c3] ++ [g] ++ GS ++ [0] ++ U =
        [u0, u1, pr] ++ (P ++ (N ++ [c0, c1, c2, c3] ++ [g] ++ GS ++ [0] ++ U)) := by
      simp only [List.append_assoc]
    rw [this]
    exact slice_append _ _ _ _ _ rfl hP
  have sN : (d.drop 11).take 24 = N := by
    rw [← hd]
    have : [u0, u1, pr] ++ P ++ N ++ [c0, c1, c2, c3] ++ [g] ++ GS ++ [0] ++ U =
        ([u0, u1, pr] ++ P) ++ (N ++ ([c0, c1, c2, c3] ++ [g] ++ GS ++ [0] ++ U)) := by
      simp only [List.append_assoc]
    rw [this]
    exact slice_append _ _ _ _ _ (by simp [hP]) hN
  have hpre : ([u0, u1, pr] ++ P ++ N).length = 35 := by simp [hP, hN]
  have g35 : d.getD 35 0 = c0 := by
    rw [← hd]
    have : [u0, u1, pr] ++ P ++ N ++ [c0, c1, c2, c3] ++ [g] ++ GS ++ [0] ++ U =
        ([u0, u1, pr] ++ P ++ N) ++ c0 :: ([c1, c2, c3] ++ [g] ++ GS ++ [0] ++ U) := by
      simp only [List.append_assoc, List.cons_append, List.nil_append]
    rw [this]
    exact getD_append_mid _ _ _ _ hpre
  have g36 : d.getD 36 0 = c1 := by
    rw [← hd]
    have : [u0, u1, pr] ++ P ++ N ++ [c0, c1, c2, c3] ++ [g] ++ GS ++ [0] ++ U =
        ([u0, u1, pr] ++ P ++ N ++ [c0]) ++ c1 :: ([c2, c3] ++ [g] ++ GS ++ [0] ++ U) := by
      simp only [List.append_assoc, List.cons_append, List.nil_append]
    rw [this]
    exact getD_append_mid _ _ _ _ (by simp [hP, hN])
  have g37 : d.getD 37 0 = c2 := by
    rw [← hd]
    have : [u0, u1, pr] ++ P ++ N ++ [c0, c1, c2, c3] ++ [g] ++ GS ++ [0] ++ U =
        ([u0, u1, pr] ++ P ++ N ++ [c0, c1]) ++ c2 :: ([c3] ++ [g] ++ GS ++ [0] ++ U) := by
      simp only [List.append_assoc, List.cons_append, List.nil_append]
    rw [this]
    exact getD_append_mid _ _ _ _ (by simp [hP, hN])
  have g38 : d.getD 38 0 = c3 := by
    rw [← hd]
    have : [u0, u1, pr] ++ P ++ N ++ [c0, c1, c2, c3] ++ [g] ++ GS ++ [0] ++ U =
        ([u0, u1, pr] ++ P ++ N ++ [c0, c1, c2]) ++ c3 :: ([g] ++ GS ++ [0] ++ U) := by
      simp only [List.append_assoc, List.cons_append, List.nil_append]
    rw [this]
    exact getD_append_mid _ _ _ _ (by simp [hP, hN])
  have g39 : d.getD 39 0 = g := by
    rw [← hd]
    have : [u0, u1, pr] ++ P ++ N ++ [c0, c1, c2, c3] ++ [g] ++ GS ++ [0] ++ U =
        ([u0, u1, pr] ++ P ++ N ++ [c0, c1, c2, c3]) ++ g :: (GS ++ [0] ++ U) := by
      simp only [List.append_assoc, List.cons_append, List.nil_append]
    rw [this]
    exact getD_append_mid _ _ _ _ (by simp [hP, hN])
  have sU : (d.drop 48).take 24 = U := by
    rw [← hd]
    have : [u0, u1, pr] ++ P ++ N ++ [c0, c1, c2, c3] ++ [g] ++ GS ++ [0] ++ U =
        ([u0, u1, pr] ++ P ++ N ++ [c0, c1, c2, c3] ++ [g] ++ GS ++ [0]) ++ (U ++ []) := by
      simp only [List.append_assoc, List.append_nil]
    rw [this]
    exact slice_append _ _ _ _ _ (by simp [hP, hN, hGS]) hU
  unfold decodeUser72
  simp only [readNonZero_eq, readCString_eq, List.nil_append, g0, g1, g2, g35, g36, g37, g38,
    g39, sP, sN, sU]

theorem std_to_string_int_natCast (n : Nat) : std_to_string_int (n : Int) = std_to_string n := by
  unfold std_to_string_int
  rw [if_neg (by omega)]
  simp

/-- The loops `while (userData.size() >= P)` of `GetUsers` decode the records at
offsets 0, P, 2P, ... and never exhaust the iteration bound. -/
theorem GetUsers_loop_eq (P : Nat) (hP : 0 < P) (decode : List Nat → ZKTecoUser) :
    ∀ (fuel : Nat) (data : List Nat) (users : List ZKTecoUser) (maxUid : Int),
      data.length / P ≤ fuel →
      GetUsers_loop P decode fuel data users maxUid =
        (users ++ (List.range (data.length / P)).map (fun i => decode (data.drop (i * P))),
         ((List.range (data.length / P)).map (fun i => decode (data.drop (i * P)))).foldl
           (fun a user => max a user.uid) maxUid) := by
  intro fuel
  induction fuel with
  | zero =>
    intro data users maxUid h
    have h0 : data.length / P = 0 := Nat.le_zero.mp h
    simp [GetUsers_loop, h0]
  | succ fuel ih =>
    intro data users maxUid h
    by_cases hge : data.length ≥ P
    · have hdiv : data.length / P = (data.length - P) / P + 1 := by
        rw [← Nat.sub_add_cancel hge, Nat.add_div_right _ hP]
        simp
      have hlen : (data.drop P).length = data.length - P := List.length_drop _ _
      have hnot : ¬ data.length < P := by omega
      have hmax : (if (decode data).uid > maxUid then (decode data).uid else maxUid) =
          max maxUid (decode data).uid := by
        rw [max_def]
        split_ifs <;> omega
      rw [GetUsers_loop, if_pos hge]
      simp only [if_neg hnot]
      rw [ih (data.drop P) _ _ (by rw [hlen]; omega), hlen, hdiv, range_succ_map_eq,
        List.append_assoc, hmax]
      simp only [List.singleton_append, Nat.zero_mul, List.drop_zero, List.drop_drop,
        List.foldl_cons]
      have hmap : (List.range ((data.length - P) / P)).map
            (fun i => decode (data.drop (P + i * P))) =
          (List.range ((data.length - P) / P)).map
            (fun i => decode (data.drop ((i + 1) * P))) := by
        apply List.map_congr_left
        intro i _
        congr 2
        ring
      rw [hmap]
    · have h0 : data.length / P = 0 := Nat.div_eq_of_lt (by omega)
      simp [GetUsers_loop, hge, h0]

theorem GetUsers_loop_maxUid (P : Nat) (hP : 0 < P) (decode : List Nat → ZKTecoUser)
    (data : List Nat) :
    (GetUsers_loop P decode data.length data [] 0).2 =
      maxUidOf (GetUsers_loop P decode data.length data [] 0).1 := by
  rw [GetUsers_loop_eq P hP decode _ _ _ _ (Nat.div_le_self _ _)]
  simp [maxUidOf]

/-- The closing loop of `GetUsers` stops at the first candidate at or after
`a` whose decimal text no user has, when there is one within the iteration
bound. -/
theorem GetUsers_nextLoop_first (users : List ZKTecoUser) :
    ∀ (fuel a : Nat),
      (∃ k, a ≤ k ∧ k < a + fuel ∧ std_to_string k ∉ users.map ZKTecoUser.userId) →
      ∃ k, GetUsers_nextLoop users fuel (a : Int) (std_to_string a) = some (std_to_string k) ∧
        a ≤ k ∧ std_to_string k ∉ users.map ZKTecoUser.userId ∧
        ∀ j, a ≤ j → j < k → std_to_string j ∈ users.map ZKTecoUser.userId := by
  intro fuel
  induction fuel with
  | zero =>
    rintro a ⟨k, h1, h2, _⟩
    omega
  | succ fuel ih =>
    rintro a ⟨k, h1, h2, h3⟩
    have hany : (users.any (fun user => user.userId = std_to_string a)) = true ↔
        std_to_string a ∈ users.map ZKTecoUser.userId := by
      simp [List.any_eq_true, List.mem_map]
    by_cases hin : std_to_string a ∈ users.map ZKTecoUser.userId
    · have hk : a ≠ k := by
        intro h
        subst h
        exact h3 hin
      obtain ⟨k', e1, e2, e3, e4⟩ := ih (a + 1) ⟨k, by omega, by omega, h3⟩
      refine ⟨k', ?_, by omega, e3, ?_⟩
      · rw [GetUsers_nextLoop, if_pos (hany.mpr hin)]
        have hc : ((a : Int) + 1) = ((a + 1 : Nat) : Int) := by push_cast; rfl
        rw [hc, std_to_string_int_natCast]
        exact e1
      · intro j hj1 hj2
        by_cases hja : j = a
        · subst hja; exact hin
        · exact e4 j (by omega) hj2
    · refine ⟨a, ?_, le_refl _, hin, ?_⟩
      · rw [GetUsers_nextLoop, if_neg (fun h => hin (hany.mp h))]
      · intro j hj1 hj2
        omega

/-- Among `users.length + 1` consecutive numbers one has a decimal text that
is the user id of no user. -/
theorem exists_free_userId (users : List ZKTecoUser) (a : Nat) :
    ∃ k, a ≤ k ∧ k < a + (users.length + 1) ∧
      std_to_string k ∉ users.map ZKTecoUser.userId := by
  by_contra hcon
  have hall : ∀ i, i < users.length + 1 →
      std_to_string (a + i) ∈ users.map ZKTecoUser.userId := by
    intro i hi
    by_contra hni
    exact hcon ⟨a + i, by omega, by omega, hni⟩
  have hnodup : ((List.range (users.length + 1)).map (fun i => std_to_string (a + i))).Nodup := by
    apply List.Nodup.map
    · intro x y hxy
      have := std_to_string_injective hxy
      omega
    · exact List.nodup_range _
  have hsub : (List.range (users.length + 1)).map (fun i => std_to_string (a + i)) ⊆
      users.map ZKTecoUser.userId := by
    intro s hs
    obtain ⟨i, hi, rfl⟩ := List.mem_map.mp hs
    exact hall i (List.mem_range.mp hi)
  have hle := (List.Nodup.subperm hnodup hsub).length_le
  simp at hle

theorem foldl_max_le (users : List ZKTecoUser) :
    ∀ a : Int, a ≤ users.foldl (fun a user => max a user.uid) a := by
  induction users with
  | nil => intro a; exact le_refl _
  | cons u users ih =>
    intro a
    rw [List.foldl_cons]
    exact le_trans (le_max_left _ _) (ih _)

theorem maxUidOf_nonneg (users : List ZKTecoUser) : 0 ≤ maxUidOf users :=
  foldl_max_le users 0

/-- The tail of `GetUsers` after the decoding loops: the closing loop returns,
and `nextUserId_` becomes the decimal text of the least number from
`max(uid) + 1` on that is the user id of no decoded user. -/
theorem GetUsers_nextLoop_result (users : List ZKTecoUser) :
    ∃ k : Nat,
      GetUsers_nextLoop users (users.length + 1) (maxUidOf users + 1)
        (std_to_string_int (maxUidOf users + 1)) = some (std_to_string k) ∧
      (∀ u ∈ users, u.userId ≠ std_to_string k) ∧
      maxUidOf users + 1 ≤ (k : Int) ∧
      ∀ j : Nat, maxUidOf users + 1 ≤ (j : Int) → j < k →
        ∃ u ∈ users, u.userId = std_to_string j := by
  have h0 := maxUidOf_nonneg users
  obtain ⟨a, ha⟩ : ∃ a : Nat, (a : Int) = maxUidOf users + 1 :=
    ⟨(maxUidOf users + 1).toNat, by omega⟩
  obtain ⟨k, e1, e2, e3, e4⟩ :=
    GetUsers_nextLoop_first users (users.length + 1) a (exists_free_userId users a)
  refine ⟨k, ?_, ?_, by omega, ?_⟩
  · rw [← ha, std_to_string_int_natCast]
    exact e1
  · intro u hu heq
    exact e3 (List.mem_map.mpr ⟨u, hu, heq⟩)
  · intro j hj1 hj2
    obtain ⟨u, hu, heq⟩ := List.mem_map.mp (e4 j (by omega) hj2)
    exact ⟨u, hu, heq⟩

/-- The decoding path of `GetUsers`: the function returns the users the loop
for the discovered packet size decodes, `nextUid_` is `max(uid) + 1` and
`nextUserId_` the decimal text of the least number from there on that is the
user id of no returned user. -/
theorem GetUsers_body_decode (m : Members) (userdata : List Nat) (size : Int)
    (hm : m.users ≠ 0) (hsize : 4 < size) (hlen : 4 ≤ userdata.length) :
    ∃ (users : List ZKTecoUser) (m1 : Members) (k : Nat),
      users = (if toInt32 ((userdata.getD 0 0 ||| (userdata.getD 1 0 <<< 8) |||
                (userdata.getD 2 0 <<< 16) ||| (userdata.getD 3 0 <<< 24)) % 2 ^ 32 /
                toUInt32 m.users) = 28
            then GetUsers_loop 28 decodeUser28 (userdata.drop 4).length (userdata.drop 4) [] 0
            else GetUsers_loop 72 decodeUser72 (userdata.drop 4).length
              (userdata.drop 4) [] 0).1 ∧
      GetUsers_body m (userdata, size) = .returned (users, m1) ∧
      m1.nextUserId = std_to_string k ∧
      m1.nextUid = maxUidOf users + 1 ∧
      (∀ u ∈ users, u.userId ≠ std_to_string k) ∧
      maxUidOf users + 1 ≤ (k : Int) ∧
      ∀ j : Nat, maxUidOf users + 1 ≤ (j : Int) → j < k →
        ∃ u ∈ users, u.userId = std_to_string j := by
  generalize hps : toInt32 ((userdata.getD 0 0 ||| (userdata.getD 1 0 <<< 8) |||
    (userdata.getD 2 0 <<< 16) ||| (userdata.getD 3 0 <<< 24)) % 2 ^ 32 / toUInt32 m.users) = ps
  have hmax : (if ps = 28
      then GetUsers_loop 28 decodeUser28 (userdata.drop 4).length (userdata.drop 4) [] 0
      else GetUsers_loop 72 decodeUser72 (userdata.drop 4).length (userdata.drop 4) [] 0).2 =
      maxUidOf (if ps = 28
      then GetUsers_loop 28 decodeUser28 (userdata.drop 4).length (userdata.drop 4) [] 0
      else GetUsers_loop 72 decodeUser72 (userdata.drop 4).length (userdata.drop 4) [] 0).1 := by
    split_ifs
    · exact GetUsers_loop_maxUid 28 (by norm_num) _ _
    · exact GetUsers_loop_maxUid 72 (by norm_num) _ _
  generalize hL : (if ps = 28
      then GetUsers_loop 28 decodeUser28 (userdata.drop 4).length (userdata.drop 4) [] 0
      else GetUsers_loop 72 decodeUser72 (userdata.drop 4).length (userdata.drop 4) [] 0) = L
      at hmax
  obtain ⟨us, mx⟩ := L
  simp only at hmax
  obtain ⟨k, e1, e2, e3, e4⟩ := GetUsers_nextLoop_result us
  refine ⟨us, ({ m with userPacketSize := ps, nextUid := maxUidOf us + 1,
                        nextUserId := std_to_string k } : Members),
    k, rfl, ?_, rfl, rfl, e2, e3, e4⟩
  unfold GetUsers_body
  simp only [if_neg hm, if_neg (not_le.mpr hsize), if_neg (not_lt.mpr hlen), hps, hL, hmax, e1]

theorem std_to_string_ne_minus (n : Nat) : std_to_string n ≠ [0x2D, 0x31] := by
  intro h
  have := std_to_string_digits n 0x2D (by rw [h]; simp)
  revert this
  decide

/-- C15 (as stated, refuted): after `GetUsers` on a device without users
(`nextUid_` 0, `nextUserId_` "0"), a successful `DeleteUser(-1, "")` (`nextUid_`
-1) and a successful `SetUser(5, "", 0, 0, "", "0", 0)` (`nextUserId_` "-1"), a
call of `GetUsers` that finds users reported and gets no user data returns an
empty list and leaves `nextUserId_` as "-1", which is the decimal text of no
non-negative integer. -/
theorem GetUsers_nextUserId_refuted :
    GetUsers_body Members.construct ([], 0) =
      .returned ([], { Members.construct with nextUid := 0, nextUserId := [0x30] }) ∧
    DeleteUser_members { Members.construct with nextUid := 0, nextUserId := [0x30] } (-1) =
      { Members.construct with nextUid := -1, nextUserId := [0x30] } ∧
    (SetUser_commandString sampleConstants
      { Members.construct with nextUid := -1, nextUserId := [0x30] }
      5 [] 0 0 [] [0x30] 0).isSome = true ∧
    SetUser_members { Members.construct with nextUid := -1, nextUserId := [0x30] } 5 [0x30] =
      { Members.construct with nextUid := -1, nextUserId := [0x2D, 0x31] } ∧
    GetUsers_body { Members.construct with users := 1, nextUid := -1, nextUserId := [0x2D, 0x31] }
        ([], 0) =
      .returned ([], { Members.construct with users := 1, nextUid := -1,
                                              nextUserId := [0x2D, 0x31] }) ∧
    ∀ n : Nat, std_to_string n ≠ [0x2D, 0x31] := by
  refine ⟨by decide, by decide, by decide, by decide, by decide, std_to_string_ne_minus⟩

/-- C15 (amended): a call of `GetUsers` on a device that reports no user leaves
`nextUserId_` as "0" and returns no user; a call that gets at most 4 bytes
returns no user and leaves the members as they were; and a call that decodes a
dataset returns, with `nextUserId_` the decimal text of the smallest integer
`k >= max(uid) + 1` whose decimal text is not the user id of a returned user,
hence of a non-negative integer, and different from every returned user id. -/
theorem GetUsers_nextUserId (m : Members) (userdata : List Nat) (size : Int) :
    (m.users = 0 →
      GetUsers_body m (userdata, size) =
        .returned ([], { m with nextUid := 0, nextUserId := std_to_string 0 })) ∧
    (m.users ≠ 0 → size ≤ 4 → GetUsers_body m (userdata, size) = .returned ([], m)) ∧
    (m.users ≠ 0 → 4 < size → 4 ≤ userdata.length →
      ∃ (users : List ZKTecoUser) (m1 : Members) (k : Nat),
        GetUsers_body m (userdata, size) = .returned (users, m1) ∧
        m1.nextUserId = std_to_string k ∧
        (∀ u ∈ users, u.userId ≠ m1.nextUserId) ∧
        maxUidOf users + 1 ≤ (k : Int) ∧
        ∀ j : Nat, maxUidOf users + 1 ≤ (j : Int) → j < k →
          ∃ u ∈ users, u.userId = std_to_string j) := by
  refine ⟨?_, ?_, ?_⟩
  · intro h
    unfold GetUsers_body
    rw [if_pos h]
  · intro h1 h2
    unfold GetUsers_body
    simp only [if_neg h1, if_pos h2]
  · intro h1 h2 h3
    obtain ⟨users, m1, k, _, e1, e2, _, e4, e5, e6⟩ := GetUsers_body_decode m userdata size h1 h2 h3
    exact ⟨users, m1, k, e1, e2, by rw [e2]; exact e4, e5, e6⟩

/-- Witness of `GetUsers_nextUserId`: a dataset of one 72-byte record with uid
1 and user id "2"; the candidate "2" is taken, so `nextUserId_` is "3". -/
theorem GetUsers_nextUserId_witness :
    GetUsers_body { Members.construct with users := 1 }
        ([72, 0, 0, 0, 1, 0, 0] ++ List.replicate 45 0 ++ [0x32] ++ List.replicate 23 0, 76) =
      .returned
        ([⟨1, [0x4E, 0x4E, 0x2D, 0x32], 0, [], std_to_string 0, [0x32], 0⟩],
         { Members.construct with users := 1, userPacketSize := 72, nextUid := 2,
                                  nextUserId := std_to_string 3 }) ∧
    ∃ (users : List ZKTecoUser) (m1 : Members) (k : Nat),
      GetUsers_body { Members.construct with users := 1 }
        ([72, 0, 0, 0, 1, 0, 0] ++ List.replicate 45 0 ++ [0x32] ++ List.replicate 23 0, 76) =
          .returned (users, m1) ∧
      m1.nextUserId = std_to_string k ∧
      (∀ u ∈ users, u.userId ≠ m1.nextUserId) ∧
      maxUidOf users + 1 ≤ (k : Int) ∧
      ∀ j : Nat, maxUidOf users + 1 ≤ (j : Int) → j < k →
        ∃ u ∈ users, u.userId = std_to_string j :=
  ⟨by decide,
   (GetUsers_nextUserId { Members.construct with users := 1 }
      ([72, 0, 0, 0, 1, 0, 0] ++ List.replicate 45 0 ++ [0x32] ++ List.replicate 23 0) 76).2.2
      (by decide) (by decide) (by decide)⟩

theorem getD_take (d : List Nat) (P i : Nat) (h : i < P) : (d.take P).getD i 0 = d.getD i 0 := by
  rw [List.getD_eq_getElem?_getD, List.getD_eq_getElem?_getD, List.getElem?_take_of_lt h]

theorem slice_take (d : List Nat) (P a b : Nat) (h : a + b ≤ P) :
    ((d.take P).drop a).take b = (d.drop a).take b := by
  rw [List.drop_take, List.take_take, Nat.min_eq_left (by omega)]

theorem isBytes_drop {d : List Nat} (hb : IsBytes d) (k : Nat) : IsBytes (d.drop k) :=
  fun b h => hb b (List.mem_of_mem_drop h)

theorem decodeUser28_eq_spec (d : List Nat) (hb : IsBytes d) :
    decodeUser28 d = userSpec28 (d.take 28) := by
  unfold decodeUser28 userSpec28
  simp only [readNonZero_eq, readCString_eq, List.nil_append, or16_eq_le16 hb, or32_eq_le32 hb,
    getD_take d 28 0 (by norm_num), getD_take d 28 1 (by norm_num),
    getD_take d 28 2 (by norm_num), getD_take d 28 16 (by norm_num),
    getD_take d 28 17 (by norm_num), getD_take d 28 18 (by norm_num),
    getD_take d 28 19 (by norm_num), getD_take d 28 21 (by norm_num),
    getD_take d 28 24 (by norm_num), getD_take d 28 25 (by norm_num),
    getD_take d 28 26 (by norm_num), getD_take d 28 27 (by norm_num),
    slice_take d 28 3 5 (by norm_num), slice_take d 28 8 8 (by norm_num)]

theorem decodeUser72_eq_spec (d : List Nat) (hb : IsBytes d) :
    decodeUser72 d = userSpec72 (d.take 72) := by
  unfold decodeUser72 userSpec72
  simp only [readNonZero_eq, readCString_eq, List.nil_append, or16_eq_le16 hb, or32_eq_le32 hb,
    getD_take d 72 0 (by norm_num), getD_take d 72 1 (by norm_num),
    getD_take d 72 2 (by norm_num), getD_take d 72 35 (by norm_num),
    getD_take d 72 36 (by norm_num), getD_take d 72 37 (by norm_num),
    getD_take d 72 38 (by norm_num), getD_take d 72 39 (by norm_num),
    slice_take d 72 3 8 (by norm_num), slice_take d 72 11 24 (by norm_num),
    slice_take d 72 48 24 (by norm_num)]

theorem GetUsers_loop_records (P : Nat) (hP : 0 < P) (decode spec : List Nat → ZKTecoUser)
    (userdata : List Nat) (hb : IsBytes userdata)
    (hds : ∀ d, IsBytes d → decode d = spec (d.take P)) :
    (GetUsers_loop P decode (userdata.drop 4).length (userdata.drop 4) [] 0).1 =
      (userRecords P userdata).map spec := by
  rw [GetUsers_loop_eq P hP decode _ _ _ _ (Nat.div_le_self _ _)]
  simp only [List.nil_append, userRecords, List.length_drop, List.map_map]
  apply List.map_congr_left
  intro i _
  simp only [Function.comp]
  rw [hds _ (isBytes_drop (isBytes_drop hb 4) _), List.drop_drop]

theorem toUInt32_ne_zero (n : Int) (hn : n ≠ 0) (hrange : -(2 ^ 31) ≤ n ∧ n < 2 ^ 31) :
    toUInt32 n ≠ 0 := by
  unfold toUInt32
  omega

/-- C14: for every user dataset of bytes (a 4-byte size prefix followed by
records), `GetUsers`, on a device that reports a non-zero user count, returns
`floor((len - 4) / P)` users in dataset order, `P` being 28 when the discovered
packet size `total_size / user_count` is 28 and 72 otherwise; each is the user
that the table of the specification reads from the corresponding `P`-byte
record. -/
theorem GetUsers_dataset (m : Members) (userdata : List Nat) (hb : IsBytes userdata)
    (hlen : 4 ≤ userdata.length) (hm : m.users ≠ 0)
    (hrange : -(2 ^ 31) ≤ m.users ∧ m.users < 2 ^ 31) :
    toUInt32 m.users ≠ 0 ∧
    ∃ m1, GetUsers_body m (userdata, userdata.length) =
      .returned
        (if toInt32 (le32 (userdata.getD 0 0) (userdata.getD 1 0) (userdata.getD 2 0)
              (userdata.getD 3 0) / toUInt32 m.users) = 28
          then (userRecords 28 userdata).map userSpec28
          else (userRecords 72 userdata).map userSpec72, m1) ∧
      ((userRecords 28 userdata).map userSpec28).length = (userdata.length - 4) / 28 ∧
      ((userRecords 72 userdata).map userSpec72).length = (userdata.length - 4) / 72 := by
  refine ⟨toUInt32_ne_zero _ hm hrange, ?_⟩
  have hl28 : ((userRecords 28 userdata).map userSpec28).length = (userdata.length - 4) / 28 := by
    simp [userRecords]
  have hl72 : ((userRecords 72 userdata).map userSpec72).length = (userdata.length - 4) / 72 := by
    simp [userRecords]
  by_cases h4 : userdata.length = 4
  · refine ⟨m, ?_, hl28, hl72⟩
    have e28 : (userRecords 28 userdata).map userSpec28 = [] := by simp [userRecords, h4]
    have e72 : (userRecords 72 userdata).map userSpec72 = [] := by simp [userRecords, h4]
    rw [e28, e72, ite_self]
    unfold GetUsers_body
    simp only [if_neg hm, h4]
    rfl
  · obtain ⟨users, m1, k, e0, e1, _⟩ :=
      GetUsers_body_decode m userdata userdata.length hm (by omega) hlen
    refine ⟨m1, ?_, hl28, hl72⟩
    rw [e1, e0, or32_eq_le32 hb]
    congr 2
    split_ifs
    · exact GetUsers_loop_records 28 (by norm_num) decodeUser28 userSpec28 userdata hb
        decodeUser28_eq_spec
    · exact GetUsers_loop_records 72 (by norm_num) decodeUser72 userSpec72 userdata hb
        decodeUser72_eq_spec

/-- Witness of `GetUsers_dataset`: the sample dataset with a user count of 2
has two 28-byte records, which the table reads as uid 1 "Al", password "12",
group 9, user id 7, card 0x01020304, and uid 2 "NN-8", group 1, user id 8. -/
theorem GetUsers_dataset_witness :
    (userRecords 28 sampleUsers28).map userSpec28 =
      [⟨1, [0x41, 0x6C], 14, [0x31, 0x32], std_to_string 9, std_to_string 7, 0x01020304⟩,
       ⟨2, [0x4E, 0x4E, 0x2D, 0x38], 0, [], std_to_string 1, std_to_string 8, 0⟩] ∧
    (toUInt32 ({ Members.construct with users := 2 } : Members).users ≠ 0 ∧
    ∃ m1, GetUsers_body { Members.construct with users := 2 }
        (sampleUsers28, sampleUsers28.length) =
      .returned
        (if toInt32 (le32 (sampleUsers28.getD 0 0) (sampleUsers28.getD 1 0)
              (sampleUsers28.getD 2 0) (sampleUsers28.getD 3 0) /
              toUInt32 ({ Members.construct with users := 2 } : Members).users) = 28
          then (userRecords 28 sampleUsers28).map userSpec28
          else (userRecords 72 sampleUsers28).map userSpec72, m1) ∧
      ((userRecords 28 sampleUsers28).map userSpec28).length = (sampleUsers28.length - 4) / 28 ∧
      ((userRecords 72 sampleUsers28).map userSpec72).length =
        (sampleUsers28.length - 4) / 72) :=
  ⟨by decide,
   GetUsers_dataset { Members.construct with users := 2 } sampleUsers28
     (by decide) (by decide) (by decide) (by decide)⟩

theorem std_stoi_std_to_string (n : Nat) (hn : n < 2 ^ 31) :
    std_stoi (std_to_string n) = some (n : Int) := by
  have hdig := std_to_string_digits n
  have hne := std_to_string_ne_nil n
  have hval := digitsValue_std_to_string n
  generalize std_to_string n = s at hdig hne hval
  cases s with
  | nil => exact absurd rfl hne
  | cons c t =>
    have hc : isDigitChar c = true := hdig c (List.mem_cons_self _ _)
    have hc' : 0x30 ≤ c ∧ c ≤ 0x39 := by simpa [isDigitChar] using hc
    have hsp : isSpaceChar c = false := by
      simp only [isSpaceChar, Bool.decide_or, Bool.decide_and, Bool.or_eq_false_iff,
        Bool.and_eq_false_iff, decide_eq_false_iff_not]
      omega
    have htw : (c :: t).takeWhile isDigitChar = c :: t :=
      List.takeWhile_eq_self_iff.mpr hdig
    have h1 : ¬ (some c = some 0x2D) := by
      intro h; injection h with h; omega
    have h2 : ¬ (some c = some 0x2D ∨ some c = some 0x2B) := by
      rintro (h | h) <;> injection h with h <;> omega
    have hdw : (c :: t).dropWhile isSpaceChar = c :: t := by
      rw [List.dropWhile_cons, hsp]
      rfl
    have hr : ¬ ((n : Int) < -(2 ^ 31) ∨ (n : Int) ≥ 2 ^ 31) := by omega
    unfold std_stoi
    have h3 : ¬ (some c = some 0x2B) := fun h => h2 (Or.inr h)
    simp only [hdw, List.head?_cons, h1, h3, or_self, if_false, htw, hval, List.isEmpty_cons,
      hr, Bool.false_eq_true]

theorem intByte_natCast (n k : Nat) : intByte (n : Int) k = n / 2 ^ (8 * k) % 256 := by
  unfold intByte
  have h : ((n : Int) / 2 ^ (8 * k)) % 256 = ((n / 2 ^ (8 * k) % 256 : Nat) : Int) := by
    push_cast
    rfl
  rw [h, Int.toNat_ofNat]

theorem std_to_string_int_ne_zero (p : Int) : ∀ c ∈ std_to_string_int p, c ≠ 0 := by
  intro c hc
  unfold std_to_string_int at hc
  have hd : ∀ n : Nat, c ∈ std_to_string n → c ≠ 0 := by
    intro n h
    have := std_to_string_digits n c h
    simp only [isDigitChar, Bool.decide_and, Bool.and_eq_true, decide_eq_true_eq] at this
    omega
  split_ifs at hc
  · rcases List.mem_cons.mp hc with h | h
    · omega
    · exact hd _ h
  · exact hd _ hc

/-- The payload `SetUser` builds in the 72-byte format for a non-zero uid, a
non-empty user id, a privilege that is one of the two constants and a decimal
group id. -/
theorem SetUser_commandString72 (K : Constants) (m : Members) (uid privilege card g : Nat)
    (password : Int) (name userId : List Nat)
    (hP : m.userPacketSize ≠ 28) (huid : 1 ≤ uid)
    (hpriv : privilege = K.USER_DEFAULT ∨ privilege = K.USER_ADMIN)
    (hg : g < 2 ^ 31) (hu : userId ≠ []) :
    SetUser_commandString K m uid name privilege password (std_to_string g) userId card =
      some ([uid % 256, uid / 256 % 256, privilege % 256] ++
        resizeBytes 8 (std_to_string_int password) ++ resizeBytes 24 name ++
        [card % 256, card / 256 % 256, card / 65536 % 256, card / 16777216 % 256] ++
        [g % 256] ++ resizeBytes 7 (std_to_string g) ++ [0] ++ resizeBytes 24 userId) := by
  have h1 : ¬ ((uid : Int) = 0 ∧ userId.isEmpty = true) := by
    rintro ⟨h, _⟩; omega
  have h2 : ¬ ((uid : Int) = 0) := by omega
  have h3 : ¬ (userId.isEmpty = true) := by
    simpa [List.isEmpty_iff] using hu
  have h4 : ¬ ((privilege : Int) ≠ (K.USER_DEFAULT : Int) ∧
      (privilege : Int) ≠ (K.USER_ADMIN : Int)) := by
    rcases hpriv with h | h <;> rw [h] <;> simp
  have h5 : ¬ ((std_to_string g).isEmpty = true) := by
    simpa [List.isEmpty_iff] using std_to_string_ne_nil g
  unfold SetUser_commandString
  simp only [if_neg h1, if_neg h2, if_neg h3, if_neg h4, if_neg hP, if_neg h5,
    std_stoi_std_to_string g hg, intByte_natCast]
  norm_num

/-- C16 (as stated, refuted): in the 72-byte format `SetUser` for uid 1, an
empty name, privilege 0, password 123456789, group id "1", user id "5" and card
0 builds a payload that the 72-byte branch of `GetUsers` decodes with the name
"NN-5" and the password "12345678". -/
theorem SetUser72_decode_refuted :
    (SetUser_commandString sampleConstants { Members.construct with userPacketSize := 72 }
        1 [] 0 123456789 [0x31] [0x35] 0).map decodeUser72 =
      some ⟨1, [0x4E, 0x4E, 0x2D, 0x35], 0,
            [0x31, 0x32, 0x33, 0x34, 0x35, 0x36, 0x37, 0x38], [0x31], [0x35], 0⟩ ∧
    std_to_string_int 123456789 = [0x31, 0x32, 0x33, 0x34, 0x35, 0x36, 0x37, 0x38, 0x39] := by
  constructor <;> decide

/-- C16 (amended): in the 72-byte format, for a uid in 1..65535, a privilege
that is one of USER_DEFAULT and USER_ADMIN (both below 256), a password whose
decimal text has at most 8 characters, a name whose first 24 bytes are not
empty, hold no NUL and do not end in white space, a card below 2^31, a group id
that is the decimal text of a number below 256 and a user id of 1 to 24 bytes
without NUL, `SetUser` builds a 72-byte payload that the 72-byte branch of
`GetUsers` decodes to the same uid, privilege, password, name (truncated to 24
bytes), card, group id and user id. -/
theorem SetUser72_decode (K : Constants) (m : Members) (uid privilege card g : Nat)
    (password : Int) (name userId : List Nat)
    (hK : K.USER_DEFAULT < 256 ∧ K.USER_ADMIN < 256)
    (hP : m.userPacketSize ≠ 28)
    (huid : 1 ≤ uid ∧ uid < 65536)
    (hpriv : privilege = K.USER_DEFAULT ∨ privilege = K.USER_ADMIN)
    (hpw : (std_to_string_int password).length ≤ 8)
    (hname : name.take 24 ≠ [] ∧ (∀ c ∈ name.take 24, c ≠ 0) ∧
      trimTrailing (name.take 24) = name.take 24)
    (hcard : card < 2 ^ 31)
    (hg : g < 256)
    (hu : userId ≠ [] ∧ userId.length ≤ 24 ∧ ∀ c ∈ userId, c ≠ 0) :
    ∃ payload,
      SetUser_commandString K m uid name privilege password (std_to_string g) userId card =
        some payload ∧
      payload.length = 72 ∧
      decodeUser72 payload =
        ⟨uid, name.take 24, privilege, std_to_string_int password, std_to_string g, userId,
         card⟩ := by
  have hpr : privilege < 256 := by
    rcases hpriv with h | h <;> rw [h]
    · exact hK.1
    · exact hK.2
  refine ⟨_, SetUser_commandString72 K m uid privilege card g password name userId hP huid.1
    hpriv (by omega) hu.1, ?_, ?_⟩
  · simp [resizeBytes_length]
  · rw [decodeUser72_fields _ _ _ _ _ _ _ _ _ _ _ _ (resizeBytes_length _ _)
      (resizeBytes_length _ _) (resizeBytes_length _ _) (resizeBytes_length _ _)]
    have e1 : (resizeBytes 8 (std_to_string_int password)).filter (fun c => c ≠ 0) =
        std_to_string_int password := by
      rw [resizeBytes_of_le _ _ hpw]
      exact filter_pad _ _ (std_to_string_int_ne_zero password)
    have e2 : (resizeBytes 24 name).takeWhile (fun c => c ≠ 0) = name.take 24 := by
      rw [resizeBytes_take]
      exact takeWhile_pad _ _ hname.2.1
    have e3 : (resizeBytes 24 userId).takeWhile (fun c => c ≠ 0) = userId := by
      rw [resizeBytes_of_le _ _ hu.2.1]
      exact takeWhile_pad _ _ hu.2.2
    have e4 : (name.take 24).isEmpty = false := by
      simpa [List.isEmpty_iff] using hname.1
    have e5 : privilege % 256 = privilege := Nat.mod_eq_of_lt hpr
    have e6 : g % 256 = g := Nat.mod_eq_of_lt hg
    rw [e1, e2, e3, hname.2.2, e4, e5, e6, le16_bytes_or uid huid.2,
      le32_bytes_or card (by omega)]
    rfl

/-- Witness of `SetUser72_decode`: uid 7, name "Ann", privilege USER_ADMIN,
password 1234, card 99, group id "3", user id "A7". -/
theorem SetUser72_decode_witness :
    ∃ payload,
      SetUser_commandString sampleConstants { Members.construct with userPacketSize := 72 }
        7 [0x41, 0x6E, 0x6E] 14 1234 (std_to_string 3) [0x41, 0x37] 99 = some payload ∧
      payload.length = 72 ∧
      decodeUser72 payload =
        ⟨7, [0x41, 0x6E, 0x6E], 14, [0x31, 0x32, 0x33, 0x34], [0x33], [0x41, 0x37], 99⟩ :=
  SetUser72_decode sampleConstants { Members.construct with userPacketSize := 72 } 7 14 99 3
    1234 [0x41, 0x6E, 0x6E] [0x41, 0x37] (by decide) (by decide) (by decide) (by decide)
    (by decide) (by decide) (by decide) (by decide) (by decide)

/-! ## Bulk reads -/

/-- The members `SendCommand` leaves alone, and the frame a connected call
always builds. -/
theorem SendCommand_fields (K : Constants) (d : Device) (net : Net) (command : Nat)
    (commandString : List Nat) (responseSize : Nat) (response : Option (List Nat)) :
    (SendCommand K d net command commandString responseSize response).dev.isConnected =
      d.isConnected ∧
    (SendCommand K d net command commandString responseSize response).dev.forceUdp =
      d.forceUdp ∧
    (SendCommand K d net command commandString responseSize response).dev.socket = d.socket ∧
    (d.isConnected = true →
      (SendCommand K d net command commandString responseSize response).packet ≠ none) := by
  have hs := fun (d : Device) (r : Option (List Nat)) => storeLastResponse_fields d r
  unfold SendCommand
  simp only []
  split
  · rename_i h
    refine ⟨rfl, rfl, rfl, ?_⟩
    intro hc
    rw [hc] at h
    simp at h
  · split
    · split
      · exact ⟨rfl, rfl, rfl, by simp⟩
      · split
        · exact ⟨rfl, rfl, rfl, by simp⟩
        · split
          · split
            · exact ⟨(hs _ _).2.2.2.1, (hs _ _).2.1, (hs _ _).2.2.1, by simp⟩
            · exact ⟨rfl, rfl, rfl, by simp⟩
          · exact ⟨rfl, rfl, rfl, by simp⟩
    · split
      · exact ⟨rfl, rfl, rfl, by simp⟩
      · split
        · exact ⟨rfl, rfl, rfl, by simp⟩
        · exact ⟨(hs _ _).2.2.2.1, (hs _ _).2.1, (hs _ _).2.2.1, by simp⟩

theorem logRequest_connected (K : Constants) (d : Device) (net : Net) (command : Nat)
    (commandString : List Nat) (responseSize : Nat) (response : Option (List Nat))
    (hconn : d.isConnected = true) (c : Nat) (cs : List Nat) :
    logRequest (SendCommand K d net command commandString responseSize response) c cs =
      [(c, cs)] := by
  have h := (SendCommand_fields K d net command commandString responseSize response).2.2.2 hconn
  unfold logRequest
  cases hp : (SendCommand K d net command commandString responseSize response).packet with
  | none => exact absurd hp h
  | some p => rfl

theorem ReadChunk_attempts_retries (K : Constants) (fuel start size : Nat) :
    ∀ (n : Nat) (d : Device) (net : Net) (requests : List (Nat × List Nat)) (retries : Nat),
      retries ≤ (ReadChunk_attempts K fuel start size n d net requests retries).retries := by
  intro n
  induction n with
  | zero => intro d net requests retries; exact le_refl _
  | succ n ih =>
    intro d net requests retries
    rw [ReadChunk_attempts]
    generalize (if (!d.forceUdp) = true ∧ d.socket ≠ Socket.invalid then size + 32
      else 1024 + 8) = rs
    generalize SendCommand K d net K.CMD_READ_BUFFER (ReadChunk_commandString start size) rs
      (some []) = r
    split_ifs with h1
    · split
      · split_ifs
        · exact le_refl _
        · exact le_trans (Nat.le_succ _) (ih _ _ _ _)
      · exact le_refl _
      · exact le_refl _
    · exact le_trans (Nat.le_succ _) (ih _ _ _ _)

/-- A `ReadChunk` call on a connected device that ends without a failed attempt
issued exactly one request. -/
theorem ReadChunk_attempts_requests (K : Constants) (fuel start size : Nat) (n : Nat)
    (d : Device) (net : Net) (requests : List (Nat × List Nat)) (retries : Nat)
    (hconn : d.isConnected = true)
    (hret : (ReadChunk_attempts K fuel start size (n + 1) d net requests retries).retries =
      retries) :
    (ReadChunk_attempts K fuel start size (n + 1) d net requests retries).requests =
      requests ++ [(K.CMD_READ_BUFFER, ReadChunk_commandString start size)] ∧
    (ReadChunk_attempts K fuel start size (n + 1) d net requests retries).dev.isConnected =
      true ∧
    (ReadChunk_attempts K fuel start size (n + 1) d net requests retries).dev.forceUdp =
      d.forceUdp ∧
    (ReadChunk_attempts K fuel start size (n + 1) d net requests retries).dev.socket =
      d.socket := by
  rw [ReadChunk_attempts] at hret ⊢
  generalize (if (!d.forceUdp) = true ∧ d.socket ≠ Socket.invalid then size + 32
    else 1024 + 8) = rs at hret ⊢
  have hf := SendCommand_fields K d net K.CMD_READ_BUFFER
    (ReadChunk_commandString start size) rs (some [])
  have hl := logRequest_connected K d net K.CMD_READ_BUFFER
    (ReadChunk_commandString start size) rs (some []) hconn K.CMD_READ_BUFFER
    (ReadChunk_commandString start size)
  generalize SendCommand K d net K.CMD_READ_BUFFER (ReadChunk_commandString start size) rs
    (some []) = r at hret hf hl ⊢
  rw [hl] at hret ⊢
  split_ifs at hret ⊢ with h1
  · generalize ReceiveChunk K fuel r.dev r.net = rc at hret ⊢
    cases rc with
    | returned p =>
      obtain ⟨data, net1⟩ := p
      simp only at hret ⊢
      split_ifs at hret ⊢
      · exact ⟨rfl, by rw [hf.1, hconn], hf.2.1, hf.2.2.1⟩
      · have := ReadChunk_attempts_retries K fuel start size n r.dev net1
          (requests ++ [(K.CMD_READ_BUFFER, ReadChunk_commandString start size)])
          (retries + 1)
        omega
    | undefinedBehaviour => exact ⟨rfl, by rw [hf.1, hconn], hf.2.1, hf.2.2.1⟩
    | outOfFuel => exact ⟨rfl, by rw [hf.1, hconn], hf.2.1, hf.2.2.1⟩
  · have := ReadChunk_attempts_retries K fuel start size n r.dev r.net
      (requests ++ [(K.CMD_READ_BUFFER, ReadChunk_commandString start size)])
      (retries + 1)
    omega

theorem ReadWithBuffer_loop_retries (K : Constants) (fuel MAX_CHUNK : Nat) :
    ∀ (n : Nat) (d : Device) (net : Net) (data : List Nat) (start : Nat)
      (requests : List (Nat × List Nat)) (retries : Nat),
      retries ≤
        (ReadWithBuffer_loop K fuel MAX_CHUNK n d net data start requests retries).retries := by
  intro n
  induction n with
  | zero => intro d net data start requests retries; exact le_refl _
  | succ n ih =>
    intro d net data start requests retries
    rw [ReadWithBuffer_loop]
    have hc := ReadChunk_attempts_retries K fuel start MAX_CHUNK 3 d net requests retries
    simp only [ReadChunk]
    generalize ReadChunk_attempts K fuel start MAX_CHUNK 3 d net requests retries = c at hc
    cases ho : c.outcome with
    | returned o =>
      cases o with
      | none => exact hc
      | some chunkData =>
        simp only
        split_ifs
        · exact hc
        · exact le_trans hc (ih _ _ _ _ _ _)
    | undefinedBehaviour => exact hc
    | outOfFuel => exact hc

/-- The full-chunk loop of `ReadWithBuffer` on a connected device, when it ends
normally without a failed attempt: one request per chunk, at the starts
`start`, `start + MAX_CHUNK`, ... -/
theorem ReadWithBuffer_loop_requests (K : Constants) (fuel MAX_CHUNK : Nat) :
    ∀ (n : Nat) (d : Device) (net : Net) (data : List Nat) (start : Nat)
      (requests : List (Nat × List Nat)) (retries : Nat) (dataF : List Nat) (startF : Nat),
      d.isConnected = true →
      (ReadWithBuffer_loop K fuel MAX_CHUNK n d net data start requests retries).outcome =
        .returned (some (dataF, startF)) →
      (ReadWithBuffer_loop K fuel MAX_CHUNK n d net data start requests retries).retries =
        retries →
      (ReadWithBuffer_loop K fuel MAX_CHUNK n d net data start requests retries).requests =
        requests ++ (List.range n).map (fun i =>
          (K.CMD_READ_BUFFER, ReadChunk_commandString (start + i * MAX_CHUNK) MAX_CHUNK)) ∧
      startF = start + n * MAX_CHUNK ∧
      (ReadWithBuffer_loop K fuel MAX_CHUNK n d net data start requests retries).dev.isConnected
        = true ∧
      (ReadWithBuffer_loop K fuel MAX_CHUNK n d net data start requests retries).dev.forceUdp
        = d.forceUdp ∧
      (ReadWithBuffer_loop K fuel MAX_CHUNK n d net data start requests retries).dev.socket
        = d.socket := by
  intro n
  induction n with
  | zero =>
    intro d net data start requests retries dataF startF hconn hout _
    rw [ReadWithBuffer_loop] at hout ⊢
    simp only [Outcome.returned.injEq, Option.some.injEq, Prod.mk.injEq] at hout
    refine ⟨?_, ?_, hconn, rfl, rfl⟩
    · simp
    · omega
  | succ n ih =>
    intro d net data start requests retries dataF startF hconn hout hret
    rw [ReadWithBuffer_loop] at hout hret ⊢
    have hc := ReadChunk_attempts_retries K fuel start MAX_CHUNK 3 d net requests retries
    have hq := ReadChunk_attempts_requests K fuel start MAX_CHUNK 2 d net requests retries hconn
    simp only [ReadChunk] at hout hret ⊢
    generalize ReadChunk_attempts K fuel start MAX_CHUNK 3 d net requests retries = c
      at hc hq hout hret ⊢
    cases ho : c.outcome with
    | returned o =>
      cases o with
      | none => simp [ho] at hout
      | some chunkData =>
        simp only [ho] at hout hret ⊢
        split_ifs at hout hret ⊢ with hov
        · have hl := ReadWithBuffer_loop_retries K fuel MAX_CHUNK n c.dev c.net
            (data ++ chunkData) (start + MAX_CHUNK) c.requests c.retries
          have hcr : c.retries = retries := by omega
          obtain ⟨q1, q2, q3, q4⟩ := hq hcr
          obtain ⟨e1, e2, e3, e4, e5⟩ := ih c.dev c.net (data ++ chunkData)
            (start + MAX_CHUNK) c.requests c.retries dataF startF q2 hout (by omega)
          refine ⟨?_, ?_, e3, by rw [e4, q3], by rw [e5, q4]⟩
          · rw [e1, q1, range_succ_map_eq, List.append_assoc]
            simp only [List.singleton_append, Nat.zero_mul, Nat.add_zero]
            congr 2
            apply List.map_congr_left
            intro i _
            congr 2
            ring
          · rw [e2]; ring
    | undefinedBehaviour => simp [ho] at hout
    | outOfFuel => simp [ho] at hout

theorem contiguousFrom_chunks (MAX_CHUNK : Nat) (tail : List (Nat × Nat)) :
    ∀ (q s : Nat), contiguousFrom (s + q * MAX_CHUNK) tail →
      contiguousFrom s
        ((List.range q).map (fun i => (s + i * MAX_CHUNK, MAX_CHUNK)) ++ tail) := by
  intro q
  induction q with
  | zero => intro s h; simpa using h
  | succ q ih =>
    intro s h
    rw [range_succ_map_eq, List.cons_append]
    refine ⟨by simp, ?_⟩
    have hf : (fun i => (s + (i + 1) * MAX_CHUNK, MAX_CHUNK)) =
        (fun i => (s + MAX_CHUNK + i * MAX_CHUNK, MAX_CHUNK)) := by
      funext i
      congr 1
      ring
    rw [hf]
    apply ih
    have : s + MAX_CHUNK + q * MAX_CHUNK = s + (q + 1) * MAX_CHUNK := by ring
    rw [this]
    exact h

theorem chunkPlan_contiguous (total MAX_CHUNK : Nat) :
    contiguousFrom 0 (chunkPlan total MAX_CHUNK) := by
  unfold chunkPlan
  have h := contiguousFrom_chunks MAX_CHUNK
    (if total % MAX_CHUNK ≠ 0 then [(total / MAX_CHUNK * MAX_CHUNK, total % MAX_CHUNK)] else [])
    (total / MAX_CHUNK) 0
  simp only [Nat.zero_add] at h
  apply h
  split_ifs
  · exact ⟨rfl, trivial⟩
  · trivial

theorem sum_map_const (q c : Nat) : ((List.range q).map (fun _ => c)).sum = q * c := by
  induction q with
  | zero => simp
  | succ q ih =>
    rw [List.range_succ, List.map_append, List.sum_append, ih]
    simp
    ring

theorem chunkPlan_sum (total MAX_CHUNK : Nat) :
    ((chunkPlan total MAX_CHUNK).map Prod.snd).sum = total := by
  unfold chunkPlan
  rw [List.map_append, List.sum_append, List.map_map]
  have h1 : (Prod.snd ∘ fun i => (i * MAX_CHUNK, MAX_CHUNK)) = fun _ : Nat => MAX_CHUNK := rfl
  rw [h1, sum_map_const]
  have := Nat.div_add_mod total MAX_CHUNK
  split_ifs with h
  · simp
    rw [Nat.mul_comm]
    omega
  · simp only [ne_eq, Decidable.not_not] at h
    simp
    rw [h] at this
    rw [Nat.mul_comm]
    omega

theorem chunkPlan_requests (K : Constants) (total MAX_CHUNK : Nat) :
    (chunkPlan total MAX_CHUNK).map
        (fun p => (K.CMD_READ_BUFFER, ReadChunk_commandString p.1 p.2)) =
      (List.range (total / MAX_CHUNK)).map (fun i =>
          (K.CMD_READ_BUFFER, ReadChunk_commandString (0 + i * MAX_CHUNK) MAX_CHUNK)) ++
        (if total % MAX_CHUNK ≠ 0 then
          [(K.CMD_READ_BUFFER,
            ReadChunk_commandString (0 + total / MAX_CHUNK * MAX_CHUNK) (total % MAX_CHUNK))]
         else []) := by
  unfold chunkPlan
  rw [List.map_append, List.map_map]
  simp only [Nat.zero_add]
  congr 1
  split_ifs <;> rfl

theorem chunk_arith (total MAX_CHUNK : Nat) (hlt : total < 2 ^ 31) (hM : 0 < MAX_CHUNK) :
    toInt32 (total % MAX_CHUNK) = ((total % MAX_CHUNK : Nat) : Int) ∧
    toInt32 ((total + 2 ^ 32 - toUInt32 (toInt32 (total % MAX_CHUNK))) % 2 ^ 32 / MAX_CHUNK) =
      ((total / MAX_CHUNK : Nat) : Int) := by
  have hr : total % MAX_CHUNK ≤ total := Nat.mod_le _ _
  have h1 : toInt32 (total % MAX_CHUNK) = ((total % MAX_CHUNK : Nat) : Int) :=
    toInt32_of_lt (by omega)
  have h2 : toUInt32 ((total % MAX_CHUNK : Nat) : Int) = total % MAX_CHUNK := by
    unfold toUInt32
    omega
  have h3 : (total + 2 ^ 32 - total % MAX_CHUNK) % 2 ^ 32 = total - total % MAX_CHUNK := by
    omega
  have h4 : (total - total % MAX_CHUNK) / MAX_CHUNK = total / MAX_CHUNK := by
    have hdm := Nat.div_add_mod total MAX_CHUNK
    have : total - total % MAX_CHUNK = MAX_CHUNK * (total / MAX_CHUNK) := by omega
    rw [this, Nat.mul_div_cancel_left _ hM]
  have h5 : total / MAX_CHUNK ≤ total := Nat.div_le_self _ _
  refine ⟨h1, ?_⟩
  rw [h1, h2, h3, h4]
  exact toInt32_of_lt (by omega)

/-- C12: `ReadWithBuffer` on a connected device, on the chunked path (the
reply to CMD_PREPARE_BUFFER is not CMD_DATA) with a declared `total` below
2^31, when it returns and no attempt of a chunk read failed: the requests
issued are CMD_PREPARE_BUFFER, then one CMD_READ_BUFFER per entry of the chunk
plan (`total / MAX_CHUNK` chunks of `MAX_CHUNK` bytes and the remainder when it
is not zero, contiguous from 0 and summing to `total`; `MAX_CHUNK` is 0xFFC0 on
TCP and 16384 on UDP), then one CMD_FREE_DATA, and the returned byte count is
`total`.  For 70000 bytes on TCP the plan is (0, 65472), (65472, 4528). -/
theorem ReadWithBuffer_chunk_plan (K : Constants) (fuel : Nat) (d : Device) (net : Net)
    (command : Nat) (fct ext : Int) (total : Nat) (data : List Nat) (count : Int)
    (hconn : d.isConnected = true)
    (hchunked : (SendCommand K d net K.CMD_PREPARE_BUFFER
      (ReadWithBuffer_commandString command fct ext) 1024 (some [])).dev.lastResponse ≠
        K.CMD_DATA)
    (htotal : ((SendCommand K d net K.CMD_PREPARE_BUFFER
        (ReadWithBuffer_commandString command fct ext) 1024 (some [])).dev.lastData.getD 1 0 |||
      ((SendCommand K d net K.CMD_PREPARE_BUFFER
        (ReadWithBuffer_commandString command fct ext) 1024 (some [])).dev.lastData.getD 2 0
          <<< 8) |||
      ((SendCommand K d net K.CMD_PREPARE_BUFFER
        (ReadWithBuffer_commandString command fct ext) 1024 (some [])).dev.lastData.getD 3 0
          <<< 16) |||
      ((SendCommand K d net K.CMD_PREPARE_BUFFER
        (ReadWithBuffer_commandString command fct ext) 1024 (some [])).dev.lastData.getD 4 0
          <<< 24)) % 2 ^ 32 = total)
    (hlt : total < 2 ^ 31)
    (hout : (ReadWithBuffer K fuel d net command fct ext).outcome =
      .returned (some (data, count)))
    (hret : (ReadWithBuffer K fuel d net command fct ext).retries = 0) :
    (ReadWithBuffer K fuel d net command fct ext).requests =
      (K.CMD_PREPARE_BUFFER, ReadWithBuffer_commandString command fct ext) ::
        (chunkPlan total (if !d.forceUdp ∧ d.socket ≠ .invalid then 0xFFC0 else 16 * 1024)).map
          (fun p => (K.CMD_READ_BUFFER, ReadChunk_commandString p.1 p.2)) ++
        [(K.CMD_FREE_DATA, [])] ∧
    count = total ∧
    contiguousFrom 0
      (chunkPlan total (if !d.forceUdp ∧ d.socket ≠ .invalid then 0xFFC0 else 16 * 1024)) ∧
    ((chunkPlan total (if !d.forceUdp ∧ d.socket ≠ .invalid then 0xFFC0
      else 16 * 1024)).map Prod.snd).sum = total ∧
    chunkPlan 70000 0xFFC0 = [(0, 65472), (65472, 4528)] := by
  suffices key : (ReadWithBuffer K fuel d net command fct ext).requests =
      (K.CMD_PREPARE_BUFFER, ReadWithBuffer_commandString command fct ext) ::
        (chunkPlan total (if !d.forceUdp ∧ d.socket ≠ .invalid then 0xFFC0 else 16 * 1024)).map
          (fun p => (K.CMD_READ_BUFFER, ReadChunk_commandString p.1 p.2)) ++
        [(K.CMD_FREE_DATA, [])] ∧ count = total from
    ⟨key.1, key.2, chunkPlan_contiguous _ _, chunkPlan_sum _ _, by decide⟩
  have hM : 0 < (if (!d.forceUdp) = true ∧ d.socket ≠ Socket.invalid then 0xFFC0
      else 16 * 1024 : Nat) := by
    split_ifs <;> norm_num
  have hf := SendCommand_fields K d net K.CMD_PREPARE_BUFFER
    (ReadWithBuffer_commandString command fct ext) 1024 (some [])
  have hl := logRequest_connected K d net K.CMD_PREPARE_BUFFER
    (ReadWithBuffer_commandString command fct ext) 1024 (some []) hconn K.CMD_PREPARE_BUFFER
    (ReadWithBuffer_commandString command fct ext)
  unfold ReadWithBuffer at hout hret ⊢
  simp only at hout hret ⊢
  generalize (if (!d.forceUdp) = true ∧ d.socket ≠ Socket.invalid then 0xFFC0
      else 16 * 1024 : Nat) = MAX at hM hout hret ⊢
  obtain ⟨a1, a2⟩ := chunk_arith total MAX hlt hM
  generalize SendCommand K d net K.CMD_PREPARE_BUFFER
    (ReadWithBuffer_commandString command fct ext) 1024 (some []) = r
    at hf hl hchunked htotal hout hret ⊢
  rw [hl] at hout hret ⊢
  rw [htotal] at hout hret ⊢
  rw [a2, a1, Int.toNat_ofNat, Int.toNat_ofNat] at hout hret ⊢
  have hrc : r.dev.isConnected = true := by rw [hf.1, hconn]
  have l1 := ReadWithBuffer_loop_retries K fuel MAX (total / MAX) r.dev r.net [] 0
    [(K.CMD_PREPARE_BUFFER, ReadWithBuffer_commandString command fct ext)] 0
  have l2 := ReadWithBuffer_loop_requests K fuel MAX (total / MAX) r.dev r.net [] 0
    [(K.CMD_PREPARE_BUFFER, ReadWithBuffer_commandString command fct ext)] 0
  generalize ReadWithBuffer_loop K fuel MAX (total / MAX) r.dev r.net [] 0
    [(K.CMD_PREPARE_BUFFER, ReadWithBuffer_commandString command fct ext)] 0 = l
    at l1 l2 hout hret ⊢
  by_cases c1 : r.outcome ≠ some true
  · rw [if_pos c1] at hout
    exact absurd hout (by simp)
  rw [if_neg c1, if_neg hchunked] at hout hret ⊢
  by_cases c2 : r.dev.lastData.length < 5
  · rw [if_pos c2] at hout
    exact absurd hout (by simp)
  rw [if_neg c2] at hout hret ⊢
  cases hlo : l.outcome with
  | undefinedBehaviour => rw [hlo] at hout; exact absurd hout (by simp)
  | outOfFuel => rw [hlo] at hout; exact absurd hout (by simp)
  | returned o =>
    cases o with
    | none => rw [hlo] at hout; exact absurd hout (by simp)
    | some p =>
      obtain ⟨dataL, startL⟩ := p
      rw [hlo] at hout hret
      simp only at hout hret ⊢
      rw [chunkPlan_requests]
      by_cases hrem : ((total % MAX : Nat) : Int) > 0
      · have hne : total % MAX ≠ 0 := by omega
        rw [if_pos hrem] at hout hret ⊢
        rw [if_pos hne]
        have q1 := ReadChunk_attempts_retries K fuel startL (total % MAX) 3 l.dev l.net
          l.requests l.retries
        have q2 := ReadChunk_attempts_requests K fuel startL (total % MAX) 2 l.dev l.net
          l.requests l.retries
        simp only [ReadChunk] at hout hret ⊢
        generalize ReadChunk_attempts K fuel startL (total % MAX) 3 l.dev l.net
          l.requests l.retries = c at q1 q2 hout hret ⊢
        cases hco : c.outcome with
        | undefinedBehaviour => rw [hco] at hout; exact absurd hout (by simp)
        | outOfFuel => rw [hco] at hout; exact absurd hout (by simp)
        | returned o =>
          cases o with
          | none => rw [hco] at hout; exact absurd hout (by simp)
          | some chunkData =>
            rw [hco] at hout hret
            simp only at hout hret ⊢
            by_cases hov : (startL : Int) + ((total % MAX : Nat) : Int) ≥ 2 ^ 31
            · rw [if_pos hov] at hout
              exact absurd hout (by simp)
            rw [if_neg hov] at hout hret ⊢
            simp only at hout hret ⊢
            have hl0 : l.retries = 0 := by omega
            obtain ⟨e1, e2, e3, _, _⟩ := l2 dataL startL hrc hlo hl0
            obtain ⟨f1, f2, _, _⟩ := q2 e3 (by omega)
            have hfree := logRequest_connected K c.dev c.net K.CMD_FREE_DATA [] 1024 (some [])
              f2 K.CMD_FREE_DATA []
            simp only [Outcome.returned.injEq, Option.some.injEq, Prod.mk.injEq] at hout
            refine ⟨?_, ?_⟩
            · unfold FreeData
              rw [hfree, f1, e1, e2]
              simp
            · rw [← hout.2, e2]
              have := Nat.div_add_mod total MAX
              have hc : (total : Int) = ((MAX * (total / MAX) + total % MAX : Nat) : Int) := by
                rw [this]
              rw [hc]
              push_cast
              ring
      · have hz : total % MAX = 0 := by omega
        rw [if_neg hrem] at hout hret ⊢
        simp only at hout hret ⊢
        obtain ⟨e1, e2, e3, _, _⟩ := l2 dataL startL hrc hlo hret
        have hfree := logRequest_connected K l.dev l.net K.CMD_FREE_DATA [] 1024 (some [])
          e3 K.CMD_FREE_DATA []
        simp only [Outcome.returned.injEq, Option.some.injEq, Prod.mk.injEq] at hout
        refine ⟨?_, ?_⟩
        · unfold FreeData
          rw [hfree, e1, if_neg (by simpa using hz)]
          simp
        · rw [← hout.2, e2]
          have := Nat.div_add_mod total MAX
          have hc : (total : Int) = ((MAX * (total / MAX) + total % MAX : Nat) : Int) := by
            rw [this]
          rw [hc, hz]
          push_cast
          ring

/-- Witness of `ReadWithBuffer_chunk_plan`: the sample bulk read of 5 bytes over
TCP issues CMD_PREPARE_BUFFER, one CMD_READ_BUFFER for (0, 5) and CMD_FREE_DATA,
and returns the 5 bytes and the count 5. -/
theorem ReadWithBuffer_chunk_plan_witness :
    (ReadWithBuffer sampleConstants 1 sampleConnected sampleBulkNet 9 5 0).outcome =
      .returned (some ([0xA1, 0xA2, 0xA3, 0xA4, 0xA5], 5)) ∧
    (ReadWithBuffer sampleConstants 1 sampleConnected sampleBulkNet 9 5 0).requests =
      [(1503, [1, 9, 0, 5, 0, 0, 0, 0, 0, 0, 0]), (1504, [0, 0, 0, 0, 5, 0, 0, 0]),
       (1502, [])] ∧
    ((ReadWithBuffer sampleConstants 1 sampleConnected sampleBulkNet 9 5 0).requests =
      (sampleConstants.CMD_PREPARE_BUFFER, ReadWithBuffer_commandString 9 5 0) ::
        (chunkPlan 5 (if !sampleConnected.forceUdp ∧ sampleConnected.socket ≠ .invalid
          then 0xFFC0 else 16 * 1024)).map
          (fun p => (sampleConstants.CMD_READ_BUFFER, ReadChunk_commandString p.1 p.2)) ++
        [(sampleConstants.CMD_FREE_DATA, [])] ∧
    ((5 : Int) = (5 : Nat)) ∧
    contiguousFrom 0
      (chunkPlan 5 (if !sampleConnected.forceUdp ∧ sampleConnected.socket ≠ .invalid
        then 0xFFC0 else 16 * 1024)) ∧
    ((chunkPlan 5 (if !sampleConnected.forceUdp ∧ sampleConnected.socket ≠ .invalid then 0xFFC0
      else 16 * 1024)).map Prod.snd).sum = 5 ∧
    chunkPlan 70000 0xFFC0 = [(0, 65472), (65472, 4528)]) :=
  ⟨by decide, by decide,
   ReadWithBuffer_chunk_plan sampleConstants 1 sampleConnected sampleBulkNet 9 5 0 5
     [0xA1, 0xA2, 0xA3, 0xA4, 0xA5] 5 (by decide) (by decide) (by decide) (by decide)
     (by decide) (by decide)⟩

/-! ## Reassembly of a chunk on TCP -/

theorem Net.recv_stream (net : Net) (n : Nat) (s : List Nat) (tail : List (Option (List Nat)))
    (hin : net.incoming = some s :: tail) :
    net.recv .stream n =
      if s.length ≤ n then (some s, { net with incoming := tail })
      else (some (s.take n), { net with incoming := some (s.drop n) :: tail }) := by
  unfold Net.recv
  simp only [hin]

theorem Net.recv_stream_nil (net : Net) (n : Nat) (hin : net.incoming = []) :
    net.recv .stream n = (none, net) := by
  unfold Net.recv
  simp only [hin]

theorem Net.Delivers_nil (net : Net) (h : net.Delivers []) : net.incoming = [] := by
  obtain ⟨segs, hne, hin, hj⟩ := h
  cases segs with
  | nil => simpa using hin
  | cons s rest =>
    exfalso
    have := congrArg List.length hj
    simp at this
    exact hne s (List.mem_cons_self _ _) this.1

/-- A receive on a stream that has bytes pending delivers a non-empty prefix of
at most `n` of them and leaves the rest pending. -/
theorem Net.recv_delivers (net : Net) (n : Nat) (first : List Nat)
    (segs : List (List Nat)) (hne : ∀ s ∈ first :: segs, s ≠ [])
    (hin : net.incoming = (first :: segs).map some) :
    (net.recv .stream n).1 = some ((first ++ segs.flatten).take (min first.length n)) ∧
    (net.recv .stream n).2.Delivers ((first ++ segs.flatten).drop (min first.length n)) ∧
    (net.recv .stream n).2.sendOk = net.sendOk := by
  have hf : first ≠ [] := hne first (List.mem_cons_self _ _)
  have hs : ∀ s ∈ segs, s ≠ [] := fun s h => hne s (List.mem_cons_of_mem _ h)
  rw [Net.recv_stream net n first (segs.map some) (by simpa using hin)]
  by_cases hle : first.length ≤ n
  · rw [if_pos hle, Nat.min_eq_left hle]
    refine ⟨?_, ⟨segs, hs, rfl, ?_⟩, rfl⟩
    · simp
    · simp
  · rw [if_neg hle, Nat.min_eq_right (by omega)]
    refine ⟨?_, ⟨first.drop n :: segs, ?_, rfl, ?_⟩, rfl⟩
    · simp only [Option.some.injEq]
      rw [List.take_append_of_le_length (by omega)]
    · intro s h
      rcases List.mem_cons.mp h with h | h
      · rw [h]
        intro h0
        have := congrArg List.length h0
        simp at this
        omega
      · exact hs s h
    · simp only [List.flatten_cons]
      rw [List.drop_append_of_le_length (by omega)]

/-- The loop of `ReceiveRawData` on a stream that delivers `bytes`: it returns
the first `size` of them (all of them when there are fewer) and leaves the rest
pending; `size` iterations are enough. -/
theorem ReceiveRawData_loop_delivers :
    ∀ (fuel : Nat) (net : Net) (size : Int) (data bytes : List Nat),
      size.toNat ≤ fuel → net.Delivers bytes →
      (ReceiveRawData_loop .stream fuel net size data).1 = data ++ bytes.take size.toNat ∧
      (ReceiveRawData_loop .stream fuel net size data).2.Delivers (bytes.drop size.toNat) := by
  intro fuel
  induction fuel with
  | zero =>
    intro net size data bytes hfuel hdel
    have h0 : size.toNat = 0 := by omega
    rw [ReceiveRawData_loop, h0]
    simpa using hdel
  | succ fuel ih =>
    intro net size data bytes hfuel hdel
    rw [ReceiveRawData_loop]
    by_cases hpos : size > 0
    · rw [if_pos hpos]
      obtain ⟨segs, hne, hin, hj⟩ := hdel
      cases segs with
      | nil =>
        have hin' : net.incoming = [] := by simpa using hin
        rw [Net.recv_stream_nil net _ hin']
        subst hj
        exact ⟨by simp, ⟨[], by simp, hin', by simp⟩⟩
      | cons first rest =>
        have hn : 0 < size.toNat := by omega
        obtain ⟨r1, r2, _⟩ := Net.recv_delivers net size.toNat first rest hne hin
        have hf : first ≠ [] := hne first (List.mem_cons_self _ _)
        have hflen : 0 < first.length := List.length_pos.mpr hf
        rw [List.flatten_cons] at hj
        rw [hj] at r1 r2
        have hlenb : first.length ≤ bytes.length := by rw [← hj]; simp
        generalize net.recv Socket.stream size.toNat = rr at r1 r2
        obtain ⟨rb, rn⟩ := rr
        simp only at r1 r2
        subst r1
        simp only
        have hblen : (bytes.take (min first.length size.toNat)).length =
            min first.length size.toNat := by
          rw [List.length_take]
          omega
        have hnz : ¬ (bytes.take (min first.length size.toNat)).length = 0 := by
          rw [hblen]; omega
        rw [if_neg hnz, hblen]
        have hsz : (size - ((min first.length size.toNat : Nat) : Int)).toNat =
            size.toNat - min first.length size.toNat := by omega
        obtain ⟨i1, i2⟩ := ih rn (size - ((min first.length size.toNat : Nat) : Int))
          (data ++ bytes.take (min first.length size.toNat))
          (bytes.drop (min first.length size.toNat)) (by omega) r2
        rw [hsz] at i1 i2
        refine ⟨?_, ?_⟩
        · rw [i1, List.append_assoc]
          congr 1
          rw [← List.take_add]
          congr 1
          omega
        · rw [List.drop_drop] at i2
          have : min first.length size.toNat + (size.toNat - min first.length size.toNat) =
              size.toNat := by omega
          rw [this] at i2
          exact i2
    · rw [if_neg hpos]
      have h0 : size.toNat = 0 := by omega
      rw [h0]
      simpa using hdel

theorem ReceiveRawData_delivers (d : Device) (net : Net) (size : Int) (bytes : List Nat)
    (hsock : d.socket = .stream) (hdel : net.Delivers bytes) :
    (ReceiveRawData d net size).1 = bytes.take size.toNat ∧
    (ReceiveRawData d net size).2.Delivers (bytes.drop size.toNat) := by
  unfold ReceiveRawData
  rw [hsock]
  have := ReceiveRawData_loop_delivers size.toNat net size [] bytes (le_refl _) hdel
  simpa using this

theorem TestTcpTop_frame (n : Nat) (hn : n < 2 ^ 31) (x : Nat) (p : List Nat) :
    TestTcpTop (0x50 :: 0x50 :: 0x74 :: 0x82 :: (n % 256) :: (n / 256 % 256) ::
      (n / 65536 % 256) :: (n / 16777216 % 256) :: x :: p) = (n : Int) := by
  have h1 : (0x50 ||| (0x50 <<< 8)) % 2 ^ 16 = MACHINE_PREPARE_DATA_1 := by decide
  have h2 : (0x74 ||| (0x82 <<< 8)) % 2 ^ 16 = MACHINE_PREPARE_DATA_2 := by decide
  rw [TestTcpTop_cons, h1, h2, if_pos ⟨rfl, rfl⟩,
    or_shl_le32 (Nat.mod_lt _ (by norm_num)) (Nat.mod_lt _ (by norm_num))
      (Nat.mod_lt _ (by norm_num)),
    le32_bytes_of n (by omega), Nat.mod_eq_of_lt (by omega : n < 2 ^ 32)]
  exact toInt32_of_lt hn

theorem deviceFrame_eq (code b1 b2 b3 b4 b5 b6 : Nat) (payload : List Nat)
    (hlen : payload.length + 8 < 2 ^ 32) :
    deviceFrame code [b1, b2, b3, b4, b5, b6] payload =
      0x50 :: 0x50 :: 0x74 :: 0x82 :: ((payload.length + 8) % 256) ::
        ((payload.length + 8) / 256 % 256) :: ((payload.length + 8) / 65536 % 256) ::
        ((payload.length + 8) / 16777216 % 256) ::
        (code % 256) :: (code / 256 % 256) :: b1 :: b2 :: b3 :: b4 :: b5 :: b6 :: payload := by
  unfold deviceFrame
  rw [CreateTcpTop_eq]
  have hl : ([code % 256, code / 256 % 256] ++ [b1, b2, b3, b4, b5, b6] ++ payload).length =
      payload.length + 8 := by
    simp only [List.length_append, List.length_cons, List.length_nil]
    omega
  rw [hl, Nat.mod_eq_of_lt hlen]
  rfl

theorem code_bytes (c : Nat) (hc : c < 65536) :
    (c % 256 ||| (c / 256 % 256) <<< 8) % 2 ^ 16 = c :=
  le16_bytes_or c hc

/-- `ReceiveTcpData` on a complete CMD_DATA frame followed by at least 16 more
bytes: the data and what follows the frame. -/
theorem ReceiveTcpData_full (K : Constants) (d : Device) (fuel : Nat) (net : Net)
    (b1 b2 b3 b4 b5 b6 : Nat) (data tail : List Nat)
    (hK : K.CMD_DATA < 65536) (hsz : data.length + 8 < 2 ^ 31) (htail : 16 ≤ tail.length) :
    ReceiveTcpData K d (fuel + 1) net
        (deviceFrame K.CMD_DATA [b1, b2, b3, b4, b5, b6] data ++ tail) data.length =
      .returned ((data, tail), net) := by
  rw [deviceFrame_eq _ _ _ _ _ _ _ _ (by omega)]
  simp only [List.cons_append]
  rw [ReceiveTcpData]
  have ht : TestTcpTop (0x50 :: 0x50 :: 0x74 :: 0x82 :: ((data.length + 8) % 256) ::
      ((data.length + 8) / 256 % 256) :: ((data.length + 8) / 65536 % 256) ::
      ((data.length + 8) / 16777216 % 256) ::
      (K.CMD_DATA % 256) :: (K.CMD_DATA / 256 % 256) :: b1 :: b2 :: b3 :: b4 :: b5 :: b6 ::
        (data ++ tail)) = ((data.length + 8 : Nat) : Int) := TestTcpTop_frame _ hsz _ _
  simp only [ht, List.length_cons, List.length_append, List.getD_cons_succ,
    List.getD_cons_zero, code_bytes _ hK]
  have c1 : ¬ (((data.length + 8 : Nat) : Int) ≤ 0) := by omega
  have c2 : ¬ (((data.length + 8 : Nat) : Int) - 8 < (data.length : Int)) := by omega
  have c3 : ¬ (data.length + tail.length + 1 + 1 + 1 + 1 + 1 + 1 + 1 + 1 + 1 + 1 + 1 + 1 + 1 +
      1 + 1 + 1 < 16) := by omega
  have c4 : ((data.length + tail.length + 1 + 1 + 1 + 1 + 1 + 1 + 1 + 1 + 1 + 1 + 1 + 1 + 1 +
      1 + 1 + 1 : Nat) : Int) ≥ (data.length : Int) + 32 := by omega
  have c5 : ¬ ((data.length : Int) + 16 < 0) := by omega
  have c6 : ((data.length + tail.length + 1 + 1 + 1 + 1 + 1 + 1 + 1 + 1 + 1 + 1 + 1 + 1 + 1 +
      1 + 1 + 1 : Nat) : Int) ≥ (data.length : Int) + 16 := by omega
  have c7 : ¬ ((data.length : Int) < 0) := by omega
  have c8 : ((data.length : Int) + 16).toNat = data.length + 16 := by omega
  rw [if_neg c1, if_neg c2, if_neg c3, if_pos c4, if_pos trivial, if_neg c5, if_pos c6, if_neg c7,
    c8]
  simp only [List.take_succ_cons, List.drop_succ_cons, List.drop_zero, List.take_left,
    List.drop_left]

/-- `ReceiveTcpData` on the first `h + 16` bytes of a CMD_DATA frame, the rest of
the frame being pending on the stream: the data, no broken header. -/
theorem ReceiveTcpData_partial (K : Constants) (d : Device) (fuel : Nat) (net : Net)
    (b1 b2 b3 b4 b5 b6 : Nat) (data tail : List Nat) (h : Nat)
    (hK : K.CMD_DATA < 65536) (hsock : d.socket = .stream) (hsz : data.length + 8 < 2 ^ 31)
    (hh : h ≤ data.length) (hdel : net.Delivers (data.drop h ++ tail)) :
    ∃ net1, ReceiveTcpData K d (fuel + 1) net
        ((deviceFrame K.CMD_DATA [b1, b2, b3, b4, b5, b6] data).take (h + 16)) data.length =
      .returned ((data, []), net1) ∧ net1.Delivers tail := by
  rw [deviceFrame_eq _ _ _ _ _ _ _ _ (by omega)]
  simp only [List.take_succ_cons]
  rw [ReceiveTcpData]
  have ht : TestTcpTop (0x50 :: 0x50 :: 0x74 :: 0x82 :: ((data.length + 8) % 256) ::
      ((data.length + 8) / 256 % 256) :: ((data.length + 8) / 65536 % 256) ::
      ((data.length + 8) / 16777216 % 256) ::
      (K.CMD_DATA % 256) :: (K.CMD_DATA / 256 % 256) :: b1 :: b2 :: b3 :: b4 :: b5 :: b6 ::
        data.take h) = ((data.length + 8 : Nat) : Int) := TestTcpTop_frame _ hsz _ _
  have hlen : (data.take h).length = h := by rw [List.length_take]; omega
  simp only [ht, List.length_cons, hlen, List.getD_cons_succ, List.getD_cons_zero,
    code_bytes _ hK]
  have c1 : ¬ (((data.length + 8 : Nat) : Int) ≤ 0) := by omega
  have c2 : ¬ (((data.length + 8 : Nat) : Int) - 8 < (data.length : Int)) := by omega
  have c3 : ¬ (h + 1 + 1 + 1 + 1 + 1 + 1 + 1 + 1 + 1 + 1 + 1 + 1 + 1 + 1 + 1 + 1 < 16) := by
    omega
  have c4 : ¬ (((h + 1 + 1 + 1 + 1 + 1 + 1 + 1 + 1 + 1 + 1 + 1 + 1 + 1 + 1 + 1 + 1 : Nat) : Int)
      ≥ (data.length : Int) + 32) := by omega
  have e1 : ((h + 1 + 1 + 1 + 1 + 1 + 1 + 1 + 1 + 1 + 1 + 1 + 1 + 1 + 1 + 1 + 1 : Nat) : Int) - 16
      = (h : Int) := by omega
  have e2 : min (h : Int) (data.length : Int) = (h : Int) := by omega
  have c5 : ¬ ((h : Int) > 0 ∧ (h : Int) < 0) := by omega
  rw [if_neg c1, if_neg c2, if_neg c3, if_neg c4, e1, e2, if_neg c5]
  have e3 : (16 + (h : Int)).toNat = h + 16 := by omega
  have e4 : (if (h : Int) > 0 then
      (List.take (16 + (h : Int)).toNat (0x50 :: 0x50 :: 0x74 :: 0x82 ::
        ((data.length + 8) % 256) ::
      ((data.length + 8) / 256 % 256) :: ((data.length + 8) / 65536 % 256) ::
      ((data.length + 8) / 16777216 % 256) ::
      (K.CMD_DATA % 256) :: (K.CMD_DATA / 256 % 256) :: b1 :: b2 :: b3 :: b4 :: b5 :: b6 ::
        data.take h)).drop 16 else []) = data.take h := by
    rw [e3]
    by_cases h0 : (h : Int) > 0
    · rw [if_pos h0]
      simp only [List.take_succ_cons, List.drop_succ_cons, List.drop_zero, List.take_take,
        Nat.min_self]
    · rw [if_neg h0]
      have : h = 0 := by omega
      subst this
      simp
  have e5 : (if (h : Int) > 0 then (data.length : Int) - h else (data.length : Int)) =
      ((data.length - h : Nat) : Int) := by
    split_ifs <;> omega
  rw [e4, e5]
  have c6 : ¬ (((data.length - h : Nat) : Int) < 0 ∧
      0 ≤ ((h + 1 + 1 + 1 + 1 + 1 + 1 + 1 + 1 + 1 + 1 + 1 + 1 + 1 + 1 + 1 + 1 : Nat) : Int) +
        ((data.length - h : Nat) : Int) ∧
      ((h + 1 + 1 + 1 + 1 + 1 + 1 + 1 + 1 + 1 + 1 + 1 + 1 + 1 + 1 + 1 + 1 : Nat) : Int) +
        ((data.length - h : Nat) : Int) <
        ((h + 1 + 1 + 1 + 1 + 1 + 1 + 1 + 1 + 1 + 1 + 1 + 1 + 1 + 1 + 1 + 1 : Nat) : Int)) := by
    omega
  simp only [if_neg c6]
  obtain ⟨m1, m2⟩ := ReceiveRawData_delivers d net ((data.length - h : Nat) : Int)
    (data.drop h ++ tail) hsock hdel
  rw [Int.toNat_ofNat] at m1 m2
  have hdl : (data.drop h).length = data.length - h := List.length_drop _ _
  have t1 : (data.drop h ++ tail).take (data.length - h) = data.drop h := by
    rw [← hdl, List.take_left]
  have t2 : (data.drop h ++ tail).drop (data.length - h) = tail := by
    rw [← hdl, List.drop_left]
  rw [t1] at m1
  rw [t2] at m2
  by_cases hpos : ((data.length - h : Nat) : Int) > 0
  · rw [if_pos hpos]
    exact ⟨_, by rw [m1, List.take_append_drop], m2⟩
  · rw [if_neg hpos]
    have hz : data.length - h = 0 := by omega
    have hfull : data.take h = data := List.take_of_length_le (by omega)
    have hnil : data.drop h = [] := List.drop_eq_nil_of_le (by omega)
    rw [hnil, List.nil_append] at hdel
    exact ⟨net, by rw [hfull], hdel⟩

theorem deviceFrame_length (code b1 b2 b3 b4 b5 b6 : Nat) (payload : List Nat) :
    (deviceFrame code [b1, b2, b3, b4, b5, b6] payload).length = payload.length + 16 := by
  unfold deviceFrame
  rw [CreateTcpTop_length]
  simp only [List.length_append, List.length_cons, List.length_nil]
  omega

/-- The acknowledgement phase of `ReceiveChunk`: a CMD_ACK_OK frame passes the
tests made on it. -/
theorem ackFrame_tests (K : Constants) (c1 c2 c3 c4 c5 c6 : Nat) (hK : K.CMD_ACK_OK < 65536) :
    (deviceFrame K.CMD_ACK_OK [c1, c2, c3, c4, c5, c6] []).length = 16 ∧
    TestTcpTop (deviceFrame K.CMD_ACK_OK [c1, c2, c3, c4, c5, c6] []) = 8 ∧
    ((deviceFrame K.CMD_ACK_OK [c1, c2, c3, c4, c5, c6] []).getD 8 0 |||
      ((deviceFrame K.CMD_ACK_OK [c1, c2, c3, c4, c5, c6] []).getD 9 0 <<< 8)) % 2 ^ 16 =
      K.CMD_ACK_OK := by
  refine ⟨deviceFrame_length _ _ _ _ _ _ _ _, ?_, ?_⟩
  · rw [deviceFrame_eq _ _ _ _ _ _ _ _ (by simp)]
    have := TestTcpTop_frame 8 (by norm_num) (K.CMD_ACK_OK % 256)
      (K.CMD_ACK_OK / 256 % 256 :: c1 :: c2 :: c3 :: c4 :: c5 :: c6 :: [])
    simpa using this
  · rw [deviceFrame_eq _ _ _ _ _ _ _ _ (by simp)]
    simp only [List.getD_cons_succ, List.getD_cons_zero]
    exact code_bytes _ hK

/-- `ReceiveChunk` after the first read of a chunk left the PREPARE_DATA payload
and the first `g` bytes of the DATA and ACK_OK frames in `lastData_`, the rest
being pending on the stream: the data are returned when fewer than `size` or at
least 16 of these bytes were read. -/
theorem ReceiveChunk_frames (K : Constants) (fuel : Nat) (d : Device) (net : Net)
    (b1 b2 b3 b4 b5 b6 c1 c2 c3 c4 c5 c6 e1 e2 e3 e4 : Nat) (data : List Nat) (g : Nat)
    (hK : K.CMD_PREPARE_DATA ≠ K.CMD_DATA ∧ K.CMD_DATA < 65536 ∧ K.CMD_ACK_OK < 65536)
    (hresp : d.lastResponse = K.CMD_PREPARE_DATA)
    (hudp : d.forceUdp = false) (hsock : d.socket = .stream)
    (hsz : data.length + 56 < 2 ^ 31)
    (hdata : d.lastData =
      (data.length % 256) :: (data.length / 256 % 256) :: (data.length / 65536 % 256) ::
        (data.length / 16777216 % 256) :: e1 :: e2 :: e3 :: e4 ::
        (deviceFrame K.CMD_DATA [b1, b2, b3, b4, b5, b6] data ++
          deviceFrame K.CMD_ACK_OK [c1, c2, c3, c4, c5, c6] []).take g)
    (hdel : net.Delivers
      ((deviceFrame K.CMD_DATA [b1, b2, b3, b4, b5, b6] data ++
          deviceFrame K.CMD_ACK_OK [c1, c2, c3, c4, c5, c6] []).drop g))
    (hg : g ≤ data.length + 16) (hg' : g < data.length ∨ 16 ≤ g) :
    ∃ net1, ReceiveChunk K (fuel + 1) d net = .returned (data, net1) ∧ net1.Delivers [] := by
  obtain ⟨a1, a2, a3⟩ := ackFrame_tests K c1 c2 c3 c4 c5 c6 hK.2.2
  have hDlen := deviceFrame_length K.CMD_DATA b1 b2 b3 b4 b5 b6 data
  generalize hA : deviceFrame K.CMD_ACK_OK [c1, c2, c3, c4, c5, c6] [] = A at a1 a2 a3 hdata hdel
  have hsize : GetDataSize K d = (data.length : Int) := by
    unfold GetDataSize
    rw [if_pos hresp, hdata]
    simp only [List.length_cons, List.getD_cons_succ, List.getD_cons_zero]
    rw [if_pos (by omega), le32_bytes_or _ (by omega)]
    exact toInt32_of_lt (by omega)
  have hll : d.lastData.length = 8 + g := by
    rw [hdata]
    simp only [List.length_cons, List.length_take, List.length_append, hDlen, a1]
    omega
  have hdrop : d.lastData.drop 8 =
      (deviceFrame K.CMD_DATA [b1, b2, b3, b4, b5, b6] data ++ A).take g := by
    rw [hdata]
    simp only [List.drop_succ_cons, List.drop_zero]
  have htcp : (!d.forceUdp) = true ∧ d.socket ≠ Socket.invalid := by
    rw [hudp, hsock]
    exact ⟨rfl, by simp⟩
  have hnd : ¬ d.lastResponse = K.CMD_DATA := by rw [hresp]; exact hK.1
  have hack : ∀ (bh : List Nat) (n2 : Net),
      (bh = A ∧ n2.Delivers []) ∨ (bh = [] ∧ n2.Delivers A) →
      ∃ n3,
        (let ackDataRecv : List Nat × Net :=
            if bh.length < 16 then
              let additionalData := ReceiveRawData d n2 16
              (bh ++ additionalData.1, additionalData.2)
            else (bh, n2)
          let ackDataRecv : List Nat × Net :=
            if ackDataRecv.1.length < 16 then
              let additionalData := ReceiveRawData d ackDataRecv.2 (16 - ackDataRecv.1.length)
              (ackDataRecv.1 ++ additionalData.1, additionalData.2)
            else ackDataRecv
          if TestTcpTop ackDataRecv.1 = 0 then Outcome.returned (([] : List Nat), ackDataRecv.2)
          else if ackDataRecv.1.length ≥ 16 then
            let response := (ackDataRecv.1.getD 8 0 ||| (ackDataRecv.1.getD 9 0 <<< 8)) % 2 ^ 16
            if response = K.CMD_ACK_OK then Outcome.returned (data, ackDataRecv.2)
            else Outcome.returned ([], ackDataRecv.2)
          else Outcome.returned (data, ackDataRecv.2)) = Outcome.returned (data, n3) ∧
        n3.Delivers [] := by
    intro bh n2 hcase
    rcases hcase with ⟨hb, hd⟩ | ⟨hb, hd⟩
    · rw [hb]
      refine ⟨n2, ?_, hd⟩
      have hA16 : ¬ A.length < 16 := by rw [a1]; exact lt_irrefl 16
      have hA16' : A.length ≥ 16 := by rw [a1]
      dsimp only
      rw [if_neg hA16]
      dsimp only
      rw [if_neg hA16]
      dsimp only
      rw [a2, a3, if_neg (by norm_num), if_pos hA16', if_pos rfl]
    · rw [hb]
      obtain ⟨m1, m2⟩ := ReceiveRawData_delivers d n2 16 A hsock hd
      have t1 : A.take (16 : Int).toNat = A := List.take_of_length_le (by rw [a1]; rfl)
      have t2 : A.drop (16 : Int).toNat = [] := List.drop_eq_nil_of_le (by rw [a1]; rfl)
      rw [t1] at m1
      rw [t2] at m2
      refine ⟨(ReceiveRawData d n2 16).2, ?_, m2⟩
      have h016 : ([] : List Nat).length < 16 := by decide
      have hA16 : ¬ A.length < 16 := by rw [a1]; exact lt_irrefl 16
      have hA16' : A.length ≥ 16 := by rw [a1]
      dsimp only
      rw [if_pos h016]
      dsimp only
      rw [List.nil_append, m1, if_neg hA16]
      dsimp only
      rw [a2, a3, if_neg (by norm_num), if_pos hA16', if_pos rfl]
  have hclaim : ∃ (bh : List Nat) (n2 : Net),
      ReceiveTcpData K d (fuel + 1)
        (if (d.lastData.length : Int) ≥ 8 + GetDataSize K d then (d.lastData.drop 8, net)
          else (d.lastData.drop 8 ++ (ReceiveRawData d net (GetDataSize K d + 32)).1,
            (ReceiveRawData d net (GetDataSize K d + 32)).2)).2
        (if (d.lastData.length : Int) ≥ 8 + GetDataSize K d then (d.lastData.drop 8, net)
          else (d.lastData.drop 8 ++ (ReceiveRawData d net (GetDataSize K d + 32)).1,
            (ReceiveRawData d net (GetDataSize K d + 32)).2)).1
        (GetDataSize K d) = .returned ((data, bh), n2) ∧
      ((bh = A ∧ n2.Delivers []) ∨ (bh = [] ∧ n2.Delivers A)) := by
    rw [hsize, hdrop, hll]
    by_cases hcase : g < data.length
    · have hc : ¬ (((8 + g : Nat) : Int) ≥ 8 + (data.length : Int)) := by omega
      rw [if_neg hc]
      obtain ⟨m1, m2⟩ := ReceiveRawData_delivers d net ((data.length : Int) + 32) _ hsock hdel
      have hdl : ((deviceFrame K.CMD_DATA [b1, b2, b3, b4, b5, b6] data ++ A).drop g).length ≤
          ((data.length : Int) + 32).toNat := by
        rw [List.length_drop, List.length_append, hDlen, a1]
        omega
      rw [List.take_of_length_le hdl] at m1
      rw [List.drop_eq_nil_of_le hdl] at m2
      refine ⟨A, (ReceiveRawData d net ((data.length : Int) + 32)).2, ?_, Or.inl ⟨rfl, m2⟩⟩
      dsimp only
      rw [m1, List.take_append_drop]
      exact ReceiveTcpData_full K d fuel _ b1 b2 b3 b4 b5 b6 data A hK.2.1 (by omega) (by omega)
    · have hc : ((8 + g : Nat) : Int) ≥ 8 + (data.length : Int) := by omega
      rw [if_pos hc]
      have h16 : 16 ≤ g := by omega
      have htake : (deviceFrame K.CMD_DATA [b1, b2, b3, b4, b5, b6] data ++ A).take g =
          (deviceFrame K.CMD_DATA [b1, b2, b3, b4, b5, b6] data).take (g - 16 + 16) := by
        rw [Nat.sub_add_cancel h16]
        exact List.take_append_of_le_length (by rw [hDlen]; omega)
      have hdrop2 : (deviceFrame K.CMD_DATA [b1, b2, b3, b4, b5, b6] data ++ A).drop g =
          data.drop (g - 16) ++ A := by
        rw [List.drop_append_of_le_length (by rw [hDlen]; omega),
          deviceFrame_eq _ _ _ _ _ _ _ _ (by omega)]
        obtain ⟨h, rfl⟩ : ∃ h, g = h + 16 := ⟨g - 16, by omega⟩
        simp only [List.drop_succ_cons, List.drop_zero, Nat.add_sub_cancel]
      rw [hdrop2] at hdel
      obtain ⟨n1, r1, r2⟩ := ReceiveTcpData_partial K d fuel net b1 b2 b3 b4 b5 b6 data A
        (g - 16) hK.2.1 hsock (by omega) (by omega) hdel
      refine ⟨[], n1, ?_, Or.inr ⟨rfl, r2⟩⟩
      dsimp only
      rw [htake]
      exact r1
  obtain ⟨bh, n2, e, hcases⟩ := hclaim
  obtain ⟨n3, e3, d3⟩ := hack bh n2 hcases
  refine ⟨n3, ?_, d3⟩
  unfold ReceiveChunk
  rw [if_neg hnd, if_pos hresp, if_pos htcp, if_neg (by omega)]
  dsimp only
  rw [e]
  exact e3

theorem storeLastResponse_some (d : Device) (r : List Nat) (hr : 2 ≤ r.length) :
    (storeLastResponse d (some r)).lastResponse = (r.getD 0 0 ||| (r.getD 1 0 <<< 8)) % 2 ^ 16 ∧
    (storeLastResponse d (some r)).lastData = (if r.length > 8 then r.drop 8 else []) := by
  simp only [storeLastResponse]
  rw [if_pos (by omega)]
  split_ifs <;> exact ⟨rfl, rfl⟩

theorem getD_drop (l : List Nat) (k i : Nat) : (l.drop k).getD i 0 = l.getD (k + i) 0 := by
  rw [List.getD_eq_getElem?_getD, List.getD_eq_getElem?_getD, List.getElem?_drop]

/-- The first read of a `SendCommand` call over TCP whose reply arrives cut into
segments: the call succeeds when the read has at least 16 bytes and starts with
the magics; the bytes read are the first `f` of the stream, `f` being the
smaller of the first segment's length and the buffer size. -/
theorem SendCommand_stream (K : Constants) (d : Device) (net : Net) (command : Nat)
    (commandString resp : List Nat) (responseSize : Nat) (first : List Nat)
    (segs : List (List Nat)) (S : List Nat)
    (hconn : d.isConnected = true) (hudp : d.forceUdp = false) (hsock : d.socket = .stream)
    (hsend : ∀ b ∈ net.sendOk, b = true)
    (hne : ∀ s ∈ first :: segs, s ≠ [])
    (hin : net.incoming = (first :: segs).map some)
    (hS : first ++ segs.flatten = S)
    (h16 : 16 ≤ min first.length (responseSize + 8))
    (hmagic : S.getD 0 0 = 0x50 ∧ S.getD 1 0 = 0x50 ∧ S.getD 2 0 = 0x74 ∧ S.getD 3 0 = 0x82) :
    (SendCommand K d net command commandString responseSize (some resp)).outcome = some true ∧
    (SendCommand K d net command commandString responseSize (some resp)).dev.lastResponse =
      (S.getD 8 0 ||| (S.getD 9 0 <<< 8)) % 2 ^ 16 ∧
    (SendCommand K d net command commandString responseSize (some resp)).dev.lastData =
      (S.take (min first.length (responseSize + 8))).drop 16 ∧
    (SendCommand K d net command commandString responseSize (some resp)).net.Delivers
      (S.drop (min first.length (responseSize + 8))) := by
  have hg : ¬ ((!d.isConnected) = true ∧ command % 2 ^ 16 ≠ K.CMD_CONNECT ∧
      command % 2 ^ 16 ≠ K.CMD_AUTH) := by
    rintro ⟨h1, _, _⟩
    simp [hconn] at h1
  have hc : d.socket ≠ Socket.invalid ∧ (!d.forceUdp) = true := by
    rw [hsock, hudp]
    exact ⟨by simp, rfl⟩
  have hsock' : d.socket ≠ Socket.invalid := hc.1
  generalize hf : min first.length (responseSize + 8) = f at h16 ⊢
  have hfS : f ≤ S.length := by
    rw [← hS, List.length_append, ← hf]
    omega
  have hlen : (S.take f).length = f := by rw [List.length_take]; omega
  have hm1 : ((S.take f).getD 0 0 ||| ((S.take f).getD 1 0 <<< 8)) % 2 ^ 16 =
      MACHINE_PREPARE_DATA_1 := by
    rw [getD_take S f 0 (by omega), getD_take S f 1 (by omega), hmagic.1, hmagic.2.1]
    decide
  have hm2 : ((S.take f).getD 2 0 ||| ((S.take f).getD 3 0 <<< 8)) % 2 ^ 16 =
      MACHINE_PREPARE_DATA_2 := by
    rw [getD_take S f 2 (by omega), getD_take S f 3 (by omega), hmagic.2.2.1, hmagic.2.2.2]
    decide
  unfold SendCommand
  simp only [if_neg hg, if_pos hc]
  rw [Net.send_ok net d.socket _ hsock' hsend]
  simp only [Bool.not_true, Bool.false_eq_true, if_false]
  rw [hsock]
  obtain ⟨r1, r2, _⟩ := Net.recv_delivers
    { net with sendOk := net.sendOk.tail,
               sent := net.sent ++ [CreateTcpTop (CreateHeader (command % 2 ^ 16) commandString
                 d.sessionId (nextReplyId d.replyId))] }
    (responseSize + 8) first segs hne hin
  rw [hS, hf] at r1 r2
  generalize Net.recv
    { net with sendOk := net.sendOk.tail,
               sent := net.sent ++ [CreateTcpTop (CreateHeader (command % 2 ^ 16) commandString
                 d.sessionId (nextReplyId d.replyId))] }
    Socket.stream (responseSize + 8) = rr at r1 r2
  obtain ⟨rb, rn⟩ := rr
  simp only at r1 r2
  subst r1
  simp only [hlen, ge_iff_le, h16, if_true, hm1, hm2, and_self, Option.map_some']
  have hrl : ((S.take f).drop 8).length = f - 8 := by rw [List.length_drop, hlen]
  have hst := fun d' : Device =>
    storeLastResponse_some d' ((S.take f).drop 8) (by rw [hrl]; omega)
  refine ⟨trivial, ?_, ?_, r2⟩
  · rw [(hst _).1, getD_drop, getD_drop, getD_take S f _ (by omega), getD_take S f _ (by omega)]
  · rw [(hst _).2, hrl]
    split_ifs with h8
    · rw [List.drop_drop]
    · have : f = 16 := by omega
      subst this
      symm
      exact List.drop_eq_nil_of_le (by rw [hlen])

theorem length_six {l : List Nat} (h : l.length = 6) :
    ∃ a b c d e f, l = [a, b, c, d, e, f] := by
  rcases l with _ | ⟨a, _ | ⟨b, _ | ⟨c, _ | ⟨d, _ | ⟨e, _ | ⟨f, _ | ⟨g, l⟩⟩⟩⟩⟩⟩⟩ <;>
    first
    | exact ⟨_, _, _, _, _, _, rfl⟩
    | (simp only [List.length_cons, List.length_nil] at h; omega)

theorem length_four {l : List Nat} (h : l.length = 4) : ∃ a b c d, l = [a, b, c, d] := by
  rcases l with _ | ⟨a, _ | ⟨b, _ | ⟨c, _ | ⟨d, _ | ⟨e, l⟩⟩⟩⟩⟩ <;>
    first
    | exact ⟨_, _, _, _, rfl⟩
    | (simp only [List.length_cons, List.length_nil] at h; omega)

/-- The byte stream of a chunk, spelled out: the 16 bytes of the PREPARE_DATA
envelope and header, the 8 bytes of its payload, then the DATA and ACK_OK
frames. -/
theorem chunkStream_eq (K : Constants) (a1 a2 a3 a4 a5 a6 e1 e2 e3 e4 : Nat)
    (r2 r3 data : List Nat) :
    chunkStream K [a1, a2, a3, a4, a5, a6] r2 r3 [e1, e2, e3, e4] data =
      0x50 :: 0x50 :: 0x74 :: 0x82 :: 16 :: 0 :: 0 :: 0 ::
        (K.CMD_PREPARE_DATA % 256) :: (K.CMD_PREPARE_DATA / 256 % 256) ::
        a1 :: a2 :: a3 :: a4 :: a5 :: a6 ::
        (data.length % 256) :: (data.length / 256 % 256) :: (data.length / 65536 % 256) ::
        (data.length / 16777216 % 256) :: e1 :: e2 :: e3 :: e4 ::
        (deviceFrame K.CMD_DATA r2 data ++ deviceFrame K.CMD_ACK_OK r3 []) := by
  unfold chunkStream
  rw [deviceFrame_eq _ _ _ _ _ _ _ _ (by simp)]
  simp only [List.cons_append, List.nil_append, List.append_assoc, List.length_cons,
    List.length_nil]

/-- A `ReadChunk` call over TCP whose first attempt receives non-empty data
returns them without a retry. -/
theorem ReadChunk_first_attempt (K : Constants) (fuel : Nat) (d : Device) (net : Net)
    (start size : Nat) (requests : List (Nat × List Nat)) (retries : Nat) (data : List Nat)
    (net1 : Net) (hudp : d.forceUdp = false) (hsock : d.socket = .stream)
    (h1 : (SendCommand K d net K.CMD_READ_BUFFER (ReadChunk_commandString start size)
      (size + 32) (some [])).outcome = some true)
    (h2 : ReceiveChunk K fuel
      (SendCommand K d net K.CMD_READ_BUFFER (ReadChunk_commandString start size)
        (size + 32) (some [])).dev
      (SendCommand K d net K.CMD_READ_BUFFER (ReadChunk_commandString start size)
        (size + 32) (some [])).net = .returned (data, net1))
    (hd : data ≠ []) :
    (ReadChunk K fuel d net start size requests retries).outcome = .returned (some data) ∧
    (ReadChunk K fuel d net start size requests retries).retries = retries := by
  have htcp : (!d.forceUdp) = true ∧ d.socket ≠ Socket.invalid := by
    rw [hudp, hsock]
    exact ⟨rfl, by simp⟩
  have hemp : (!data.isEmpty) = true := by
    cases data with
    | nil => exact absurd rfl hd
    | cons a l => rfl
  unfold ReadChunk
  rw [ReadChunk_attempts]
  simp only [if_pos htcp]
  rw [if_pos h1, h2]
  simp only [hemp, if_true, and_self]

/-- C13 (amended): on TCP, for a chunk the device sends as a PREPARE_DATA frame
(8-byte payload starting with the 32-bit size), a DATA frame carrying the
`size` bytes and an ACK_OK frame, and for every way of cutting that byte stream
into non-empty segments whose first read (the first segment, at most
`size + 40` bytes) has at least 24 bytes and either fewer than `size + 24` or at
least 40: `SendCommand` succeeds on the first read and `ReceiveChunk` returns
exactly the `size` data bytes, consuming the whole stream; `ReadChunk` then
returns them at its first attempt when they are not empty. -/
theorem chunk_reassembly (K : Constants) (fuel : Nat) (d : Device) (net : Net) (start : Nat)
    (r1 r2 r3 extra data first : List Nat) (segs : List (List Nat))
    (hK : K.CMD_PREPARE_DATA < 65536 ∧ K.CMD_DATA < 65536 ∧ K.CMD_ACK_OK < 65536 ∧
      K.CMD_PREPARE_DATA ≠ K.CMD_DATA)
    (hconn : d.isConnected = true) (hudp : d.forceUdp = false) (hsock : d.socket = .stream)
    (hsend : ∀ b ∈ net.sendOk, b = true)
    (hr1 : r1.length = 6) (hr2 : r2.length = 6) (hr3 : r3.length = 6)
    (hextra : extra.length = 4) (hsz : data.length + 56 < 2 ^ 31)
    (hne : ∀ s ∈ first :: segs, s ≠ [])
    (hin : net.incoming = (first :: segs).map some)
    (hstream : first ++ segs.flatten = chunkStream K r1 r2 r3 extra data)
    (hfirst : 24 ≤ min first.length (data.length + 40) ∧
      (min first.length (data.length + 40) < data.length + 24 ∨
        40 ≤ min first.length (data.length + 40))) :
    (SendCommand K d net K.CMD_READ_BUFFER (ReadChunk_commandString start data.length)
      (data.length + 32) (some [])).outcome = some true ∧
    (∃ net1,
      ReceiveChunk K (fuel + 1)
        (SendCommand K d net K.CMD_READ_BUFFER (ReadChunk_commandString start data.length)
          (data.length + 32) (some [])).dev
        (SendCommand K d net K.CMD_READ_BUFFER (ReadChunk_commandString start data.length)
          (data.length + 32) (some [])).net = .returned (data, net1) ∧
      net1.incoming = []) ∧
    (data ≠ [] → ∀ (requests : List (Nat × List Nat)) (retries : Nat),
      (ReadChunk K (fuel + 1) d net start data.length requests retries).outcome =
        .returned (some data) ∧
      (ReadChunk K (fuel + 1) d net start data.length requests retries).retries = retries) := by
  obtain ⟨a1, a2, a3, a4, a5, a6, rfl⟩ := length_six hr1
  obtain ⟨b1, b2, b3, b4, b5, b6, rfl⟩ := length_six hr2
  obtain ⟨c1, c2, c3, c4, c5, c6, rfl⟩ := length_six hr3
  obtain ⟨e1, e2, e3, e4, rfl⟩ := length_four hextra
  rw [chunkStream_eq] at hstream
  generalize hDA : deviceFrame K.CMD_DATA [b1, b2, b3, b4, b5, b6] data ++
    deviceFrame K.CMD_ACK_OK [c1, c2, c3, c4, c5, c6] [] = DA at hstream
  have hf40 : data.length + 32 + 8 = data.length + 40 := rfl
  obtain ⟨s1, s2, s3, s4⟩ := SendCommand_stream K d net K.CMD_READ_BUFFER
    (ReadChunk_commandString start data.length) [] (data.length + 32) first segs _
    hconn hudp hsock hsend hne hin hstream (by rw [hf40]; omega)
    ⟨rfl, rfl, rfl, rfl⟩
  obtain ⟨f1, f2, f3, _⟩ := SendCommand_fields K d net K.CMD_READ_BUFFER
    (ReadChunk_commandString start data.length) (data.length + 32) (some [])
  rw [hf40] at s3 s4
  generalize hf : min first.length (data.length + 40) = f at hfirst s3 s4
  obtain ⟨g, rfl⟩ : ∃ g, f = g + 24 := ⟨f - 24, by omega⟩
  have hfle : g + 24 ≤ data.length + 40 := by rw [← hf]; exact Nat.min_le_right _ _
  simp only [List.getD_cons_succ, List.getD_cons_zero, code_bytes _ hK.1] at s2
  simp only [List.take_succ_cons, List.drop_succ_cons, List.drop_zero] at s3 s4
  subst hDA
  obtain ⟨net1, q1, q2⟩ := ReceiveChunk_frames K fuel _ _ b1 b2 b3 b4 b5 b6
    c1 c2 c3 c4 c5 c6 e1 e2 e3 e4 data g ⟨hK.2.2.2, hK.2.1, hK.2.2.1⟩ s2
    (by rw [f2, hudp]) (by rw [f3, hsock]) hsz s3 s4 (by omega) (by omega)
  refine ⟨s1, ⟨net1, q1, Net.Delivers_nil net1 q2⟩, ?_⟩
  intro hd requests retries
  exact ReadChunk_first_attempt K (fuel + 1) d net start data.length requests retries data
    net1 hudp hsock s1 q1 hd

/-- C13 (as stated, refuted): the sample chunk of 5 bytes, cut into two
non-empty reads after its first 10 bytes, makes the first read of `SendCommand`
fail (fewer than 16 bytes) and `ReadChunk` throw after three attempts; cut
after 30 bytes, `SendCommand` succeeds but `ReadChunk` throws as well; cut after
20 bytes, `ReceiveChunk` takes the range `lastData_.begin() + 8` of a 4-byte
vector, which is undefined. -/
theorem chunk_reassembly_refuted :
    sampleChunkStream.length = 61 ∧
    (SendCommand sampleConstants sampleConnected
      (sampleSplitNet [sampleChunkStream.take 10, sampleChunkStream.drop 10])
      sampleConstants.CMD_READ_BUFFER (ReadChunk_commandString 0 5) (5 + 32) (some [])).outcome =
        some false ∧
    (ReadChunk sampleConstants 2 sampleConnected
      (sampleSplitNet [sampleChunkStream.take 10, sampleChunkStream.drop 10]) 0 5 [] 0).outcome =
        .returned none ∧
    (SendCommand sampleConstants sampleConnected
      (sampleSplitNet [sampleChunkStream.take 30, sampleChunkStream.drop 30])
      sampleConstants.CMD_READ_BUFFER (ReadChunk_commandString 0 5) (5 + 32) (some [])).outcome =
        some true ∧
    (ReadChunk sampleConstants 2 sampleConnected
      (sampleSplitNet [sampleChunkStream.take 30, sampleChunkStream.drop 30]) 0 5 [] 0).outcome =
        .returned none ∧
    (ReadChunk sampleConstants 2 sampleConnected
      (sampleSplitNet [sampleChunkStream.take 20, sampleChunkStream.drop 20]) 0 5 [] 0).outcome =
        .undefinedBehaviour := by
  refine ⟨?_, ?_, ?_, ?_, ?_, ?_⟩ <;> decide

/-- Witness of `chunk_reassembly`: the sample chunk of 5 bytes cut into reads of
26, 3 and 32 bytes. -/
theorem chunk_reassembly_witness :
    (ReadChunk sampleConstants 1 sampleConnected
      (sampleSplitNet [sampleChunkStream.take 26, (sampleChunkStream.drop 26).take 3,
        sampleChunkStream.drop 29]) 0 5 [] 0).outcome =
        .returned (some [0xA1, 0xA2, 0xA3, 0xA4, 0xA5]) ∧
    ((SendCommand sampleConstants sampleConnected
      (sampleSplitNet [sampleChunkStream.take 26, (sampleChunkStream.drop 26).take 3,
        sampleChunkStream.drop 29])
      sampleConstants.CMD_READ_BUFFER
      (ReadChunk_commandString 0 [0xA1, 0xA2, 0xA3, 0xA4, 0xA5].length)
      ([0xA1, 0xA2, 0xA3, 0xA4, 0xA5].length + 32) (some [])).outcome = some true ∧
    (∃ net1,
      ReceiveChunk sampleConstants (0 + 1)
        (SendCommand sampleConstants sampleConnected
          (sampleSplitNet [sampleChunkStream.take 26, (sampleChunkStream.drop 26).take 3,
            sampleChunkStream.drop 29])
          sampleConstants.CMD_READ_BUFFER
          (ReadChunk_commandString 0 [0xA1, 0xA2, 0xA3, 0xA4, 0xA5].length)
          ([0xA1, 0xA2, 0xA3, 0xA4, 0xA5].length + 32) (some [])).dev
        (SendCommand sampleConstants sampleConnected
          (sampleSplitNet [sampleChunkStream.take 26, (sampleChunkStream.drop 26).take 3,
            sampleChunkStream.drop 29])
          sampleConstants.CMD_READ_BUFFER
          (ReadChunk_commandString 0 [0xA1, 0xA2, 0xA3, 0xA4, 0xA5].length)
          ([0xA1, 0xA2, 0xA3, 0xA4, 0xA5].length + 32) (some [])).net =
        .returned ([0xA1, 0xA2, 0xA3, 0xA4, 0xA5], net1) ∧
      net1.incoming = []) ∧
    (([0xA1, 0xA2, 0xA3, 0xA4, 0xA5] : List Nat) ≠ [] →
      ∀ (requests : List (Nat × List Nat)) (retries : Nat),
      (ReadChunk sampleConstants (0 + 1) sampleConnected
        (sampleSplitNet [sampleChunkStream.take 26, (sampleChunkStream.drop 26).take 3,
          sampleChunkStream.drop 29]) 0 [0xA1, 0xA2, 0xA3, 0xA4, 0xA5].length
        requests retries).outcome = .returned (some [0xA1, 0xA2, 0xA3, 0xA4, 0xA5]) ∧
      (ReadChunk sampleConstants (0 + 1) sampleConnected
        (sampleSplitNet [sampleChunkStream.take 26, (sampleChunkStream.drop 26).take 3,
          sampleChunkStream.drop 29]) 0 [0xA1, 0xA2, 0xA3, 0xA4, 0xA5].length
        requests retries).retries = retries)) :=
  ⟨by decide,
   chunk_reassembly sampleConstants 0 sampleConnected
     (sampleSplitNet [sampleChunkStream.take 26, (sampleChunkStream.drop 26).take 3,
       sampleChunkStream.drop 29]) 0
     [0, 0, 0x34, 0x12, 3, 0] [0, 0, 0x34, 0x12, 3, 0] [0, 0, 0x34, 0x12, 3, 0] [0, 0, 0, 0]
     [0xA1, 0xA2, 0xA3, 0xA4, 0xA5] (sampleChunkStream.take 26)
     [(sampleChunkStream.drop 26).take 3, sampleChunkStream.drop 29]
     (by decide) (by decide) (by decide) (by decide) (by decide) (by decide) (by decide)
     (by decide) (by decide) (by decide) (by decide) (by decide) (by decide) (by decide)⟩

/-! ## Device options -/

/-- The two ways of cutting the option value agree whenever the unguarded
`erase` does not throw. -/
theorem optionValue_erase_guarded (response : List Nat) :
    optionValue_erase response = some none ∨
      optionValue_erase response = (optionValue_guarded response).map some := by
  unfold optionValue_erase optionValue_guarded
  split_ifs
  · dsimp only
    cases std_find 0x3D (response.drop 8) with
    | none => right; rfl
    | some pos =>
      dsimp only
      cases std_find 0 ((response.drop 8).drop (pos + 1)) with
      | none => left; rfl
      | some nullPos => right; rfl
  · right; rfl

/-- The unguarded `erase` throws exactly when the payload has a `=` and no NUL
after the first one. -/
theorem optionValue_erase_throws (response : List Nat) :
    optionValue_erase response = some none ↔
      ∃ pos, std_find 0x3D (response.drop 8) = some pos ∧
        0 ∉ (response.drop 8).drop (pos + 1) := by
  unfold optionValue_erase
  split_ifs with h
  · dsimp only
    cases h1 : std_find 0x3D (response.drop 8) with
    | none => simp
    | some pos =>
      dsimp only
      have key : std_find 0 ((response.drop 8).drop (pos + 1)) = none ↔
          0 ∉ (response.drop 8).drop (pos + 1) := by
        generalize (response.drop 8).drop (pos + 1) = l
        unfold std_find
        rw [← List.indexOf_lt_length]
        split_ifs with h2
        · simp [h2]
        · simp only [true_iff]; exact h2
      cases h2 : std_find 0 ((response.drop 8).drop (pos + 1)) with
      | none =>
        rw [h2] at key
        simpa using key.mp rfl
      | some nullPos =>
        rw [h2] at key
        simp only [Option.some.injEq, exists_eq_left']
        constructor
        · intro h3; cases h3
        · intro h3; exact absurd (key.mpr h3) (by simp)
  · have : response.drop 8 = [] := by
      apply List.drop_eq_nil_of_le; omega
    simp [this, std_find]

theorem std_find_none (c : Nat) (s : List Nat) (h : c ∉ s) : std_find c s = none := by
  unfold std_find
  rw [if_neg]
  rw [List.indexOf_lt_length]
  exact h

/-- C21: a reply to CMD_OPTIONS_RRQ whose payload (bytes from offset 8) has its
first `=` at `pos` and no NUL after it.  `GetSerialNumber`, `GetPlatform`,
`GetDeviceName` and `GetMacAddress` (the common body with their query strings)
leave by the exception of `erase(npos)` instead of returning the remainder,
which is the value `GetFaceVersion` and `GetFpVersion` return for the same
payload. -/
theorem option_getters_without_nul (K : Constants) (d : Device) (net : Net) (query : String)
    (reply : List Nat) (pos : Nat) (hconn : d.isConnected = true)
    (hok : (SendCommand K d net K.CMD_OPTIONS_RRQ (ascii query ++ [0]) 1024 (some [])).outcome
      = some true)
    (hresp : (SendCommand K d net K.CMD_OPTIONS_RRQ (ascii query ++ [0]) 1024
      (some [])).response = some reply)
    (hlen : reply.length > 8) (hpos : std_find 0x3D (reply.drop 8) = some pos)
    (hnul : 0 ∉ (reply.drop 8).drop (pos + 1)) :
    (getOption_erase K d net query).outcome = none ∧
    (getOption_guarded K d net query).outcome = some ((reply.drop 8).drop (pos + 1)) ∧
    GetSerialNumber K d net = getOption_erase K d net "~SerialNumber" ∧
    GetPlatform K d net = getOption_erase K d net "~Platform" ∧
    GetDeviceName K d net = getOption_erase K d net "~DeviceName" ∧
    GetMacAddress K d net = getOption_erase K d net "MAC" ∧
    GetFaceVersion K d net = getOption_guarded K d net "ZKFaceVersion" ∧
    GetFpVersion K d net = getOption_guarded K d net "~ZKFPVersion" := by
  have hthrow : optionValue_erase reply = some none :=
    (optionValue_erase_throws reply).mpr ⟨pos, hpos, hnul⟩
  have hguard : optionValue_guarded reply = some ((reply.drop 8).drop (pos + 1)) := by
    unfold optionValue_guarded
    rw [if_pos hlen]
    dsimp only
    rw [hpos]
    dsimp only
    rw [std_find_none 0 _ hnul]
  refine ⟨?_, ?_, rfl, rfl, rfl, rfl, rfl, rfl⟩
  · unfold getOption_erase
    rw [if_neg (by simp [hconn])]
    dsimp only
    rw [hok]
    dsimp only
    rw [hresp]
    dsimp only [Option.getD_some]
    rw [hthrow]
  · unfold getOption_guarded
    rw [if_neg (by simp [hconn])]
    dsimp only
    rw [hok]
    dsimp only
    rw [hresp]
    dsimp only [Option.getD_some]
    rw [hguard]

/-- Witness of `option_getters_without_nul`: the payload is the 17 bytes
`~SerialNumber=ABC`; the same payload with a NUL after it is returned as
`ABC` by both kinds of getters. -/
theorem option_getters_without_nul_witness :
    (GetSerialNumber sampleConstants sampleConnected
      (sampleOptionNet (ascii "~SerialNumber=ABC"))).outcome = none ∧
    (getOption_guarded sampleConstants sampleConnected
      (sampleOptionNet (ascii "~SerialNumber=ABC")) "~SerialNumber").outcome =
      some (ascii "ABC") ∧
    (GetSerialNumber sampleConstants sampleConnected
      (sampleOptionNet (ascii "~SerialNumber=ABC" ++ [0]))).outcome = some (ascii "ABC") ∧
    (GetFaceVersion sampleConstants sampleConnected
      (sampleOptionNet (ascii "~SerialNumber=ABC" ++ [0]))).outcome = some (ascii "ABC") :=
  have h := option_getters_without_nul sampleConstants sampleConnected
    (sampleOptionNet (ascii "~SerialNumber=ABC")) "~SerialNumber"
    ([0xD0, 0x07, 0, 0, 0x34, 0x12, 2, 0] ++ ascii "~SerialNumber=ABC") 13
    rfl (by decide) (by decide) (by decide) (by decide) (by decide)
  ⟨h.1, h.2.1.trans (by decide), by decide, by decide⟩

/-! ## Live events -/

set_option maxRecDepth 100000 in
theorem putIntW4_eq_fourDigits : ∀ y : Nat, y < 256 → putIntW4 (2000 + y) = fourDigits (2000 + y) := by
  decide

theorem getD_slice (data : List Nat) (k n i : Nat) (hi : i < n) :
    ((data.drop k).take n).getD i 0 = data.getD (k + i) 0 := by
  rw [getD_take _ _ _ hi, getD_drop]

theorem length_slice (data : List Nat) (k n : Nat) (h : k + n ≤ data.length) :
    ((data.drop k).take n).length = n := by
  rw [List.length_take, List.length_drop]; omega

/-- The timestamp `ParseLiveEventData` writes is the one of section 4.7. -/
theorem ParseLiveEventData_timestamp (year month day hour minute second : Nat)
    (hy : year < 256) :
    (if month ≥ 1 ∧ month ≤ 12 ∧ day ≥ 1 ∧ day ≤ 31 ∧ hour < 24 ∧ minute < 60 ∧
        second < 60 then
      String.mk (putIntW4 (2000 + year) ++ ['-'] ++ putIntW2 month ++ ['-'] ++ putIntW2 day ++
        ['T'] ++ putIntW2 hour ++ [':'] ++ putIntW2 minute ++ [':'] ++ putIntW2 second)
    else "2000-01-01T00:00:00") = timehexTimestamp year month day hour minute second := by
  unfold timehexTimestamp formatTimestamp
  split_ifs with h
  · rw [putIntW4_eq_fourDigits year hy, putIntW2_eq_twoDigits month (by omega),
      putIntW2_eq_twoDigits day (by omega), putIntW2_eq_twoDigits hour (by omega),
      putIntW2_eq_twoDigits minute (by omega), putIntW2_eq_twoDigits second (by omega)]
  · rfl

/-- The result of `ParseLiveEventData` from the fields read, for an event whose
timehex has its 6 bytes. -/
theorem ParseLiveEventData_of_fields (users : List ZKTecoUser) (data : List Nat)
    (hb : IsBytes data) (k : Nat) (userId : List Nat) (status punch : Nat)
    (hlen : 10 ≤ data.length) (hk : k + 6 ≤ data.length)
    (hf : ParseLiveEventData_fields data = (userId, status, punch, (data.drop k).take 6)) :
    (ParseLiveEventData users data).userId = userId ∧
    (ParseLiveEventData users data).status = status ∧
    (ParseLiveEventData users data).punch = punch ∧
    (ParseLiveEventData users data).timestamp =
      timehexTimestamp (data.getD k 0) (data.getD (k + 1) 0) (data.getD (k + 2) 0)
        (data.getD (k + 3) 0) (data.getD (k + 4) 0) (data.getD (k + 5) 0) := by
  unfold ParseLiveEventData
  rw [if_neg (by omega), hf]
  dsimp only
  rw [if_neg (by rw [length_slice _ _ _ hk]; omega)]
  refine ⟨rfl, rfl, rfl, ?_⟩
  dsimp only
  rw [getD_slice _ _ _ 0 (by norm_num), getD_slice _ _ _ 1 (by norm_num),
    getD_slice _ _ _ 2 (by norm_num), getD_slice _ _ _ 3 (by norm_num),
    getD_slice _ _ _ 4 (by norm_num), getD_slice _ _ _ 5 (by norm_num)]
  exact ParseLiveEventData_timestamp _ _ _ _ _ _ (getD_lt_of_isBytes hb _)
/-- The fields `ParseLiveEventData` reads are those of the table of section
4.7. -/
theorem ParseLiveEventData_fields_table (data : List Nat) (hb : IsBytes data)
    (hlen : IsEventLength data.length) :
    ParseLiveEventData_fields data =
      (eventUserId data, data.getD (eventOffsets data.length).1 0,
        data.getD (eventOffsets data.length).2.1 0,
        (data.drop (eventOffsets data.length).2.2).take 6) := by
  unfold ParseLiveEventData_fields eventUserId eventOffsets
  simp only [readCString_eq, List.nil_append, List.drop_zero, or16_eq_le16 hb, or32_eq_le32 hb]
  rcases hlen with h | h | h | h | h | h | h
  · simp [h]
  · simp [h]
  · simp [h]
  · simp [h]
  · simp [h]
  · simp [h]
  · rw [if_neg (by omega), if_neg (by omega), if_neg (by omega), if_neg (by omega),
      if_neg (by omega), if_neg (by omega), if_pos h, if_neg (by omega), if_neg (by omega),
      if_neg (by omega), if_neg (by omega)]

/-- C22: for an event of bytes whose length is 10, 12, 14, 32, 36, 37 or at
least 52, `ParseLiveEventData` returns the user id, status and punch found at
the offsets of the table of section 4.7 (16-bit or 32-bit number at offset 0,
or the bytes 0..23 up to the first NUL) and the timestamp of the 6-byte timehex
at its offset: `(2000 + timehex[0])-MM-DDTHH:MM:SS` when the components are in
range and `2000-01-01T00:00:00` otherwise. -/
theorem ParseLiveEventData_table (liveCaptureUsers : List ZKTecoUser) (data : List Nat)
    (hb : IsBytes data) (hlen : IsEventLength data.length) :
    (ParseLiveEventData liveCaptureUsers data).userId = eventUserId data ∧
    ((ParseLiveEventData liveCaptureUsers data).status : Int) =
      data.getD (eventOffsets data.length).1 0 ∧
    ((ParseLiveEventData liveCaptureUsers data).punch : Int) =
      data.getD (eventOffsets data.length).2.1 0 ∧
    (ParseLiveEventData liveCaptureUsers data).timestamp =
      timehexTimestamp (data.getD (eventOffsets data.length).2.2 0)
        (data.getD ((eventOffsets data.length).2.2 + 1) 0)
        (data.getD ((eventOffsets data.length).2.2 + 2) 0)
        (data.getD ((eventOffsets data.length).2.2 + 3) 0)
        (data.getD ((eventOffsets data.length).2.2 + 4) 0)
        (data.getD ((eventOffsets data.length).2.2 + 5) 0) := by
  have hk : (eventOffsets data.length).2.2 + 6 ≤ data.length ∧ 10 ≤ data.length := by
    unfold eventOffsets
    rcases hlen with h | h | h | h | h | h | h
    · simp [h]
    · simp [h]
    · simp [h]
    · simp [h]
    · simp [h]
    · simp [h]
    · rw [if_neg (by omega), if_neg (by omega)]; dsimp only; exact ⟨by omega, by omega⟩
  exact ParseLiveEventData_of_fields liveCaptureUsers data hb _ _ _ _ hk.2 hk.1
    (ParseLiveEventData_fields_table data hb hlen)

/-- Witness of `ParseLiveEventData_table`: the sample 10-byte event of user 5
decodes to 2023-07-04T09:15:18, and the same event with month 13 to the
default timestamp. -/
theorem ParseLiveEventData_table_witness :
    ((ParseLiveEventData [] sampleEventA).userId = eventUserId sampleEventA ∧
      ((ParseLiveEventData [] sampleEventA).status : Int) =
        sampleEventA.getD (eventOffsets sampleEventA.length).1 0 ∧
      ((ParseLiveEventData [] sampleEventA).punch : Int) =
        sampleEventA.getD (eventOffsets sampleEventA.length).2.1 0 ∧
      (ParseLiveEventData [] sampleEventA).timestamp =
        timehexTimestamp (sampleEventA.getD (eventOffsets sampleEventA.length).2.2 0)
          (sampleEventA.getD ((eventOffsets sampleEventA.length).2.2 + 1) 0)
          (sampleEventA.getD ((eventOffsets sampleEventA.length).2.2 + 2) 0)
          (sampleEventA.getD ((eventOffsets sampleEventA.length).2.2 + 3) 0)
          (sampleEventA.getD ((eventOffsets sampleEventA.length).2.2 + 4) 0)
          (sampleEventA.getD ((eventOffsets sampleEventA.length).2.2 + 5) 0)) ∧
    ParseLiveEventData [] sampleEventA = ⟨[0x35], "2023-07-04T09:15:18", 1, 0, 5⟩ ∧
    (ParseLiveEventData [] [5, 0, 1, 0, 23, 13, 4, 9, 15, 18]).timestamp =
      "2000-01-01T00:00:00" :=
  ⟨ParseLiveEventData_table [] sampleEventA (by decide) (by decide), by decide, by decide⟩

/-- The event size `ProcessEventBuffer` picks: some size between 10 and the
buffer length, below 32 when the buffer is. -/
theorem ProcessEventBuffer_eventSize_spec (n : Nat) (hn : 10 ≤ n) :
    ∃ m, ProcessEventBuffer_eventSize n = some m ∧ 10 ≤ m ∧ m ≤ n ∧
      (n < 32 → m = 10 ∨ m = 12 ∨ m = 14) := by
  by_cases h52 : 52 ≤ n
  · refine ⟨52, ?_, by omega, h52, by omega⟩
    unfold ProcessEventBuffer_eventSize
    rw [if_neg (by omega), if_neg (by omega), if_neg (by omega), if_neg (by omega),
      if_neg (by omega), if_neg (by omega), if_pos h52]
  · have key : ∀ k : Nat, k < 52 → 10 ≤ k →
        ∃ m ∈ [10, 12, 14, 32, 36, 37], ProcessEventBuffer_eventSize k = some m ∧ 10 ≤ m ∧
          m ≤ k ∧ (k < 32 → m = 10 ∨ m = 12 ∨ m = 14) := by
      decide
    obtain ⟨m, _, hm⟩ := key n (by omega) hn
    exact ⟨m, hm⟩

/-- An event of 10, 12 or 14 bytes has a numeric user id, which is never
empty. -/
theorem ParseLiveEventData_userId_ne_nil (users : List ZKTecoUser) (data : List Nat)
    (h : data.length = 10 ∨ data.length = 12 ∨ data.length = 14) :
    (ParseLiveEventData users data).userId ≠ [] := by
  have hf : (ParseLiveEventData_fields data).1 ≠ [] ∧
      (ParseLiveEventData_fields data).2.2.2.length = 6 := by
    unfold ParseLiveEventData_fields
    rcases h with h | h | h
    · rw [if_pos h]
      exact ⟨std_to_string_ne_nil _, length_slice _ _ _ (by omega)⟩
    · rw [if_neg (by omega), if_pos h]
      exact ⟨std_to_string_ne_nil _, length_slice _ _ _ (by omega)⟩
    · rw [if_neg (by omega), if_neg (by omega), if_pos h]
      exact ⟨std_to_string_ne_nil _, length_slice _ _ _ (by omega)⟩
  unfold ParseLiveEventData
  rw [if_neg (by omega)]
  dsimp only
  rw [if_neg (by omega)]
  exact hf.1

/-- The loop of `ProcessEventBuffer` with at least as many iterations allowed
as the buffer has bytes: it stops with fewer than 10 bytes left, having taken
bytes off the front of the buffer only and added events at the back of the
queue only. -/
theorem ProcessEventBuffer_loop_spec :
    ∀ (fuel : Nat) (s : LiveCapture), s.liveEventBuffer.length ≤ fuel →
      (ProcessEventBuffer_loop fuel s).liveEventBuffer.length < 10 ∧
      (∃ k, (10 ≤ s.liveEventBuffer.length → 10 ≤ k) ∧
        (ProcessEventBuffer_loop fuel s).liveEventBuffer = s.liveEventBuffer.drop k) ∧
      (∃ added, (ProcessEventBuffer_loop fuel s).eventQueue = s.eventQueue ++ added ∧
        (10 ≤ s.liveEventBuffer.length → s.liveEventBuffer.length < 32 → added ≠ [])) ∧
      (ProcessEventBuffer_loop fuel s).liveCaptureUsers = s.liveCaptureUsers ∧
      (ProcessEventBuffer_loop fuel s).liveCaptureActive = s.liveCaptureActive := by
  intro fuel
  induction fuel with
  | zero =>
    intro s hs
    rw [ProcessEventBuffer_loop]
    exact ⟨by omega, ⟨0, by omega, rfl⟩, ⟨[], by simp, by omega⟩, rfl, rfl⟩
  | succ fuel ih =>
    intro s hs
    rw [ProcessEventBuffer_loop]
    by_cases h10 : s.liveEventBuffer.length ≥ 10
    · rw [if_pos h10]
      obtain ⟨m, hm, hm10, hmn, hm32⟩ := ProcessEventBuffer_eventSize_spec _ h10
      rw [hm]
      dsimp only
      have hlen : (s.liveEventBuffer.drop m).length ≤ fuel := by
        rw [List.length_drop]; omega
      obtain ⟨r1, ⟨k, _, hk⟩, ⟨added, hq, _⟩, r4, r5⟩ := ih
        { s with
          eventQueue :=
            if !(ParseLiveEventData s.liveCaptureUsers (s.liveEventBuffer.take m)).userId.isEmpty
            then s.eventQueue ++ [ParseLiveEventData s.liveCaptureUsers (s.liveEventBuffer.take m)]
            else s.eventQueue,
          liveEventBuffer := s.liveEventBuffer.drop m } hlen
      refine ⟨r1, ⟨m + k, fun _ => by omega, ?_⟩, ?_, r4, r5⟩
      · rw [hk, List.drop_drop, Nat.add_comm]
      · rw [hq]
        dsimp only
        by_cases he : (ParseLiveEventData s.liveCaptureUsers (s.liveEventBuffer.take m)).userId.isEmpty
        · refine ⟨added, by simp [he], ?_⟩
          intro _ h32
          have hlm : (s.liveEventBuffer.take m).length = m := by
            rw [List.length_take]; omega
          have := ParseLiveEventData_userId_ne_nil s.liveCaptureUsers (s.liveEventBuffer.take m)
            (by rw [hlm]; exact hm32 h32)
          rw [List.isEmpty_iff] at he
          exact absurd he this
        · exact ⟨ParseLiveEventData s.liveCaptureUsers (s.liveEventBuffer.take m) :: added,
            by simp [he], by simp⟩
    · rw [if_neg h10]
      exact ⟨by omega, ⟨0, fun h => absurd h h10, rfl⟩, ⟨[], by simp, fun h => absurd h h10⟩,
        rfl, rfl⟩

/-- C23, as stated, fails: a buffer of 11 bytes (a 10-byte event and one more
byte) is not left unchanged; its first 10 bytes become an event and one byte
stays.  A buffer of 20 bytes loses its first 14 bytes to one event. -/
theorem ProcessEventBuffer_unrecognized_refuted :
    (10 ≤ (sampleEventA ++ [0xEE]).length ∧ ¬ IsEventLength (sampleEventA ++ [0xEE]).length) ∧
    ProcessEventBuffer { sampleLive with liveEventBuffer := sampleEventA ++ [0xEE] } =
      { sampleLive with
        liveEventBuffer := [0xEE],
        eventQueue := [⟨[0x35], "2023-07-04T09:15:18", 1, 0, 5⟩] } ∧
    ¬ IsEventLength (sampleEventA ++ sampleEventB).length ∧
    (ProcessEventBuffer
      { sampleLive with liveEventBuffer := sampleEventA ++ sampleEventB }).liveEventBuffer =
      sampleEventB.drop 4 := by
  decide

/-- C23, amended: for every live-event buffer of at least 10 bytes, whether or
not its length is one of 10, 12, 14, 32, 36, 37 or at least 52,
`ProcessEventBuffer` takes at least 10 bytes off the front of the buffer and
stops with fewer than 10 bytes left; the queue keeps what it had, in order,
ahead of the events added, of which there is at least one when the buffer had
fewer than 32 bytes; the users and the active flag are left alone. -/
theorem ProcessEventBuffer_consumes (s : LiveCapture) (h : 10 ≤ s.liveEventBuffer.length) :
    (ProcessEventBuffer s).liveEventBuffer.length < 10 ∧
    (∃ k, 10 ≤ k ∧ (ProcessEventBuffer s).liveEventBuffer = s.liveEventBuffer.drop k) ∧
    (∃ added, (ProcessEventBuffer s).eventQueue = s.eventQueue ++ added ∧
      (s.liveEventBuffer.length < 32 → added ≠ [])) ∧
    (ProcessEventBuffer s).liveCaptureUsers = s.liveCaptureUsers ∧
    (ProcessEventBuffer s).liveCaptureActive = s.liveCaptureActive := by
  obtain ⟨r1, ⟨k, hk, hk'⟩, ⟨added, hq, hq'⟩, r4, r5⟩ :=
    ProcessEventBuffer_loop_spec s.liveEventBuffer.length s (Nat.le_refl _)
  exact ⟨r1, ⟨k, hk h, hk'⟩, ⟨added, hq, hq' h⟩, r4, r5⟩

/-- Witness of `ProcessEventBuffer_consumes`: the 11-byte buffer made of the
sample event and one more byte. -/
theorem ProcessEventBuffer_consumes_witness :
    10 ≤ (sampleEventA ++ [0xEE]).length ∧
    (ProcessEventBuffer
      { sampleLive with liveEventBuffer := sampleEventA ++ [0xEE] }).liveEventBuffer.length
        < 10 :=
  ⟨by decide,
    (ProcessEventBuffer_consumes { sampleLive with liveEventBuffer := sampleEventA ++ [0xEE] }
      (by decide)).1⟩

theorem Net.send_incoming (net : Net) (sock : Socket) (bytes : List Nat) :
    (net.send sock bytes).2.incoming = net.incoming := by
  unfold Net.send
  cases sock with
  | invalid => rfl
  | stream =>
    dsimp only
    split <;> rfl
  | datagram =>
    dsimp only
    split <;> rfl

theorem SendAckOnly_incoming (K : Constants) (d : Device) (net : Net) (header : List Nat) :
    (SendAckOnly K d net header).incoming = net.incoming := by
  unfold SendAckOnly
  dsimp only
  split_ifs <;> exact Net.send_incoming _ _ _

theorem getD_append_left (l x : List Nat) (i : Nat) (h : i < l.length) :
    (l ++ x).getD i 0 = l.getD i 0 := by
  rw [List.getD_eq_getElem?_getD, List.getD_eq_getElem?_getD, List.getElem?_append_left h]

/-- A 10-byte event followed by 4 more bytes parses, as a 14-byte event, to
what the 10 bytes alone parse to. -/
theorem ParseLiveEventData_14_eq_10 (users : List ZKTecoUser) (e x : List Nat)
    (he : e.length = 10) (hx : x.length = 4) :
    ParseLiveEventData users (e ++ x) = ParseLiveEventData users e := by
  have hl : (e ++ x).length = 14 := by rw [List.length_append]; omega
  have hf : ParseLiveEventData_fields (e ++ x) = ParseLiveEventData_fields e := by
    unfold ParseLiveEventData_fields
    rw [if_neg (by omega), if_neg (by omega), if_pos hl, if_pos he]
    rw [getD_append_left e x 0 (by omega), getD_append_left e x 1 (by omega),
      getD_append_left e x 2 (by omega), getD_append_left e x 3 (by omega)]
    have hd : ((e ++ x).drop 4).take 6 = (e.drop 4).take 6 := by
      rw [List.drop_append_of_le_length (by omega), List.take_append_of_le_length
        (by rw [List.length_drop]; omega)]
    rw [hd]
  unfold ParseLiveEventData
  rw [hf, if_neg (show ¬ (e ++ x).length < 10 by omega),
    if_neg (show ¬ e.length < 10 by omega)]

/-- The drain of a buffer made of two 10-byte events: one event of 14 bytes is
taken and 6 bytes stay. -/
theorem ProcessEventBuffer_two_events (s : LiveCapture) (e1 e2 : List Nat)
    (h1 : e1.length = 10) (h2 : e2.length = 10) (hbuf : s.liveEventBuffer = e1 ++ e2) :
    ProcessEventBuffer s =
      { s with
        eventQueue := s.eventQueue ++ [ParseLiveEventData s.liveCaptureUsers e1],
        liveEventBuffer := e2.drop 4 } := by
  have hlen : s.liveEventBuffer.length = 18 + 1 + 1 := by
    rw [hbuf, List.length_append]; omega
  have htake : s.liveEventBuffer.take 14 = e1 ++ e2.take 4 := by
    rw [hbuf, List.take_append_eq_append_take, List.take_of_length_le (by omega), h1]
  have hdrop : s.liveEventBuffer.drop 14 = e2.drop 4 := by
    rw [hbuf, List.drop_append_eq_append_drop, List.drop_eq_nil_of_le (by omega), h1,
      List.nil_append]
  have hsize : ProcessEventBuffer_eventSize (18 + 1 + 1) = some 14 := by decide
  have hpe := ParseLiveEventData_14_eq_10 s.liveCaptureUsers e1 (e2.take 4) h1
    (by rw [List.length_take]; omega)
  have hne := ParseLiveEventData_userId_ne_nil s.liveCaptureUsers e1 (Or.inl h1)
  have hemp : (ParseLiveEventData s.liveCaptureUsers e1).userId.isEmpty = false := by
    cases h : (ParseLiveEventData s.liveCaptureUsers e1).userId with
    | nil => exact absurd h hne
    | cons a l => rfl
  unfold ProcessEventBuffer
  rw [hlen, ProcessEventBuffer_loop, if_pos (by omega), hlen, hsize]
  dsimp only
  rw [htake, hdrop, hpe, hemp]
  rw [if_pos (by decide), ProcessEventBuffer_loop]
  dsimp only
  rw [if_neg (by rw [List.length_drop]; omega)]

/-- The first pull of a live capture whose socket delivers, in one TCP read,
a CMD_REG_EVENT frame with two 10-byte events. -/
theorem GetNextLiveEvent_two_events (K : Constants) (d : Device) (s : LiveCapture)
    (a b c : Bool) (so : List Bool) (sent : List (List Nat))
    (envelope header e1 e2 : List Nat)
    (hactive : s.liveCaptureActive = true) (hconn : d.isConnected = true)
    (hudp : d.forceUdp = false) (hsock : d.socket = .stream)
    (hq : s.eventQueue = []) (hbuf : s.liveEventBuffer = [])
    (henv : envelope.length = 8) (hhdr : header.length = 8) (hbytes : IsBytes header)
    (hcode : replyCode header = K.CMD_REG_EVENT)
    (h1 : e1.length = 10) (h2 : e2.length = 10) :
    GetNextLiveEvent K d s ⟨a, b, c, so, [some (envelope ++ header ++ (e1 ++ e2))], sent⟩ =
      ⟨ParseLiveEventData s.liveCaptureUsers e1,
        { s with eventQueue := [], liveEventBuffer := e2.drop 4 },
        SendAckOnly K d ⟨a, b, c, so, [], sent⟩ header⟩ := by
  have hlen : (envelope ++ header ++ (e1 ++ e2)).length = 36 := by
    simp only [List.length_append]; omega
  have hheader : ((envelope ++ header ++ (e1 ++ e2)).drop 8).take 8 = header := by
    rw [List.append_assoc, List.drop_append_of_le_length (by omega),
      List.drop_eq_nil_of_le (by omega), List.nil_append,
      List.take_append_of_le_length (by omega), List.take_of_length_le (by omega)]
  have hdata : (envelope ++ header ++ (e1 ++ e2)).drop 16 = e1 ++ e2 := by
    have : (envelope ++ header).length = 16 := by rw [List.length_append]; omega
    rw [← this, List.drop_left]
  have hcmd : (header.getD 0 0 ||| header.getD 1 0 <<< 8) % 2 ^ 16 = K.CMD_REG_EVENT := by
    rw [or16_eq_le16 hbytes]; exact hcode
  have hne : (e1 ++ e2).isEmpty = false := by
    cases h : e1 ++ e2 with
    | nil =>
      have := congrArg List.length h
      rw [List.length_append, h1, h2] at this
      simp at this
    | cons x l => rfl
  have hpe := ProcessEventBuffer_two_events
    { s with liveEventBuffer := s.liveEventBuffer ++ (e1 ++ e2) } e1 e2 h1 h2
    (by dsimp only; rw [hbuf, List.nil_append])
  dsimp only at hpe
  rw [hq, List.nil_append] at hpe
  have hnf : ((!false) = true) = True := eq_true rfl
  unfold GetNextLiveEvent
  rw [if_neg (by simp [hactive, hconn]), hq]
  dsimp only
  rw [hsock, Net.recv_ok a b c so sent .stream 1032 _ [] (by simp) (by omega)]
  dsimp only
  rw [if_neg (by omega), hudp]
  simp only [hnf, if_true]
  rw [if_neg (by omega), hheader, hdata, hcmd, if_neg (by simp), hne, if_neg (by simp), hpe]
/-- C24: an active live capture on a connected TCP session with nothing
buffered or queued, and one read that delivers the envelope, a CMD_REG_EVENT
header and two concatenated 10-byte events `e1` and `e2`.  The drain sees a
buffer of 20 bytes, takes 14 of them as one event and stops with 6 bytes left:
the first `GetNextLiveEvent` call returns the event of `e1`, the queue is then
empty, and the second call, with no data on the socket, returns the empty
attendance and not the event of `e2`, which is never produced. -/
theorem live_drain_two_events (K : Constants) (d : Device) (s : LiveCapture)
    (a b c : Bool) (so : List Bool) (sent : List (List Nat))
    (envelope header e1 e2 : List Nat)
    (hactive : s.liveCaptureActive = true) (hconn : d.isConnected = true)
    (hudp : d.forceUdp = false) (hsock : d.socket = .stream)
    (hq : s.eventQueue = []) (hbuf : s.liveEventBuffer = [])
    (henv : envelope.length = 8) (hhdr : header.length = 8) (hbytes : IsBytes header)
    (hcode : replyCode header = K.CMD_REG_EVENT)
    (h1 : e1.length = 10) (h2 : e2.length = 10) :
    (GetNextLiveEvent K d s
      ⟨a, b, c, so, [some (envelope ++ header ++ (e1 ++ e2))], sent⟩).event =
      ParseLiveEventData s.liveCaptureUsers e1 ∧
    (GetNextLiveEvent K d s
      ⟨a, b, c, so, [some (envelope ++ header ++ (e1 ++ e2))], sent⟩).live.eventQueue = [] ∧
    (GetNextLiveEvent K d s
      ⟨a, b, c, so, [some (envelope ++ header ++ (e1 ++ e2))], sent⟩).live.liveEventBuffer =
      e2.drop 4 ∧
    (GetNextLiveEvent K d
      (GetNextLiveEvent K d s
        ⟨a, b, c, so, [some (envelope ++ header ++ (e1 ++ e2))], sent⟩).live
      (GetNextLiveEvent K d s
        ⟨a, b, c, so, [some (envelope ++ header ++ (e1 ++ e2))], sent⟩).net).event =
      emptyAttendance ∧
    ParseLiveEventData s.liveCaptureUsers e2 ≠ emptyAttendance := by
  rw [GetNextLiveEvent_two_events K d s a b c so sent envelope header e1 e2 hactive hconn hudp
    hsock hq hbuf henv hhdr hbytes hcode h1 h2]
  refine ⟨rfl, rfl, rfl, ?_, ?_⟩
  · have hinc := SendAckOnly_incoming K d ⟨a, b, c, so, [], sent⟩ header
    dsimp only at hinc ⊢
    unfold GetNextLiveEvent
    rw [if_neg (by simp [hactive, hconn])]
    dsimp only
    rw [hsock, Net.recv_stream_nil _ _ hinc]
  · intro h
    have hne := ParseLiveEventData_userId_ne_nil s.liveCaptureUsers e2 (Or.inl h2)
    rw [h] at hne
    exact hne rfl

/-- Witness of `live_drain_two_events`: the two sample events of users 5 and 6
in one CMD_REG_EVENT frame. -/
theorem live_drain_two_events_witness :
    (GetNextLiveEvent sampleConstants sampleConnected sampleLive sampleLiveNet).event =
      ⟨[0x35], "2023-07-04T09:15:18", 1, 0, 5⟩ ∧
    (GetNextLiveEvent sampleConstants sampleConnected sampleLive sampleLiveNet).live.eventQueue
      = [] ∧
    (GetNextLiveEvent sampleConstants sampleConnected sampleLive
      sampleLiveNet).live.liveEventBuffer = [23, 7, 4, 9, 15, 19] ∧
    (GetNextLiveEvent sampleConstants sampleConnected
      (GetNextLiveEvent sampleConstants sampleConnected sampleLive sampleLiveNet).live
      (GetNextLiveEvent sampleConstants sampleConnected sampleLive sampleLiveNet).net).event =
      emptyAttendance ∧
    ParseLiveEventData [] sampleEventB = ⟨[0x36], "2023-07-04T09:15:19", 1, 1, 6⟩ :=
  have h := live_drain_two_events sampleConstants sampleConnected sampleLive true true true []
    [] [0x50, 0x50, 0x74, 0x82, 28, 0, 0, 0] [0xF4, 0x01, 0, 0, 0x34, 0x12, 0, 0]
    sampleEventA sampleEventB rfl rfl rfl rfl rfl rfl rfl rfl (by decide) (by decide) rfl rfl
  ⟨h.1.trans (by decide), h.2.1, h.2.2.1, h.2.2.2.1, by decide⟩

/-! ## Device control -/

theorem checkReply_last (K : Constants) (r : SendResult) : (checkReply K r).last = some r := by
  unfold checkReply
  split
  · rfl
  · rfl
  · dsimp only
    split_ifs <;> rfl

/-- The reply check of the device-control operations, for a call that
succeeded with the response `reply`. -/
theorem checkReply_spec (K : Constants) (r : SendResult) (reply : List Nat)
    (hok : r.outcome = some true) (hresp : r.response = some reply) (hb : IsBytes reply) :
    (2 ≤ reply.length →
      ((checkReply K r).outcome = some true ↔
        replyCode reply = K.CMD_ACK_OK ∨ replyCode reply = K.CMD_ACK_DATA ∨
          replyCode reply = 2007)) ∧
    (reply = [] → (checkReply K r).outcome = some false) := by
  unfold checkReply
  rw [hok, hresp]
  dsimp only [Option.getD_some]
  constructor
  · intro h2
    have hne : reply.isEmpty = false := by
      cases reply with
      | nil => simp at h2
      | cons a t => rfl
    rw [hne, code_eq_replyCode hb]
    simp only [Bool.false_eq_true, if_false, if_pos h2]
    split_ifs with hc
    · simp only [reduceCtorEq, false_iff]
      tauto
    · simp only [true_iff]
      tauto
  · intro h
    subst h
    rfl
/-- A `SendCommand` call that succeeds on a session without `forceUdp_` took the
TCP path, whose response keeps at least the 8 bytes of the header. -/
theorem SendCommand_tcp_reply (K : Constants) (d : Device) (net : Net) (command : Nat)
    (commandString : List Nat) (responseSize : Nat) (resp : List Nat)
    (hudp : d.forceUdp = false)
    (hok : (SendCommand K d net command commandString responseSize (some resp)).outcome
      = some true) :
    ∃ reply, (SendCommand K d net command commandString responseSize (some resp)).response
      = some reply ∧ 8 ≤ reply.length := by
  revert hok
  unfold SendCommand
  simp only []
  split
  · intro hok; simp at hok
  · split
    · split
      · intro hok; simp at hok
      · split
        · intro hok; simp at hok
        · split
          · split
            · intro _
              rename_i buffer _ h16 _ _
              refine ⟨buffer.drop 8, rfl, ?_⟩
              rw [List.length_drop]
              omega
            · intro hok; simp at hok
          · intro hok; simp at hok
    · rename_i hnot
      by_cases hs : d.socket = .invalid
      · rw [hs]
        simp [Net.send]
      · exact absurd ⟨hs, by simp [hudp]⟩ hnot

/-- A device-control operation that made its `SendCommand` call returns what
the reply check gives for that call, and the call was made on a session with
the same `forceUdp_`. -/
theorem ControlOp.run_last (K : Constants) (d : Device) (net : Net) (m : Members)
    (op : ControlOp) (r : SendResult) (h : (op.run K d net m).last = some r) :
    op.run K d net m = checkReply K r ∧
    ∃ d1 net1 command commandString responseSize,
      r = SendCommand K d1 net1 command commandString responseSize (some []) ∧
      d1.forceUdp = d.forceUdp := by
  have key : ∀ (d1 : Device) (net1 : Net) (command : Nat) (commandString : List Nat)
      (responseSize : Nat), d1.forceUdp = d.forceUdp →
      (checkReply K
        (SendCommand K d1 net1 command commandString responseSize (some []))).last = some r →
      checkReply K (SendCommand K d1 net1 command commandString responseSize (some [])) =
        checkReply K r ∧
      ∃ d1 net1 command commandString responseSize,
        r = SendCommand K d1 net1 command commandString responseSize (some []) ∧
        d1.forceUdp = d.forceUdp := by
    intro d1 net1 command commandString responseSize hf hl
    rw [checkReply_last] at hl
    have hr := Option.some.inj hl
    exact ⟨by rw [hr], d1, net1, command, commandString, responseSize, hr.symm, hf⟩
  cases op with
  | enableDevice => exact key _ _ _ _ _ rfl h
  | disableDevice => exact key _ _ _ _ _ rfl h
  | restart => exact key _ _ _ _ _ rfl h
  | unlock time => exact key _ _ _ _ _ rfl h
  | testVoice index => exact key _ _ _ _ _ rfl h
  | getLockState => exact key _ _ _ _ _ rfl h
  | setTime encodedTime => exact key _ _ _ _ _ rfl h
  | setDeviceName deviceName => exact key _ _ _ _ _ rfl h
  | deleteUser users uid userId =>
    simp only [ControlOp.run, DeleteUser] at h ⊢
    cases hres : resolveUid users uid userId with
    | none => rw [hres] at h; simp at h
    | some uid1 =>
      rw [hres] at h
      exact key _ _ _ _ _ rfl h
  | deleteUserTemplate users uid tempId userId =>
    simp only [ControlOp.run, DeleteUserTemplate] at h ⊢
    split_ifs at h ⊢
    · exact key _ _ _ _ _ rfl h
    · cases hres : resolveUid users uid userId with
      | none => rw [hres] at h; simp at h
      | some uid1 =>
        rw [hres] at h
        exact key _ _ _ _ _ rfl h
  | setUser uid name privilege password groupId userId card =>
    simp only [ControlOp.run, SetUser] at h ⊢
    have hf := (SendCommand_fields K d net K.CMD_ENABLEDEVICE [] 8 (some [])).2.1
    cases hen : (SendCommand K d net K.CMD_ENABLEDEVICE [] 8 (some [])).outcome with
    | none => rw [hen] at h; simp at h
    | some b =>
      rw [hen] at h
      dsimp only at h ⊢
      cases hcs : SetUser_commandString K m uid name privilege password groupId userId card with
      | none =>
        rw [hcs] at h
        dsimp only at h
        split_ifs at h
      | some commandString =>
        rw [hcs] at h
        exact key _ _ _ _ _ hf h
/-- C25, as stated, fails: on a UDP session a reply of one byte, too short to
carry a response code, makes `Unlock` (and every other device-control
operation) return true. -/
theorem control_short_reply_refuted :
    (Unlock sampleConstants sampleConnectedUdp (sampleNet [some [0x07]]) 3).outcome = some true ∧
    ((Unlock sampleConstants sampleConnectedUdp (sampleNet [some [0x07]]) 3).last.bind
      (fun r => r.response)) = some [0x07] ∧
    (EnableDevice sampleConstants sampleConnectedUdp (sampleNet [some [0x07]])).outcome
      = some true := by
  decide

/-- C25, amended: for each device-control operation (`EnableDevice`,
`DisableDevice`, `Restart`, `Unlock`, `TestVoice`, `GetLockState`, `SetTime`,
`SetDeviceName`, `DeleteUser`, `DeleteUserTemplate`, `SetUser`), once its
`SendCommand` call has succeeded with the reply `reply`: when the reply has at
least 2 bytes the operation returns true if and only if the reply's response
code is CMD_ACK_OK, CMD_ACK_DATA or 2007; an empty reply makes it return
false; and without `forceUdp_` the reply always has its 8 header bytes.  The
frame `SetDeviceName("Lobby")` builds is the one of CMD_OPTIONS_WRQ with the
payload `~DeviceName=Lobby` and one NUL. -/
theorem control_reply_code (K : Constants) (d : Device) (net : Net) (m : Members)
    (op : ControlOp) (r : SendResult) (reply : List Nat)
    (hlast : (op.run K d net m).last = some r) (hok : r.outcome = some true)
    (hresp : r.response = some reply) (hb : IsBytes reply) :
    (2 ≤ reply.length →
      ((op.run K d net m).outcome = some true ↔
        replyCode reply = K.CMD_ACK_OK ∨ replyCode reply = K.CMD_ACK_DATA ∨
          replyCode reply = 2007)) ∧
    (reply = [] → (op.run K d net m).outcome = some false) ∧
    (d.forceUdp = false → 8 ≤ reply.length) ∧
    SetDeviceName_commandString (ascii "Lobby") = ascii "~DeviceName=Lobby" ++ [0] ∧
    (op = .setDeviceName (ascii "Lobby") →
      r.packet = some (CreateHeader (K.CMD_OPTIONS_WRQ % 2 ^ 16) (ascii "~DeviceName=Lobby" ++ [0])
        d.sessionId (nextReplyId d.replyId))) := by
  obtain ⟨hrun, d1, net1, command, commandString, responseSize, hr, hf⟩ :=
    ControlOp.run_last K d net m op r hlast
  have hspec := checkReply_spec K r reply hok hresp hb
  rw [hrun]
  refine ⟨hspec.1, hspec.2, ?_, by decide, ?_⟩
  · intro hudp
    rw [hr] at hok hresp
    obtain ⟨reply1, h1, h2⟩ :=
      SendCommand_tcp_reply K d1 net1 command commandString responseSize [] (hf.trans hudp) hok
    rw [hresp] at h1
    rw [Option.some.inj h1]
    exact h2
  · intro hop
    subst hop
    have hl : (ControlOp.run K d net m (.setDeviceName (ascii "Lobby"))).last =
        some (SendCommand K d net K.CMD_OPTIONS_WRQ
          (SetDeviceName_commandString (ascii "Lobby")) 8 (some [])) := checkReply_last _ _
    rw [hl] at hlast
    have hr2 := Option.some.inj hlast
    rw [← hr2]
    rcases SendCommand_packet K d net K.CMD_OPTIONS_WRQ
      (SetDeviceName_commandString (ascii "Lobby")) 8 (some []) with h | h
    · exfalso
      have hout : (SendCommand K d net K.CMD_OPTIONS_WRQ
          (SetDeviceName_commandString (ascii "Lobby")) 8 (some [])).outcome = some true := by
        rw [hr2]; exact hok
      revert hout h
      unfold SendCommand
      simp only []
      split
      · intro _ hout; simp at hout
      · intro h _
        revert h
        split
        · split
          · intro h; simp at h
          · split
            · intro h; simp at h
            · split
              · split
                · intro h; simp at h
                · intro h; simp at h
              · intro h; simp at h
        · split
          · intro h; simp at h
          · split
            · intro h; simp at h
            · intro h; simp at h
    · rw [h.1]
      rfl

/-- Witness of `control_reply_code`: `SetDeviceName("Lobby")` on a TCP session
whose device acknowledges with CMD_ACK_OK. -/
theorem control_reply_code_witness :
    (ControlOp.run sampleConstants sampleConnected sampleAckNet Members.construct
      (.setDeviceName (ascii "Lobby"))).outcome = some true ∧
    replyCode [0xD0, 0x07, 0, 0, 0x34, 0x12, 2, 0] = sampleConstants.CMD_ACK_OK ∧
    (SendCommand sampleConstants sampleConnected sampleAckNet sampleConstants.CMD_OPTIONS_WRQ
      (SetDeviceName_commandString (ascii "Lobby")) 8 (some [])).packet =
      some (CreateHeader (sampleConstants.CMD_OPTIONS_WRQ % 2 ^ 16)
        (ascii "~DeviceName=Lobby" ++ [0]) sampleConnected.sessionId
        (nextReplyId sampleConnected.replyId)) :=
  have h := control_reply_code sampleConstants sampleConnected sampleAckNet Members.construct
    (.setDeviceName (ascii "Lobby"))
    (SendCommand sampleConstants sampleConnected sampleAckNet sampleConstants.CMD_OPTIONS_WRQ
      (SetDeviceName_commandString (ascii "Lobby")) 8 (some []))
    [0xD0, 0x07, 0, 0, 0x34, 0x12, 2, 0] (by decide) (by decide) (by decide) (by decide)
  ⟨(h.1 (by decide)).mpr (Or.inl (by decide)), by decide, h.2.2.2.2 rfl⟩

/-! ## The last response -/

/-- What `SendCommand` stores in `tcpLength_` after a successful call with a
response of at least 2 bytes on a session without `forceUdp_`: the result of
`TestTcpTop` on the response, from which the envelope has been removed. -/
theorem storeLastResponse_tcpLength (d : Device) (r : List Nat) (hr : 2 ≤ r.length)
    (hudp : d.forceUdp = false) (hsock : d.socket ≠ .invalid) :
    (storeLastResponse d (some r)).tcpLength = TestTcpTop r := by
  simp only [storeLastResponse]
  rw [if_pos (by omega), if_pos ⟨by simp [hudp], hsock⟩]

/-- C26: a TCP reply whose envelope holds a command frame `reply` of 8 to 1024
bytes with a response code other than 0x5050.  `SendCommand` succeeds and
stores the response code and the bytes from offset 8 as the claim says, but
`tcpLength_` becomes 0 and not the length the envelope declares (the length of
the frame): `TestTcpTop` is applied to the response after the envelope was
stripped from it. -/
theorem SendCommand_tcpLength_envelope (K : Constants) (d : Device) (net : Net)
    (command : Nat) (commandString reply resp : List Nat) (tail : List (Option (List Nat)))
    (hguard : d.isConnected = true ∨ command % 2 ^ 16 = K.CMD_CONNECT ∨
      command % 2 ^ 16 = K.CMD_AUTH)
    (hsock : d.socket ≠ .invalid) (hudp : d.forceUdp = false)
    (hsend : ∀ b ∈ net.sendOk, b = true)
    (hin : net.incoming = some (CreateTcpTop reply) :: tail)
    (hb : IsBytes reply) (hlo : 8 ≤ reply.length) (hhi : reply.length ≤ 1024)
    (hcode : replyCode reply ≠ MACHINE_PREPARE_DATA_1) :
    (SendCommand K d net command commandString 1024 (some resp)).outcome = some true ∧
    (SendCommand K d net command commandString 1024 (some resp)).dev.lastResponse =
      replyCode reply ∧
    (SendCommand K d net command commandString 1024 (some resp)).dev.lastData = reply.drop 8 ∧
    TestTcpTop (CreateTcpTop reply) = reply.length ∧
    (SendCommand K d net command commandString 1024 (some resp)).dev.tcpLength = 0 := by
  have hin2 : net.incoming = some (onWire d.forceUdp reply) :: tail := by
    rw [hin, hudp]; rfl
  rw [SendCommand_reply K d net command commandString reply resp tail hguard hsock hsend hin2
    hlo hhi]
  dsimp only
  have hst := storeLastResponse_some { d with replyId := nextReplyId d.replyId } reply
    (by omega)
  have htl := storeLastResponse_tcpLength { d with replyId := nextReplyId d.replyId } reply
    (by omega) hudp hsock
  refine ⟨rfl, ?_, ?_, ?_, ?_⟩
  · rw [hst.1, or16_eq_le16 hb]
    rfl
  · rw [hst.2]
    split_ifs with h
    · rfl
    · rw [List.drop_eq_nil_of_le (by omega)]
  · rw [CreateTcpTop_eq]
    cases reply with
    | nil => simp at hlo
    | cons x p =>
      rw [Nat.mod_eq_of_lt (by omega : (x :: p).length < 2 ^ 32)]
      exact TestTcpTop_frame _ (by omega) x p
  · rw [htl]
    unfold TestTcpTop
    dsimp only
    have hne : ¬ ((reply.getD 0 0 ||| reply.getD 1 0 <<< 8) % 2 ^ 16 = MACHINE_PREPARE_DATA_1 ∧
        (reply.getD 2 0 ||| reply.getD 3 0 <<< 8) % 2 ^ 16 = MACHINE_PREPARE_DATA_2) := by
      rintro ⟨h1, _⟩
      apply hcode
      rw [← h1, or16_eq_le16 hb]
      rfl
    rw [if_neg hne]
    split_ifs <;> rfl

/-- Witness of `SendCommand_tcpLength_envelope`: the reply is the CMD_ACK_OK
frame with payload 01 02 03, declared with 11 bytes; `tcpLength_` is 0. -/
theorem SendCommand_tcpLength_envelope_witness :
    (SendCommand sampleConstants sampleConnected
      (sampleNet [some (deviceFrame 2000 [0, 0, 0x34, 0x12, 2, 0] [1, 2, 3])])
      11 [] 1024 (some [])).dev.lastResponse = 2000 ∧
    (SendCommand sampleConstants sampleConnected
      (sampleNet [some (deviceFrame 2000 [0, 0, 0x34, 0x12, 2, 0] [1, 2, 3])])
      11 [] 1024 (some [])).dev.lastData = [1, 2, 3] ∧
    TestTcpTop (deviceFrame 2000 [0, 0, 0x34, 0x12, 2, 0] [1, 2, 3]) = 11 ∧
    (SendCommand sampleConstants sampleConnected
      (sampleNet [some (deviceFrame 2000 [0, 0, 0x34, 0x12, 2, 0] [1, 2, 3])])
      11 [] 1024 (some [])).dev.tcpLength = 0 :=
  have h := SendCommand_tcpLength_envelope sampleConstants sampleConnected
    (sampleNet [some (deviceFrame 2000 [0, 0, 0x34, 0x12, 2, 0] [1, 2, 3])]) 11 []
    [0xD0, 0x07, 0, 0, 0x34, 0x12, 2, 0, 1, 2, 3] [] []
    (Or.inl rfl) (by decide) rfl (by decide) rfl (by decide) (by decide) (by decide)
    (by decide)
  ⟨h.2.1, h.2.2.1, h.2.2.2.1, h.2.2.2.2⟩

/-! ## Retries of a chunk -/

/-- One step of the retry loop of `ReadChunk` in terms of one attempt. -/
theorem ReadChunk_attempts_step (K : Constants) (fuel start size n : Nat) (d : Device)
    (net : Net) (requests : List (Nat × List Nat)) (retries : Nat) :
    ReadChunk_attempts K fuel start size (n + 1) d net requests retries =
      if (chunkAttempt K fuel start size d net).result = .returned none then
        ReadChunk_attempts K fuel start size n (chunkAttempt K fuel start size d net).dev
          (chunkAttempt K fuel start size d net).net
          (requests ++ (chunkAttempt K fuel start size d net).requests) (retries + 1)
      else
        ⟨(chunkAttempt K fuel start size d net).result,
          (chunkAttempt K fuel start size d net).dev,
          (chunkAttempt K fuel start size d net).net,
          requests ++ (chunkAttempt K fuel start size d net).requests, retries⟩ := by
  rw [ReadChunk_attempts]
  unfold chunkAttempt
  dsimp only
  generalize (if (!d.forceUdp) = true ∧ d.socket ≠ Socket.invalid then size + 32
    else 1024 + 8) = rs
  generalize SendCommand K d net K.CMD_READ_BUFFER (ReadChunk_commandString start size) rs
    (some []) = r
  by_cases h1 : r.outcome = some true
  · rw [if_pos h1, if_pos h1]
    generalize ReceiveChunk K fuel r.dev r.net = rc
    cases rc with
    | returned p =>
      obtain ⟨data, net1⟩ := p
      dsimp only
      cases data with
      | nil => simp
      | cons a l => simp
    | undefinedBehaviour => simp
    | outOfFuel => simp
  · rw [if_neg h1, if_neg h1]
    simp
theorem chunkAttempt_requests (K : Constants) (fuel start size : Nat) (d : Device) (net : Net) :
    (chunkAttempt K fuel start size d net).requests = [] ∨
    (chunkAttempt K fuel start size d net).requests =
      [(K.CMD_READ_BUFFER, ReadChunk_commandString start size)] := by
  have h : ∀ r : SendResult,
      logRequest r K.CMD_READ_BUFFER (ReadChunk_commandString start size) = [] ∨
      logRequest r K.CMD_READ_BUFFER (ReadChunk_commandString start size) =
        [(K.CMD_READ_BUFFER, ReadChunk_commandString start size)] := by
    intro r
    unfold logRequest
    cases r.packet with
    | none => left; rfl
    | some p => right; rfl
  unfold chunkAttempt
  dsimp only
  generalize (if (!d.forceUdp) = true ∧ d.socket ≠ Socket.invalid then size + 32
    else 1024 + 8) = rs
  generalize SendCommand K d net K.CMD_READ_BUFFER (ReadChunk_commandString start size) rs
    (some []) = r
  split_ifs
  · split
    · split_ifs <;> exact h _
    · exact h _
    · exact h _
  · exact h _

theorem ReadChunk_commandString_le32 (start size : Nat) :
    ReadChunk_commandString start size =
      [start % 2 ^ 32 % 256, start % 2 ^ 32 / 256 % 256, start % 2 ^ 32 / 65536 % 256,
        start % 2 ^ 32 / 16777216 % 256] ++
      [size % 2 ^ 32 % 256, size % 2 ^ 32 / 256 % 256, size % 2 ^ 32 / 65536 % 256,
        size % 2 ^ 32 / 16777216 % 256] ∧
    le32 (start % 2 ^ 32 % 256) (start % 2 ^ 32 / 256 % 256) (start % 2 ^ 32 / 65536 % 256)
      (start % 2 ^ 32 / 16777216 % 256) = start % 2 ^ 32 ∧
    le32 (size % 2 ^ 32 % 256) (size % 2 ^ 32 / 256 % 256) (size % 2 ^ 32 / 65536 % 256)
      (size % 2 ^ 32 / 16777216 % 256) = size % 2 ^ 32 := by
  refine ⟨rfl, ?_, ?_⟩ <;> (unfold le32; omega)

/-- C27: for every chunk `(start, size)`, `ReadChunk` makes at most three
attempts, each of which sends at most one CMD_READ_BUFFER request whose
payload is the 8 bytes of `start` and `size` as 32-bit little-endian numbers
(none when the session is not connected).  It returns the result of the first
attempt that does not fail, in the state that attempt left and with only the
requests made up to it, and it raises (`none`) if and only if all three
attempts fail. -/
theorem ReadChunk_three_attempts (K : Constants) (fuel : Nat) (d : Device) (net : Net)
    (start size : Nat) (requests : List (Nat × List Nat)) (retries : Nat) :
    let payload := ReadChunk_commandString start size
    let a1 := chunkAttempt K fuel start size d net
    let a2 := chunkAttempt K fuel start size a1.dev a1.net
    let a3 := chunkAttempt K fuel start size a2.dev a2.net
    let run := ReadChunk K fuel d net start size requests retries
    (payload.length = 8 ∧
      le32 (payload.getD 0 0) (payload.getD 1 0) (payload.getD 2 0) (payload.getD 3 0) =
        start % 2 ^ 32 ∧
      le32 (payload.getD 4 0) (payload.getD 5 0) (payload.getD 6 0) (payload.getD 7 0) =
        size % 2 ^ 32) ∧
    (∀ a ∈ [a1, a2, a3], a.requests = [] ∨ a.requests = [(K.CMD_READ_BUFFER, payload)]) ∧
    (a1.result ≠ .returned none →
      run = ⟨a1.result, a1.dev, a1.net, requests ++ a1.requests, retries⟩) ∧
    (a1.result = .returned none → a2.result ≠ .returned none →
      run = ⟨a2.result, a2.dev, a2.net, requests ++ a1.requests ++ a2.requests,
        retries + 1⟩) ∧
    (a1.result = .returned none → a2.result = .returned none →
      run = ⟨a3.result, a3.dev, a3.net,
        requests ++ a1.requests ++ a2.requests ++ a3.requests,
        if a3.result = .returned none then retries + 3 else retries + 2⟩) ∧
    (run.outcome = .returned none ↔
      a1.result = .returned none ∧ a2.result = .returned none ∧
        a3.result = .returned none) := by
  intro payload a1 a2 a3 run
  have hrun : run = ReadChunk_attempts K fuel start size 3 d net requests retries := rfl
  have s1 := ReadChunk_attempts_step K fuel start size 2 d net requests retries
  have s2 := ReadChunk_attempts_step K fuel start size 1 a1.dev a1.net
    (requests ++ a1.requests) (retries + 1)
  have s3 := ReadChunk_attempts_step K fuel start size 0 a2.dev a2.net
    (requests ++ a1.requests ++ a2.requests) (retries + 1 + 1)
  have s0 : ∀ (d0 : Device) (net0 : Net) (rq : List (Nat × List Nat)) (rt : Nat),
      ReadChunk_attempts K fuel start size 0 d0 net0 rq rt = ⟨.returned none, d0, net0, rq, rt⟩ :=
    fun _ _ _ _ => rfl
  have hp := ReadChunk_commandString_le32 start size
  refine ⟨⟨by rw [show payload = _ from hp.1]; rfl, ?_, ?_⟩, ?_, ?_, ?_, ?_, ?_⟩
  · rw [show payload = _ from hp.1]; exact hp.2.1
  · rw [show payload = _ from hp.1]; exact hp.2.2
  · intro a ha
    simp only [List.mem_cons, List.mem_singleton, List.not_mem_nil, or_false] at ha
    rcases ha with h | h | h <;> rw [h] <;> exact chunkAttempt_requests _ _ _ _ _ _
  · intro h1
    rw [hrun, s1, if_neg h1]
  · intro h1 h2
    rw [hrun, s1, if_pos h1, s2, if_neg h2]
  · intro h1 h2
    rw [hrun, s1, if_pos h1, s2, if_pos h2, s3, s0]
    split_ifs with h3
    · rw [h3]
    · rfl
  · rw [hrun, s1]
    by_cases h1 : a1.result = .returned none
    · rw [if_pos h1, s2]
      by_cases h2 : a2.result = .returned none
      · rw [if_pos h2, s3]
        by_cases h3 : a3.result = .returned none
        · rw [if_pos h3, s0]
          exact ⟨fun _ => ⟨h1, h2, h3⟩, fun _ => rfl⟩
        · rw [if_neg h3]
          exact ⟨fun h => absurd h h3, fun h => absurd h.2.2 h3⟩
      · rw [if_neg h2]
        exact ⟨fun h => absurd h h2, fun h => absurd h.2.1 h2⟩
    · rw [if_neg h1]
      exact ⟨fun h => absurd h h1, fun h => absurd h.1 h1⟩

/-- Witness of `ReadChunk_three_attempts`: the first attempt fails on a receive
error, the second one receives the sample chunk of 5 bytes; `ReadChunk`
returns it after one retry and two requests. -/
theorem ReadChunk_three_attempts_witness :
    (ReadChunk sampleConstants 10 sampleConnected (sampleNet [none, some sampleChunkStream])
      0 5 [] 0).outcome = .returned (some [0xA1, 0xA2, 0xA3, 0xA4, 0xA5]) ∧
    (ReadChunk sampleConstants 10 sampleConnected (sampleNet [none, some sampleChunkStream])
      0 5 [] 0).requests =
      [(1504, [0, 0, 0, 0, 5, 0, 0, 0]), (1504, [0, 0, 0, 0, 5, 0, 0, 0])] ∧
    (ReadChunk sampleConstants 10 sampleConnected (sampleNet [none, some sampleChunkStream])
      0 5 [] 0).retries = 1 :=
  have h := (ReadChunk_three_attempts sampleConstants 10 sampleConnected
    (sampleNet [none, some sampleChunkStream]) 0 5 [] 0).2.2.2.1 (by decide) (by decide)
  ⟨(congrArg BulkRun.outcome h).trans (by decide),
    (congrArg BulkRun.requests h).trans (by decide), congrArg BulkRun.retries h⟩

/-! ## Chunks on UDP -/

/-- `ReceiveRawData(1032)` on a datagram socket with two pending datagrams that
fit together in 1032 bytes: it joins them. -/
theorem ReceiveRawData_joins (d : Device) (a b c : Bool) (so : List Bool)
    (sent : List (List Nat)) (D A : List Nat) (hsock : d.socket = .datagram)
    (hD : D ≠ []) (hA : A ≠ []) (hsum : D.length + A.length ≤ 1032) :
    ReceiveRawData d ⟨a, b, c, so, [some D, some A], sent⟩ (1024 + 8) =
      (D ++ A, ⟨a, b, c, so, [], sent⟩) := by
  have hDl : 0 < D.length := List.length_pos.mpr hD
  have hAl : 0 < A.length := List.length_pos.mpr hA
  unfold ReceiveRawData
  rw [hsock]
  have e1 : ((1024 + 8 : Int)).toNat = 1030 + 1 + 1 := by decide
  rw [e1, ReceiveRawData_loop]
  rw [if_pos (by norm_num), e1,
    Net.recv_ok a b c so sent .datagram (1030 + 1 + 1) D [some A] (by simp) (by omega)]
  dsimp only
  rw [if_neg (by omega), ReceiveRawData_loop, if_pos (by omega)]
  have e2 : ((1024 + 8 : Int) - (D.length : Int)).toNat = 1032 - D.length := by omega
  rw [e2, Net.recv_ok a b c so sent .datagram (1032 - D.length) A [] (by simp) (by omega)]
  dsimp only
  rw [if_neg (by omega), List.nil_append]
  rw [ReceiveRawData_loop]
  split_ifs
  · simp [Net.recv]
  · rfl

theorem ReceiveRawData_nothing (d : Device) (a b c : Bool) (so : List Bool)
    (sent : List (List Nat)) (size : Int) :
    ReceiveRawData d ⟨a, b, c, so, [], sent⟩ size = ([], ⟨a, b, c, so, [], sent⟩) := by
  unfold ReceiveRawData
  cases size.toNat with
  | zero => rfl
  | succ n =>
    rw [ReceiveRawData_loop]
    split_ifs
    · cases d.socket <;> rfl
    · rfl

/-- C28: on UDP, after CMD_PREPARE_DATA, a CMD_DATA datagram `D` shorter than
1032 bytes followed by the acknowledgement datagram `A`, the two fitting
together in 1032 bytes.  `ReceiveRawData(1032)` keeps receiving until it has
1032 bytes, so it joins the two datagrams into one buffer, and `ReceiveChunk`
returns the payload of `D` followed by all the bytes of `A` instead of the
payload of `D` alone. -/
theorem ReceiveChunk_udp_short_datagram (K : Constants) (fuel : Nat) (d : Device)
    (a b c : Bool) (so : List Bool) (sent : List (List Nat)) (D A : List Nat)
    (hprep : d.lastResponse = K.CMD_PREPARE_DATA) (hcodes : K.CMD_PREPARE_DATA ≠ K.CMD_DATA)
    (hudp : d.forceUdp = true) (hsock : d.socket = .datagram)
    (hbytes : IsBytes D) (hD : 8 ≤ D.length) (hA : A ≠ [])
    (hsum : D.length + A.length ≤ 1032) (hdata : replyCode D = K.CMD_DATA) :
    ReceiveChunk K (fuel + 2) d ⟨a, b, c, so, [some D, some A], sent⟩ =
      .returned (D.drop 8 ++ A, ⟨a, b, c, so, [], sent⟩) ∧
    D.drop 8 ++ A ≠ D.drop 8 := by
  have hDne : D ≠ [] := by
    intro h; rw [h] at hD; simp at hD
  constructor
  · unfold ReceiveChunk
    rw [if_neg (by rw [hprep]; exact hcodes), if_pos hprep, if_neg (by simp [hudp])]
    rw [ReceiveChunk_udpLoop]
    rw [ReceiveRawData_joins d a b c so sent D A hsock hDne hA hsum]
    dsimp only
    rw [if_neg (by rw [List.length_append]; omega)]
    have hc : ((D ++ A).getD 0 0 ||| (D ++ A).getD 1 0 <<< 8) % 2 ^ 16 = K.CMD_DATA := by
      have h0 : (D ++ A).getD 0 0 = D.getD 0 0 := by
        rw [List.getD_eq_getElem?_getD, List.getD_eq_getElem?_getD,
          List.getElem?_append_left (by omega)]
      have h1 : (D ++ A).getD 1 0 = D.getD 1 0 := by
        rw [List.getD_eq_getElem?_getD, List.getD_eq_getElem?_getD,
          List.getElem?_append_left (by omega)]
      rw [h0, h1, or16_eq_le16 hbytes]
      exact hdata
    rw [if_pos hc, ReceiveChunk_udpLoop, ReceiveRawData_nothing]
    dsimp only
    rw [if_pos (by simp), List.nil_append, List.drop_append_of_le_length hD]
  · intro h
    have hl := congrArg List.length h
    rw [List.length_append] at hl
    have := List.length_pos.mpr hA
    omega

/-- Witness of `ReceiveChunk_udp_short_datagram`: a CMD_DATA datagram of 12
bytes with the payload A1 A2 A3 A4, then the 8-byte CMD_ACK_OK datagram. -/
theorem ReceiveChunk_udp_short_datagram_witness :
    ReceiveChunk sampleConstants 10 samplePreparedUdp
      (sampleNet [some sampleDataDatagram, some sampleAckDatagram]) =
      .returned ([0xA1, 0xA2, 0xA3, 0xA4] ++ sampleAckDatagram, sampleNet []) ∧
    sampleDataDatagram.drop 8 = [0xA1, 0xA2, 0xA3, 0xA4] :=
  ⟨(ReceiveChunk_udp_short_datagram sampleConstants 8 samplePreparedUdp true true true [] []
    sampleDataDatagram sampleAckDatagram rfl (by decide) rfl rfl (by decide) (by decide)
    (by decide) (by decide) (by decide)).1, by decide⟩

/-! ## Transport selection -/

theorem Net.recv_sent (net : Net) (sock : Socket) (n : Nat) :
    (net.recv sock n).2.sent = net.sent := by
  unfold Net.recv
  cases sock with
  | invalid => rfl
  | stream =>
    dsimp only
    split
    · rfl
    · rfl
    · split_ifs <;> rfl
  | datagram =>
    dsimp only
    split
    · rfl
    · rfl
    · split_ifs <;> rfl

/-- The TCP path of `SendCommand`, which a session with a valid socket and
without `forceUdp_` takes whatever the kind of the socket: the buffer handed to
`send` is the frame inside the envelope, a read of fewer than 16 bytes makes
the call fail, and a call that succeeds hands over the read without its first
8 bytes. -/
theorem SendCommand_tcp_path (K : Constants) (d : Device) (net : Net) (command : Nat)
    (commandString : List Nat) (responseSize : Nat) (resp : List Nat)
    (hguard : d.isConnected = true ∨ command % 2 ^ 16 = K.CMD_CONNECT ∨
      command % 2 ^ 16 = K.CMD_AUTH)
    (hsock : d.socket ≠ .invalid) (hudp : d.forceUdp = false)
    (hsend : ∀ b ∈ net.sendOk, b = true) :
    (SendCommand K d net command commandString responseSize (some resp)).net.sent =
      net.sent ++ [CreateTcpTop (CreateHeader (command % 2 ^ 16) commandString d.sessionId
        (nextReplyId d.replyId))] ∧
    (∀ bs tail, net.incoming = some bs :: tail → bs.length ≤ responseSize + 8 →
      bs.length < 16 →
      (SendCommand K d net command commandString responseSize (some resp)).outcome =
        some false ∧
      (SendCommand K d net command commandString responseSize (some resp)).response =
        some resp) ∧
    (∀ bs tail, net.incoming = some bs :: tail → bs.length ≤ responseSize + 8 →
      (SendCommand K d net command commandString responseSize (some resp)).outcome =
        some true →
      (SendCommand K d net command commandString responseSize (some resp)).response =
        some (bs.drop 8)) := by
  have hg : ¬ ((!d.isConnected) = true ∧ command % 2 ^ 16 ≠ K.CMD_CONNECT ∧
      command % 2 ^ 16 ≠ K.CMD_AUTH) := by
    rintro ⟨h1, h2, h3⟩
    rcases hguard with h | h | h
    · rw [h] at h1; simp at h1
    · exact h2 h
    · exact h3 h
  have hc : d.socket ≠ Socket.invalid ∧ (!d.forceUdp) = true := ⟨hsock, by rw [hudp]; rfl⟩
  have hs := Net.send_ok net d.socket (CreateTcpTop (CreateHeader (command % 2 ^ 16)
    commandString d.sessionId (nextReplyId d.replyId))) hsock hsend
  unfold SendCommand
  simp only []
  rw [if_neg hg, if_pos hc]
  generalize net.send d.socket _ = sr at hs ⊢
  obtain ⟨ok, net1⟩ := sr
  have hok : ok = true := congrArg Prod.fst hs
  have hnet1 := congrArg Prod.snd hs
  dsimp only at hnet1 ⊢
  subst hok
  rw [if_neg (by simp)]
  have hsent1 : net1.sent = net.sent ++ [CreateTcpTop (CreateHeader (command % 2 ^ 16)
      commandString d.sessionId (nextReplyId d.replyId))] := by rw [hnet1]
  have hinc1 : net1.incoming = net.incoming := by rw [hnet1]
  clear hnet1 hs
  have hrs := Net.recv_sent net1 d.socket (responseSize + 8)
  have hrecv : ∀ bs tail, net.incoming = some bs :: tail → bs.length ≤ responseSize + 8 →
      (net1.recv d.socket (responseSize + 8)).1 = some bs := by
    intro bs tail hin hle
    unfold Net.recv
    cases hso : d.socket with
    | invalid => exact absurd hso hsock
    | stream => simp [hinc1, hin, hle]
    | datagram => simp [hinc1, hin, hle]
  refine ⟨?_, ?_, ?_⟩
  · split
    · rw [← hsent1, ← hrs]
    · split_ifs
      · rw [← hsent1, ← hrs]
      · rw [← hsent1, ← hrs]
      · rw [← hsent1, ← hrs]
  · intro bs tail hin hle hlt
    rw [hrecv bs tail hin hle]
    dsimp only
    rw [if_neg (by omega)]
    exact ⟨rfl, rfl⟩
  · intro bs tail hin hle
    rw [hrecv bs tail hin hle]
    dsimp only
    split_ifs
    · intro _; rfl
    · intro h; simp at h
    · intro h; simp at h
/-- C29: `forceUdp_` is unset and the TCP connect is refused, so `CreateSocket`
falls back to a UDP datagram socket.  `SendCommand` still takes its TCP path on
that socket: the buffer it hands to `send` is the frame of `CreateHeader`
inside the 8-byte envelope, not the frame alone; a datagram of fewer than 16
bytes is rejected instead of being handed to the caller, and a datagram that is
accepted is handed over without its first 8 bytes. -/
theorem SendCommand_after_udp_fallback (K : Constants) (d : Device) (net : Net)
    (command : Nat) (commandString : List Nat) (responseSize : Nat) (resp : List Nat)
    (hudp : d.forceUdp = false) (htcp : net.tcpSocketOk = true)
    (hrefused : net.tcpConnectOk = false) (hdgram : net.udpSocketOk = true)
    (hguard : d.isConnected = true ∨ command % 2 ^ 16 = K.CMD_CONNECT ∨
      command % 2 ^ 16 = K.CMD_AUTH)
    (hsend : ∀ b ∈ net.sendOk, b = true) :
    CreateSocket d net = (true, { d with socket := .datagram }) ∧
    (SendCommand K (CreateSocket d net).2 net command commandString responseSize
      (some resp)).net.sent =
      net.sent ++ [CreateTcpTop (CreateHeader (command % 2 ^ 16) commandString d.sessionId
        (nextReplyId d.replyId))] ∧
    CreateTcpTop (CreateHeader (command % 2 ^ 16) commandString d.sessionId
        (nextReplyId d.replyId)) ≠
      CreateHeader (command % 2 ^ 16) commandString d.sessionId (nextReplyId d.replyId) ∧
    (∀ bs tail, net.incoming = some bs :: tail → bs.length ≤ responseSize + 8 →
      bs.length < 16 →
      (SendCommand K (CreateSocket d net).2 net command commandString responseSize
        (some resp)).outcome = some false ∧
      (SendCommand K (CreateSocket d net).2 net command commandString responseSize
        (some resp)).response = some resp) ∧
    (∀ bs tail, net.incoming = some bs :: tail → bs.length ≤ responseSize + 8 →
      (SendCommand K (CreateSocket d net).2 net command commandString responseSize
        (some resp)).outcome = some true →
      (SendCommand K (CreateSocket d net).2 net command commandString responseSize
        (some resp)).response = some (bs.drop 8)) := by
  have hcs : CreateSocket d net = (true, { d with socket := .datagram }) := by
    unfold CreateSocket
    simp [hudp, htcp, hrefused, hdgram, CloseSocket]
  have hp := SendCommand_tcp_path K { d with socket := .datagram } net command commandString
    responseSize resp hguard (by simp) hudp hsend
  rw [hcs]
  refine ⟨rfl, hp.1, ?_, hp.2.1, hp.2.2⟩
  intro h
  have hl := congrArg List.length h
  rw [CreateTcpTop_length] at hl
  omega

/-- Witness of `SendCommand_after_udp_fallback`: CMD_CONNECT after the
fallback, answered by the bare 8-byte CMD_ACK_OK frame in one datagram. -/
theorem SendCommand_after_udp_fallback_witness :
    (CreateSocket (construct 0 false false) sampleFallbackNet).2.socket = .datagram ∧
    (SendCommand sampleConstants (CreateSocket (construct 0 false false) sampleFallbackNet).2
      sampleFallbackNet 1000 [] 1024 (some [])).net.sent =
      [CreateTcpTop (CreateHeader 1000 [] 0 0)] ∧
    (SendCommand sampleConstants (CreateSocket (construct 0 false false) sampleFallbackNet).2
      sampleFallbackNet 1000 [] 1024 (some [])).outcome = some false ∧
    (SendCommand sampleConstants { construct 0 true false with socket := .datagram }
      sampleFallbackNet 1000 [] 1024 (some [])).net.sent = [CreateHeader 1000 [] 0 0] ∧
    (SendCommand sampleConstants { construct 0 true false with socket := .datagram }
      sampleFallbackNet 1000 [] 1024 (some [])).response = some sampleAckReply :=
  have h := SendCommand_after_udp_fallback sampleConstants (construct 0 false false)
    sampleFallbackNet 1000 [] 1024 [] rfl rfl rfl rfl (Or.inr (Or.inl rfl)) (by decide)
  ⟨congrArg (fun p => p.2.socket) h.1, h.2.1,
    (h.2.2.2.1 sampleAckReply [] rfl (by decide) (by decide)).1, by decide, by decide⟩

/-! ## The verbose flag -/

theorem storeLastResponse_verbose (d : Device) (v : Bool) (response : Option (List Nat)) :
    storeLastResponse { d with verbose := v } response =
      { storeLastResponse d response with verbose := v } := by
  unfold storeLastResponse
  cases response with
  | none => rfl
  | some r =>
    dsimp only
    split_ifs <;> rfl

theorem SendCommand_verbose (K : Constants) (d : Device) (v : Bool) (net : Net) (command : Nat)
    (commandString : List Nat) (responseSize : Nat) (response : Option (List Nat)) :
    SendCommand K { d with verbose := v } net command commandString responseSize response =
      { SendCommand K d net command commandString responseSize response with
        dev := { (SendCommand K d net command commandString responseSize response).dev with
          verbose := v } } := by
  have hs := fun r => storeLastResponse_verbose { d with replyId := nextReplyId d.replyId } v r
  dsimp only at hs
  unfold SendCommand
  dsimp only
  split_ifs
  · rfl
  · rfl
  · split
    · rfl
    · split_ifs
      · rw [hs]
      · rfl
      · rfl
  · rfl
  · split
    · rfl
    · rw [hs]
theorem SendAckOnly_verbose (K : Constants) (d : Device) (v : Bool) (net : Net)
    (receivedHeader : List Nat) :
    SendAckOnly K { d with verbose := v } net receivedHeader =
      SendAckOnly K d net receivedHeader := rfl

theorem ReceiveRawData_verbose (d : Device) (v : Bool) (net : Net) (size : Int) :
    ReceiveRawData { d with verbose := v } net size = ReceiveRawData d net size := rfl

theorem GetNextLiveEvent_verbose (K : Constants) (d : Device) (v : Bool) (s : LiveCapture)
    (net : Net) :
    GetNextLiveEvent K { d with verbose := v } s net = GetNextLiveEvent K d s net := rfl

theorem FlushExistingEvents_loop_verbose (K : Constants) (d : Device) (v : Bool) :
    ∀ (n : Nat) (net : Net),
      FlushExistingEvents_loop K { d with verbose := v } n net =
        FlushExistingEvents_loop K d n net := by
  intro n
  induction n with
  | zero => intro net; rfl
  | succ n ih =>
    intro net
    rw [FlushExistingEvents_loop, FlushExistingEvents_loop]
    dsimp only
    cases (net.recv d.socket 1032).1 with
    | none => rfl
    | some buffer =>
      dsimp only
      split_ifs <;> first | rfl | exact ih _
theorem ReceiveTcpData_verbose (K : Constants) (d : Device) (v : Bool) :
    ∀ (fuel : Nat) (net : Net) (dataRecv : List Nat) (size : Int),
      ReceiveTcpData K { d with verbose := v } fuel net dataRecv size =
        ReceiveTcpData K d fuel net dataRecv size := by
  intro fuel
  induction fuel with
  | zero => intro net dataRecv size; rfl
  | succ fuel ih =>
    intro net dataRecv size
    rw [ReceiveTcpData, ReceiveTcpData]
    simp only [ih]
    rfl

theorem ReceiveChunk_udpLoop_verbose (K : Constants) (d : Device) (v : Bool) :
    ∀ (fuel : Nat) (net : Net) (data : List Nat),
      ReceiveChunk_udpLoop K { d with verbose := v } fuel net data =
        ReceiveChunk_udpLoop K d fuel net data := by
  intro fuel
  induction fuel with
  | zero => intro net data; rfl
  | succ fuel ih =>
    intro net data
    rw [ReceiveChunk_udpLoop, ReceiveChunk_udpLoop]
    simp only [ih]
    rfl

theorem ReceiveChunk_verbose (K : Constants) (fuel : Nat) (d : Device) (v : Bool) (net : Net) :
    ReceiveChunk K fuel { d with verbose := v } net = ReceiveChunk K fuel d net := by
  unfold ReceiveChunk
  simp only [ReceiveTcpData_verbose, ReceiveChunk_udpLoop_verbose]
  rfl

theorem ReadChunk_attempts_verbose (K : Constants) (fuel start size : Nat) (v : Bool) :
    ∀ (n : Nat) (d : Device) (net : Net) (requests : List (Nat × List Nat)) (retries : Nat),
      ReadChunk_attempts K fuel start size n { d with verbose := v } net requests retries =
        { ReadChunk_attempts K fuel start size n d net requests retries with
          dev := { (ReadChunk_attempts K fuel start size n d net requests retries).dev with
            verbose := v } } := by
  intro n
  induction n with
  | zero => intro d net requests retries; rfl
  | succ n ih =>
    intro d net requests retries
    rw [ReadChunk_attempts, ReadChunk_attempts]
    dsimp only
    generalize (if (!d.forceUdp) = true ∧ d.socket ≠ Socket.invalid then size + 32
      else 1024 + 8) = rs
    rw [SendCommand_verbose]
    generalize SendCommand K d net K.CMD_READ_BUFFER (ReadChunk_commandString start size) rs
      (some []) = r
    have hl : logRequest { r with dev := { r.dev with verbose := v } } K.CMD_READ_BUFFER
        (ReadChunk_commandString start size) =
        logRequest r K.CMD_READ_BUFFER (ReadChunk_commandString start size) := rfl
    rw [hl]
    dsimp only
    rw [ReceiveChunk_verbose]
    by_cases h1 : r.outcome = some true
    · rw [if_pos h1, if_pos h1]
      cases ReceiveChunk K fuel r.dev r.net with
      | returned p =>
        obtain ⟨data, net1⟩ := p
        dsimp only
        split_ifs
        · rfl
        · exact ih _ _ _ _
      | undefinedBehaviour => rfl
      | outOfFuel => rfl
    · rw [if_neg h1, if_neg h1]
      exact ih _ _ _ _

theorem ReadChunk_verbose (K : Constants) (fuel : Nat) (d : Device) (v : Bool) (net : Net)
    (start size : Nat) (requests : List (Nat × List Nat)) (retries : Nat) :
    ReadChunk K fuel { d with verbose := v } net start size requests retries =
      { ReadChunk K fuel d net start size requests retries with
        dev := { (ReadChunk K fuel d net start size requests retries).dev with
          verbose := v } } :=
  ReadChunk_attempts_verbose K fuel start size v 3 d net requests retries

theorem ReadWithBuffer_loop_verbose (K : Constants) (fuel MAX_CHUNK : Nat) (v : Bool) :
    ∀ (n : Nat) (d : Device) (net : Net) (data : List Nat) (start : Nat)
      (requests : List (Nat × List Nat)) (retries : Nat),
      ReadWithBuffer_loop K fuel MAX_CHUNK n { d with verbose := v } net data start requests
          retries =
        { ReadWithBuffer_loop K fuel MAX_CHUNK n d net data start requests retries with
          dev := { (ReadWithBuffer_loop K fuel MAX_CHUNK n d net data start requests
            retries).dev with verbose := v } } := by
  intro n
  induction n with
  | zero => intro d net data start requests retries; rfl
  | succ n ih =>
    intro d net data start requests retries
    rw [ReadWithBuffer_loop, ReadWithBuffer_loop]
    dsimp only
    rw [ReadChunk_verbose]
    generalize ReadChunk K fuel d net start MAX_CHUNK requests retries = c
    dsimp only
    cases c.outcome with
    | returned o =>
      cases o with
      | none => rfl
      | some chunkData =>
        dsimp only
        split_ifs
        · rfl
        · exact ih _ _ _ _ _ _
    | undefinedBehaviour => rfl
    | outOfFuel => rfl

theorem ReadWithBuffer_verbose (K : Constants) (fuel : Nat) (d : Device) (v : Bool) (net : Net)
    (command : Nat) (fct ext : Int) :
    ReadWithBuffer K fuel { d with verbose := v } net command fct ext =
      { ReadWithBuffer K fuel d net command fct ext with
        dev := { (ReadWithBuffer K fuel d net command fct ext).dev with verbose := v } } := by
  unfold ReadWithBuffer
  dsimp only
  generalize (if (!d.forceUdp) = true ∧ d.socket ≠ Socket.invalid then 0xFFC0
    else 16 * 1024) = MAX_CHUNK
  rw [SendCommand_verbose]
  generalize SendCommand K d net K.CMD_PREPARE_BUFFER
    (ReadWithBuffer_commandString command fct ext) 1024 (some []) = r
  have hl : logRequest { r with dev := { r.dev with verbose := v } } K.CMD_PREPARE_BUFFER
      (ReadWithBuffer_commandString command fct ext) =
      logRequest r K.CMD_PREPARE_BUFFER (ReadWithBuffer_commandString command fct ext) := rfl
  rw [hl]
  dsimp only
  by_cases h1 : r.outcome ≠ some true
  · rw [if_pos h1, if_pos h1]
  · rw [if_neg h1, if_neg h1]
    by_cases h2 : r.dev.lastResponse = K.CMD_DATA
    · rw [if_pos h2, if_pos h2]
      split_ifs <;> rfl
    · rw [if_neg h2, if_neg h2]
      by_cases h3 : r.dev.lastData.length < 5
      · rw [if_pos h3, if_pos h3]
      · rw [if_neg h3, if_neg h3]
        rw [ReadWithBuffer_loop_verbose]
        generalize ReadWithBuffer_loop K fuel MAX_CHUNK _ r.dev r.net [] 0 _ 0 = l
        dsimp only
        cases l.outcome with
        | returned o =>
          cases o with
          | none => rfl
          | some p =>
            obtain ⟨data, start⟩ := p
            dsimp only
            by_cases hrem : toInt32
                ((r.dev.lastData.getD 1 0 ||| r.dev.lastData.getD 2 0 <<< 8 |||
                  r.dev.lastData.getD 3 0 <<< 16 ||| r.dev.lastData.getD 4 0 <<< 24) % 2 ^ 32 %
                    MAX_CHUNK) > 0
            · rw [if_pos hrem, if_pos hrem]
              rw [ReadChunk_verbose]
              generalize ReadChunk K fuel l.dev l.net start _ l.requests l.retries = c
              dsimp only
              cases c.outcome with
              | returned o2 =>
                cases o2 with
                | none => rfl
                | some chunkData =>
                  dsimp only
                  split_ifs
                  · rfl
                  · unfold FreeData
                    rw [SendCommand_verbose]
                    rfl
              | undefinedBehaviour => rfl
              | outOfFuel => rfl
            · rw [if_neg hrem, if_neg hrem]
              unfold FreeData
              rw [SendCommand_verbose]
              rfl
        | undefinedBehaviour => rfl
        | outOfFuel => rfl

theorem CreateSocket_verbose (d : Device) (v : Bool) (net : Net) :
    CreateSocket { d with verbose := v } net =
      ((CreateSocket d net).1, { (CreateSocket d net).2 with verbose := v }) := by
  unfold CreateSocket
  dsimp only
  split_ifs <;> rfl

theorem Connect_verbose (K : Constants) (d : Device) (v : Bool) (net : Net) :
    Connect K { d with verbose := v } net =
      { Connect K d net with dev := { (Connect K d net).dev with verbose := v } } := by
  unfold Connect
  rw [CreateSocket_verbose]
  generalize CreateSocket d net = cs
  obtain ⟨created, d1⟩ := cs
  dsimp only
  by_cases hc : (!created) = true
  · rw [if_pos hc, if_pos hc]
  · rw [if_neg hc, if_neg hc]
    have h1 := SendCommand_verbose K { d1 with sessionId := 0, replyId := 65534 } v net
      K.CMD_CONNECT [] 1024 (some [])
    dsimp only at h1
    rw [h1]
    generalize SendCommand K { d1 with sessionId := 0, replyId := 65534 } net
      K.CMD_CONNECT [] 1024 (some []) = r1
    dsimp only
    cases r1.outcome with
    | none => rfl
    | some b =>
      cases b with
      | false => rfl
      | true =>
        dsimp only
        by_cases h8 : (r1.response.getD []).length ≥ 8
        · rw [if_pos h8, if_pos h8]
          by_cases hu : (((r1.response.getD []).getD 1 0 <<< 8) |||
              (r1.response.getD []).getD 0 0) % 2 ^ 16 = K.CMD_ACK_UNAUTH
          · rw [if_pos hu, if_pos hu]
            have h2 := SendCommand_verbose K
              { r1.dev with sessionId := (((r1.response.getD []).getD 5 0 <<< 8) |||
                (r1.response.getD []).getD 4 0) % 2 ^ 16 } v r1.net K.CMD_AUTH
            dsimp only at h2
            rw [h2]
            generalize SendCommand K _ r1.net K.CMD_AUTH _ 1024 _ = r2
            dsimp only
            cases r2.outcome with
            | none => rfl
            | some b2 =>
              cases b2 with
              | false => rfl
              | true =>
                dsimp only
                split_ifs <;> rfl
          · rw [if_neg hu, if_neg hu]
            split_ifs <;> rfl
        · rw [if_neg h8, if_neg h8]
          rfl

theorem checkReply_verbose (K : Constants) (d : Device) (v : Bool) (net : Net) (command : Nat)
    (commandString : List Nat) (responseSize : Nat) (response : Option (List Nat)) :
    (checkReply K (SendCommand K { d with verbose := v } net command commandString responseSize
      response)).outcome =
      (checkReply K (SendCommand K d net command commandString responseSize response)).outcome ∧
    (checkReply K (SendCommand K { d with verbose := v } net command commandString responseSize
      response)).net =
      (checkReply K (SendCommand K d net command commandString responseSize response)).net ∧
    (checkReply K (SendCommand K { d with verbose := v } net command commandString responseSize
      response)).dev =
      { (checkReply K (SendCommand K d net command commandString responseSize response)).dev with
        verbose := v } := by
  rw [SendCommand_verbose]
  generalize SendCommand K d net command commandString responseSize response = r
  unfold checkReply
  dsimp only
  cases r.outcome with
  | none => exact ⟨rfl, rfl, rfl⟩
  | some b =>
    cases b with
    | false => exact ⟨rfl, rfl, rfl⟩
    | true =>
      dsimp only
      split_ifs <;> exact ⟨rfl, rfl, rfl⟩

/-- A device-control operation returns the same value and leaves the same
network and, the flag aside, the same session whatever `verbose_` is. -/
theorem ControlOp.run_verbose (K : Constants) (d : Device) (v : Bool) (net : Net)
    (m : Members) (op : ControlOp) :
    (op.run K { d with verbose := v } net m).outcome = (op.run K d net m).outcome ∧
    (op.run K { d with verbose := v } net m).net = (op.run K d net m).net ∧
    (op.run K { d with verbose := v } net m).dev =
      { (op.run K d net m).dev with verbose := v } := by
  cases op with
  | enableDevice => exact checkReply_verbose K d v net _ _ _ _
  | disableDevice => exact checkReply_verbose K d v net _ _ _ _
  | restart => exact checkReply_verbose K d v net _ _ _ _
  | unlock time => exact checkReply_verbose K d v net _ _ _ _
  | testVoice index => exact checkReply_verbose K d v net _ _ _ _
  | getLockState => exact checkReply_verbose K d v net _ _ _ _
  | setTime encodedTime => exact checkReply_verbose K d v net _ _ _ _
  | setDeviceName deviceName => exact checkReply_verbose K d v net _ _ _ _
  | deleteUser users uid userId =>
    simp only [ControlOp.run, DeleteUser]
    cases resolveUid users uid userId with
    | none => exact ⟨rfl, rfl, rfl⟩
    | some uid1 => exact checkReply_verbose K d v net _ _ _ _
  | deleteUserTemplate users uid tempId userId =>
    simp only [ControlOp.run, DeleteUserTemplate]
    split_ifs
    · exact checkReply_verbose K d v net _ _ _ _
    · cases resolveUid users uid userId with
      | none => exact ⟨rfl, rfl, rfl⟩
      | some uid1 => exact checkReply_verbose K d v net _ _ _ _
  | setUser uid name privilege password groupId userId card =>
    simp only [ControlOp.run, SetUser]
    rw [SendCommand_verbose]
    generalize SendCommand K d net K.CMD_ENABLEDEVICE [] 8 (some []) = enable
    dsimp only
    cases enable.outcome with
    | none => exact ⟨rfl, rfl, rfl⟩
    | some b =>
      dsimp only
      cases SetUser_commandString K m uid name privilege password groupId userId card with
      | none =>
        dsimp only
        split_ifs <;> exact ⟨rfl, rfl, rfl⟩
      | some commandString => exact checkReply_verbose K enable.dev v enable.net _ _ _ _

theorem getOption_erase_verbose (K : Constants) (d : Device) (v : Bool) (net : Net)
    (query : String) :
    getOption_erase K { d with verbose := v } net query =
      { getOption_erase K d net query with
        dev := { (getOption_erase K d net query).dev with verbose := v } } := by
  unfold getOption_erase
  dsimp only
  split_ifs
  · rfl
  · rw [SendCommand_verbose]
    generalize SendCommand K d net K.CMD_OPTIONS_RRQ (ascii query ++ [0]) 1024 (some []) = r
    dsimp only
    cases r.outcome with
    | none => rfl
    | some b =>
      cases b with
      | false => rfl
      | true =>
        dsimp only
        cases optionValue_erase (r.response.getD []) with
        | none => rfl
        | some o =>
          cases o with
          | none => rfl
          | some serial => rfl

theorem getOption_guarded_verbose (K : Constants) (d : Device) (v : Bool) (net : Net)
    (query : String) :
    getOption_guarded K { d with verbose := v } net query =
      { getOption_guarded K d net query with
        dev := { (getOption_guarded K d net query).dev with verbose := v } } := by
  unfold getOption_guarded
  dsimp only
  split_ifs
  · rfl
  · rw [SendCommand_verbose]
    generalize SendCommand K d net K.CMD_OPTIONS_RRQ (ascii query ++ [0]) 1024 (some []) = r
    dsimp only
    cases r.outcome with
    | none => rfl
    | some b =>
      cases b with
      | false => rfl
      | true =>
        dsimp only
        cases optionValue_guarded (r.response.getD []) with
        | none => rfl
        | some s => rfl

/-- C30: two runs that differ only in the `verbose_` flag return the same
value, hand the same buffers to the network in the same order and leave the
same session, the flag itself aside.  This holds for `SendCommand`, `Connect`,
`ReceiveRawData`, `ReceiveTcpData`, `ReceiveChunk`, `ReadChunk`,
`ReadWithBuffer`, `SendAckOnly`, `FlushExistingEvents` (whose two branches send
the same acknowledgements), `GetNextLiveEvent` (and with it
`ProcessEventBuffer` and `ParseLiveEventData`), the device-control operations
and the option getters.  `MakeCommKey` and `DecodeTime` are functions of their
arguments alone. -/
theorem verbose_independence (K : Constants) (d : Device) (v : Bool) (net : Net)
    (s : LiveCapture) (m : Members) :
    (∀ command commandString responseSize response,
      SendCommand K { d with verbose := v } net command commandString responseSize response =
        { SendCommand K d net command commandString responseSize response with
          dev := { (SendCommand K d net command commandString responseSize response).dev with
            verbose := v } }) ∧
    Connect K { d with verbose := v } net =
      { Connect K d net with dev := { (Connect K d net).dev with verbose := v } } ∧
    (∀ size, ReceiveRawData { d with verbose := v } net size = ReceiveRawData d net size) ∧
    (∀ fuel dataRecv size,
      ReceiveTcpData K { d with verbose := v } fuel net dataRecv size =
        ReceiveTcpData K d fuel net dataRecv size) ∧
    (∀ fuel, ReceiveChunk K fuel { d with verbose := v } net = ReceiveChunk K fuel d net) ∧
    (∀ fuel start size requests retries,
      ReadChunk K fuel { d with verbose := v } net start size requests retries =
        { ReadChunk K fuel d net start size requests retries with
          dev := { (ReadChunk K fuel d net start size requests retries).dev with
            verbose := v } }) ∧
    (∀ fuel command fct ext,
      ReadWithBuffer K fuel { d with verbose := v } net command fct ext =
        { ReadWithBuffer K fuel d net command fct ext with
          dev := { (ReadWithBuffer K fuel d net command fct ext).dev with verbose := v } }) ∧
    (∀ receivedHeader,
      SendAckOnly K { d with verbose := v } net receivedHeader =
        SendAckOnly K d net receivedHeader) ∧
    FlushExistingEvents K { d with verbose := v } net = FlushExistingEvents K d net ∧
    GetNextLiveEvent K { d with verbose := v } s net = GetNextLiveEvent K d s net ∧
    (∀ op : ControlOp,
      (op.run K { d with verbose := v } net m).outcome = (op.run K d net m).outcome ∧
      (op.run K { d with verbose := v } net m).net = (op.run K d net m).net ∧
      (op.run K { d with verbose := v } net m).dev =
        { (op.run K d net m).dev with verbose := v }) ∧
    (∀ query,
      getOption_erase K { d with verbose := v } net query =
        { getOption_erase K d net query with
          dev := { (getOption_erase K d net query).dev with verbose := v } }) ∧
    (∀ query,
      getOption_guarded K { d with verbose := v } net query =
        { getOption_guarded K d net query with
          dev := { (getOption_guarded K d net query).dev with verbose := v } }) :=
  ⟨fun _ _ _ _ => SendCommand_verbose K d v net _ _ _ _,
    Connect_verbose K d v net,
    fun _ => ReceiveRawData_verbose d v net _,
    fun _ _ _ => ReceiveTcpData_verbose K d v _ net _ _,
    fun _ => ReceiveChunk_verbose K _ d v net,
    fun _ _ _ _ _ => ReadChunk_verbose K _ d v net _ _ _ _,
    fun _ _ _ _ => ReadWithBuffer_verbose K _ d v net _ _ _,
    fun _ => SendAckOnly_verbose K d v net _,
    FlushExistingEvents_loop_verbose K d v 10 net,
    GetNextLiveEvent_verbose K d v s net,
    fun op => ControlOp.run_verbose K d v net m op,
    fun _ => getOption_erase_verbose K d v net _,
    fun _ => getOption_guarded_verbose K d v net _⟩

/-- `ReceiveTcpData` on a complete CMD_DATA frame followed by fewer than 16 more
bytes: the data, an empty broken header, and no read from the network. -/
theorem ReceiveTcpData_trailing (K : Constants) (d : Device) (fuel : Nat) (net : Net)
    (b1 b2 b3 b4 b5 b6 : Nat) (data extra : List Nat)
    (hK : K.CMD_DATA < 65536) (hsz : data.length + 8 < 2 ^ 31) (hextra : extra.length < 16) :
    ReceiveTcpData K d (fuel + 1) net
        (deviceFrame K.CMD_DATA [b1, b2, b3, b4, b5, b6] data ++ extra) data.length =
      .returned ((data, []), net) := by
  rw [deviceFrame_eq _ _ _ _ _ _ _ _ (by omega)]
  simp only [List.cons_append]
  rw [ReceiveTcpData]
  have ht : TestTcpTop (0x50 :: 0x50 :: 0x74 :: 0x82 :: ((data.length + 8) % 256) ::
      ((data.length + 8) / 256 % 256) :: ((data.length + 8) / 65536 % 256) ::
      ((data.length + 8) / 16777216 % 256) ::
      (K.CMD_DATA % 256) :: (K.CMD_DATA / 256 % 256) :: b1 :: b2 :: b3 :: b4 :: b5 :: b6 ::
        (data ++ extra)) = ((data.length + 8 : Nat) : Int) := TestTcpTop_frame _ hsz _ _
  simp only [ht, List.length_cons, List.length_append, List.getD_cons_succ,
    List.getD_cons_zero, code_bytes _ hK]
  have c1 : ¬ (((data.length + 8 : Nat) : Int) ≤ 0) := by omega
  have c2 : ¬ (((data.length + 8 : Nat) : Int) - 8 < (data.length : Int)) := by omega
  have c3 : ¬ (data.length + extra.length + 1 + 1 + 1 + 1 + 1 + 1 + 1 + 1 + 1 + 1 + 1 + 1 + 1 +
      1 + 1 + 1 < 16) := by omega
  have c4 : ¬ (((data.length + extra.length + 1 + 1 + 1 + 1 + 1 + 1 + 1 + 1 + 1 + 1 + 1 + 1 + 1 +
      1 + 1 + 1 : Nat) : Int) ≥ (data.length : Int) + 32) := by omega
  have e1 : ((data.length + extra.length + 1 + 1 + 1 + 1 + 1 + 1 + 1 + 1 + 1 + 1 + 1 + 1 + 1 +
      1 + 1 + 1 : Nat) : Int) - 16 = ((data.length + extra.length : Nat) : Int) := by omega
  have e2 : min ((data.length + extra.length : Nat) : Int) (data.length : Int) =
      (data.length : Int) := by omega
  have c5 : ¬ (((data.length + extra.length : Nat) : Int) > 0 ∧ (data.length : Int) < 0) := by
    omega
  rw [if_neg c1, if_neg c2, if_neg c3, if_neg c4, e1, e2, if_neg c5]
  have e3 : (16 + (data.length : Int)).toNat = data.length + 16 := by omega
  have e4 : (if ((data.length + extra.length : Nat) : Int) > 0 then
      (List.take (16 + (data.length : Int)).toNat (0x50 :: 0x50 :: 0x74 :: 0x82 ::
        ((data.length + 8) % 256) ::
      ((data.length + 8) / 256 % 256) :: ((data.length + 8) / 65536 % 256) ::
      ((data.length + 8) / 16777216 % 256) ::
      (K.CMD_DATA % 256) :: (K.CMD_DATA / 256 % 256) :: b1 :: b2 :: b3 :: b4 :: b5 :: b6 ::
        (data ++ extra))).drop 16 else []) = data := by
    rw [e3]
    by_cases h0 : ((data.length + extra.length : Nat) : Int) > 0
    · rw [if_pos h0]
      simp only [List.take_succ_cons, List.drop_succ_cons, List.drop_zero, List.take_left]
    · rw [if_neg h0]
      have : data.length = 0 := by omega
      exact (List.length_eq_zero.mp this).symm
  have e5 : (if ((data.length + extra.length : Nat) : Int) > 0 then
      (data.length : Int) - data.length else (data.length : Int)) = 0 := by
    split_ifs <;> omega
  rw [e4, e5]
  simp
/-- `ReceiveChunk` when `lastData_` holds the PREPARE_DATA payload, the complete
CMD_DATA frame and fewer than 16 further bytes: the frame is handed to
`ReceiveTcpData` without a read, and the acknowledgement is read from the
network with a request of 16 bytes. -/
theorem ReceiveChunk_trailing (K : Constants) (fuel : Nat) (d : Device) (net : Net)
    (b1 b2 b3 b4 b5 b6 e1 e2 e3 e4 : Nat) (data extra : List Nat)
    (hK : K.CMD_PREPARE_DATA ≠ K.CMD_DATA ∧ K.CMD_DATA < 65536)
    (hresp : d.lastResponse = K.CMD_PREPARE_DATA)
    (hudp : d.forceUdp = false) (hsock : d.socket = .stream)
    (hsz : data.length + 56 < 2 ^ 31) (hextra : extra.length < 16)
    (hdata : d.lastData =
      (data.length % 256) :: (data.length / 256 % 256) :: (data.length / 65536 % 256) ::
        (data.length / 16777216 % 256) :: e1 :: e2 :: e3 :: e4 ::
        (deviceFrame K.CMD_DATA [b1, b2, b3, b4, b5, b6] data ++ extra)) :
    GetDataSize K d = (data.length : Int) ∧
    d.lastData.drop 8 = deviceFrame K.CMD_DATA [b1, b2, b3, b4, b5, b6] data ++ extra ∧
    ReceiveChunk K (fuel + 1) d net =
      (let first := ReceiveRawData d net 16
       let ackDataRecv : List Nat × Net :=
         if first.1.length < 16 then
           let additionalData := ReceiveRawData d first.2 (16 - first.1.length)
           (first.1 ++ additionalData.1, additionalData.2)
         else first
       if TestTcpTop ackDataRecv.1 = 0 then Outcome.returned (([] : List Nat), ackDataRecv.2)
       else if ackDataRecv.1.length ≥ 16 then
         if (ackDataRecv.1.getD 8 0 ||| (ackDataRecv.1.getD 9 0 <<< 8)) % 2 ^ 16 = K.CMD_ACK_OK
         then Outcome.returned (data, ackDataRecv.2)
         else Outcome.returned ([], ackDataRecv.2)
       else Outcome.returned (data, ackDataRecv.2)) := by
  have hDlen := deviceFrame_length K.CMD_DATA b1 b2 b3 b4 b5 b6 data
  have hsize : GetDataSize K d = (data.length : Int) := by
    unfold GetDataSize
    rw [if_pos hresp, hdata]
    simp only [List.length_cons, List.getD_cons_succ, List.getD_cons_zero]
    rw [if_pos (by omega), le32_bytes_or _ (by omega)]
    exact toInt32_of_lt (by omega)
  have hll : d.lastData.length = 8 + (data.length + 16 + extra.length) := by
    rw [hdata]
    simp only [List.length_cons, List.length_append, hDlen]
    omega
  have hdrop : d.lastData.drop 8 =
      deviceFrame K.CMD_DATA [b1, b2, b3, b4, b5, b6] data ++ extra := by
    rw [hdata]
    simp only [List.drop_succ_cons, List.drop_zero]
  have htcp : (!d.forceUdp) = true ∧ d.socket ≠ Socket.invalid := by
    rw [hudp, hsock]
    exact ⟨rfl, by simp⟩
  have hnd : ¬ d.lastResponse = K.CMD_DATA := by rw [hresp]; exact hK.1
  have hclaim :
      ReceiveTcpData K d (fuel + 1)
        (if (d.lastData.length : Int) ≥ 8 + GetDataSize K d then (d.lastData.drop 8, net)
          else (d.lastData.drop 8 ++ (ReceiveRawData d net (GetDataSize K d + 32)).1,
            (ReceiveRawData d net (GetDataSize K d + 32)).2)).2
        (if (d.lastData.length : Int) ≥ 8 + GetDataSize K d then (d.lastData.drop 8, net)
          else (d.lastData.drop 8 ++ (ReceiveRawData d net (GetDataSize K d + 32)).1,
            (ReceiveRawData d net (GetDataSize K d + 32)).2)).1
        (GetDataSize K d) = .returned ((data, []), net) := by
    rw [hsize, hdrop, hll]
    have hc : ((8 + (data.length + 16 + extra.length) : Nat) : Int) ≥ 8 + (data.length : Int) := by
      omega
    rw [if_pos hc]
    exact ReceiveTcpData_trailing K d fuel net b1 b2 b3 b4 b5 b6 data extra hK.2 (by omega)
      hextra
  refine ⟨hsize, hdrop, ?_⟩
  unfold ReceiveChunk
  rw [if_neg hnd, if_pos hresp, if_pos htcp, if_neg (by omega)]
  dsimp only
  rw [hclaim]
  dsimp only
  rw [if_pos (by decide : ([] : List Nat).length < 16)]
  simp only [List.nil_append]
/-- C31: when the buffer handed to `ReceiveTcpData` is exactly one CMD_DATA
frame (the envelope declaring `size + 8`, the header and the `size` data bytes,
`size > 0`), `ReceiveTcpData` returns the data with an empty broken header and
leaves the network untouched; `ReceiveChunk` then takes exactly 16 further bytes
from the stream and checks them as the acknowledgement frame. -/
theorem ReceiveChunk_aligned_frame (K : Constants) (fuel : Nat) (d : Device) (net : Net)
    (b1 b2 b3 b4 b5 b6 e1 e2 e3 e4 : Nat) (data bytes : List Nat)
    (hK : K.CMD_PREPARE_DATA ≠ K.CMD_DATA ∧ K.CMD_DATA < 65536)
    (hresp : d.lastResponse = K.CMD_PREPARE_DATA)
    (hudp : d.forceUdp = false) (hsock : d.socket = .stream)
    (hsz : data.length + 56 < 2 ^ 31) (hpos : 0 < data.length)
    (hdata : d.lastData =
      (data.length % 256) :: (data.length / 256 % 256) :: (data.length / 65536 % 256) ::
        (data.length / 16777216 % 256) :: e1 :: e2 :: e3 :: e4 ::
        deviceFrame K.CMD_DATA [b1, b2, b3, b4, b5, b6] data)
    (hdel : net.Delivers bytes) (hlen : 16 ≤ bytes.length) :
    GetDataSize K d = (data.length : Int) ∧
    d.lastData.drop 8 = deviceFrame K.CMD_DATA [b1, b2, b3, b4, b5, b6] data ∧
    ReceiveTcpData K d (fuel + 1) net (deviceFrame K.CMD_DATA [b1, b2, b3, b4, b5, b6] data)
      data.length = .returned ((data, []), net) ∧
    ∃ net1, net1.Delivers (bytes.drop 16) ∧
      ReceiveChunk K (fuel + 1) d net =
        .returned
          (if TestTcpTop (bytes.take 16) ≠ 0 ∧
              ((bytes.take 16).getD 8 0 ||| ((bytes.take 16).getD 9 0 <<< 8)) % 2 ^ 16 =
                K.CMD_ACK_OK
            then data else [], net1) := by
  have hdata2 : d.lastData =
      (data.length % 256) :: (data.length / 256 % 256) :: (data.length / 65536 % 256) ::
        (data.length / 16777216 % 256) :: e1 :: e2 :: e3 :: e4 ::
        (deviceFrame K.CMD_DATA [b1, b2, b3, b4, b5, b6] data ++ []) := by
    rw [List.append_nil]
    exact hdata
  obtain ⟨hsize, hdrop, hrc⟩ := ReceiveChunk_trailing K fuel d net b1 b2 b3 b4 b5 b6 e1 e2 e3 e4
    data [] hK hresp hudp hsock hsz (by decide) hdata2
  rw [List.append_nil] at hdrop
  have htd := ReceiveTcpData_trailing K d fuel net b1 b2 b3 b4 b5 b6 data [] hK.2 (by omega)
    (by decide)
  rw [List.append_nil] at htd
  refine ⟨hsize, hdrop, htd, (ReceiveRawData d net 16).2, ?_, ?_⟩
  · exact (ReceiveRawData_delivers d net 16 bytes hsock hdel).2
  · rw [hrc]
    have m1 := (ReceiveRawData_delivers d net 16 bytes hsock hdel).1
    have t16 : (16 : Int).toNat = 16 := rfl
    rw [t16] at m1
    have hl : (bytes.take 16).length = 16 := by rw [List.length_take]; omega
    dsimp only
    rw [m1, hl, if_neg (lt_irrefl 16), m1, hl]
    by_cases ht : TestTcpTop (bytes.take 16) = 0
    · rw [if_pos ht, if_neg (fun h => h.1 ht)]
    · rw [if_neg ht, if_pos (le_refl 16)]
      by_cases hc : ((bytes.take 16).getD 8 0 ||| ((bytes.take 16).getD 9 0 <<< 8)) % 2 ^ 16 =
          K.CMD_ACK_OK
      · rw [if_pos hc, if_pos ⟨ht, hc⟩]
      · rw [if_neg hc, if_neg (fun h => hc h.2)]

/-- Witness of `ReceiveChunk_aligned_frame`: the sample chunk of 5 bytes whose
CMD_DATA frame ends the first read, the CMD_ACK_OK frame and three more bytes
being pending on the stream. -/
theorem ReceiveChunk_aligned_frame_witness :
    GetDataSize sampleConstants (samplePreparedTcp []) =
      (([0xA1, 0xA2, 0xA3, 0xA4, 0xA5] : List Nat).length : Int) ∧
    (samplePreparedTcp []).lastData.drop 8 =
      deviceFrame sampleConstants.CMD_DATA [0, 0, 0x34, 0x12, 3, 0]
        [0xA1, 0xA2, 0xA3, 0xA4, 0xA5] ∧
    ReceiveTcpData sampleConstants (samplePreparedTcp []) (0 + 1)
      (sampleSplitNet [sampleAckFrame ++ [7, 8, 9]])
      (deviceFrame sampleConstants.CMD_DATA [0, 0, 0x34, 0x12, 3, 0]
        [0xA1, 0xA2, 0xA3, 0xA4, 0xA5])
      ([0xA1, 0xA2, 0xA3, 0xA4, 0xA5] : List Nat).length =
        .returned (([0xA1, 0xA2, 0xA3, 0xA4, 0xA5], []),
          sampleSplitNet [sampleAckFrame ++ [7, 8, 9]]) ∧
    ∃ net1, net1.Delivers ((sampleAckFrame ++ [7, 8, 9]).drop 16) ∧
      ReceiveChunk sampleConstants (0 + 1) (samplePreparedTcp [])
          (sampleSplitNet [sampleAckFrame ++ [7, 8, 9]]) =
        .returned
          (if TestTcpTop ((sampleAckFrame ++ [7, 8, 9]).take 16) ≠ 0 ∧
              (((sampleAckFrame ++ [7, 8, 9]).take 16).getD 8 0 |||
                (((sampleAckFrame ++ [7, 8, 9]).take 16).getD 9 0 <<< 8)) % 2 ^ 16 =
                sampleConstants.CMD_ACK_OK
            then [0xA1, 0xA2, 0xA3, 0xA4, 0xA5] else [], net1) :=
  ReceiveChunk_aligned_frame sampleConstants 0 (samplePreparedTcp [])
    (sampleSplitNet [sampleAckFrame ++ [7, 8, 9]]) 0 0 0x34 0x12 3 0 0 0 0 0
    [0xA1, 0xA2, 0xA3, 0xA4, 0xA5] (sampleAckFrame ++ [7, 8, 9])
    (by decide) rfl rfl rfl (by decide) (by decide) (by decide)
    ⟨[sampleAckFrame ++ [7, 8, 9]], by decide, rfl, by decide⟩ (by decide)
/-- What is left of a CMD_ACK_OK frame after its first `j` bytes, `0 < j < 16`,
does not pass `TestTcpTop`. -/
theorem TestTcpTop_ackFrame_drop (code c1 c2 c3 c4 c5 c6 j : Nat) (hj : 0 < j) (hj16 : j < 16) :
    TestTcpTop ((deviceFrame code [c1, c2, c3, c4, c5, c6] []).drop j) = 0 := by
  rw [deviceFrame_eq _ _ _ _ _ _ _ _ (by simp)]
  have h7 : (0 ||| (code % 256) <<< 8) % 2 ^ 16 ≠ MACHINE_PREPARE_DATA_1 := by
    rw [Nat.zero_or, Nat.shiftLeft_eq]
    unfold MACHINE_PREPARE_DATA_1
    omega
  by_cases h8 : 8 ≤ j
  · apply TestTcpTop_short
    simp only [List.length_drop, List.length_cons, List.length_nil]
    omega
  · interval_cases j
    · simp only [List.drop_succ_cons, List.drop_zero, List.length_nil]
      rw [TestTcpTop_cons, if_neg]
      rintro ⟨h, -⟩
      revert h
      decide
    · simp only [List.drop_succ_cons, List.drop_zero, List.length_nil]
      rw [TestTcpTop_cons, if_neg]
      rintro ⟨h, -⟩
      revert h
      decide
    · simp only [List.drop_succ_cons, List.drop_zero, List.length_nil]
      rw [TestTcpTop_cons, if_neg]
      rintro ⟨h, -⟩
      revert h
      decide
    · simp only [List.drop_succ_cons, List.drop_zero, List.length_nil]
      rw [TestTcpTop_cons, if_neg]
      rintro ⟨h, -⟩
      revert h
      decide
    · simp only [List.drop_succ_cons, List.drop_zero, List.length_nil]
      rw [TestTcpTop_cons, if_neg]
      rintro ⟨h, -⟩
      revert h
      decide
    · simp only [List.drop_succ_cons, List.drop_zero, List.length_nil]
      rw [TestTcpTop_cons, if_neg]
      rintro ⟨h, -⟩
      revert h
      decide
    · simp only [List.drop_succ_cons, List.drop_zero, List.length_nil]
      rw [TestTcpTop_cons, if_neg]
      rintro ⟨h, -⟩
      exact h7 h
/-- C32: when the buffer handed to `ReceiveTcpData` holds the complete CMD_DATA
frame and the first `j` bytes of the CMD_ACK_OK frame, `0 < j < 16`, the code
returns the data with an EMPTY broken header (the `j` bytes are dropped, since
`size` is lowered by the clamped `dataToExtract` and never becomes negative),
and `ReceiveChunk`, reading the remaining `16 - j` bytes of the acknowledgement
on their own, rejects the chunk and returns no data. -/
theorem ReceiveChunk_trailing_ack_bytes (K : Constants) (fuel : Nat) (d : Device) (net : Net)
    (b1 b2 b3 b4 b5 b6 c1 c2 c3 c4 c5 c6 e1 e2 e3 e4 : Nat) (data : List Nat) (j : Nat)
    (hK : K.CMD_PREPARE_DATA ≠ K.CMD_DATA ∧ K.CMD_DATA < 65536)
    (hresp : d.lastResponse = K.CMD_PREPARE_DATA)
    (hudp : d.forceUdp = false) (hsock : d.socket = .stream)
    (hsz : data.length + 56 < 2 ^ 31) (hpos : 0 < data.length) (hj : 0 < j) (hj16 : j < 16)
    (hdata : d.lastData =
      (data.length % 256) :: (data.length / 256 % 256) :: (data.length / 65536 % 256) ::
        (data.length / 16777216 % 256) :: e1 :: e2 :: e3 :: e4 ::
        (deviceFrame K.CMD_DATA [b1, b2, b3, b4, b5, b6] data ++
          (deviceFrame K.CMD_ACK_OK [c1, c2, c3, c4, c5, c6] []).take j))
    (hdel : net.Delivers ((deviceFrame K.CMD_ACK_OK [c1, c2, c3, c4, c5, c6] []).drop j)) :
    GetDataSize K d = (data.length : Int) ∧
    d.lastData.drop 8 = deviceFrame K.CMD_DATA [b1, b2, b3, b4, b5, b6] data ++
      (deviceFrame K.CMD_ACK_OK [c1, c2, c3, c4, c5, c6] []).take j ∧
    ReceiveTcpData K d (fuel + 1) net
      (deviceFrame K.CMD_DATA [b1, b2, b3, b4, b5, b6] data ++
        (deviceFrame K.CMD_ACK_OK [c1, c2, c3, c4, c5, c6] []).take j)
      data.length = .returned ((data, []), net) ∧
    ∃ net1, ReceiveChunk K (fuel + 1) d net = .returned ([], net1) := by
  have hAlen := deviceFrame_length K.CMD_ACK_OK c1 c2 c3 c4 c5 c6 []
  have htest := TestTcpTop_ackFrame_drop K.CMD_ACK_OK c1 c2 c3 c4 c5 c6 j hj hj16
  generalize deviceFrame K.CMD_ACK_OK [c1, c2, c3, c4, c5, c6] [] = A at hAlen htest hdata hdel
  have hextra : (A.take j).length < 16 := by rw [List.length_take]; omega
  obtain ⟨hsize, hdrop, hrc⟩ := ReceiveChunk_trailing K fuel d net b1 b2 b3 b4 b5 b6 e1 e2 e3 e4
    data (A.take j) hK hresp hudp hsock hsz hextra hdata
  have htd := ReceiveTcpData_trailing K d fuel net b1 b2 b3 b4 b5 b6 data (A.take j) hK.2
    (by omega) hextra
  refine ⟨hsize, hdrop, htd, ?_⟩
  rw [hrc]
  obtain ⟨m1, m2⟩ := ReceiveRawData_delivers d net 16 (A.drop j) hsock hdel
  have hdl : (A.drop j).length ≤ (16 : Int).toNat := by
    rw [List.length_drop, hAlen]
    exact Nat.sub_le _ _
  rw [List.take_of_length_le hdl] at m1
  rw [List.drop_eq_nil_of_le hdl] at m2
  have hl : (A.drop j).length < 16 := by rw [List.length_drop, hAlen]; simp only [List.length_nil]; omega
  obtain ⟨n1, n2⟩ := ReceiveRawData_delivers d (ReceiveRawData d net 16).2
    (16 - ((A.drop j).length : Int)) [] hsock m2
  rw [List.take_nil] at n1
  dsimp only
  rw [m1, if_pos hl]
  dsimp only
  rw [n1, List.append_nil, if_pos htest]
  exact ⟨_, rfl⟩

/-- Witness of `ReceiveChunk_trailing_ack_bytes`: the sample chunk of 5 bytes
whose first read ends 3 bytes into the CMD_ACK_OK frame, the other 13 bytes of
that frame being pending on the stream. -/
theorem ReceiveChunk_trailing_ack_bytes_witness :
    GetDataSize sampleConstants (samplePreparedTcp (sampleAckFrame.take 3)) =
      (([0xA1, 0xA2, 0xA3, 0xA4, 0xA5] : List Nat).length : Int) ∧
    (samplePreparedTcp (sampleAckFrame.take 3)).lastData.drop 8 =
      deviceFrame sampleConstants.CMD_DATA [0, 0, 0x34, 0x12, 3, 0]
        [0xA1, 0xA2, 0xA3, 0xA4, 0xA5] ++
      (deviceFrame sampleConstants.CMD_ACK_OK [0, 0, 0x34, 0x12, 3, 0] []).take 3 ∧
    ReceiveTcpData sampleConstants (samplePreparedTcp (sampleAckFrame.take 3)) (0 + 1)
      (sampleSplitNet [sampleAckFrame.drop 3])
      (deviceFrame sampleConstants.CMD_DATA [0, 0, 0x34, 0x12, 3, 0]
        [0xA1, 0xA2, 0xA3, 0xA4, 0xA5] ++
        (deviceFrame sampleConstants.CMD_ACK_OK [0, 0, 0x34, 0x12, 3, 0] []).take 3)
      ([0xA1, 0xA2, 0xA3, 0xA4, 0xA5] : List Nat).length =
        .returned (([0xA1, 0xA2, 0xA3, 0xA4, 0xA5], []),
          sampleSplitNet [sampleAckFrame.drop 3]) ∧
    ∃ net1, ReceiveChunk sampleConstants (0 + 1) (samplePreparedTcp (sampleAckFrame.take 3))
      (sampleSplitNet [sampleAckFrame.drop 3]) = .returned ([], net1) :=
  ReceiveChunk_trailing_ack_bytes sampleConstants 0 (samplePreparedTcp (sampleAckFrame.take 3))
    (sampleSplitNet [sampleAckFrame.drop 3]) 0 0 0x34 0x12 3 0 0 0 0x34 0x12 3 0 0 0 0 0
    [0xA1, 0xA2, 0xA3, 0xA4, 0xA5] 3
    (by decide) rfl rfl rfl (by decide) (by decide) (by decide) (by decide) (by decide)
    ⟨[sampleAckFrame.drop 3], by decide, rfl, by decide⟩

/-- The running sum of the checksum fold stays within 16 bits, is zero only
when nothing non-zero was added, and is congruent modulo 65535 to the plain sum
of the start value and the words. -/
theorem foldl_addWord_mod (ws : List Nat) (hws : ∀ w ∈ ws, w ≤ 65535) :
    ∀ s, s ≤ 65535 →
      ws.foldl addWord s ≤ 65535 ∧
      (ws.foldl addWord s = 0 ↔ s + ws.sum = 0) ∧
      ws.foldl addWord s % 65535 = (s + ws.sum) % 65535 := by
  induction ws with
  | nil => intro s hs; simpa using hs
  | cons w ws ih =>
    intro s hs
    have hw := hws w (List.mem_cons_self _ _)
    have hle : addWord s w ≤ 65535 := addWord_le hs hw
    obtain ⟨i1, i2, i3⟩ := ih (fun x hx => hws x (List.mem_cons_of_mem _ hx)) _ hle
    simp only [List.foldl_cons, List.sum_cons]
    have hstep : (addWord s w = 0 ↔ s + w = 0) ∧ addWord s w % 65535 = (s + w) % 65535 := by
      unfold addWord
      split_ifs <;> omega
    refine ⟨i1, ?_, ?_⟩
    · rw [i2]
      have := hstep.1
      omega
    · rw [i3]
      have := hstep.2
      omega

/-- `CreateChecksum` of a buffer of bytes is the complement in 16 bits of the
folded sum of its words. -/
theorem CreateChecksum_eq_foldl (packet : List Nat) (hp : IsBytes packet) :
    CreateChecksum packet = 65535 - (leWords packet).foldl addWord 0 := by
  unfold CreateChecksum
  have h := checksumLoop_eq_foldl packet hp packet.length 0 0 packet (by simp) (le_refl _)
    (by norm_num)
  have hle := foldl_addWord_le (leWords packet) (leWords_le packet hp) 0 (by norm_num)
  simp only [h]
  rw [not32_mask16 hle]

/-- The checksum of a frame whose bytes 2-3 hold the checksum computed with
these bytes zero is 0. -/
theorem CreateChecksum_filled (a0 a1 s0 s1 r0 r1 : Nat) (p : List Nat)
    (hb : IsBytes (a0 :: a1 :: 0 :: 0 :: s0 :: s1 :: r0 :: r1 :: p)) :
    CreateChecksum (a0 :: a1 ::
      (CreateChecksum (a0 :: a1 :: 0 :: 0 :: s0 :: s1 :: r0 :: r1 :: p) % 256) ::
      (CreateChecksum (a0 :: a1 :: 0 :: 0 :: s0 :: s1 :: r0 :: r1 :: p) / 256 % 256) ::
      s0 :: s1 :: r0 :: r1 :: p) = 0 := by
  have hk := CreateChecksum_lt (a0 :: a1 :: 0 :: 0 :: s0 :: s1 :: r0 :: r1 :: p)
  have h0 := CreateChecksum_eq_foldl _ hb
  have hw0 := leWords_le _ hb
  obtain ⟨f1, f2, f3⟩ := foldl_addWord_mod _ hw0 0 (by norm_num)
  generalize CreateChecksum (a0 :: a1 :: 0 :: 0 :: s0 :: s1 :: r0 :: r1 :: p) = c at hk h0 ⊢
  have hb1 : IsBytes (a0 :: a1 :: (c % 256) :: (c / 256 % 256) :: s0 :: s1 :: r0 :: r1 :: p) := by
    intro b hmem
    simp only [List.mem_cons] at hmem
    rcases hmem with h | h | h | h | h
    · exact hb b (by simp [h])
    · exact hb b (by simp [h])
    · omega
    · omega
    · exact hb b (by simp only [List.mem_cons]; tauto)
  rw [CreateChecksum_eq_foldl _ hb1]
  have hw1 := leWords_le _ hb1
  obtain ⟨g1, g2, g3⟩ := foldl_addWord_mod _ hw1 0 (by norm_num)
  have e0 : leWords (a0 :: a1 :: 0 :: 0 :: s0 :: s1 :: r0 :: r1 :: p) =
      (a0 + 256 * a1) :: (0 + 256 * 0) :: (s0 + 256 * s1) :: (r0 + 256 * r1) :: leWords p := rfl
  have e1 : leWords (a0 :: a1 :: (c % 256) :: (c / 256 % 256) :: s0 :: s1 :: r0 :: r1 :: p) =
      (a0 + 256 * a1) :: (c % 256 + 256 * (c / 256 % 256)) :: (s0 + 256 * s1) ::
        (r0 + 256 * r1) :: leWords p := rfl
  rw [e0] at h0 f1 f2 f3
  rw [e1] at g1 g2 g3 ⊢
  generalize List.foldl addWord 0 ((a0 + 256 * a1) :: (0 + 256 * 0) :: (s0 + 256 * s1) ::
      (r0 + 256 * r1) :: leWords p) = F0 at h0 f1 f2 f3
  generalize List.foldl addWord 0 ((a0 + 256 * a1) :: (c % 256 + 256 * (c / 256 % 256)) ::
      (s0 + 256 * s1) :: (r0 + 256 * r1) :: leWords p) = F1 at g1 g2 g3 ⊢
  simp only [List.sum_cons] at f2 f3 g2 g3
  have hc : c % 256 + 256 * (c / 256 % 256) = c := by omega
  rw [hc] at g2 g3
  have hsum : 0 + (a0 + 256 * a1 + (c + (s0 + 256 * s1 + (r0 + 256 * r1 + (leWords p).sum)))) =
      0 + (a0 + 256 * a1 + (0 + 256 * 0 + (s0 + 256 * s1 + (r0 + 256 * r1 + (leWords p).sum))))
        + c := by omega
  rw [hsum] at g2 g3
  generalize 0 + (a0 + 256 * a1 + (0 + 256 * 0 + (s0 + 256 * s1 + (r0 + 256 * r1 +
    (leWords p).sum)))) = S0 at f2 f3 g2 g3
  have hmod : (S0 + c) % 65535 = 0 := by omega
  have hne : S0 + c ≠ 0 := by omega
  rw [hmod] at g3
  have : F1 ≠ 0 := fun h => hne (g2.mp h)
  omega

/-- C33: for every command, session id, reply id and payload of bytes (of even
or odd length), `CreateChecksum` applied to the complete frame `CreateHeader`
returns, checksum field included, is 0. -/
theorem CreateChecksum_CreateHeader (command sessionId replyId : Nat)
    (commandString : List Nat) (hp : IsBytes commandString) :
    CreateChecksum (CreateHeader command commandString sessionId replyId) = 0 := by
  have hb0 : IsBytes ((command % 256) :: (command / 256 % 256) :: 0 :: 0 :: (sessionId % 256) ::
      (sessionId / 256 % 256) :: (replyId % 256) :: (replyId / 256 % 256) ::
      commandString) := by
    repeat first
      | exact hp
      | apply isBytes_cons (Nat.mod_lt _ (by norm_num))
      | apply isBytes_cons (by norm_num)
  have h := CreateChecksum_filled _ _ _ _ _ _ _ hb0
  simp only [CreateHeader, List.cons_append, List.nil_append, List.set_cons_succ,
    List.set_cons_zero, and_255, shr_8]
  exact h

/-- Witness of `CreateChecksum_CreateHeader`: the connect frame with a payload
of one byte (odd length). -/
theorem CreateChecksum_CreateHeader_witness :
    IsBytes [7] ∧ CreateChecksum (CreateHeader 1000 [7] 0 65534) = 0 :=
  ⟨by decide, CreateChecksum_CreateHeader 1000 0 65534 [7] (by decide)⟩

theorem digitChar_injective : ∀ a < 10, ∀ b < 10, Nat.digitChar a = Nat.digitChar b → a = b := by
  decide

/-- The timestamp of the spec determines the encoded time, as long as the year
has four digits. -/
theorem timestampSpec_injective (t u : Nat) (ht : t < 3246220800) (hu : u < 3246220800)
    (h : timestampSpec t = timestampSpec u) : t = u := by
  have h := congrArg String.data h
  simp only [timestampSpec, fourDigits, twoDigits, List.cons_append, List.nil_append,
    List.cons.injEq, and_true, true_and] at h
  obtain ⟨y1, y2, y3, y4, m1, m2, d1, d2, h1, h2, n1, n2, s1, s2⟩ := h
  norm_num at y1 y2 y3 y4 m1 m2 d1 d2 h1 h2 n1 n2 s1 s2
  have y1 := digitChar_injective _ (by omega) _ (by omega) y1
  have y2 := digitChar_injective _ (by omega) _ (by omega) y2
  have y3 := digitChar_injective _ (by omega) _ (by omega) y3
  have y4 := digitChar_injective _ (by omega) _ (by omega) y4
  have m1 := digitChar_injective _ (by omega) _ (by omega) m1
  have m2 := digitChar_injective _ (by omega) _ (by omega) m2
  have d1 := digitChar_injective _ (by omega) _ (by omega) d1
  have d2 := digitChar_injective _ (by omega) _ (by omega) d2
  have h1 := digitChar_injective _ (by omega) _ (by omega) h1
  have h2 := digitChar_injective _ (by omega) _ (by omega) h2
  have n1 := digitChar_injective _ (by omega) _ (by omega) n1
  have n2 := digitChar_injective _ (by omega) _ (by omega) n2
  have s1 := digitChar_injective _ (by omega) _ (by omega) s1
  have s2 := digitChar_injective _ (by omega) _ (by omega) s2
  omega
theorem timestampSpec_length (t : Nat) : (timestampSpec t).length = 19 := rfl

/-- C34: for every 4-byte input with little-endian value `t`, `DecodeTime`
returns the empty string if and only if `t >= 3246220800`; for every smaller
`t` it returns a text of 19 characters; the month, day, hour, minute and second
it computes are always within the ranges it checks; and inputs with distinct
values below 3246220800 give distinct timestamps. -/
theorem DecodeTime_empty_iff (b0 b1 b2 b3 c0 c1 c2 c3 : Nat)
    (hb : b0 < 256 ∧ b1 < 256 ∧ b2 < 256 ∧ b3 < 256)
    (hc : c0 < 256 ∧ c1 < 256 ∧ c2 < 256 ∧ c3 < 256) :
    (DecodeTime [b0, b1, b2, b3] = "" ↔ 3246220800 ≤ le32 b0 b1 b2 b3) ∧
    (le32 b0 b1 b2 b3 < 3246220800 → (DecodeTime [b0, b1, b2, b3]).length = 19) ∧
    ¬ (le32 b0 b1 b2 b3 / 60 / 60 / 24 / 31 % 12 + 1 < 1 ∨
       le32 b0 b1 b2 b3 / 60 / 60 / 24 / 31 % 12 + 1 > 12 ∨
       le32 b0 b1 b2 b3 / 60 / 60 / 24 % 31 + 1 < 1 ∨
       le32 b0 b1 b2 b3 / 60 / 60 / 24 % 31 + 1 > 31 ∨
       le32 b0 b1 b2 b3 / 60 / 60 % 24 > 23 ∨
       le32 b0 b1 b2 b3 / 60 % 60 > 59 ∨
       le32 b0 b1 b2 b3 % 60 > 59) ∧
    (le32 b0 b1 b2 b3 < 3246220800 → le32 c0 c1 c2 c3 < 3246220800 →
      DecodeTime [b0, b1, b2, b3] = DecodeTime [c0, c1, c2, c3] →
      le32 b0 b1 b2 b3 = le32 c0 c1 c2 c3) := by
  rw [DecodeTime_four b0 b1 b2 b3 hb.1 hb.2.1 hb.2.2.1 hb.2.2.2,
    DecodeTime_four c0 c1 c2 c3 hc.1 hc.2.1 hc.2.2.1 hc.2.2.2]
  have hne : ∀ t, timestampSpec t ≠ "" := by
    intro t h
    have := timestampSpec_length t
    rw [h] at this
    exact absurd this (by decide)
  refine ⟨?_, ?_, by omega, ?_⟩
  · constructor
    · intro h
      by_contra hlt
      rw [if_neg (by omega)] at h
      exact hne _ h
    · intro h
      rw [if_pos (by omega)]
  · intro h
    rw [if_neg (by omega)]
    exact timestampSpec_length _
  · intro h1 h2 h
    rw [if_neg (by omega), if_neg (by omega)] at h
    exact timestampSpec_injective _ _ h1 h2 h

/-- Witness of `DecodeTime_empty_iff` on the bytes 6E 27 2D 0F (2007-12-02T23:04:14)
and 6F 27 2D 0F (one second later). -/
theorem DecodeTime_empty_iff_witness :
    (DecodeTime [0x6E, 0x27, 0x2D, 0x0F] = "" ↔ 3246220800 ≤ le32 0x6E 0x27 0x2D 0x0F) ∧
    (le32 0x6E 0x27 0x2D 0x0F < 3246220800 →
      (DecodeTime [0x6E, 0x27, 0x2D, 0x0F]).length = 19) ∧
    ¬ (le32 0x6E 0x27 0x2D 0x0F / 60 / 60 / 24 / 31 % 12 + 1 < 1 ∨
       le32 0x6E 0x27 0x2D 0x0F / 60 / 60 / 24 / 31 % 12 + 1 > 12 ∨
       le32 0x6E 0x27 0x2D 0x0F / 60 / 60 / 24 % 31 + 1 < 1 ∨
       le32 0x6E 0x27 0x2D 0x0F / 60 / 60 / 24 % 31 + 1 > 31 ∨
       le32 0x6E 0x27 0x2D 0x0F / 60 / 60 % 24 > 23 ∨
       le32 0x6E 0x27 0x2D 0x0F / 60 % 60 > 59 ∨
       le32 0x6E 0x27 0x2D 0x0F % 60 > 59) ∧
    (le32 0x6E 0x27 0x2D 0x0F < 3246220800 → le32 0x6F 0x27 0x2D 0x0F < 3246220800 →
      DecodeTime [0x6E, 0x27, 0x2D, 0x0F] = DecodeTime [0x6F, 0x27, 0x2D, 0x0F] →
      le32 0x6E 0x27 0x2D 0x0F = le32 0x6F 0x27 0x2D 0x0F) :=
  DecodeTime_empty_iff 0x6E 0x27 0x2D 0x0F 0x6F 0x27 0x2D 0x0F (by decide) (by decide)

/-- C35: when the sizes read by `GetAttendance` report a non-zero record count
and the sizes read again inside `GetUsers` report zero records, the division
`totalSize / records_` is made with `records_ = 0` as soon as `ReadWithBuffer`
returns a dataset of at least 4 bytes: the behaviour is undefined. -/
theorem GetAttendance_records_reread (K : Constants) (fuel : Nat) (d : Device) (net : Net)
    (m : Members) (users : List ZKTecoUser) (readWithBuffer : List Nat × Int)
    (h1 : (ReadSizes K d net m).1.records ≠ 0)
    (h2 : (GetUsers K fuel (ReadSizes K d net m).2.1 (ReadSizes K d net m).2.2
      (ReadSizes K d net m).1).outcome = .returned (some users))
    (h3 : (GetUsers K fuel (ReadSizes K d net m).2.1 (ReadSizes K d net m).2.2
      (ReadSizes K d net m).1).members.records = 0)
    (h4 : (ReadWithBuffer K fuel
      (GetUsers K fuel (ReadSizes K d net m).2.1 (ReadSizes K d net m).2.2
        (ReadSizes K d net m).1).dev
      (GetUsers K fuel (ReadSizes K d net m).2.1 (ReadSizes K d net m).2.2
        (ReadSizes K d net m).1).net K.CMD_ATTLOG_RRQ 0 0).outcome =
        .returned (some readWithBuffer))
    (h5 : 4 ≤ readWithBuffer.2) (h6 : 4 ≤ readWithBuffer.1.length) :
    (GetAttendance K fuel d net m).outcome = .undefinedBehaviour := by
  unfold GetAttendance
  dsimp only
  rw [if_neg h1]
  generalize GetUsers K fuel (ReadSizes K d net m).2.1 (ReadSizes K d net m).2.2
    (ReadSizes K d net m).1 = u at h2 h3 h4 ⊢
  rw [h2]
  dsimp only
  generalize ReadWithBuffer K fuel u.dev u.net K.CMD_ATTLOG_RRQ 0 0 = b at h4 ⊢
  rw [h4]
  dsimp only
  have hdec : GetAttendance_decode u.members.records users readWithBuffer =
      .undefinedBehaviour := by
    unfold GetAttendance_decode
    dsimp only
    rw [if_neg (by omega), if_neg (by omega), h3]
    rfl
  rw [hdec]

/-- Witness of `GetAttendance_records_reread`: the sample device that reports
one record, then none. -/
theorem GetAttendance_records_reread_witness :
    (ReadSizes sampleConstants sampleConnected sampleAttendanceNet Members.construct).1.records
      = 1 ∧
    (GetAttendance sampleConstants 1 sampleConnected sampleAttendanceNet
      Members.construct).outcome = .undefinedBehaviour :=
  ⟨by decide,
   GetAttendance_records_reread sampleConstants 1 sampleConnected sampleAttendanceNet
    Members.construct [] ([0, 0, 0, 0], 4) (by decide) (by decide) (by decide) (by decide)
    (by decide) (by decide)⟩

/-- The default loop of `GetAttendance` with a record size of 0 never reaches
its exit: whatever the bound on the iterations, it is exhausted. -/
theorem GetAttendance_loop_zero (decode : List Nat → ZKTecoAttendance) :
    ∀ (fuel : Nat) (data : List Nat) (attendances : List ZKTecoAttendance),
      40 ≤ data.length → GetAttendance_loop 40 0 decode fuel data attendances = .outOfFuel := by
  intro fuel
  induction fuel with
  | zero =>
    intro data attendances h
    rw [GetAttendance_loop, if_pos h]
  | succ fuel ih =>
    intro data attendances h
    rw [GetAttendance_loop, if_pos h]
    dsimp only
    rw [if_neg (by omega)]
    exact ih _ _ (by simpa using h)

/-- C36: in the default branch of `GetAttendance` (record size other than 8 and
16) the loop runs while 40 bytes are left and erases `recordSize` bytes per
iteration.  With a record size of 0 and at least 40 bytes of data no bound on
the iterations is enough (the loop does not terminate); with a record size
above the length of the remaining data, or a negative one, the first iteration
erases a range that is not within the data (undefined behaviour). -/
theorem GetAttendance_loop_record_size (decode : List Nat → ZKTecoAttendance) (fuel : Nat)
    (recordSize : Int) (data : List Nat) (attendances : List ZKTecoAttendance)
    (hdata : 40 ≤ data.length) :
    (recordSize = 0 →
      GetAttendance_loop 40 recordSize decode fuel data attendances = .outOfFuel) ∧
    (recordSize < 0 ∨ (data.length : Int) < recordSize →
      GetAttendance_loop 40 recordSize decode (fuel + 1) data attendances =
        .undefinedBehaviour) := by
  constructor
  · intro h
    rw [h]
    exact GetAttendance_loop_zero decode fuel data attendances hdata
  · intro h
    rw [GetAttendance_loop, if_pos hdata]
    dsimp only
    rw [if_pos (by omega)]

/-- Witness of `GetAttendance_loop_record_size`: a dataset whose size prefix is
0 with one record count and 40 bytes of data (record size 0), and one whose
size prefix is 100 (record size 100, above the 40 bytes present). -/
theorem GetAttendance_loop_record_size_witness :
    GetAttendance_decode 1 [] ([0, 0, 0, 0] ++ List.replicate 40 0, 44) = .outOfFuel ∧
    GetAttendance_decode 1 [] ([100, 0, 0, 0] ++ List.replicate 40 0, 44) =
      .undefinedBehaviour ∧
    GetAttendance_loop 40 0 decodeAttendance40 1000 (List.replicate 40 0) [] = .outOfFuel ∧
    GetAttendance_loop 40 100 decodeAttendance40 (0 + 1) (List.replicate 40 0) [] =
      .undefinedBehaviour :=
  ⟨by decide, by decide,
   (GetAttendance_loop_record_size decodeAttendance40 1000 0 (List.replicate 40 0) []
      (by decide)).1 rfl,
   (GetAttendance_loop_record_size decodeAttendance40 0 100 (List.replicate 40 0) []
      (by decide)).2 (by decide)⟩

/-- C37: when a template record declares a total length below its 6-byte
header (0 to 5) while at least 6 bytes of data are left, `GetTemplates` builds
the blob from the range `data.begin() + 6 .. data.begin() + templateSize`, whose
end precedes its start: the behaviour is undefined, whatever the declared total
size and the templates read so far. -/
theorem GetTemplates_loop_short_record (fuel totalSize : Nat) (data : List Nat)
    (templates : List ZKTecoFinger) (htotal : 0 < totalSize) (hlen : 6 ≤ data.length)
    (hsize : (data.getD 0 0 ||| (data.getD 1 0 <<< 8)) % 2 ^ 16 < 6) :
    GetTemplates_loop (fuel + 1) totalSize data templates = .undefinedBehaviour := by
  rw [GetTemplates_loop, if_pos htotal, if_neg (by omega)]
  dsimp only
  rw [if_neg (by omega), if_pos hsize]

/-- Witness of `GetTemplates_loop_short_record`: a dataset of total size 6 whose
only record declares the length 0. -/
theorem GetTemplates_loop_short_record_witness :
    GetTemplates_decode ([6, 0, 0, 0] ++ [0, 0, 1, 0, 0, 1], 10) = .undefinedBehaviour ∧
    GetTemplates_loop (6 + 1) 6 [0, 0, 1, 0, 0, 1] [] = .undefinedBehaviour :=
  ⟨by decide,
   GetTemplates_loop_short_record 6 6 [0, 0, 1, 0, 0, 1] [] (by decide) (by decide)
     (by decide)⟩

/-- C38: on the chunked path of `ReadWithBuffer` over TCP, with a declared size
`n` below one chunk, the byte count returned is `n`, the size the device
declared, whatever the length of the chunk `ReadChunk` returned; when the chunk
has fewer than 4 bytes and `n` is above 4, the guards of `GetUsers`,
`GetAttendance` and `GetTemplates` let the count pass and the 4-byte prefix is
read from a vector that does not hold it (undefined behaviour). -/
theorem ReadWithBuffer_count_declared (K : Constants) (fuel : Nat) (d : Device) (net : Net)
    (command : Nat) (fct ext : Int) (n : Nat) (chunkData : List Nat)
    (hudp : d.forceUdp = false) (hsock : d.socket = .stream)
    (hok : (SendCommand K d net K.CMD_PREPARE_BUFFER
      (ReadWithBuffer_commandString command fct ext) 1024 (some [])).outcome = some true)
    (hresp : (SendCommand K d net K.CMD_PREPARE_BUFFER
      (ReadWithBuffer_commandString command fct ext) 1024 (some [])).dev.lastResponse ≠
        K.CMD_DATA)
    (hlen : 5 ≤ (SendCommand K d net K.CMD_PREPARE_BUFFER
      (ReadWithBuffer_commandString command fct ext) 1024 (some [])).dev.lastData.length)
    (hn : (((SendCommand K d net K.CMD_PREPARE_BUFFER
        (ReadWithBuffer_commandString command fct ext) 1024 (some [])).dev.lastData.getD 1 0 |||
      ((SendCommand K d net K.CMD_PREPARE_BUFFER
        (ReadWithBuffer_commandString command fct ext) 1024 (some [])).dev.lastData.getD 2 0
          <<< 8) |||
      ((SendCommand K d net K.CMD_PREPARE_BUFFER
        (ReadWithBuffer_commandString command fct ext) 1024 (some [])).dev.lastData.getD 3 0
          <<< 16) |||
      ((SendCommand K d net K.CMD_PREPARE_BUFFER
        (ReadWithBuffer_commandString command fct ext) 1024 (some [])).dev.lastData.getD 4 0
          <<< 24)) % 2 ^ 32) = n)
    (hpos : 0 < n) (hmax : n < 0xFFC0)
    (hchunk : (ReadChunk K fuel
      (SendCommand K d net K.CMD_PREPARE_BUFFER
        (ReadWithBuffer_commandString command fct ext) 1024 (some [])).dev
      (SendCommand K d net K.CMD_PREPARE_BUFFER
        (ReadWithBuffer_commandString command fct ext) 1024 (some [])).net 0 n
      (logRequest (SendCommand K d net K.CMD_PREPARE_BUFFER
        (ReadWithBuffer_commandString command fct ext) 1024 (some [])) K.CMD_PREPARE_BUFFER
        (ReadWithBuffer_commandString command fct ext)) 0).outcome =
        .returned (some chunkData)) :
    (ReadWithBuffer K fuel d net command fct ext).outcome =
      .returned (some (chunkData, (n : Int))) ∧
    (chunkData.length < 4 → 4 < n →
      (∀ m : Members, m.users ≠ 0 →
        GetUsers_body m (chunkData, (n : Int)) = .undefinedBehaviour) ∧
      (∀ (records : Int) (users : List ZKTecoUser),
        GetAttendance_decode records users (chunkData, (n : Int)) = .undefinedBehaviour) ∧
      GetTemplates_decode (chunkData, (n : Int)) = .undefinedBehaviour) := by
  constructor
  · unfold ReadWithBuffer
    dsimp only
    generalize SendCommand K d net K.CMD_PREPARE_BUFFER
      (ReadWithBuffer_commandString command fct ext) 1024 (some []) = r at hok hresp hlen hn hchunk
    have htcp : (!d.forceUdp) = true ∧ d.socket ≠ Socket.invalid := by
      rw [hudp, hsock]
      exact ⟨rfl, by simp⟩
    rw [if_neg (by rw [hok]; simp), if_neg hresp, if_neg (by omega), if_pos htcp, hn]
    have hmod : n % 0xFFC0 = n := Nat.mod_eq_of_lt hmax
    have hrem : toInt32 (n % 0xFFC0) = (n : Int) := by
      rw [hmod]
      exact toInt32_of_lt (by omega)
    rw [hrem]
    have hu : toUInt32 (n : Int) = n := by
      unfold toUInt32
      omega
    have hpk : toInt32 ((n + 2 ^ 32 - toUInt32 (n : Int)) % 2 ^ 32 / 0xFFC0) = 0 := by
      rw [hu]
      have : (n + 2 ^ 32 - n) % 2 ^ 32 / 0xFFC0 = 0 := by omega
      rw [this]
      rfl
    rw [hpk]
    have h0 : (0 : Int).toNat = 0 := rfl
    rw [h0, ReadWithBuffer_loop]
    dsimp only
    rw [if_pos (by omega), Int.toNat_ofNat, hchunk]
    dsimp only
    rw [if_neg (by omega)]
    simp
  · intro hshort hbig
    refine ⟨?_, ?_, ?_⟩
    · intro m hm
      unfold GetUsers_body
      dsimp only
      rw [if_neg hm, if_neg (by omega), if_pos hshort]
    · intro records users
      unfold GetAttendance_decode
      dsimp only
      rw [if_neg (by omega), if_pos hshort]
    · unfold GetTemplates_decode
      dsimp only
      rw [if_neg (by omega), if_pos hshort]
/-- Witness of `ReadWithBuffer_count_declared`: the sample device that declares
10 bytes and delivers a chunk of 2. -/
theorem ReadWithBuffer_count_declared_witness :
    (ReadWithBuffer sampleConstants 1 sampleConnected sampleShortChunkNet 9 5 0).outcome =
      .returned (some ([0xA1, 0xA2], ((10 : Nat) : Int))) ∧
    (([0xA1, 0xA2] : List Nat).length < 4 → 4 < 10 →
      (∀ m : Members, m.users ≠ 0 →
        GetUsers_body m ([0xA1, 0xA2], ((10 : Nat) : Int)) = .undefinedBehaviour) ∧
      (∀ (records : Int) (users : List ZKTecoUser),
        GetAttendance_decode records users ([0xA1, 0xA2], ((10 : Nat) : Int)) =
          .undefinedBehaviour) ∧
      GetTemplates_decode ([0xA1, 0xA2], ((10 : Nat) : Int)) = .undefinedBehaviour) :=
  ReadWithBuffer_count_declared sampleConstants 1 sampleConnected sampleShortChunkNet 9 5 0 10
    [0xA1, 0xA2] rfl rfl (by decide) (by decide) (by decide) (by decide) (by decide)
    (by decide) (by decide)

theorem CreateSocket_isConnected (d : Device) (net : Net) :
    (CreateSocket d net).2.isConnected = d.isConnected ∧
    ((CreateSocket d net).1 = false → (CreateSocket d net).2.socket = .invalid) := by
  unfold CreateSocket
  simp only []
  split_ifs <;> simp [CloseSocket]

/-- A `Connect` call that returns false leaves the session without a socket and
leaves the flag `isConnected_` as it found it. -/
theorem Connect_failure_fields (K : Constants) (d : Device) (net : Net)
    (h : (Connect K d net).ok = false) :
    (Connect K d net).dev.isConnected = d.isConnected ∧
    (Connect K d net).dev.socket = .invalid := by
  obtain ⟨c1, c2⟩ := CreateSocket_isConnected d net
  unfold Connect at h ⊢
  generalize CreateSocket d net = cs at c1 c2 h ⊢
  obtain ⟨created, d1⟩ := cs
  dsimp only at c1 c2 h ⊢
  cases created with
  | false =>
    simp only [Bool.not_false, if_true]
    exact ⟨c1, c2 rfl⟩
  | true =>
    simp only [Bool.not_true, Bool.false_eq_true, if_false] at h ⊢
    have f1 := SendCommand_fields K { d1 with sessionId := 0, replyId := 65534 } net
      K.CMD_CONNECT [] 1024 (some [])
    generalize SendCommand K { d1 with sessionId := 0, replyId := 65534 } net
      K.CMD_CONNECT [] 1024 (some []) = r1 at f1 h ⊢
    have e1 : r1.dev.isConnected = d.isConnected := by rw [f1.1]; exact c1
    cases ho : r1.outcome with
    | none => exact ⟨e1, rfl⟩
    | some b =>
      cases b with
      | false => exact ⟨e1, rfl⟩
      | true =>
        rw [ho] at h
        dsimp only at h ⊢
        generalize hr2 : SendCommand K _ r1.net K.CMD_AUTH _ 1024 _ = r2 at h ⊢
        have e2 : r2.dev.isConnected = d.isConnected := by
          rw [← hr2, (SendCommand_fields K _ _ _ _ _ _).1]
          exact e1
        cases ho2 : r2.outcome with
        | none =>
          rw [ho2] at h
          split_ifs at h ⊢ <;> first
            | exact ⟨e1, rfl⟩
            | exact ⟨e2, rfl⟩
        | some b2 =>
          cases b2 with
          | false =>
            rw [ho2] at h
            split_ifs at h ⊢ <;> first
              | exact ⟨e1, rfl⟩
              | exact ⟨e2, rfl⟩
          | true =>
            rw [ho2] at h
            dsimp only at h ⊢
            split_ifs at h ⊢ <;> first
              | exact ⟨e1, rfl⟩
              | exact ⟨e2, rfl⟩

/-- `Disconnect` leaves the flag `isConnected_` false, whether or not CMD_EXIT
was sent and answered. -/
theorem Disconnect_isConnected (K : Constants) (d : Device) (net : Net) :
    (Disconnect K d net).dev.isConnected = false := by
  unfold Disconnect
  by_cases h : d.isConnected = true
  · rw [if_neg (by simp [h])]
    dsimp only
    cases (SendCommand K d net K.CMD_EXIT [] 8 none).outcome <;> rfl
  · rw [if_pos (by simpa using h)]
    simpa using h

/-- C39: a `Connect` call made on a session that is already connected and that
returns false leaves `isConnected_` true and the socket invalid, in a state
reachable through `Connect` and `Disconnect`: no failure path of `Connect`
clears the flag, which only a successful `Connect` sets and only `Disconnect`
clears. -/
theorem Connect_failure_keeps_flag (K : Constants) (d : Device) (net : Net)
    (hreach : Reachable K d) (hconn : d.isConnected = true)
    (hfail : (Connect K d net).ok = false) :
    Reachable K (Connect K d net).dev ∧
    (Connect K d net).dev.isConnected = true ∧
    (Connect K d net).dev.socket = .invalid := by
  obtain ⟨h1, h2⟩ := Connect_failure_fields K d net hfail
  exact ⟨Reachable.connect d net hreach, by rw [h1]; exact hconn, h2⟩

/-- Witness of `Connect_failure_keeps_flag`: a fresh session connects over TCP
to the sample device, then `Connect` is called again while no socket can be
created. -/
theorem Connect_failure_keeps_flag_witness :
    (Connect sampleConstants (construct 0 false false) sampleAckNet).ok = true ∧
    (Connect sampleConstants (Connect sampleConstants (construct 0 false false) sampleAckNet).dev
      { sampleNet [] with tcpSocketOk := false }).ok = false ∧
    Reachable sampleConstants
      (Connect sampleConstants (Connect sampleConstants (construct 0 false false) sampleAckNet).dev
        { sampleNet [] with tcpSocketOk := false }).dev ∧
    (Connect sampleConstants (Connect sampleConstants (construct 0 false false) sampleAckNet).dev
      { sampleNet [] with tcpSocketOk := false }).dev.isConnected = true ∧
    (Connect sampleConstants (Connect sampleConstants (construct 0 false false) sampleAckNet).dev
      { sampleNet [] with tcpSocketOk := false }).dev.socket = .invalid :=
  ⟨by decide, by decide,
   Connect_failure_keeps_flag sampleConstants
    (Connect sampleConstants (construct 0 false false) sampleAckNet).dev
    { sampleNet [] with tcpSocketOk := false }
    (Reachable.connect _ _ (Reachable.fresh 0 false false)) (by decide) (by decide)⟩

/-- The event size `ProcessEventBuffer` picks is at most 52. -/
theorem ProcessEventBuffer_eventSize_le (n m : Nat)
    (h : ProcessEventBuffer_eventSize n = some m) : m ≤ 52 := by
  by_cases h52 : 52 ≤ n
  · have : ProcessEventBuffer_eventSize n = some 52 := by
      unfold ProcessEventBuffer_eventSize
      rw [if_neg (by omega), if_neg (by omega), if_neg (by omega), if_neg (by omega),
        if_neg (by omega), if_neg (by omega), if_pos h52]
    rw [this] at h
    cases h
    exact Nat.le_refl _
  · have key : ∀ k : Nat, k < 52 → (ProcessEventBuffer_eventSize k).getD 0 ≤ 52 := by
      decide
    have := key n (by omega)
    rw [h] at this
    exact this

/-- The loop of `ProcessEventBuffer` gives the same result for every bound on
the iterations that is at least the length of the buffer. -/
theorem ProcessEventBuffer_loop_fuel :
    ∀ (f1 f2 : Nat) (s : LiveCapture), s.liveEventBuffer.length ≤ f1 →
      s.liveEventBuffer.length ≤ f2 →
      ProcessEventBuffer_loop f1 s = ProcessEventBuffer_loop f2 s := by
  intro f1
  induction f1 with
  | zero =>
    intro f2 s h1 _
    have h0 : ¬ s.liveEventBuffer.length ≥ 10 := by omega
    cases f2 with
    | zero => rfl
    | succ f2 => rw [ProcessEventBuffer_loop, ProcessEventBuffer_loop, if_neg h0]
  | succ f1 ih =>
    intro f2 s h1 h2
    by_cases h10 : s.liveEventBuffer.length ≥ 10
    · cases f2 with
      | zero => omega
      | succ f2 =>
        rw [ProcessEventBuffer_loop, ProcessEventBuffer_loop, if_pos h10, if_pos h10]
        obtain ⟨m, hm, hm10, hmn, _⟩ := ProcessEventBuffer_eventSize_spec _ h10
        rw [hm]
        dsimp only
        apply ih
        · dsimp only
          rw [List.length_drop]
          omega
        · dsimp only
          rw [List.length_drop]
          omega
    · cases f2 with
      | zero => rw [ProcessEventBuffer_loop, ProcessEventBuffer_loop, if_neg h10]
      | succ f2 => rw [ProcessEventBuffer_loop, ProcessEventBuffer_loop, if_neg h10, if_neg h10]

/-- C40: for every live-event buffer, `ProcessEventBuffer` terminates (every
bound on the iterations that is at least the length of the buffer gives the
same result); a buffer of fewer than 10 bytes is left alone; otherwise an
iteration takes `m` bytes, `10 <= m <= 52`, off the front of the buffer, parses
them as one event and appends that event to the queue unless its user id is
empty, the events already queued keeping their positions; on return the buffer
holds fewer than 10 bytes. -/
theorem ProcessEventBuffer_iterations (s : LiveCapture) :
    (∀ fuel, s.liveEventBuffer.length ≤ fuel →
      ProcessEventBuffer_loop fuel s = ProcessEventBuffer s) ∧
    (s.liveEventBuffer.length < 10 → ProcessEventBuffer s = s) ∧
    (10 ≤ s.liveEventBuffer.length →
      ∃ m, 10 ≤ m ∧ m ≤ 52 ∧ m ≤ s.liveEventBuffer.length ∧
        ProcessEventBuffer s =
          ProcessEventBuffer
            { s with
              eventQueue := s.eventQueue ++
                (if (ParseLiveEventData s.liveCaptureUsers (s.liveEventBuffer.take m)).userId = []
                 then []
                 else [ParseLiveEventData s.liveCaptureUsers (s.liveEventBuffer.take m)]),
              liveEventBuffer := s.liveEventBuffer.drop m }) ∧
    (ProcessEventBuffer s).liveEventBuffer.length < 10 ∧
    (∃ added, (ProcessEventBuffer s).eventQueue = s.eventQueue ++ added) := by
  obtain ⟨r1, _, ⟨added, hq, _⟩, _, _⟩ :=
    ProcessEventBuffer_loop_spec s.liveEventBuffer.length s (Nat.le_refl _)
  refine ⟨?_, ?_, ?_, r1, ⟨added, hq⟩⟩
  · intro fuel h
    exact ProcessEventBuffer_loop_fuel fuel _ s h (Nat.le_refl _)
  · intro h
    unfold ProcessEventBuffer
    cases hl : s.liveEventBuffer.length with
    | zero => rfl
    | succ n =>
      rw [ProcessEventBuffer_loop, if_neg (by omega)]
  · intro h10
    obtain ⟨m, hm, hm10, hmn, _⟩ := ProcessEventBuffer_eventSize_spec _ h10
    refine ⟨m, hm10, ProcessEventBuffer_eventSize_le _ _ hm, hmn, ?_⟩
    unfold ProcessEventBuffer
    obtain ⟨n, hn⟩ : ∃ n, s.liveEventBuffer.length = n + 1 := ⟨s.liveEventBuffer.length - 1, by omega⟩
    rw [hn, ProcessEventBuffer_loop, if_pos h10, hm]
    dsimp only
    have hq : (if (!(ParseLiveEventData s.liveCaptureUsers
          (s.liveEventBuffer.take m)).userId.isEmpty) = true
        then s.eventQueue ++ [ParseLiveEventData s.liveCaptureUsers (s.liveEventBuffer.take m)]
        else s.eventQueue) =
        s.eventQueue ++
          (if (ParseLiveEventData s.liveCaptureUsers (s.liveEventBuffer.take m)).userId = []
           then []
           else [ParseLiveEventData s.liveCaptureUsers (s.liveEventBuffer.take m)]) := by
      cases (ParseLiveEventData s.liveCaptureUsers (s.liveEventBuffer.take m)).userId <;> simp
    rw [hq]
    apply ProcessEventBuffer_loop_fuel
    · dsimp only
      rw [List.length_drop]
      omega
    · dsimp only
      exact Nat.le_refl _

end ZKTeco
